import Mathlib

/-!
# FOnline server: map manager (path finding, bullet tracing, critter transfer)

A shallow embedding of `Source/MapManager.cpp` and of the script bindings of
`Source/ServerScript.cpp` that call it, followed by theorems about them.

Conventions of the embedding:
* `ushort`, `uchar` and `uint` values are natural numbers, `short` and `int`
  values are integers; every conversion the C++ code performs (a store to a
  `short`, a `ushort` decrement, a bit operation) is written out with the
  helpers of the first section;
* a result of type `Option` is `none` exactly where the C++ code has no defined
  result (a null or dangling pointer is dereferenced, a `RUNTIME_ASSERT` fails,
  a vector is read past its end) or where the round budget of the flood loop
  would run out;
* declarations of the engine that live outside the translated sources (game
  options, constants of the headers, methods of `Map`, the line tracer) are
  fields of the record `Engine`.
-/

namespace FOnline

/-! ## Machine integers -/

/-- Value of a C `short` after storing the integer `v` in it (two's complement, 16 bits). -/
def toShort (v : Int) : Int := (v + 32768) % 65536 - 32768

/-- Value of a C `ushort` after storing the integer `v` in it. -/
def toUShort (v : Int) : Nat := (v % 65536).toNat

/-- Bit pattern of a 32-bit `int`. -/
def toUInt (v : Int) : Nat := (v % 4294967296).toNat

/-- Value of the 32-bit `int` with bit pattern `n`. -/
def ofUInt (n : Nat) : Int :=
  if n % 4294967296 < 2147483648 then ((n % 4294967296 : Nat) : Int)
  else ((n % 4294967296 : Nat) : Int) - 4294967296

/-- C `a | b` on `int` operands. -/
def intOr (a b : Int) : Int := ofUInt (toUInt a ||| toUInt b)

/-- C `a ^ b` on `int` operands. -/
def intXor (a b : Int) : Int := ofUInt (toUInt a ^^^ toUInt b)

/-- The macro `FLAG( x, y )`: some bit of `y` is set in `x`. -/
def FLAG (x y : Nat) : Bool := (x &&& y) != 0

/-! ## Engine declarations outside the translated sources -/

/-- A hex coordinate pair (`UShortPair`). -/
abbrev UShortPair := Nat × Nat

/-- The `float` angle of a trace request; it is only handed to the line tracer. -/
abbrev Angle := Int

/-- One step of a path (`PathStep`). -/
structure PathStep where
  HexX : Nat
  HexY : Nat
  MoveParams : Nat
  Dir : Nat
  deriving DecidableEq, Repr, Inhabited

/-- A map: its size, the per-hex data read through the methods of `Map`, and its
critter index. The identifier of a map is its key in the registry. -/
structure Map where
  Width : Nat
  Height : Nat
  ProtoId : Nat
  LocId : Nat
  Hexes : Nat → Nat → Nat
  MapCritters : List Nat
  /-- Member `Map::IsTurnBasedOn`. -/
  IsTurnBasedOn : Bool := false
  /-- Property `LocMapIndex`, the position of the map in its location. -/
  LocMapIndex : Nat := 0

/-- The part of a location that transfers read. The identifier of a location is its key
in the registry. -/
structure Location where
  ToGarbage : Bool
  GeckCount : Nat
  ProtoId : Nat := 0
  WorldX : Nat := 0
  WorldY : Nat := 0
  /-- The maps of the location (`GetMapsNoLock`), by their ids. -/
  LocMaps : List Nat := []
  /-- Member `IsDestroying` of the entity. -/
  IsDestroying : Bool := false
  /-- Member `IsDestroyed` of the entity. -/
  IsDestroyed : Bool := false

/-- The part of a critter that path finding and transfers read and write. The identifier
of a critter is its key in the registry; `GlobalMapGroup` is `none` when the pointer is
null and holds critter ids otherwise. -/
structure Critter where
  MapId : Nat
  MapPid : Nat
  HexX : Nat
  HexY : Nat
  Dir : Nat
  Multihex : Nat
  IsDead : Bool
  IsKnockout : Bool
  IsPlayer : Bool
  LockMapTransfers : Nat
  DisableSend : Nat
  TimeoutTransfer : Nat
  TimeoutBattle : Nat
  BreakTime : Nat
  LastMapHexX : Nat
  LastMapHexY : Nat
  WorldX : Nat
  WorldY : Nat
  GlobalGroupUid : Nat
  GlobalGroupRuleId : Nat
  GlobalMapGroup : Option (List Nat)
  /-- The ids of the locations that a player knows (`Client::AddKnownLoc`). -/
  KnownLocations : List Nat := []

/-- A prototype of a location (`ProtoLocation`): the prototype ids of its maps. -/
structure ProtoLocation where
  MapProtos : List Nat

/-- A line tracer object (`LineTracer`): the `n`-th call of `GetNextHex` or
`GetNextSquare` on it, given the current hex. `GetNextHex` also returns a direction. -/
structure LineTracer where
  GetNextHex : Nat → UShortPair → Nat × UShortPair
  GetNextSquare : Nat → UShortPair → UShortPair

/-- Game options, header constants and methods that the translated functions use and
that are declared outside the translated sources. -/
structure Engine where
  /-- Option `GameOpt.MapHexagonal`. -/
  MapHexagonal : Bool
  /-- Option `GameOpt.MapSmoothPath`. -/
  MapSmoothPath : Bool
  FPATH_MAX_PATH : Nat
  FPATH_DATA_SIZE : Nat
  FH_NOWAY : Nat
  FH_GAG_ITEM : Nat
  FH_CRITTER : Nat
  MOVE_PARAM_RUN : Nat
  MOVE_PARAM_STEP_BITS : Nat
  MOVE_PARAM_STEP_ALLOW : Nat
  /-- Method `Map::GetHexFlags`. -/
  GetHexFlags : Map → Nat → Nat → Nat
  /-- Method `Map::IsHexPassed`. -/
  IsHexPassed : Map → Nat → Nat → Bool
  /-- Method `Map::IsHexRaked`. -/
  IsHexRaked : Map → Nat → Nat → Bool
  /-- Method `Map::IsHexCritter`. -/
  IsHexCritter : Map → Nat → Nat → Bool
  /-- Method `Map::IsHexGag`. -/
  IsHexGag : Map → Nat → Nat → Bool
  /-- Method `Map::IsFlagCritter( hx, hy, dead )`. -/
  IsFlagCritter : Map → Nat → Nat → Bool → Bool
  /-- Method `Map::GetHexCritter( hx, hy, dead, sync_lock )`, the critter by its id. -/
  GetHexCritter : Map → Nat → Nat → Bool → Option Nat
  /-- Method `Map::GetItemGag`, the item by its id. -/
  GetItemGag : Map → Nat → Nat → Option Nat
  /-- Method `Map::GetCrittersHex( hx, hy, radius, find_type, critters, sync_lock )`:
  the critters it appends. -/
  GetCrittersHex : Map → Nat → Nat → Nat → Nat → List Nat
  /-- Method `Map::IsMovePassed( hx, hy, dir, multihex )`. -/
  IsMovePassed : Map → Nat → Nat → Nat → Nat → Bool
  /-- Method `Critter::GetTeamId`, by critter id. -/
  GetTeamId : Nat → Nat
  /-- Constructor `LineTracer( hx, hy, tx, ty, maxhx, maxhy, angle, is_square )`. -/
  NewLineTracer : Nat → Nat → Nat → Nat → Nat → Nat → Angle → Bool → LineTracer
  /-- Function `GetNearDir( from_hx, from_hy, to_hx, to_hy )`. -/
  GetNearDir : Nat → Nat → Nat → Nat → Nat
  /-- Option `GameOpt.FullSecond`. -/
  FullSecond : Nat
  /-- Option `GameOpt.TimeoutTransfer`. -/
  TimeoutTransfer : Nat
  /-- The macro `IS_TIMEOUT( to )`. -/
  IS_TIMEOUT : Nat → Bool
  /-- Method `Location::IsCanEnter( players_count )`. -/
  IsCanEnter : Location → Nat → Bool
  /-- Method `Map::FindStartHex( hx, hy, multihex, seek_radius, skip_unsafe )`: the hex
  it leaves in `hx`, `hy` when it returns true, `none` when it returns false. -/
  FindStartHex : Map → Nat → Nat → Nat → Nat → Bool → Option UShortPair
  /-- Method `Map::IsHexesPassed( hx, hy, radius )`. -/
  IsHexesPassed : Map → Nat → Nat → Nat → Bool
  /-- Method `Map::SetFlagCritter( hx, hy, multihex, dead )`: the per-hex data of the
  map afterwards; the critters are given by the registry. -/
  SetFlagCritter : (Nat → Option Critter) → Map → Nat → Nat → Nat → Bool → Nat → Nat → Nat
  /-- Method `Map::UnsetFlagCritter( hx, hy, multihex, dead )`, likewise. -/
  UnsetFlagCritter : (Nat → Option Critter) → Map → Nat → Nat → Nat → Bool → Nat → Nat → Nat
  FH_SCEN_GRID : Nat
  /-- Method `Critter::IsLife`. -/
  IsLife : Critter → Bool
  /-- Method `Critter::IsTransferTimeouts( send )`. -/
  IsTransferTimeouts : Critter → Bool → Bool
  /-- Method `Location::GetTransit( from_map, id_map, hx, hy, dir )`: the map id, the hex
  and the direction it leaves in its reference arguments when it returns true, `none` when
  it returns false. -/
  GetTransit : Location → Map → Nat → Nat → Nat → Option (Nat × Nat × Nat × Nat)
  /-- Method `Location::IsLocVisible`. -/
  IsLocVisible : Location → Bool
  /-- Method `ProtoManager::GetProtoLocation`, `none` for a prototype that is not loaded. -/
  GetProtoLocation : Nat → Option ProtoLocation
  /-- Method `ProtoManager::GetProtoMap` followed by `new Map( 0, proto_map, loc )`: the
  map built from the prototype, `none` for a prototype that is not loaded. -/
  GetProtoMap : Nat → Option Map
  GM__MAXZONEX : Nat
  GM__MAXZONEY : Nat
  /-- Option `GameOpt.GlobalMapZoneLength`. -/
  GlobalMapZoneLength : Nat
  /-- Method `Map::Generate`: the map with its content, `none` when it returns false. -/
  Generate : Map → Option Map

/-! ## Hex geometry -/

/-- Modelled from the spec: the macro `DIRS_COUNT` (declared outside the translated
sources), six directions on a hexagonal map and eight on a square one. -/
def DIRS_COUNT (E : Engine) : Nat := if E.MapHexagonal then 6 else 8

/-- Modelled from the spec: `GetHexOffsets( parity, sx, sy )` (declared outside the
translated sources), the offsets of the immediate neighbours of a hex, one per direction
and in direction order, under the direction numbering that `FindPathGrid` annotates for
each neighbour offset; in hexagonal mode the table depends on the parity of the hex
column. -/
def GetHexOffsets (E : Engine) (odd : Bool) : List (Int × Int) :=
  if E.MapHexagonal then
    if odd then [(-1, -1), (-1, 0), (0, 1), (1, 0), (1, -1), (0, -1)]
    else [(-1, 0), (-1, 1), (0, 1), (1, 1), (1, 0), (0, -1)]
  else [(-1, 0), (-1, 1), (0, 1), (1, 1), (1, 0), (1, -1), (0, -1), (-1, -1)]

/-- Modelled from the spec: `MoveHexByDirUnsafe( hx, hy, dir )` (declared outside the
translated sources), one step from a hex in a direction without a bounds check; a
direction that does not exist leaves the hex as it is. -/
def MoveHexByDirUnsafe (E : Engine) (hx hy : Int) (dir : Nat) : Int × Int :=
  match (GetHexOffsets E (hx % 2 != 0)).get? dir with
  | some (dx, dy) => (hx + dx, hy + dy)
  | none => (hx, hy)

/-- Modelled from the spec: `MoveHexByDir( hx, hy, dir, maxhx, maxhy )` (declared outside
the translated sources), the map-bounded step: the hex moves when its neighbour in the
direction lies inside the map and stays where it is otherwise. The result is the new
hex and whether the hex moved. -/
def MoveHexByDir (E : Engine) (hx hy : Nat) (dir : Nat) (maxhx maxhy : Nat) : UShortPair × Bool :=
  let n := MoveHexByDirUnsafe E hx hy dir
  if 0 ≤ n.1 ∧ n.1 < maxhx ∧ 0 ≤ n.2 ∧ n.2 < maxhy then ((n.1.toNat, n.2.toNat), true)
  else ((hx, hy), false)

/-- Modelled from the spec: `ReverseDir( dir )` (declared outside the translated
sources), the opposite direction. -/
def ReverseDir (E : Engine) (dir : Nat) : Nat := (dir + DIRS_COUNT E / 2) % DIRS_COUNT E

/-- Modelled from the spec: `DistGame( x1, y1, x2, y2 )` (declared outside the translated
sources), the grid distance between two hexes: `max(|dx|,|dy|)` on a square map, the
number of hex steps on a hexagonal map with parity-dependent columns. -/
def DistGame (E : Engine) (x1 y1 x2 y2 : Int) : Nat :=
  if E.MapHexagonal then
    let dx : Int := if x1 > x2 then x1 - x2 else x2 - x1
    if x1 % 2 = 0 then
      if y2 ≤ y1 then
        let rx := y1 - y2 - dx / 2
        (dx + (if rx > 0 then rx else 0)).toNat
      else
        let rx := y2 - y1 - (dx + 1) / 2
        (dx + (if rx > 0 then rx else 0)).toNat
    else
      if y2 ≥ y1 then
        let rx := y2 - y1 - dx / 2
        (dx + (if rx > 0 then rx else 0)).toNat
      else
        let rx := y1 - y2 - (dx + 1) / 2
        (dx + (if rx > 0 then rx else 0)).toNat
  else
    max (x2 - x1).natAbs (y2 - y1).natAbs

/-- Modelled from the spec: `CheckDist( x1, y1, x2, y2, dist )` (declared outside the
translated sources), whether the first hex is within `dist` of the second. -/
def CheckDist (E : Engine) (x1 y1 x2 y2 : Nat) (dist : Nat) : Bool :=
  decide (DistGame E x1 y1 x2 y2 ≤ dist)

/-! ## Bullet tracing -/

/-- A trace request and its results (`TraceData`). Pointers to critters are critter ids;
an optional output pointer is `none` when it is null. `HexCallback` records whether a
callback is supplied. -/
structure TraceData where
  TraceMap : Map
  BeginHx : Nat
  BeginHy : Nat
  EndHx : Nat
  EndHy : Nat
  Dist : Nat
  Angle : Angle
  FindCr : Option Nat
  FindType : Nat
  IsCheckTeam : Bool
  BaseCrTeamId : Nat
  LastPassedSkipCritters : Bool
  HexCallback : Bool
  Critters : Option (List Nat)
  PreBlock : Option UShortPair
  Block : Option UShortPair
  LastPassed : Option UShortPair
  IsFullTrace : Bool
  IsCritterFounded : Bool
  IsTeammateFounded : Bool
  IsHaveLastPassed : Bool

/-- The local variables of the loop of `TraceBullet` together with the request. -/
structure TraceLoop where
  trace : TraceData
  cx : Nat
  cy : Nat
  old_cx : Nat
  old_cy : Nat
  last_passed_ok : Bool

/-- The part of the loop body of `TraceBullet` that follows the `HexCallback` test, for
the hex `(cx, cy)` just produced by the line tracer. The result says whether the loop
goes on (`true`) or is left by a `break` (`false`). -/
def TraceBulletHex (E : Engine) (s : TraceLoop) (cx cy : Nat) : TraceLoop × Bool :=
  let map := s.trace.TraceMap
  -- if( trace.LastPassed && !last_passed_ok )
  let s1 : TraceLoop :=
    if s.trace.LastPassed.isSome && !s.last_passed_ok then
      if E.IsHexPassed map cx cy then
        { s with trace := { s.trace with LastPassed := some (cx, cy), IsHaveLastPassed := true } }
      else if !E.IsHexCritter map cx cy || !s.trace.LastPassedSkipCritters then
        { s with last_passed_ok := true }
      else s
    else s
  let s2 : TraceLoop := { s1 with cx := cx, cy := cy }
  -- if( !map->IsHexRaked( cx, cy ) ) break;
  if !E.IsHexRaked map cx cy then (s2, false)
  else
    -- if( trace.Critters != nullptr && map->IsHexCritter( cx, cy ) )
    let s3 : TraceLoop :=
      match s2.trace.Critters with
      | some crs =>
        if E.IsHexCritter map cx cy then
          { s2 with trace := { s2.trace with
              Critters := some (crs ++ E.GetCrittersHex map cx cy 0 s2.trace.FindType) } }
        else s2
      | none => s2
    -- if( ( trace.FindCr || trace.IsCheckTeam ) && map->IsFlagCritter( cx, cy, false ) )
    if (s3.trace.FindCr.isSome || s3.trace.IsCheckTeam) && E.IsFlagCritter map cx cy false then
      match E.GetHexCritter map cx cy false with
      | some cr =>
        if some cr = s3.trace.FindCr then
          ({ s3 with trace := { s3.trace with IsCritterFounded := true } }, false)
        else if s3.trace.IsCheckTeam && E.GetTeamId cr == s3.trace.BaseCrTeamId then
          ({ s3 with trace := { s3.trace with IsTeammateFounded := true } }, false)
        else ({ s3 with old_cx := cx, old_cy := cy }, true)
      | none => ({ s3 with old_cx := cx, old_cy := cy }, true)
    else ({ s3 with old_cx := cx, old_cy := cy }, true)

/-- The loop `for( uint i = 0; ; i++ )` of `TraceBullet`, with `n = dist - i` rounds left. -/
def TraceBulletLoop (E : Engine) (lt : LineTracer) : Nat → Nat → TraceLoop → TraceLoop
  | 0, _, s => { s with trace := { s.trace with IsFullTrace := true } }
  | n + 1, i, s =>
    let next : Nat × UShortPair :=
      if E.MapHexagonal then lt.GetNextHex i (s.cx, s.cy)
      else
        let c := lt.GetNextSquare i (s.cx, s.cy)
        (E.GetNearDir s.old_cx s.old_cy c.1 c.2, c)
    let cx := next.2.1
    let cy := next.2.2
    if s.trace.HexCallback then
      TraceBulletLoop E lt n (i + 1) { s with cx := cx, cy := cy, old_cx := cx, old_cy := cy }
    else
      let r := TraceBulletHex E s cx cy
      if r.2 then TraceBulletLoop E lt n (i + 1) r.1 else r.1

/-- `MapManager::TraceBullet`: the request after the call. -/
def TraceBullet (E : Engine) (trace : TraceData) : TraceData :=
  let map := trace.TraceMap
  let maxhx := map.Width
  let maxhy := map.Height
  let hx := trace.BeginHx
  let hy := trace.BeginHy
  let tx := trace.EndHx
  let ty := trace.EndHy
  let dist := if trace.Dist = 0 then DistGame E hx hy tx ty else trace.Dist
  let line_tracer := E.NewLineTracer hx hy tx ty maxhx maxhy trace.Angle (!E.MapHexagonal)
  let trace0 : TraceData := { trace with
    IsFullTrace := false, IsCritterFounded := false,
    IsHaveLastPassed := false, IsTeammateFounded := false }
  let s := TraceBulletLoop E line_tracer dist 0
    { trace := trace0, cx := hx, cy := hy, old_cx := hx, old_cy := hy, last_passed_ok := false }
  let t1 : TraceData :=
    if s.trace.PreBlock.isSome then { s.trace with PreBlock := some (s.old_cx, s.old_cy) }
    else s.trace
  if t1.Block.isSome then { t1 with Block := some (s.cx, s.cy) } else t1

/-! ## Path finding -/

/-- The status codes of `FindPath` (the `FPATH_*` constants). -/
inductive FPathCode where
  | FPATH_OK
  | FPATH_ALREADY_HERE
  | FPATH_MAP_NOT_FOUND
  | FPATH_HEX_BUSY
  | FPATH_HEX_BUSY_RING
  | FPATH_TOOFAR
  | FPATH_DEADLOCK
  | FPATH_ERROR
  | FPATH_INVALID_HEXES
  | FPATH_TRACE_FAIL
  | FPATH_TRACE_TARG_NULL_PTR
  deriving DecidableEq, Repr

open FPathCode

/-- A path request and its results (`PathFindData`). Pointers to critters and items are
their ids, `none` when null. -/
structure PathFindData where
  MapId : Nat
  FromX : Nat
  FromY : Nat
  ToX : Nat
  ToY : Nat
  Multihex : Nat
  Cut : Nat
  Trace : Nat
  IsRun : Bool
  CheckCrit : Bool
  CheckGagItems : Bool
  FromCritter : Option Nat
  TraceCr : Option Nat
  PathNum : Nat
  NewToX : Nat
  NewToY : Nat
  GagCritter : Option Nat
  GagItem : Option Nat

/-- The state that the functions of `MapManager` read and write: the registries of maps
and critters of the entity manager, the rotating pool of paths with its counter, and the
thread-local `smooth_switcher` of `FindPath`. -/
structure MapManager where
  Maps : Nat → Option Map
  Locations : Nat → Option Location
  Critters : Nat → Option Critter
  pathNumCur : Nat
  pathesPool : Nat → List PathStep
  smooth_switcher : Bool
  /-- The last id that the entity manager handed out. -/
  LastEntityId : Nat := 0
  /-- The maps queued by `Job::PushBack( JOB_MAP, map )`, by their ids. -/
  MapJobs : List Nat := []
  /-- Member `runGarbager`, set by `RunGarbager`. -/
  runGarbager : Bool := false

/-- `MapManager::GetMap( map_id )`: no map for the id 0, otherwise the map that the entity
manager holds under the id. -/
def GetMap (mm : MapManager) (map_id : Nat) : Option Map :=
  if map_id = 0 then none else mm.Maps map_id

/-- The scratch grid `Grid`, by flat index; `memzero` makes it `fun _ => 0`. Its cells
are `short` values. -/
abbrev GridBuf := Int → Int

/-- The flat index computed by the macro `GRID( x, y )`, for `MapGridOffsX = offsX` and
`MapGridOffsY = offsY`. -/
def GRID (E : Engine) (offsX offsY : Int) (x y : Int) : Int :=
  ((E.FPATH_MAX_PATH + 1) + y - offsY) * (E.FPATH_MAX_PATH * 2 + 2) +
    ((E.FPATH_MAX_PATH + 1) + x - offsX)

/-- A store to one cell of the grid. -/
def gridSet (g : GridBuf) (pos : Int) (v : Int) : GridBuf :=
  fun q => if q = pos then v else g q

/-- The vectors and the grid that the flood of `FindPath` works on. -/
structure Flood where
  Grid : GridBuf
  coords : List UShortPair
  cr_coords : List UShortPair
  gag_coords : List UShortPair

/-- The body of the loop `for( int j = 0; j < dirs_count; j++ )` of `FindPath` for the
neighbour with offset `(sx[j], sy[j])` of the hex `(cx, cy)`; `numindex` is already
incremented. -/
def FindPathNeighbour (E : Engine) (map : Map) (pfd : PathFindData) (cx cy : Nat)
    (numindex : Int) (f : Flood) (j : Nat) (s : Int × Int) : Flood :=
  let maxhx := map.Width
  let maxhy := map.Height
  let nx := toShort (toShort cx + s.1)
  let ny := toShort (toShort cy + s.2)
  if nx < 0 ∨ ny < 0 ∨ nx ≥ maxhx ∨ ny ≥ maxhy then f
  else
    let pos := GRID E pfd.FromX pfd.FromY nx ny
    if f.Grid pos ≠ 0 then f
    else if pfd.Multihex = 0 then
      let flags := E.GetHexFlags map nx.toNat ny.toNat
      if !FLAG flags E.FH_NOWAY then
        { f with coords := f.coords ++ [(nx.toNat, ny.toNat)],
                 Grid := gridSet f.Grid pos (toShort numindex) }
      else if pfd.CheckGagItems && FLAG flags (E.FH_GAG_ITEM <<< 8) then
        { f with gag_coords := f.gag_coords ++ [(nx.toNat, ny.toNat)],
                 Grid := gridSet f.Grid pos (toShort (intOr numindex 0x4000)) }
      else if pfd.CheckCrit && FLAG flags (E.FH_CRITTER <<< 8) then
        { f with cr_coords := f.cr_coords ++ [(nx.toNat, ny.toNat)],
                 Grid := gridSet f.Grid pos (toShort (intOr numindex 0x8000)) }
      else
        { f with Grid := gridSet f.Grid pos (-1) }
    else
      if E.IsMovePassed map nx.toNat ny.toNat j pfd.Multihex then
        { f with coords := f.coords ++ [(nx.toNat, ny.toNat)],
                 Grid := gridSet f.Grid pos (toShort numindex) }
      else
        { f with Grid := gridSet f.Grid pos (-1) }

/-- The loop over the `dirs_count` neighbours of `(cx, cy)`, from direction `j` on. -/
def FindPathNeighbours (E : Engine) (map : Map) (pfd : PathFindData) (cx cy : Nat)
    (numindex : Int) : Flood → Nat → List (Int × Int) → Flood
  | f, _, [] => f
  | f, j, s :: rest =>
    FindPathNeighbours E map pfd cx cy numindex
      (FindPathNeighbour E map pfd cx cy numindex f j s) (j + 1) rest

/-- How the flood of `FindPath` ends: at `label_FindOk` with the hex reached and its
index, or with one of the two failure codes. -/
inductive FloodEnd where
  | findOk (f : Flood) (cx cy : Nat) (numindex : Int)
  | tooFar
  | deadlock

/-- The loop `for( int i = 0; i < p_togo; i++, p++ )` of `FindPath`, with `n = p_togo - i`
rounds left: either the flood ends inside it (`Sum.inl`) or it runs to its end and yields
the vectors and `p` (`Sum.inr`). Reading `coords[ p ]` past the end has no result. -/
def FindPathLayer (E : Engine) (map : Map) (pfd : PathFindData) :
    Nat → Flood → Nat → Option (FloodEnd ⊕ (Flood × Nat))
  | 0, f, p => some (Sum.inr (f, p))
  | n + 1, f, p =>
    match f.coords.get? p with
    | none => none
    | some (cx, cy) =>
      let numindex := f.Grid (GRID E pfd.FromX pfd.FromY cx cy)
      if CheckDist E cx cy pfd.ToX pfd.ToY pfd.Cut then
        some (Sum.inl (FloodEnd.findOk f cx cy numindex))
      else if numindex + 1 > E.FPATH_MAX_PATH then
        some (Sum.inl FloodEnd.tooFar)
      else
        let f1 := FindPathNeighbours E map pfd cx cy (numindex + 1) f 0
          ((GetHexOffsets E (cx % 2 != 0)).take (DIRS_COUNT E))
        FindPathLayer E map pfd n f1 (p + 1)

/-- The block `// Add gag hex after some distance` of `FindPath`. -/
def FindPathAddGag (E : Engine) (pfd : PathFindData) (f : Flood) : Option Flood :=
  match f.gag_coords with
  | [] => some f
  | xy :: gag_rest =>
    match f.coords.getLast? with
    | none => none
    | some back =>
      let last_index := f.Grid (GRID E pfd.FromX pfd.FromY back.1 back.2)
      let gag_index := toShort (intXor (f.Grid (GRID E pfd.FromX pfd.FromY xy.1 xy.2)) 0x4000)
      if gag_index + 10 < last_index then
        some { f with Grid := gridSet f.Grid (GRID E pfd.FromX pfd.FromY xy.1 xy.2) gag_index,
                      coords := f.coords ++ [xy], gag_coords := gag_rest }
      else some f

/-- The block `// Add gag and critters hexes` of `FindPath` for `p_togo = 0`: the vectors
afterwards and the new `p_togo`. -/
def FindPathAddSoft (E : Engine) (pfd : PathFindData) (f : Flood) : Flood × Nat :=
  match f.gag_coords with
  | xy :: gag_rest =>
    let pos := GRID E pfd.FromX pfd.FromY xy.1 xy.2
    ({ f with Grid := gridSet f.Grid pos (toShort (intXor (f.Grid pos) 0x4000)),
              coords := f.coords ++ [xy], gag_coords := gag_rest }, 1)
  | [] =>
    match f.cr_coords with
    | xy :: cr_rest =>
      let pos := GRID E pfd.FromX pfd.FromY xy.1 xy.2
      ({ f with Grid := gridSet f.Grid pos (toShort (intXor (f.Grid pos) 0x8000)),
                coords := f.coords ++ [xy], cr_coords := cr_rest }, 1)
    | [] => (f, 0)

/-- The loop `while( true )` of `FindPath` (`// Begin search`), with a budget of rounds;
every round handles at least one hex of `coords`. -/
def FindPathFlood (E : Engine) (map : Map) (pfd : PathFindData) :
    Nat → Flood → Nat → Nat → Option FloodEnd
  | 0, _, _, _ => none
  | fuel + 1, f, p, p_togo =>
    match FindPathLayer E map pfd p_togo f p with
    | none => none
    | some (Sum.inl e) => some e
    | some (Sum.inr (f1, p1)) =>
      match FindPathAddGag E pfd f1 with
      | none => none
      | some f2 =>
        let p_togo1 := f2.coords.length - p1
        let r := if p_togo1 = 0 then FindPathAddSoft E pfd f2 else (f2, p_togo1)
        if r.2 = 0 then some FloodEnd.deadlock
        else FindPathFlood E map pfd fuel r.1 p1 r.2

/-- The probes of `FindPathGrid` in the order in which the code makes them, each with the
offset `(dx, dy)` it looks at and the direction it returns, for the four cases of the
hexagonal branch (`smooth_switcher`, parity of `hx`) and the three of the square
branch (without smoothing, `smooth_switcher` set, `smooth_switcher` clear). -/
def FindPathGridProbes (E : Engine) (odd : Bool) (smooth_switcher : Bool) :
    List (Int × Int × Int) :=
  if E.MapHexagonal then
    if smooth_switcher then
      if odd then [(-1, -1, 3), (0, -1, 2), (0, 1, 5), (1, 0, 0), (-1, 0, 4), (1, -1, 1)]
      else [(-1, 0, 3), (0, -1, 2), (0, 1, 5), (1, 1, 0), (-1, 1, 4), (1, 0, 1)]
    else
      if odd then [(-1, 0, 4), (1, -1, 1), (0, -1, 2), (-1, -1, 3), (1, 0, 0), (0, 1, 5)]
      else [(-1, 1, 4), (1, 0, 1), (0, -1, 2), (-1, 0, 3), (1, 1, 0), (0, 1, 5)]
  else
    if !E.MapSmoothPath then
      [(-1, 0, 0), (0, -1, 6), (0, 1, 2), (1, 0, 4), (-1, 1, 1), (1, -1, 5), (1, 1, 3), (-1, -1, 7)]
    else if smooth_switcher then
      [(-1, 0, 0), (0, 1, 2), (1, 0, 4), (0, -1, 6), (1, 1, 3), (-1, -1, 7), (-1, 1, 1), (1, -1, 5)]
    else
      [(1, 1, 3), (-1, -1, 7), (-1, 0, 0), (0, 1, 2), (1, 0, 4), (0, -1, 6), (-1, 1, 1), (1, -1, 5)]

/-- The chain of `if( GRID( hx + dx, hy + dy ) == index )` tests of `FindPathGrid`: the
first probe that matches moves the `ushort` pair and returns its direction; when none
matches the result is `-1` and the pair is unchanged. -/
def FindPathGridScan (E : Engine) (grid : GridBuf) (offsX offsY : Int) (hx hy : Nat)
    (index : Int) : List (Int × Int × Int) → Int × Nat × Nat
  | [] => (-1, hx, hy)
  | (dx, dy, dir) :: rest =>
    if grid (GRID E offsX offsY (hx + dx) (hy + dy)) = index then
      (dir, toUShort (hx + dx), toUShort (hy + dy))
    else FindPathGridScan E grid offsX offsY hx hy index rest

/-- `MapManager::FindPathGrid`: the returned direction and the pair `(hx, hy)` after the
call. -/
def FindPathGrid (E : Engine) (grid : GridBuf) (offsX offsY : Int) (hx hy : Nat)
    (index : Int) (smooth_switcher : Bool) : Int × Nat × Nat :=
  FindPathGridScan E grid offsX offsY hx hy index
    (FindPathGridProbes E (hx % 2 != 0) smooth_switcher)

/-- `path.resize( n )` on a vector of steps. -/
def resizePath (path : List PathStep) (n : Nat) : List PathStep :=
  path.take n ++ List.replicate (n - path.length) default

/-- The values `smooth_count` and `smooth_iteration` that `FindPath` computes before the
backtrace, from the hex reached `(cx, cy)` and the start hex. -/
def FindPathSmooth (E : Engine) (cx cy from_hx from_hy : Nat) : Int × Int :=
  if E.MapSmoothPath && !E.MapHexagonal then
    let x1 : Int := cx
    let y1 : Int := cy
    let x2 : Int := from_hx
    let y2 : Int := from_hy
    let dx : Int := (x1 - x2).natAbs
    let dy : Int := (y1 - y2).natAbs
    let d := max dx dy
    let h1a : Int := (dx - dy).natAbs
    let h2a := d - h1a
    let h1 := if dy < dx then h2a else h1a
    let h2 := if dy < dx then h1a else h2a
    let smooth_count0 : Int :=
      if h1 ≠ 0 ∧ h2 ≠ 0 then (max h1 h2).tdiv (min h1 h2) + 1 else 0
    let smooth_count : Int :=
      if h1 ≠ 0 ∧ h2 ≠ 0 ∧ smooth_count0 < 2 then 2 else smooth_count0
    let smooth_iteration : Int :=
      if h1 ≠ 0 ∧ h2 ≠ 0 then (min h1 h2).tmod (max h1 h2) else 0
    (smooth_count, smooth_iteration)
  else (0, 0)

/-- The local variables of the backtrace loop of `FindPath`; `smooth_switcher` is the
thread-local static variable. -/
structure Backtrace where
  path : List PathStep
  cx : Nat
  cy : Nat
  smooth_switcher : Bool
  smooth_iteration : Int

/-- The loop `while( numindex > 1 )` of `FindPath`, with `n = numindex - 1` rounds left.
The flag of the result is `false` for the `return FPATH_ERROR`, taken when
`FindPathGrid` returns `-1`. -/
def FindPathBacktrace (E : Engine) (grid : GridBuf) (offsX offsY : Int) (smooth_count : Int) :
    Nat → Backtrace → Backtrace × Bool
  | 0, b => (b, true)
  | n + 1, b =>
    let numindex : Int := (n : Int) + 2
    let sw : Bool :=
      if E.MapSmoothPath then
        if E.MapHexagonal then
          (if numindex % 2 ≠ 0 then !b.smooth_switcher else b.smooth_switcher)
        else decide (smooth_count < 2 ∨ b.smooth_iteration.tmod smooth_count ≠ 0)
      else b.smooth_switcher
    -- numindex--; PathStep& ps = path[ numindex - 1 ];
    let ps : PathStep := { (b.path.getD n default) with HexX := b.cx, HexY := b.cy }
    let r := FindPathGrid E grid offsX offsY b.cx b.cy (numindex - 1) sw
    if r.1 = -1 then ({ b with path := b.path.set n ps, smooth_switcher := sw }, false)
    else
      FindPathBacktrace E grid offsX offsY smooth_count n
        { path := b.path.set n { ps with Dir := r.1.toNat },
          cx := r.2.1, cy := r.2.2, smooth_switcher := sw,
          smooth_iteration := b.smooth_iteration + 1 }

/-- The block `// Check for closed door and critter` of `FindPath`: the loop over the
steps from step `i` on; the result is the path and the request afterwards. -/
def FindPathCheckSoft (E : Engine) (map : Map) (pfd : PathFindData) (path : List PathStep) :
    Nat → List PathStep → List PathStep × PathFindData
  | _, [] => (path, pfd)
  | i, ps :: rest =>
    if E.IsHexPassed map ps.HexX ps.HexY then FindPathCheckSoft E map pfd path (i + 1) rest
    else if pfd.CheckGagItems && E.IsHexGag map ps.HexX ps.HexY then
      match E.GetItemGag map ps.HexX ps.HexY with
      | none => FindPathCheckSoft E map pfd path (i + 1) rest
      | some item => (resizePath path i, { pfd with GagItem := some item })
    else if pfd.CheckCrit && E.IsFlagCritter map ps.HexX ps.HexY false then
      match E.GetHexCritter map ps.HexX ps.HexY false with
      | none => FindPathCheckSoft E map pfd path (i + 1) rest
      | some cr =>
        if some cr = pfd.FromCritter then FindPathCheckSoft E map pfd path (i + 1) rest
        else (resizePath path i, { pfd with GagCritter := some cr })
    else FindPathCheckSoft E map pfd path (i + 1) rest

/-- The statement `v[ idx ] += d` on a vector of integers. -/
def addAt (v : List Int) (idx : Nat) (d : Int) : List Int :=
  v.set idx (v.getD idx 0 + d)

/-- The first loop of the block `// Trace` of `FindPath`, which fills `trace_seq`. -/
def FindPathTraceSeq (E : Engine) (map : Map) : List Int → Nat → List PathStep → List Int
  | seq, _, [] => seq
  | seq, i, ps :: rest =>
    if E.IsHexGag map ps.HexX ps.HexY then
      FindPathTraceSeq E map
        (addAt (addAt (addAt (addAt (addAt seq (i + 2 - 2) 1) (i + 2 - 1) 2) (i + 2 - 0) 3)
          (i + 2 + 1) 2) (i + 2 + 2) 1) (i + 1) rest
    else FindPathTraceSeq E map seq (i + 1) rest

/-- Modelled from the spec: the constructor `TraceData()` (declared outside the translated
sources), which leaves every input zero and every pointer null. -/
def NewTraceData (map : Map) : TraceData :=
  { TraceMap := map, BeginHx := 0, BeginHy := 0, EndHx := 0, EndHy := 0, Dist := 0, Angle := 0,
    FindCr := none, FindType := 0, IsCheckTeam := false, BaseCrTeamId := 0,
    LastPassedSkipCritters := false, HexCallback := false, Critters := none,
    PreBlock := none, Block := none, LastPassed := none, IsFullTrace := false,
    IsCritterFounded := false, IsTeammateFounded := false, IsHaveLastPassed := false }

/-- The inner loop `for( int i = 0, j = (int) path.size(); i < j; i++ )` of the search of
the block `// Trace`, for one band `k`, from step `i` on: the step at which the target
was seen, if any, and the trace request after the calls made. -/
def FindPathTraceBand (E : Engine) (trace_seq : List Int) (targ_hx targ_hy : Nat) (trace : Nat)
    (k : Nat) : TraceData → Nat → List PathStep → Option Nat × TraceData
  | trace_, _, [] => (none, trace_)
  | trace_, i, ps :: rest =>
    if k < 4 ∧ trace_seq.getD (i + 2) 0 ≠ k then
      FindPathTraceBand E trace_seq targ_hx targ_hy trace k trace_ (i + 1) rest
    else if k = 4 ∧ trace_seq.getD (i + 2) 0 < 4 then
      FindPathTraceBand E trace_seq targ_hx targ_hy trace k trace_ (i + 1) rest
    else if !CheckDist E ps.HexX ps.HexY targ_hx targ_hy trace then
      FindPathTraceBand E trace_seq targ_hx targ_hy trace k trace_ (i + 1) rest
    else
      let t := TraceBullet E { trace_ with BeginHx := ps.HexX, BeginHy := ps.HexY }
      if t.IsCritterFounded then (some i, t)
      else FindPathTraceBand E trace_seq targ_hx targ_hy trace k t (i + 1) rest

/-- The loop `for( int k = 0; k < 5; k++ )` of the block `// Trace`, over the bands that
are left. -/
def FindPathTraceBands (E : Engine) (trace_seq : List Int) (targ_hx targ_hy : Nat) (trace : Nat)
    (path : List PathStep) : TraceData → List Nat → Option Nat
  | _, [] => none
  | trace_, k :: ks =>
    match FindPathTraceBand E trace_seq targ_hx targ_hy trace k trace_ 0 path with
    | (some i, _) => some i
    | (none, t) => FindPathTraceBands E trace_seq targ_hx targ_hy trace path t ks

/-- The statement `SETFLAG( x, y )` on a `uint`: the value of `x` afterwards. -/
def SETFLAG (x y : Nat) : Nat := x ||| y

/-- The statement `UNSETFLAG( x, y )` on a `uint`: the value of `x` afterwards. -/
def UNSETFLAG (x y : Nat) : Nat := (x ||| y) ^^^ y

/-- The loop of `PathSetMoveParams` over the steps from the end to the beginning; the
steps are given last step first, `move_params` is the `uint` carried along, and the
result is in the same order. -/
def PathSetMoveParamsLoop (E : Engine) (is_run : Bool) : Nat → List PathStep → List PathStep
  | _, [] => []
  | move_params, ps :: rest =>
    let mp := if is_run then SETFLAG move_params E.MOVE_PARAM_RUN
      else UNSETFLAG move_params E.MOVE_PARAM_RUN
    { ps with MoveParams := mp } ::
      PathSetMoveParamsLoop E is_run
        ((((mp <<< E.MOVE_PARAM_STEP_BITS) % 4294967296) ||| ps.Dir) ||| E.MOVE_PARAM_STEP_ALLOW)
        rest

/-- `MapManager::PathSetMoveParams`: the path after the call. -/
def PathSetMoveParams (E : Engine) (path : List PathStep) (is_run : Bool) : List PathStep :=
  (PathSetMoveParamsLoop E is_run 0 path.reverse).reverse

/-- The store of a vector into the slot `num` of `pathesPool`. -/
def setPool (pool : Nat → List PathStep) (num : Nat) (path : List PathStep) :
    Nat → List PathStep :=
  fun k => if k = num then path else pool k

/-- The ring check of `FindPath`: the loop over the neighbours of the target hex; `true`
when the loop ran through all of them without a `break`. -/
def FindPathRingBusy (E : Engine) (map : Map) (to_hx to_hy : Nat) : List (Int × Int) → Bool
  | [] => true
  | rs :: rest =>
    let xx := toShort (to_hx + rs.1)
    let yy := toShort (to_hy + rs.2)
    if xx ≥ 0 ∧ xx < map.Width ∧ yy ≥ 0 ∧ yy < map.Height then
      let flags := E.GetHexFlags map xx.toNat yy.toNat
      if FLAG flags (E.FH_GAG_ITEM <<< 8) then false
      else if !FLAG flags E.FH_NOWAY then false
      else FindPathRingBusy E map to_hx to_hy rest
    else FindPathRingBusy E map to_hx to_hy rest

/-- The block `// Trace` of `FindPath`, entered with the path and the request that the
soft-obstacle check left: `some none` is the `return FPATH_TRACE_FAIL`, otherwise the
path and the request after the block. Dereferencing a trace critter that is not
registered has no result. -/
def FindPathTrace (E : Engine) (mm : MapManager) (map : Map) (pfd : PathFindData)
    (cs : List PathStep × PathFindData) : Option (Option (List PathStep × PathFindData)) :=
  if pfd.Trace ≠ 0 then
    match pfd.TraceCr.bind mm.Critters with
    | none => none
    | some targ =>
      let trace_seq := FindPathTraceSeq E map (List.replicate (cs.1.length + 4) 0) 0 cs.1
      let trace_ : TraceData :=
        { NewTraceData map with EndHx := targ.HexX, EndHy := targ.HexY, FindCr := pfd.TraceCr }
      match FindPathTraceBands E trace_seq targ.HexX targ.HexY pfd.Trace cs.1 trace_
          [0, 1, 2, 3, 4] with
      | some i =>
        some (some (resizePath cs.1 (i + 1), { cs.2 with GagItem := none, GagCritter := none }))
      | none =>
        if cs.2.GagItem.isNone ∧ cs.2.GagCritter.isNone then some none
        else some (some cs)
  else some (some cs)

/-- The end of `FindPath`, from `// Parse move params` on: `mm` is the state with the new
`pathNumCur`, `path` and `pfd` are the path and the request after the trace block. -/
def FindPathResult (E : Engine) (mm : MapManager) (is_run : Bool) (path : List PathStep)
    (pfd : PathFindData) : FPathCode × MapManager × PathFindData :=
  let path2 := PathSetMoveParams E path is_run
  let mm2 : MapManager := { mm with pathesPool := setPool mm.pathesPool mm.pathNumCur path2 }
  match path2.getLast? with
  | none => (FPATH_ALREADY_HERE, mm2, pfd)
  | some ps =>
    (FPATH_OK, mm2, { pfd with PathNum := mm.pathNumCur, NewToX := ps.HexX, NewToY := ps.HexY })

/-- The counter `pathNumCur` after `if( ++pathNumCur >= FPATH_DATA_SIZE ) pathNumCur = 1`. -/
def nextPathNum (E : Engine) (pathNumCur : Nat) : Nat :=
  if pathNumCur + 1 ≥ E.FPATH_DATA_SIZE then 1 else pathNumCur + 1

/-- The backtrace of `FindPath`: the statements from `label_FindOk` to the end of the loop
`while( numindex > 1 )`, for the hex `(cx, cy)` reached by the flood, its index `numindex`
and the grid `grid`. The statements that compute a first value of `smooth_count`, which
the code overwrites before it reads it, are left out. -/
def FindPathTraceBack (E : Engine) (mm : MapManager) (pfd : PathFindData)
    (grid : GridBuf) (cx cy : Nat) (numindex : Int) : Backtrace × Bool :=
  let path0 := resizePath (mm.pathesPool (nextPathNum E mm.pathNumCur)) (numindex - 1).toNat
  let sw0 := if !E.MapSmoothPath then false else mm.smooth_switcher
  let sm := FindPathSmooth E cx cy pfd.FromX pfd.FromY
  FindPathBacktrace E grid pfd.FromX pfd.FromY sm.1 (numindex - 1).toNat
    { path := path0, cx := cx, cy := cy, smooth_switcher := sw0, smooth_iteration := sm.2 }

/-- The part of `FindPath` from `label_FindOk` on: the flood reached `(cx, cy)`, whose
index is `numindex`, with the grid `grid`. -/
def FindPathFinish (E : Engine) (mm : MapManager) (map : Map) (pfd : PathFindData)
    (grid : GridBuf) (cx cy : Nat) (numindex : Int) :
    Option (FPathCode × MapManager × PathFindData) :=
  let bt := FindPathTraceBack E mm pfd grid cx cy numindex
  let mm1 : MapManager := { mm with
    pathNumCur := nextPathNum E mm.pathNumCur, smooth_switcher := bt.1.smooth_switcher }
  if !bt.2 then
    some (FPATH_ERROR,
      { mm1 with pathesPool := setPool mm1.pathesPool mm1.pathNumCur bt.1.path }, pfd)
  else
    -- Check for closed door and critter
    let cs : List PathStep × PathFindData :=
      if pfd.CheckCrit || pfd.CheckGagItems then FindPathCheckSoft E map pfd bt.1.path 0 bt.1.path
      else (bt.1.path, pfd)
    match FindPathTrace E mm map pfd cs with
    | none => none
    | some none =>
      some (FPATH_TRACE_FAIL,
        { mm1 with pathesPool := setPool mm1.pathesPool mm1.pathNumCur cs.1 }, cs.2)
    | some (some r) => some (FindPathResult E mm1 pfd.IsRun r.1 r.2)

/-- `MapManager::FindPath`: the status code, the state of the manager and the request
after the call. The scratch grid is zeroed by every call that reaches the flood and is
read by nothing else, so it is local to the call. -/
def FindPath (E : Engine) (mm : MapManager) (pfd : PathFindData) :
    Option (FPathCode × MapManager × PathFindData) :=
  -- Checks
  if pfd.Trace ≠ 0 ∧ pfd.TraceCr.isNone then some (FPATH_TRACE_TARG_NULL_PTR, mm, pfd)
  else
    match GetMap mm pfd.MapId with
    | none => some (FPATH_MAP_NOT_FOUND, mm, pfd)
    | some map =>
      let maxhx := map.Width
      let maxhy := map.Height
      if pfd.FromX ≥ maxhx ∨ pfd.FromY ≥ maxhy ∨ pfd.ToX ≥ maxhx ∨ pfd.ToY ≥ maxhy then
        some (FPATH_INVALID_HEXES, mm, pfd)
      else if CheckDist E pfd.FromX pfd.FromY pfd.ToX pfd.ToY pfd.Cut then
        some (FPATH_ALREADY_HERE, mm, pfd)
      else if pfd.Cut = 0 ∧ FLAG (E.GetHexFlags map pfd.ToX pfd.ToY) E.FH_NOWAY then
        some (FPATH_HEX_BUSY, mm, pfd)
      -- Ring check
      else if pfd.Cut ≤ 1 ∧ pfd.Multihex = 0 ∧
          FindPathRingBusy E map pfd.ToX pfd.ToY
            ((GetHexOffsets E (pfd.ToX % 2 != 0)).take (DIRS_COUNT E)) then
        some (FPATH_HEX_BUSY_RING, mm, pfd)
      else
        -- Prepare
        let grid : GridBuf := gridSet (fun _ => 0) (GRID E pfd.FromX pfd.FromY pfd.FromX pfd.FromY) 1
        let f0 : Flood := { Grid := grid, coords := [(pfd.FromX, pfd.FromY)], cr_coords := [],
                            gag_coords := [] }
        -- Begin search
        match FindPathFlood E map pfd (map.Width * map.Height + 1) f0 0 1 with
        | none => none
        | some FloodEnd.tooFar => some (FPATH_TOOFAR, mm, pfd)
        | some FloodEnd.deadlock => some (FPATH_DEADLOCK, mm, pfd)
        | some (FloodEnd.findOk f cx cy numindex) =>
          FindPathFinish E mm map pfd f.Grid cx cy numindex

/-! ## Stepping on the map from scripts -/

/-- `FOServer::SScriptFunc::Map_MoveHexByDir` for a map that is not destroyed: the pair
`(hx, hy)` after the call, which a script error (`dir >= DIRS_COUNT`, `steps == 0`)
leaves unchanged. -/
def Map_MoveHexByDir (E : Engine) (map : Map) (hx hy : Nat) (dir : Nat) (steps : Nat) :
    UShortPair :=
  if dir ≥ DIRS_COUNT E then (hx, hy)
  else if steps = 0 then (hx, hy)
  else
    (List.range steps).foldl
      (fun c _ => (MoveHexByDir E c.1 c.2 dir map.Width map.Height).1) (hx, hy)

/-! ## Critter transfer

The script events (`Script::RaiseInternalEvent`), the network messages (`Send_*`) and the
visibility caches (`ClearVisible`, `ProcessVisibleCritters`, `ProcessVisibleItems`,
`SyncLockCritters`) touch no field of the state below and are left out. -/

/-- The store of a critter into the registry. -/
def setCritter (mm : MapManager) (id : Nat) (c : Critter) : MapManager :=
  { mm with Critters := fun k => if k = id then some c else mm.Critters k }

/-- The store of a map into the registry. -/
def setMap (mm : MapManager) (id : Nat) (m : Map) : MapManager :=
  { mm with Maps := fun k => if k = id then some m else mm.Maps k }

/-- Modelled from the spec: `Map::AddCritter( cr )` (defined outside the translated
sources), which adds the critter to the critter index of the map unless it is there
already. -/
def Map.AddCritter (m : Map) (cr : Nat) : Map :=
  if cr ∈ m.MapCritters then m else { m with MapCritters := m.MapCritters ++ [cr] }

/-- Modelled from the spec: `Map::EraseCritter( cr )` (defined outside the translated
sources), which removes the critter from the critter index of the map. -/
def Map.EraseCritter (m : Map) (cr : Nat) : Map :=
  { m with MapCritters := m.MapCritters.erase cr }

/-- `MapManager::CanAddCrToMap`; `map` is the key of the map, `none` for a null pointer. -/
def CanAddCrToMap (E : Engine) (mm : MapManager) (cr : Nat) (map : Option Nat)
    (hx hy : Nat) (rule_id : Nat) : Option Bool :=
  match mm.Critters cr with
  | none => none
  | some c =>
    match map with
    | some mid =>
      match mm.Maps mid with
      | none => none
      | some m =>
        if hx ≥ m.Width ∨ hy ≥ m.Height then some false
        else if !E.IsHexesPassed m hx hy c.Multihex then some false
        else some true
    | none =>
      if rule_id ≠ 0 ∧ rule_id ≠ cr then
        match mm.Critters rule_id with
        | none => some false
        | some rule =>
          if rule.MapId ≠ 0 ∨ rule.GlobalGroupUid ≠ c.GlobalGroupUid then some false
          else some true
      else some true

/-- `MapManager::AddCrToMap`: the state afterwards. -/
def AddCrToMap (E : Engine) (mm : MapManager) (cr : Nat) (map : Option Nat)
    (hx hy : Nat) (dir : Nat) (rule_id : Nat) : Option MapManager :=
  match mm.Critters cr with
  | none => none
  | some c0 =>
    -- cr->LockMapTransfers++;
    let c := { c0 with LockMapTransfers := c0.LockMapTransfers + 1 }
    match map with
    | some mid =>
      match mm.Maps mid with
      | none => none
      | some m =>
        -- RUNTIME_ASSERT( hx < map->GetWidth() && hy < map->GetHeight() );
        if ¬ (hx < m.Width ∧ hy < m.Height) then none
        else
          let c1 : Critter := { c with
            TimeoutBattle := 0, TimeoutTransfer := E.FullSecond + E.TimeoutTransfer,
            MapId := mid, MapPid := m.ProtoId, HexX := hx, HexY := hy, Dir := dir }
          let mm1 := setMap (setCritter mm cr c1) mid (m.AddCritter cr)
          some (setCritter mm1 cr { c1 with LockMapTransfers := c1.LockMapTransfers - 1 })
    | none =>
      -- RUNTIME_ASSERT( !cr->GlobalMapGroup );
      if c.GlobalMapGroup.isSome then none
      else
        let c1 : Critter := { c with
          GlobalMapGroup := some [], MapId := 0, MapPid := 0,
          TimeoutBattle := E.FullSecond + E.TimeoutTransfer }
        if rule_id ≠ 0 ∧ rule_id ≠ cr then
          match mm.Critters rule_id with
          -- RUNTIME_ASSERT( rule );
          | none => none
          | some rule =>
            -- RUNTIME_ASSERT( !rule->GetMapId() );
            if rule.MapId ≠ 0 then none
            else
              match rule.GlobalMapGroup with
              | none => none
              | some group =>
                let c2 : Critter := { c1 with
                  WorldX := rule.WorldX, WorldY := rule.WorldY,
                  GlobalGroupRuleId := rule_id, GlobalGroupUid := rule.GlobalGroupUid }
                -- rule->GlobalMapGroup->push_back( cr );
                let rule1 : Critter := { rule with GlobalMapGroup := some (group ++ [cr]) }
                -- *cr->GlobalMapGroup = *rule->GlobalMapGroup;
                let c3 : Critter := { c2 with
                  GlobalMapGroup := some (group ++ [cr]),
                  LockMapTransfers := c2.LockMapTransfers - 1 }
                some (setCritter (setCritter mm rule_id rule1) cr c3)
        else
          let c2 : Critter := { c1 with
            GlobalGroupRuleId := 0, GlobalGroupUid := c1.GlobalGroupUid + 1,
            GlobalMapGroup := some [cr],
            LockMapTransfers := c1.LockMapTransfers - 1 }
          some (setCritter mm cr c2)

/-- The loop `for( auto group_cr :* cr->GlobalMapGroup )` of `EraseCrFromMap`, with
`n` rounds left before the iterator reaches the end that was taken when the loop began;
`i` is the position of the iterator and `cells` are the cells of the vector of `cr` from
its begin to that end. When a round erases `cr` from its own vector, the elements behind
it move one cell down and the last cell keeps its value: the vector is one shorter, and the
iterator still reads the former last element in the cell past its new end. -/
def EraseCrFromGroups (cr : Nat) : Nat → Nat → List Nat → MapManager → Option MapManager
  | 0, _, _, mm => some mm
  | n + 1, i, cells, mm =>
    match cells.get? i with
    | none => none
    | some group_cr =>
      match mm.Critters group_cr with
      | none => none
      | some g =>
        match g.GlobalMapGroup with
        | none => none
        | some members =>
          -- RUNTIME_ASSERT( it_ != group_cr->GlobalMapGroup->end() );
          if cr ∉ members then none
          else
            -- group_cr->GlobalMapGroup->erase( it_ );
            EraseCrFromGroups cr n (i + 1)
              (if group_cr = cr then members.erase cr ++ cells.drop (members.length - 1)
               else cells)
              (setCritter mm group_cr { g with GlobalMapGroup := some (members.erase cr) })

/-- `MapManager::EraseCrFromMap`: the state afterwards. -/
def EraseCrFromMap (E : Engine) (mm : MapManager) (cr : Nat) (map : Option Nat) :
    Option MapManager :=
  match mm.Critters cr with
  | none => none
  | some c0 =>
    -- cr->LockMapTransfers++;
    let c := { c0 with LockMapTransfers := c0.LockMapTransfers + 1 }
    let mm0 := setCritter mm cr c
    match map with
    | none =>
      -- RUNTIME_ASSERT( cr->GlobalMapGroup );
      match c.GlobalMapGroup with
      | none => none
      | some own =>
        match EraseCrFromGroups cr own.length 0 own mm0 with
        | none => none
        | some mm1 =>
          match mm1.Critters cr with
          | none => none
          | some c1 =>
            -- SAFEDEL( cr->GlobalMapGroup );
            some (setCritter mm1 cr { c1 with
              GlobalMapGroup := none, LockMapTransfers := c1.LockMapTransfers - 1 })
    | some mid =>
      match mm.Maps mid with
      | none => none
      | some m =>
        let m1 := m.EraseCritter cr
        let m2 : Map := { m1 with
          Hexes := E.UnsetFlagCritter mm0.Critters m1 c.HexX c.HexY c.Multihex c.IsDead }
        let c1 : Critter := { c with
          MapId := 0, MapPid := 0, LockMapTransfers := c.LockMapTransfers - 1 }
        some (setCritter (setMap mm0 mid m2) cr c1)

/-- The branch `// One map` of `Transit` from `cr->LockMapTransfers++` on: the critter
`c` moves to the hex `h` of its map `m`, registered under `map_id`. -/
def TransitOneMap (E : Engine) (mm : MapManager) (cr : Nat) (c : Critter) (map_id : Nat)
    (m : Map) (h : UShortPair) (dir : Nat) : MapManager :=
  let multihex := c.Multihex
  let c1 : Critter := { c with
    LockMapTransfers := c.LockMapTransfers + 1,
    Dir := if dir ≥ DIRS_COUNT E then 0 else dir }
  let mm1 := setCritter mm cr c1
  let m1 : Map := { m with
    Hexes := E.UnsetFlagCritter mm1.Critters m c1.HexX c1.HexY multihex c1.IsDead }
  let c2 : Critter := { c1 with HexX := h.1, HexY := h.2 }
  let mm2 := setCritter (setMap mm1 map_id m1) cr c2
  let m2 : Map := { m1 with
    Hexes := E.SetFlagCritter mm2.Critters m1 h.1 h.2 multihex c2.IsDead }
  let c3 : Critter := { c2 with BreakTime := 0, LockMapTransfers := c2.LockMapTransfers - 1 }
  setCritter (setMap mm2 map_id m2) cr c3

/-- The branch `// Different maps` of `Transit` from `cr->LockMapTransfers++` on: the
critter `c` leaves its map (or the global map) and is added to `map` at the hex `h`. -/
def TransitDifferentMaps (E : Engine) (mm : MapManager) (cr : Nat) (c : Critter)
    (map : Option Nat) (h : UShortPair) (dir : Nat) (rule_id : Nat) : Option MapManager :=
  let old_map_id := c.MapId
  let old_map := GetMap mm old_map_id
  let mm1 := setCritter mm cr { c with LockMapTransfers := c.LockMapTransfers + 1 }
  -- if( !old_map_id || old_map ) EraseCrFromMap( cr, old_map );
  let erased : Option MapManager :=
    if old_map_id = 0 ∨ old_map.isSome then
      EraseCrFromMap E mm1 cr (if old_map.isSome then some old_map_id else none)
    else some mm1
  match erased with
  | none => none
  | some mm2 =>
    match mm2.Critters cr with
    | none => none
    | some c2 =>
      let mm3 := setCritter mm2 cr { c2 with
        LastMapHexX := c2.HexX, LastMapHexY := c2.HexY, BreakTime := 0 }
      match AddCrToMap E mm3 cr map h.1 h.2 dir rule_id with
      | none => none
      | some mm4 =>
        match mm4.Critters cr with
        | none => none
        | some c4 =>
          some (setCritter mm4 cr { c4 with LockMapTransfers := c4.LockMapTransfers - 1 })

/-- `MapManager::Transit`: the returned flag and the state afterwards; `map` is the key
of the destination map, `none` for a null pointer. The test `// Recheck after
synchronization` compares the map id of the critter with the value just read from it and
never fails here. -/
def Transit (E : Engine) (mm : MapManager) (cr : Nat) (map : Option Nat)
    (hx hy : Nat) (dir : Nat) (radius : Nat) (rule_id : Nat) (force : Bool) :
    Option (Bool × MapManager) :=
  match mm.Critters cr, (match map with
      | none => some none
      | some mid => (mm.Maps mid).map some) with
  | none, _ => none
  | _, none => none
  | some c, some mapv =>
    -- Check location deletion
    let loc : Option Location := mapv.bind (fun m => mm.Locations m.LocId)
    if (loc.map (fun l => l.ToGarbage)).getD false then some (false, mm)
    -- Maybe critter already in transfer
    else if c.LockMapTransfers ≠ 0 then some (false, mm)
    -- Check force
    else if !force && (E.IS_TIMEOUT c.TimeoutTransfer || E.IS_TIMEOUT c.TimeoutBattle) then
      some (false, mm)
    else if !force && c.IsDead then some (false, mm)
    else if !force && c.IsKnockout then some (false, mm)
    else if !force && (loc.map (fun l => !E.IsCanEnter l 1)).getD false then some (false, mm)
    else
      let map_id : Nat := map.getD 0
      let old_map_id := c.MapId
      if old_map_id = map_id then
        -- One map
        if map_id = 0 then some (true, mm)
        else
          match mapv with
          | none => some (false, mm)
          | some m =>
            if hx ≥ m.Width ∨ hy ≥ m.Height then some (false, mm)
            else
              match (E.FindStartHex m hx hy c.Multihex radius true).orElse
                  (fun _ => E.FindStartHex m hx hy c.Multihex radius false) with
              | none => some (false, mm)
              | some h => some (true, TransitOneMap E mm cr c map_id m h dir)
      else
        -- Different maps
        match mapv with
        | none => none
        | some m =>
          match (E.FindStartHex m hx hy c.Multihex radius true).orElse
              (fun _ => E.FindStartHex m hx hy c.Multihex radius false) with
          | none => some (false, mm)
          | some h =>
            match CanAddCrToMap E mm cr map h.1 h.2 rule_id with
            | none => none
            | some false => some (false, mm)
            | some true => (TransitDifferentMaps E mm cr c map h dir rule_id).map (fun r => (true, r))

/-- `MapManager::TransitToGlobal`. -/
def TransitToGlobal (E : Engine) (mm : MapManager) (cr : Nat) (rule_id : Nat) (force : Bool) :
    Option (Bool × MapManager) :=
  match mm.Critters cr with
  | none => none
  | some c =>
    if c.LockMapTransfers ≠ 0 then some (false, mm)
    else Transit E mm cr none 0 0 0 0 rule_id force

/-! ## Predicates of the statements -/

/-- Every in-bounds neighbour of the hex, taken from a list of offsets, is blocked for
movement and carries no gag item. -/
def RingAllBusy (E : Engine) (map : Map) (to_hx to_hy : Nat) (offs : List (Int × Int)) : Prop :=
  ∀ s ∈ offs, 0 ≤ (to_hx : Int) + s.1 → (to_hx : Int) + s.1 < map.Width →
    0 ≤ (to_hy : Int) + s.2 → (to_hy : Int) + s.2 < map.Height →
    FLAG (E.GetHexFlags map ((to_hx : Int) + s.1).toNat ((to_hy : Int) + s.2).toNat) E.FH_NOWAY = true ∧
    FLAG (E.GetHexFlags map ((to_hx : Int) + s.1).toNat ((to_hy : Int) + s.2).toNat)
      (E.FH_GAG_ITEM <<< 8) = false

/-! ## Concrete engines, maps and requests

Instances on which the functions above are evaluated. The per-hex data of a sample map
is its hex flags: bit `0x0001` blocks movement, bit `0x0002` blocks shooting, bit `0x0010`
marks an exit grid, bit `0x0100` marks a critter, bit `0x8000` a gag item. -/

/-- A line tracer that steps towards the end hex by the sign of each coordinate
difference, the straight and the diagonal lines of a square map. -/
def sampleLineTracer (tx ty : Nat) : LineTracer :=
  { GetNextHex := fun _ c =>
      (0, (if c.1 < tx then c.1 + 1 else if tx < c.1 then c.1 - 1 else c.1,
           if c.2 < ty then c.2 + 1 else if ty < c.2 then c.2 - 1 else c.2)),
    GetNextSquare := fun _ c =>
      (if c.1 < tx then c.1 + 1 else if tx < c.1 then c.1 - 1 else c.1,
       if c.2 < ty then c.2 + 1 else if ty < c.2 then c.2 - 1 else c.2) }

/-- An engine with the given tessellation, smoothing option and depth limit. -/
def sampleEngine (hexagonal smooth : Bool) (max_path : Nat) : Engine :=
  { MapHexagonal := hexagonal, MapSmoothPath := smooth,
    FPATH_MAX_PATH := max_path, FPATH_DATA_SIZE := 10000,
    FH_NOWAY := 0x1101, FH_GAG_ITEM := 0x80, FH_CRITTER := 0x01,
    MOVE_PARAM_RUN := 0x80000000, MOVE_PARAM_STEP_BITS := 4, MOVE_PARAM_STEP_ALLOW := 0x8,
    GetHexFlags := fun m x y => m.Hexes x y,
    IsHexPassed := fun m x y => !FLAG (m.Hexes x y) 0x1101,
    IsHexRaked := fun m x y => !FLAG (m.Hexes x y) 0x2002,
    IsHexCritter := fun m x y => FLAG (m.Hexes x y) 0x0300,
    IsHexGag := fun m x y => FLAG (m.Hexes x y) 0x8000,
    IsFlagCritter := fun m x y dead => FLAG (m.Hexes x y) (if dead then 0x0200 else 0x0100),
    GetHexCritter := fun m x y _ =>
      if FLAG (m.Hexes x y) 0x0100 then some (1000 + y * m.Width + x) else none,
    GetItemGag := fun m x y =>
      if FLAG (m.Hexes x y) 0x8000 then some (2000 + y * m.Width + x) else none,
    GetCrittersHex := fun m x y _ _ =>
      if FLAG (m.Hexes x y) 0x0100 then [1000 + y * m.Width + x] else [],
    IsMovePassed := fun m x y _ _ => !FLAG (m.Hexes x y) 0x1101,
    GetTeamId := fun _ => 0,
    NewLineTracer := fun _ _ tx ty _ _ _ _ => sampleLineTracer tx ty,
    GetNearDir := fun _ _ _ _ => 0,
    FullSecond := 100, TimeoutTransfer := 10,
    IS_TIMEOUT := fun t => decide (t > 100),
    IsCanEnter := fun _ _ => true,
    FindStartHex := fun m hx hy _ _ _ => if !FLAG (m.Hexes hx hy) 0x1101 then some (hx, hy) else none,
    IsHexesPassed := fun m hx hy _ => !FLAG (m.Hexes hx hy) 0x1101,
    SetFlagCritter := fun _ m hx hy _ _ x y =>
      if x = hx ∧ y = hy then m.Hexes x y ||| 0x0100 else m.Hexes x y,
    UnsetFlagCritter := fun _ m hx hy _ _ x y =>
      if x = hx ∧ y = hy then (m.Hexes x y ||| 0x0100) ^^^ 0x0100 else m.Hexes x y,
    FH_SCEN_GRID := 0x10,
    IsLife := fun c => !c.IsDead && !c.IsKnockout,
    IsTransferTimeouts := fun c _ => decide (c.TimeoutTransfer > 100) || decide (c.TimeoutBattle > 100),
    GetTransit := fun _ _ _ _ _ => none,
    IsLocVisible := fun _ => true,
    GetProtoLocation := fun _ => none,
    GetProtoMap := fun _ => none,
    GM__MAXZONEX := 100, GM__MAXZONEY := 100, GlobalMapZoneLength := 50,
    Generate := fun m => some m }

/-- A map of the given size on which the listed hexes carry the given flags and every
other hex carries none. -/
def sampleMap (w h : Nat) (flags : List (UShortPair × Nat)) (critters : List Nat) : Map :=
  { Width := w, Height := h, ProtoId := 7, LocId := 1,
    Hexes := fun x y => (flags.lookup (x, y)).getD 0, MapCritters := critters }

/-- A manager whose only map, registered under the id 1, is the given map, and which
holds no critter. -/
def sampleManager (m : Map) : MapManager :=
  { Maps := fun id => if id = 1 then some m else none,
    Locations := fun id => if id = 1 then some { ToGarbage := false, GeckCount := 0 } else none,
    Critters := fun _ => none, pathNumCur := 0, pathesPool := fun _ => [],
    smooth_switcher := false }

/-- A request on the map 1 that carries only the two hexes and the cut. -/
def sampleRequest (from_hx from_hy to_hx to_hy cut : Nat) : PathFindData :=
  { MapId := 1, FromX := from_hx, FromY := from_hy, ToX := to_hx, ToY := to_hy, Multihex := 0,
    Cut := cut, Trace := 0, IsRun := false, CheckCrit := false, CheckGagItems := false,
    FromCritter := none, TraceCr := none, PathNum := 0, NewToX := 0, NewToY := 0,
    GagCritter := none, GagItem := none }

/-- What the examples observe of a call of `FindPath`: the status, the number of steps of
the path in the slot that the manager last handed out, and the new target hex. -/
def pathSummary (r : Option (FPathCode × MapManager × PathFindData)) :
    Option (FPathCode × Nat × Nat × Nat) :=
  r.map (fun x => (x.1, (x.2.1.pathesPool x.2.1.pathNumCur).length, x.2.2.NewToX, x.2.2.NewToY))

/-- The hexes of the steps of a path. -/
def pathHexes (path : List PathStep) : List UShortPair := path.map (fun ps => (ps.HexX, ps.HexY))

/-- A trace request on a map, with no critter sought and no output pointer. -/
def sampleTrace (map : Map) (bx bye ex ey dist : Nat) : TraceData :=
  { NewTraceData map with BeginHx := bx, BeginHy := bye, EndHx := ex, EndHy := ey, Dist := dist }

/-- The critter is registered, it is in the critter index of the map whose id is its map
id and in the index of no other map, it holds a global-map group exactly when its map id
is 0, no map is registered under the id 0 and no index lists a critter twice. -/
def CritterPlaced (mm : MapManager) (cr : Nat) : Prop :=
  mm.Maps 0 = none ∧
  (∀ id m, mm.Maps id = some m → m.MapCritters.Nodup) ∧
  ∃ c, mm.Critters cr = some c ∧
    (∀ id m, mm.Maps id = some m → (cr ∈ m.MapCritters ↔ id = c.MapId)) ∧
    (c.MapId ≠ 0 → (mm.Maps c.MapId).isSome = true) ∧
    (c.GlobalMapGroup.isSome = true ↔ c.MapId = 0)

/-- A critter without its global-map group. -/
def Critter.noGroup (c : Critter) : Critter := { c with GlobalMapGroup := none }

/-- A critter standing on the hex `(hx, hy)` of the map `map_id`, free to transfer. -/
def sampleCritter (map_id hx hy : Nat) : Critter :=
  { MapId := map_id, MapPid := 7, HexX := hx, HexY := hy, Dir := 0, Multihex := 0,
    IsDead := false, IsKnockout := false, IsPlayer := true, LockMapTransfers := 0,
    DisableSend := 0, TimeoutTransfer := 0, TimeoutBattle := 0, BreakTime := 0,
    LastMapHexX := 0, LastMapHexY := 0, WorldX := 0, WorldY := 0, GlobalGroupUid := 0,
    GlobalGroupRuleId := 0, GlobalMapGroup := none }

/-- Two open maps of ten by ten hexes, registered under the ids 1 and 2, and the critter 5
on the hex `(3, 3)` of the first. -/
def sampleWorld : MapManager :=
  { Maps := fun id =>
      if id = 1 then some (sampleMap 10 10 [((3, 3), 0x0100)] [5])
      else if id = 2 then some (sampleMap 10 10 [] []) else none,
    Locations := fun id => if id = 1 then some { ToGarbage := false, GeckCount := 0 } else none,
    Critters := fun id => if id = 5 then some (sampleCritter 1 3 3) else none,
    pathNumCur := 0, pathesPool := fun _ => [], smooth_switcher := false }

/-- A square map of ten by ten hexes on which the eight neighbours of the hex `(5, 5)` are
blocked for movement. -/
def sampleRingMap : Map :=
  sampleMap 10 10 [((4, 4), 1), ((5, 4), 1), ((6, 4), 1), ((4, 5), 1), ((6, 5), 1), ((4, 6), 1),
    ((5, 6), 1), ((6, 6), 1)] []

/-- The cell of the scratch grid that belongs to the hex `(x, y)`. -/
def cellAt (E : Engine) (pfd : PathFindData) (g : GridBuf) (x y : Int) : Int :=
  g (GRID E pfd.FromX pfd.FromY x y)

/-- The hex `(x, y)` is at most `k` columns and `k` rows away from the start hex. -/
def Near (pfd : PathFindData) (k x y : Int) : Prop :=
  (pfd.FromX : Int) - k ≤ x ∧ x ≤ pfd.FromX + k ∧ (pfd.FromY : Int) - k ≤ y ∧ y ≤ pfd.FromY + k

/-- The hex may be entered by the flood: it is free, or it is a soft obstacle of a kind
that the request admits, or the request is for a multihex critter (whose passability is
decided by `Map::IsMovePassed`). -/
def Admitted (E : Engine) (map : Map) (pfd : PathFindData) (x y : Nat) : Prop :=
  pfd.Multihex ≠ 0 ∨ FLAG (E.GetHexFlags map x y) E.FH_NOWAY = false ∨
  (pfd.CheckGagItems = true ∧ FLAG (E.GetHexFlags map x y) (E.FH_GAG_ITEM <<< 8) = true) ∨
  (pfd.CheckCrit = true ∧ FLAG (E.GetHexFlags map x y) (E.FH_CRITTER <<< 8) = true)

/-- The cell value `v` records the index `k`: plainly, or under the mark `0x4000` of the
gag queue, or under the mark `0x8000` of the critter queue. -/
def Marked (v k : Int) : Prop := v = k ∨ v = k + 16384 ∨ v = k - 32768

/-- The standing assumptions of the flood: the depth limit is positive and leaves the two
mark bits free, the sides of the map fit their type `ushort`, the start hex is on the
map. -/
structure FloodCtx (E : Engine) (map : Map) (pfd : PathFindData) : Prop where
  max_pos : 0 < E.FPATH_MAX_PATH
  max_lt : E.FPATH_MAX_PATH < 16384
  width_le : map.Width ≤ 65535
  height_le : map.Height ≤ 65535
  from_x : pfd.FromX < map.Width
  from_y : pfd.FromY < map.Height

/-- The invariant of the flood of `FindPath`. -/
structure FloodInv (E : Engine) (map : Map) (pfd : PathFindData) (f : Flood) : Prop where
  coords_ok : ∀ c ∈ f.coords, c.1 < map.Width ∧ c.2 < map.Height ∧
    1 ≤ cellAt E pfd f.Grid c.1 c.2 ∧ cellAt E pfd f.Grid c.1 c.2 ≤ E.FPATH_MAX_PATH ∧
    Near pfd (cellAt E pfd f.Grid c.1 c.2 - 1) c.1 c.2
  gag_ok : ∀ c ∈ f.gag_coords, c.1 < map.Width ∧ c.2 < map.Height ∧
    ∃ k : Int, 2 ≤ k ∧ k ≤ E.FPATH_MAX_PATH ∧ cellAt E pfd f.Grid c.1 c.2 = k + 16384 ∧
      Near pfd (k - 1) c.1 c.2
  cr_ok : ∀ c ∈ f.cr_coords, c.1 < map.Width ∧ c.2 < map.Height ∧
    ∃ k : Int, 2 ≤ k ∧ k ≤ E.FPATH_MAX_PATH ∧ cellAt E pfd f.Grid c.1 c.2 = k - 32768 ∧
      Near pfd (k - 1) c.1 c.2
  gag_nodup : f.gag_coords.Nodup
  cr_nodup : f.cr_coords.Nodup
  support : ∀ q, f.Grid q ≠ 0 → ∃ x y : Nat, x < map.Width ∧ y < map.Height ∧
    Near pfd ((E.FPATH_MAX_PATH : Int) - 1) x y ∧ q = GRID E pfd.FromX pfd.FromY x y
  parent : ∀ x y : Nat, x < map.Width → y < map.Height →
    Near pfd ((E.FPATH_MAX_PATH : Int) - 1) x y →
    ∀ k : Int, 2 ≤ k → k ≤ E.FPATH_MAX_PATH → Marked (cellAt E pfd f.Grid x y) k →
      Admitted E map pfd x y ∧
      ∃ s ∈ GetHexOffsets E (x % 2 != 0), cellAt E pfd f.Grid (x + s.1) (y + s.2) = k - 1
  one : ∀ x y : Nat, x < map.Width → y < map.Height →
    Near pfd ((E.FPATH_MAX_PATH : Int) - 1) x y → cellAt E pfd f.Grid x y = 1 →
    x = pfd.FromX ∧ y = pfd.FromY

/-- What is known when the flood stops at `label_FindOk`: the invariant holds, the hex
reached is in `coords` and `numindex` is the value of its cell. -/
def FloodEnd.Good (E : Engine) (map : Map) (pfd : PathFindData) : FloodEnd → Prop
  | FloodEnd.findOk f cx cy numindex =>
    FloodInv E map pfd f ∧ (cx, cy) ∈ f.coords ∧ numindex = cellAt E pfd f.Grid cx cy ∧
    CheckDist E cx cy pfd.ToX pfd.ToY pfd.Cut = true
  | _ => True

/-- The hex `a` is the neighbour of the hex `b` at one of the offsets of the table of `b`:
the relation between a step of a path and the step after it, as the backtrace finds
them. -/
def StepBack (E : Engine) (a b : UShortPair) : Prop :=
  ∃ s ∈ GetHexOffsets E (((b.1 : Nat) : Int) % 2 != 0),
    ((a.1 : Nat) : Int) = b.1 + s.1 ∧ ((a.2 : Nat) : Int) = b.2 + s.2

/-- The assumptions of a search on an open map: the standing assumptions of the flood, no
hex of the map is blocked, the request is for a single-hex critter and for the target hex
itself, the target is on the map and its distance from the start leaves room below the
depth limit, and the sides of the map fit a `short`. -/
structure OpenCtx (E : Engine) (map : Map) (pfd : PathFindData) : Prop where
  ctx : FloodCtx E map pfd
  open_map : ∀ x y : Nat, x < map.Width → y < map.Height →
    FLAG (E.GetHexFlags map x y) E.FH_NOWAY = false
  multihex : pfd.Multihex = 0
  cut : pfd.Cut = 0
  to_x : pfd.ToX < map.Width
  to_y : pfd.ToY < map.Height
  dist : DistGame E pfd.FromX pfd.FromY pfd.ToX pfd.ToY + 2 ≤ E.FPATH_MAX_PATH
  width_s : map.Width ≤ 32767
  height_s : map.Height ≤ 32767

/-- The invariant of the flood on an open map while it handles the hexes of index `k`:
`done` are the hexes of `coords` already handled, `cur` those of index `k` still to be
handled, `next` those of index `k + 1` found so far; every cell that is set holds the
distance of its hex from the start plus one; `Pend c s` says that the hex `c` of index
`k` has still to look at its neighbour at the offset `s`. -/
structure OpenInv (E : Engine) (map : Map) (pfd : PathFindData) (k : Nat) (f : Flood)
    (done cur next : List UShortPair) (Pend : UShortPair → Int × Int → Prop) : Prop where
  coords_eq : f.coords = done ++ (cur ++ next)
  gag_nil : f.gag_coords = []
  cr_nil : f.cr_coords = []
  done_ok : ∀ c ∈ done, c ≠ (pfd.ToX, pfd.ToY) ∧
    DistGame E pfd.FromX pfd.FromY c.1 c.2 + 1 ≤ k
  cur_ok : ∀ c ∈ cur, c.1 < map.Width ∧ c.2 < map.Height ∧
    DistGame E pfd.FromX pfd.FromY c.1 c.2 + 1 = k ∧ cellAt E pfd f.Grid c.1 c.2 = k
  next_ok : ∀ c ∈ next, c.1 < map.Width ∧ c.2 < map.Height ∧
    DistGame E pfd.FromX pfd.FromY c.1 c.2 = k ∧ cellAt E pfd f.Grid c.1 c.2 = (k : Int) + 1
  cells : ∀ x y : Nat, x < map.Width → y < map.Height →
    DistGame E pfd.FromX pfd.FromY x y ≤ E.FPATH_MAX_PATH → cellAt E pfd f.Grid x y ≠ 0 →
    cellAt E pfd f.Grid x y = (DistGame E pfd.FromX pfd.FromY x y : Int) + 1 ∧
    DistGame E pfd.FromX pfd.FromY x y ≤ k ∧ (x, y) ∈ f.coords
  full : ∀ x y : Nat, x < map.Width → y < map.Height →
    DistGame E pfd.FromX pfd.FromY x y + 1 ≤ k → cellAt E pfd f.Grid x y ≠ 0
  pend : ∀ x y : Nat, x < map.Width → y < map.Height →
    DistGame E pfd.FromX pfd.FromY x y = k → cellAt E pfd f.Grid x y = 0 →
    ∀ s ∈ GetHexOffsets E (x % 2 != 0), ∀ cx cy : Nat, (cx : Int) = x + s.1 →
      (cy : Int) = y + s.2 → cx < map.Width → cy < map.Height →
      DistGame E pfd.FromX pfd.FromY cx cy + 1 = k → Pend (cx, cy) (-s.1, -s.2)

/-- Two results of `FindPath` agree in what the caller observes of them: they have the
same status, and when that is `FPATH_OK` their paths have the same number of steps and
their new targets are the same hex. -/
def SameOutcome (r1 r2 : FPathCode × MapManager × PathFindData) : Prop :=
  r1.1 = r2.1 ∧
  (r1.1 = FPATH_OK →
    (r1.2.1.pathesPool r1.2.2.PathNum).length = (r2.2.1.pathesPool r2.2.2.PathNum).length ∧
    r1.2.2.NewToX = r2.2.2.NewToX ∧ r1.2.2.NewToY = r2.2.2.NewToY)

/-- The method `Map::UnsetFlagCritter` with `dead = false` clears the flag `FH_CRITTER`
of the hex it is called for, whatever the critters and the map are. -/
def UnsetFlagClears (E : Engine) : Prop :=
  ∀ (crs : Nat → Option Critter) (m : Map) (hx hy multihex : Nat),
    FLAG (E.GetHexFlags { m with Hexes := E.UnsetFlagCritter crs m hx hy multihex false } hx hy)
      (E.FH_CRITTER <<< 8) = false

/-- A critter on the global map, free to transfer, with the given global-map group. -/
def sampleTraveller (group : Option (List Nat)) : Critter :=
  { sampleCritter 0 0 0 with MapPid := 0, GlobalMapGroup := group }

/-- A world without maps: the critters 1 and 2 travel on the global map in one group, led
by the critter 1, and the critter 3 is about to join the global map. -/
def sampleGroupWorld : MapManager :=
  { Maps := fun _ => none, Locations := fun _ => none,
    Critters := fun id =>
      if id = 1 ∨ id = 2 then some (sampleTraveller (some [1, 2]))
      else if id = 3 then some (sampleTraveller none) else none,
    pathNumCur := 0, pathesPool := fun _ => [], smooth_switcher := false }

/-- The global-map group of a critter in a state, `none` when it has none. -/
def groupOf (mm : MapManager) (cr : Nat) : Option (List Nat) :=
  (mm.Critters cr).bind (fun c => c.GlobalMapGroup)

/-- Modelled from the spec: `Client::AddKnownLoc( loc_id )` (defined outside the translated
sources), which adds the location to the known locations of the player unless it is there
already. -/
def Critter.AddKnownLoc (c : Critter) (loc_id : Nat) : Critter :=
  if loc_id ∈ c.KnownLocations then c
  else { c with KnownLocations := c.KnownLocations ++ [loc_id] }

/-- The critter of `TransitToMapHex` after `GetTransit` has returned true on the location
`loc`, registered under `loc_id`, and before the transfer: the location is known when it is
visible and both timeouts are 0. -/
def TransitToMapHexEnter (E : Engine) (c : Critter) (loc : Location) (loc_id : Nat) : Critter :=
  -- if( loc->IsLocVisible() && cr->IsPlayer() ) ( (Client*) cr )->AddKnownLoc( loc->GetId() );
  let c1 := if E.IsLocVisible loc && c.IsPlayer then c.AddKnownLoc loc_id else c
  -- cr->SetTimeoutTransfer( 0 ); cr->SetTimeoutBattle( 0 );
  { c1 with TimeoutTransfer := 0, TimeoutBattle := 0 }

/-- `MapManager::TransitToMapHex`: the returned flag and the state afterwards; `map` is the
key of the map, `none` for a null pointer. -/
def TransitToMapHex (E : Engine) (mm : MapManager) (cr : Nat) (map : Option Nat)
    (hx hy : Nat) (dir : Nat) (force : Bool) : Option (Bool × MapManager) :=
  match mm.Critters cr with
  | none => none
  | some c =>
    if c.LockMapTransfers ≠ 0 then some (false, mm)
    else if !c.IsPlayer || !E.IsLife c then some (false, mm)
    else
      match map with
      | none => some (false, mm)
      | some mid =>
        match mm.Maps mid with
        | none => none
        | some m =>
          if !FLAG (E.GetHexFlags m hx hy) E.FH_SCEN_GRID then some (false, mm)
          else if !force && !m.IsTurnBasedOn && E.IsTransferTimeouts c true then some (false, mm)
          else
            -- Location* loc = map->GetLocation( true );
            match mm.Locations m.LocId with
            | none => none
            | some loc =>
              match E.GetTransit loc m hx hy dir with
              | none => some (false, mm)
              | some (id_map, hx1, hy1, dir1) =>
                let mm1 := setCritter mm cr (TransitToMapHexEnter E c loc m.LocId)
                if id_map = 0 then
                  -- To global
                  TransitToGlobal E mm1 cr 0 force
                else
                  -- To local
                  match GetMap mm1 id_map with
                  | none => some (false, mm1)
                  | some _ => Transit E mm1 cr (some id_map) hx1 hy1 dir1 2 0 force

/-- An engine on which every exit grid leads to the given hex of the given map. -/
def sampleExitEngine (to_map to_hx to_hy : Nat) : Engine :=
  { sampleEngine false false 400 with
    GetTransit := fun _ _ _ _ dir => some (to_map, to_hx, to_hy, dir) }

/-- Two maps of ten by ten hexes, registered under the ids 1 and 2; the hex `(9, 9)` of the
first is an exit grid, and on it stands the critter 5, a player with a battle timeout that
is still active. -/
def sampleExitWorld : MapManager :=
  { Maps := fun id =>
      if id = 1 then some (sampleMap 10 10 [((9, 9), 0x0110)] [5])
      else if id = 2 then some (sampleMap 10 10 [] []) else none,
    Locations := fun id => if id = 1 then some { ToGarbage := false, GeckCount := 0 } else none,
    Critters := fun id =>
      if id = 5 then some { sampleCritter 1 9 9 with TimeoutBattle := 150 } else none,
    pathNumCur := 0, pathesPool := fun _ => [], smooth_switcher := false }

/-- What the examples observe of a critter after a call: the flag returned, the two
timeouts, the known locations, the map id and the hex. -/
def transitSummary (r : Option (Bool × MapManager)) (cr : Nat) :
    Option (Bool × Option (Nat × Nat × List Nat × Nat × Nat × Nat)) :=
  r.map (fun x => (x.1, (x.2.Critters cr).map (fun c =>
    (c.TimeoutTransfer, c.TimeoutBattle, c.KnownLocations, c.MapId, c.HexX, c.HexY))))

/-- Modelled from the spec: `EntityMngr.RegisterEntity( entity )` (defined outside the
translated sources) for a map, which gives the map the next id and adds it to the registry
under that id. The result is the state and the id. -/
def RegisterMap (mm : MapManager) (m : Map) : MapManager × Nat :=
  ({ mm with
      Maps := fun k => if k = mm.LastEntityId + 1 then some m else mm.Maps k,
      LastEntityId := mm.LastEntityId + 1 }, mm.LastEntityId + 1)

/-- Modelled from the spec: `EntityMngr.RegisterEntity( entity )` (defined outside the
translated sources) for a location, likewise. -/
def RegisterLocation (mm : MapManager) (loc : Location) : MapManager × Nat :=
  ({ mm with
      Locations := fun k => if k = mm.LastEntityId + 1 then some loc else mm.Locations k,
      LastEntityId := mm.LastEntityId + 1 }, mm.LastEntityId + 1)

/-- `MapManager::CreateMap` for a location with the id `loc_id` (0 before it is registered)
and the maps `maps`: the state afterwards, the maps of the location afterwards and the id of
the new map, `none` for a null pointer. -/
def CreateMap (E : Engine) (mm : MapManager) (proto_id : Nat) (loc_id : Nat)
    (maps : List Nat) : MapManager × List Nat × Option Nat :=
  match E.GetProtoMap proto_id with
  | none => (mm, maps, none)
  | some map0 =>
    -- map->SetLocId( loc->GetId() ); map->SetLocMapIndex( (uint) maps.size() );
    let map : Map := { map0 with LocId := loc_id, LocMapIndex := maps.length }
    -- maps.push_back( map ); Job::PushBack( JOB_MAP, map ); EntityMngr.RegisterEntity( map );
    let r := RegisterMap mm map
    ({ r.1 with MapJobs := mm.MapJobs ++ [r.2] }, maps ++ [r.2], some r.2)

/-- The loop of `CreateLocation` over the map prototypes `pids` of the new location: the
state, the maps of the location, and whether every map was created. When a map is not
created, the maps made so far and the location are released, which leaves the registry and
the queue of jobs as they are. -/
def CreateLocationMaps (E : Engine) : List Nat → MapManager → List Nat →
    MapManager × List Nat × Bool
  | [], mm, maps => (mm, maps, true)
  | map_pid :: pids, mm, maps =>
    match CreateMap E mm map_pid 0 maps with
    | (mm1, maps1, none) => (mm1, maps1, false)
    | (mm1, maps1, some _) => CreateLocationMaps E pids mm1 maps1

/-- The loop `// Generate location maps` of `CreateLocation` for the location registered
under `loc_id`: the state and whether every map was generated. -/
def GenerateLocationMaps (E : Engine) (loc_id : Nat) : List Nat → MapManager →
    Option (MapManager × Bool)
  | [], mm => some (mm, true)
  | id :: ids, mm =>
    match mm.Maps id with
    | none => none
    | some m =>
      -- map->SetLocId( loc->GetId() );
      let m1 : Map := { m with LocId := loc_id }
      match E.Generate m1 with
      | none =>
        -- loc->SetToGarbage( true ); MapMngr.RunGarbager();
        match mm.Locations loc_id with
        | none => none
        | some loc =>
          some ({ setMap mm id m1 with
            Locations := fun k =>
              if k = loc_id then some { loc with ToGarbage := true } else mm.Locations k,
            runGarbager := true }, false)
      | some m2 => GenerateLocationMaps E loc_id ids (setMap mm id m2)

/-- `MapManager::CreateLocation`: the state afterwards and the id of the new location,
`none` for a null pointer. -/
def CreateLocation (E : Engine) (mm : MapManager) (loc_pid : Nat) (wx wy : Nat) :
    Option (MapManager × Option Nat) :=
  match E.GetProtoLocation loc_pid with
  | none => some (mm, none)
  | some proto =>
    if wx = 0 ∨ wy = 0 ∨ wx ≥ (E.GM__MAXZONEX * E.GlobalMapZoneLength) % 4294967296 ∨
        wy ≥ (E.GM__MAXZONEY * E.GlobalMapZoneLength) % 4294967296 then some (mm, none)
    else
      let r := CreateLocationMaps E proto.MapProtos mm []
      if !r.2.2 then some (r.1, none)
      else
        -- EntityMngr.RegisterEntity( loc );
        let loc : Location :=
          { ToGarbage := false, GeckCount := 0, ProtoId := loc_pid, WorldX := wx, WorldY := wy,
            LocMaps := r.2.1 }
        let g := RegisterLocation r.1 loc
        match GenerateLocationMaps E g.2 r.2.1 g.1 with
        | none => none
        | some (mm3, true) => some (mm3, some g.2)
        | some (mm3, false) => some (mm3, none)

/-- An engine that has loaded the location prototype 1, made of the map prototypes 10 and
11, the location prototype 2, made of the map prototype 10 twice, and the map prototype 10;
the map prototype 11 is not loaded. -/
def sampleProtoEngine : Engine :=
  { sampleEngine false false 400 with
    GetProtoLocation := fun pid =>
      if pid = 1 then some { MapProtos := [10, 11] }
      else if pid = 2 then some { MapProtos := [10, 10] } else none,
    GetProtoMap := fun pid => if pid = 10 then some (sampleMap 10 10 [] []) else none }

/-- The world of two maps and one critter, whose entity manager has handed out the ids up
to 5. -/
def sampleEntityWorld : MapManager := { sampleWorld with LastEntityId := 5 }

/-- What the examples observe of a call of `CreateLocation`: the location returned, the ids
from 1 to 8 under which a map is registered, those under which a location is registered, and
the queue of map jobs. -/
def createSummary (r : Option (MapManager × Option Nat)) :
    Option (Option Nat × List Nat × List Nat × List Nat) :=
  r.map (fun x => (x.2, (List.range 9).filter (fun k => (x.1.Maps k).isSome),
    (List.range 9).filter (fun k => (x.1.Locations k).isSome), x.1.MapJobs))

/-- The hexes that the line tracer produces in `n` calls, the first of them being its call
number `i` on the hex `c`. -/
def TraceLine (E : Engine) (lt : LineTracer) : Nat → Nat → UShortPair → List UShortPair
  | 0, _, _ => []
  | n + 1, i, c =>
    let c1 := if E.MapHexagonal then (lt.GetNextHex i c).2 else lt.GetNextSquare i c
    c1 :: TraceLine E lt n (i + 1) c1

/-- The hex ends the scan of the request: it is not raked, or the critter on it is the
searched critter or, with the team check, a teammate. -/
def TraceStop (E : Engine) (t : TraceData) (h : UShortPair) : Bool :=
  !E.IsHexRaked t.TraceMap h.1 h.2 ||
  ((t.FindCr.isSome || t.IsCheckTeam) && E.IsFlagCritter t.TraceMap h.1 h.2 false &&
    match E.GetHexCritter t.TraceMap h.1 h.2 false with
    | some cr => decide (some cr = t.FindCr) || (t.IsCheckTeam && E.GetTeamId cr == t.BaseCrTeamId)
    | none => false)

/-- The critters that the scan of the request collects on a hex. -/
def TraceCollect (E : Engine) (t : TraceData) (h : UShortPair) : List Nat :=
  if E.IsHexCritter t.TraceMap h.1 h.2 then E.GetCrittersHex t.TraceMap h.1 h.2 0 t.FindType
  else []

/-- Two states of a request agree in what the scan reads and in the output pointers
`PreBlock` and `Block`. -/
structure TraceSame (t t1 : TraceData) : Prop where
  map : t1.TraceMap = t.TraceMap
  find : t1.FindCr = t.FindCr
  type : t1.FindType = t.FindType
  team : t1.IsCheckTeam = t.IsCheckTeam
  base : t1.BaseCrTeamId = t.BaseCrTeamId
  callback : t1.HexCallback = t.HexCallback
  pre : t1.PreBlock = t.PreBlock
  block : t1.Block = t.Block
  full : t1.IsFullTrace = t.IsFullTrace

/-- The statement `if( trace.LastPassed && !last_passed_ok )` of the loop body of
`TraceBullet`. -/
def TraceHexPassed (E : Engine) (s : TraceLoop) (cx cy : Nat) : TraceLoop :=
  if s.trace.LastPassed.isSome && !s.last_passed_ok then
    if E.IsHexPassed s.trace.TraceMap cx cy then
      { s with trace := { s.trace with LastPassed := some (cx, cy), IsHaveLastPassed := true } }
    else if !E.IsHexCritter s.trace.TraceMap cx cy || !s.trace.LastPassedSkipCritters then
      { s with last_passed_ok := true }
    else s
  else s

/-- The statement `if( trace.Critters != nullptr && map->IsHexCritter( cx, cy ) )` of the
loop body of `TraceBullet`. -/
def TraceHexCollect (E : Engine) (map : Map) (s2 : TraceLoop) (cx cy : Nat) : TraceLoop :=
  match s2.trace.Critters with
  | some crs =>
    if E.IsHexCritter map cx cy then
      { s2 with trace := { s2.trace with
          Critters := some (crs ++ E.GetCrittersHex map cx cy 0 s2.trace.FindType) } }
    else s2
  | none => s2

/-- The search for the critter and for a teammate, and the end of the loop body of
`TraceBullet`. -/
def TraceHexFind (E : Engine) (map : Map) (s3 : TraceLoop) (cx cy : Nat) : TraceLoop × Bool :=
  if (s3.trace.FindCr.isSome || s3.trace.IsCheckTeam) && E.IsFlagCritter map cx cy false then
    match E.GetHexCritter map cx cy false with
    | some cr =>
      if some cr = s3.trace.FindCr then
        ({ s3 with trace := { s3.trace with IsCritterFounded := true } }, false)
      else if s3.trace.IsCheckTeam && E.GetTeamId cr == s3.trace.BaseCrTeamId then
        ({ s3 with trace := { s3.trace with IsTeammateFounded := true } }, false)
      else ({ s3 with old_cx := cx, old_cy := cy }, true)
    | none => ({ s3 with old_cx := cx, old_cy := cy }, true)
  else ({ s3 with old_cx := cx, old_cy := cy }, true)

/-- The hex that the line tracer produces from the hex `c` in its call number `i`. -/
def TraceNext (E : Engine) (lt : LineTracer) (i : Nat) (c : UShortPair) : UShortPair :=
  if E.MapHexagonal then (lt.GetNextHex i c).2 else lt.GetNextSquare i c

/-- The number of hexes that `TraceBullet` may examine: `Dist`, or the distance from the
begin hex to the end hex when `Dist` is 0. -/
def TraceDist (E : Engine) (t : TraceData) : Nat :=
  if t.Dist = 0 then DistGame E t.BeginHx t.BeginHy t.EndHx t.EndHy else t.Dist

/-- The hexes that the line tracer of the request produces within the distance. -/
def TraceHexes (E : Engine) (t : TraceData) : List UShortPair :=
  TraceLine E (E.NewLineTracer t.BeginHx t.BeginHy t.EndHx t.EndHy t.TraceMap.Width
    t.TraceMap.Height t.Angle (!E.MapHexagonal)) (TraceDist E t) 0 (t.BeginHx, t.BeginHy)

/-- The state of the loop of `TraceBullet` when it is left. -/
def TraceBulletEnd (E : Engine) (t : TraceData) : TraceLoop :=
  TraceBulletLoop E (E.NewLineTracer t.BeginHx t.BeginHy t.EndHx t.EndHy t.TraceMap.Width
    t.TraceMap.Height t.Angle (!E.MapHexagonal)) (TraceDist E t) 0
    { trace :=
        { t with
          IsFullTrace := false, IsCritterFounded := false,
          IsHaveLastPassed := false, IsTeammateFounded := false },
      cx := t.BeginHx, cy := t.BeginHy, old_cx := t.BeginHx, old_cy := t.BeginHy,
      last_passed_ok := false }

/-- A trace request on a map of ten by ten hexes, from `(0, 0)` to `(5, 0)` with `Dist = 0`,
that collects critters and supplies `PreBlock` and `Block`: the hex `(3, 0)` blocks shooting
and critters stand on the hexes `(1, 0)` and `(4, 0)`. -/
def sampleShot : TraceData :=
  { sampleTrace (sampleMap 10 10 [((1, 0), 0x0100), ((3, 0), 2), ((4, 0), 0x0100)] []) 0 0 5 0 0
    with Critters := some [], PreBlock := some (0, 0), Block := some (0, 0) }

/-- A trace request on an open map of ten by ten hexes, from `(0, 0)` to `(3, 0)` with
`Dist = 0`, that supplies `PreBlock` and `Block`. -/
def sampleOpenShot : TraceData :=
  { sampleTrace (sampleMap 10 10 [] []) 0 0 3 0 0
    with PreBlock := some (0, 0), Block := some (0, 0) }

/-- The initial vectors and grid of the flood of `FindPath`. -/
def FindPathStart (E : Engine) (pfd : PathFindData) : Flood :=
  { Grid := gridSet (fun _ => 0) (GRID E pfd.FromX pfd.FromY pfd.FromX pfd.FromY) 1,
    coords := [(pfd.FromX, pfd.FromY)], cr_coords := [], gag_coords := [] }

/-- The step is a soft obstacle for the request: its hex is not passable and it holds a gag
item while the request checks gag items, or a critter that is not the requester while the
request checks critters. -/
def SoftObstacle (E : Engine) (map : Map) (pfd : PathFindData) (ps : PathStep) : Prop :=
  E.IsHexPassed map ps.HexX ps.HexY = false ∧
  ((pfd.CheckGagItems = true ∧ (E.GetItemGag map ps.HexX ps.HexY).isSome = true) ∨
   (pfd.CheckCrit = true ∧
     ∃ cr, E.GetHexCritter map ps.HexX ps.HexY false = some cr ∧ some cr ≠ pfd.FromCritter))

/-- What the walk reports of the step at which it stopped: the gag item of the hex when
the request checks gag items and the hex holds one, otherwise the critter of the hex. -/
def SoftReport (E : Engine) (map : Map) (pfd : PathFindData) (ps : PathStep)
    (pfd' : PathFindData) : Prop :=
  (pfd.CheckGagItems = true ∧
    ∃ item, E.GetItemGag map ps.HexX ps.HexY = some item ∧
      pfd' = { pfd with GagItem := some item }) ∨
  (¬ (pfd.CheckGagItems = true ∧ (E.GetItemGag map ps.HexX ps.HexY).isSome = true) ∧
    pfd.CheckCrit = true ∧
    ∃ cr, E.GetHexCritter map ps.HexX ps.HexY false = some cr ∧ some cr ≠ pfd.FromCritter ∧
      pfd' = { pfd with GagCritter := some cr })

/-- The flags of the hex of the step agree with what the hex holds: the gag flag is set
exactly when the hex holds a gag item, the flag of a living critter exactly when it holds
one. -/
def FlagsAgree (E : Engine) (map : Map) (ps : PathStep) : Prop :=
  E.IsHexGag map ps.HexX ps.HexY = (E.GetItemGag map ps.HexX ps.HexY).isSome ∧
  E.IsFlagCritter map ps.HexX ps.HexY false = (E.GetHexCritter map ps.HexX ps.HexY false).isSome

/-- The first step of the path is a hex on which the walk `// Check for closed door and
critter` stops, and `pfd'` is the request after the stop: the hex is not passable, and it
carries the gag flag and holds a gag item while the request checks gag items, or, the test
of the gag item not being made, it carries the critter flag and holds a critter other than
the requester while the request checks critters. -/
def SoftAtFirst (E : Engine) (map : Map) (pfd : PathFindData) (ps : PathStep)
    (pfd' : PathFindData) : Prop :=
  E.IsHexPassed map ps.HexX ps.HexY = false ∧
  ((pfd.CheckGagItems = true ∧ E.IsHexGag map ps.HexX ps.HexY = true ∧
      ∃ item, E.GetItemGag map ps.HexX ps.HexY = some item ∧
        pfd' = { pfd with GagItem := some item }) ∨
   (¬ (pfd.CheckGagItems = true ∧ E.IsHexGag map ps.HexX ps.HexY = true) ∧
      pfd.CheckCrit = true ∧ E.IsFlagCritter map ps.HexX ps.HexY false = true ∧
      ∃ cr, E.GetHexCritter map ps.HexX ps.HexY false = some cr ∧ some cr ≠ pfd.FromCritter ∧
        pfd' = { pfd with GagCritter := some cr }))

/-- The checks of `FindPath` before the flood all pass but for the test of the distance:
a trace has its target, the four coordinates are on the map, the target hex is not busy
when the cut is 0, and the ring around it is not closed when the cut is at most 1. -/
def FindPathChecksPass (E : Engine) (map : Map) (pfd : PathFindData) : Prop :=
  ¬ (pfd.Trace ≠ 0 ∧ pfd.TraceCr.isNone = true) ∧
  ¬ (pfd.FromX ≥ map.Width ∨ pfd.FromY ≥ map.Height ∨ pfd.ToX ≥ map.Width ∨
    pfd.ToY ≥ map.Height) ∧
  ¬ (pfd.Cut = 0 ∧ FLAG (E.GetHexFlags map pfd.ToX pfd.ToY) E.FH_NOWAY = true) ∧
  ¬ (pfd.Cut ≤ 1 ∧ pfd.Multihex = 0 ∧
    FindPathRingBusy E map pfd.ToX pfd.ToY
      ((GetHexOffsets E (pfd.ToX % 2 != 0)).take (DIRS_COUNT E)) = true)

/-- A map of one row of ten hexes whose hex `(1, 0)` is not passable and holds a gag item. -/
def sampleGagRow : Map := sampleMap 10 1 [((1, 0), 0x8001)] []

/-- A request on the map 1 from the hex `(0, 0)` to the hex `(5, 0)` that checks gag items. -/
def sampleGagRequest : PathFindData := { sampleRequest 0 0 5 0 0 with CheckGagItems := true }

/-- The value that the field `k` of the move parameters of a step holds when `nx` are the
steps that follow it: the direction of the step `k` places on, with the allow bit, and 0
past the end of the path. -/
def MoveParamsField (E : Engine) (nx : List PathStep) (k : Nat) : Nat :=
  ((nx[k]?).map (fun q => q.Dir ||| E.MOVE_PARAM_STEP_ALLOW)).getD 0

/-- The bits below the run bit of the value `v` are, field by field, the fields of the
steps `nx`. -/
def WindowBits (E : Engine) (v : Nat) (nx : List PathStep) : Prop :=
  ∀ k b, b < E.MOVE_PARAM_STEP_BITS → k * E.MOVE_PARAM_STEP_BITS + b < 31 →
    v.testBit (k * E.MOVE_PARAM_STEP_BITS + b) = (MoveParamsField E nx k).testBit b

/-- A path of three steps with the directions 1, 2 and 5. -/
def sampleSteps : List PathStep :=
  [{ HexX := 1, HexY := 0, MoveParams := 0, Dir := 1 },
   { HexX := 2, HexY := 1, MoveParams := 0, Dir := 2 },
   { HexX := 2, HexY := 2, MoveParams := 0, Dir := 5 }]

/-- What `DeleteLocation` writes into the entities and asks of code declared outside the
translated sources, one constructor per statement: the two flags of the location and of a
map, the two finish events, `Send_GlobalLocation( loc, false )` to a player, `DeleteContent`
of a map, `GetMapsNoLock().clear()`, `UnregisterEntity` and `DeferredRelease`. -/
inductive DeleteStep where
  | locDestroying (loc : Nat)
  | mapDestroying (map : Nat)
  | raiseLocationFinish (loc : Nat)
  | raiseMapFinish (map : Nat)
  | sendGlobalLocation (cl : Nat) (loc : Nat)
  | deleteContent (map : Nat)
  | clearMaps (loc : Nat)
  | unregisterLoc (loc : Nat)
  | unregisterMap (map : Nat)
  | locDestroyed (loc : Nat)
  | mapDestroyed (map : Nat)
  | releaseLoc (loc : Nat)
  | releaseMap (map : Nat)
  deriving DecidableEq, Repr

/-- A loop `for( auto it = maps.begin(); it != maps.end(); ++it )` of `DeleteLocation` whose
body makes one step per map: the log after the loop. -/
def DeleteLocationMaps (step : Nat → DeleteStep) : List DeleteStep → List Nat → List DeleteStep
  | log, [] => log
  | log, map :: rest => DeleteLocationMaps step (log ++ [step map]) rest

/-- The loop of `DeleteLocation` over the players on the global map: the log after the
loop. A player that is not registered has no result. -/
def DeleteLocationNotify (mm : MapManager) (loc_id : Nat) :
    List DeleteStep → List Nat → Option (List DeleteStep)
  | log, [] => some log
  | log, cl :: rest =>
    match mm.Critters cl with
    | none => none
    | some c =>
      if c.KnownLocations.contains loc_id then
        DeleteLocationNotify mm loc_id (log ++ [DeleteStep.sendGlobalLocation cl loc_id]) rest
      else DeleteLocationNotify mm loc_id log rest

/-- `EntityMngr.UnregisterEntity` for the location and for each of its maps: the registries
afterwards. -/
def UnregisterLocation (mm : MapManager) (loc_id : Nat) (maps : List Nat) : MapManager :=
  { mm with
    Locations := fun id => if id = loc_id then none else mm.Locations id,
    Maps := fun id => if id ∈ maps then none else mm.Maps id }

/-- `MapManager::DeleteLocation( loc, gmap_players )`: the state of the manager after the
call and the steps made, in the order of the statements. `clients` is what
`CrMngr.GetClients( players, true, true )` returns, which is asked for when `gmap_players` is
null. A location that is not registered has no result. -/
def DeleteLocation (mm : MapManager) (loc_id : Nat) (gmap_players : Option (List Nat))
    (clients : List Nat) : Option (MapManager × List DeleteStep) :=
  match mm.Locations loc_id with
  | none => none
  | some loc =>
    -- Start deleting
    let maps := loc.LocMaps
    -- Redundant calls
    if loc.IsDestroying || loc.IsDestroyed then some (mm, [])
    else
      let log1 := DeleteLocationMaps DeleteStep.mapDestroying [DeleteStep.locDestroying loc_id] maps
      -- Finish events
      let log2 := DeleteLocationMaps DeleteStep.raiseMapFinish
        (log1 ++ [DeleteStep.raiseLocationFinish loc_id]) maps
      -- Send players on global map about this
      let players := match gmap_players with
        | none => clients
        | some ps => ps
      match DeleteLocationNotify mm loc_id log2 players with
      | none => none
      | some log3 =>
        -- Delete maps
        let log4 := DeleteLocationMaps DeleteStep.deleteContent log3 maps ++
          [DeleteStep.clearMaps loc_id]
        -- Erase from main collections
        let log5 := DeleteLocationMaps DeleteStep.unregisterMap
          (log4 ++ [DeleteStep.unregisterLoc loc_id]) maps
        -- Invalidate for use
        let log6 := DeleteLocationMaps DeleteStep.mapDestroyed
          (log5 ++ [DeleteStep.locDestroyed loc_id]) maps
        -- Release after some time
        let log7 := DeleteLocationMaps DeleteStep.releaseMap
          (log6 ++ [DeleteStep.releaseLoc loc_id]) maps
        some (UnregisterLocation mm loc_id maps, log7)

/-- The order of the steps of `DeleteLocation` as the specification states it, the finish
events being raised for every map first and then for the location; `sends` are the
notifications of the players. -/
def DeleteLocationStated (loc_id : Nat) (maps : List Nat) (sends : List DeleteStep) :
    List DeleteStep :=
  (DeleteStep.locDestroying loc_id :: maps.map DeleteStep.mapDestroying) ++
  (maps.map DeleteStep.raiseMapFinish ++ [DeleteStep.raiseLocationFinish loc_id]) ++
  sends ++
  (maps.map DeleteStep.deleteContent ++ [DeleteStep.clearMaps loc_id]) ++
  (DeleteStep.unregisterLoc loc_id :: maps.map DeleteStep.unregisterMap) ++
  (DeleteStep.locDestroyed loc_id :: maps.map DeleteStep.mapDestroyed) ++
  (DeleteStep.releaseLoc loc_id :: maps.map DeleteStep.releaseMap)

/-- The player knows the location (`CheckKnownLocById`). -/
def KnowsLocation (mm : MapManager) (loc_id : Nat) (cl : Nat) : Bool :=
  match mm.Critters cl with
  | none => false
  | some c => c.KnownLocations.contains loc_id

/-- A world with the location 1, which holds the maps 1 and 2, and the players 5, who knows
the location, and 6, who does not. -/
def sampleDoomedWorld : MapManager :=
  { sampleWorld with
    Locations := fun id =>
      if id = 1 then some { ToGarbage := true, GeckCount := 0, LocMaps := [1, 2] } else none,
    Critters := fun id =>
      if id = 5 then some { sampleCritter 0 0 0 with KnownLocations := [1] }
      else if id = 6 then some (sampleCritter 0 0 0) else none }

/-- The cell of the grid that the body of the loop over the neighbours of `(cx, cy)` reads
through `short& g = GRID( nx, ny )`, as a pair of coordinates: none when the neighbour is
outside the map. -/
def FindPathNeighbourAccess (map : Map) (cx cy : Nat) (s : Int × Int) : List (Int × Int) :=
  let nx := toShort (toShort cx + s.1)
  let ny := toShort (toShort cy + s.2)
  if nx < 0 ∨ ny < 0 ∨ nx ≥ map.Width ∨ ny ≥ map.Height then [] else [(nx, ny)]

/-- The cells read by the loop over the neighbours of `(cx, cy)`. -/
def FindPathNeighboursAccess (map : Map) (cx cy : Nat) : List (Int × Int) → List (Int × Int)
  | [] => []
  | s :: rest =>
    FindPathNeighbourAccess map cx cy s ++ FindPathNeighboursAccess map cx cy rest

/-- The cells read and written by the loop `for( int i = 0; i < p_togo; i++, p++ )` of
`FindPath`, in order: `GRID( cx, cy )` for every hex taken from `coords` and the cells of
its neighbours when the loop goes on to them. -/
def FindPathLayerAccess (E : Engine) (map : Map) (pfd : PathFindData) :
    Nat → Flood → Nat → List (Int × Int)
  | 0, _, _ => []
  | n + 1, f, p =>
    match f.coords.get? p with
    | none => []
    | some (cx, cy) =>
      let numindex := f.Grid (GRID E pfd.FromX pfd.FromY cx cy)
      ((cx : Int), (cy : Int)) ::
        (if CheckDist E cx cy pfd.ToX pfd.ToY pfd.Cut then []
        else if numindex + 1 > E.FPATH_MAX_PATH then []
        else
          FindPathNeighboursAccess map cx cy
              ((GetHexOffsets E (cx % 2 != 0)).take (DIRS_COUNT E)) ++
            FindPathLayerAccess E map pfd n
              (FindPathNeighbours E map pfd cx cy (numindex + 1) f 0
                ((GetHexOffsets E (cx % 2 != 0)).take (DIRS_COUNT E))) (p + 1))

/-- The cells read and written by the block `// Add gag hex after some distance`: the cell
of `coords.back()` and the cell of `gag_coords.front()`. -/
def FindPathAddGagAccess (f : Flood) : List (Int × Int) :=
  match f.gag_coords with
  | [] => []
  | xy :: _ =>
    match f.coords.getLast? with
    | none => []
    | some back => [((back.1 : Int), (back.2 : Int)), ((xy.1 : Int), (xy.2 : Int))]

/-- The cell read and written by the block `// Add gag and critters hexes` for
`p_togo = 0`: the cell of the front of the gag queue, or else of the critter queue. -/
def FindPathAddSoftAccess (f : Flood) : List (Int × Int) :=
  match f.gag_coords with
  | xy :: _ => [((xy.1 : Int), (xy.2 : Int))]
  | [] =>
    match f.cr_coords with
    | xy :: _ => [((xy.1 : Int), (xy.2 : Int))]
    | [] => []

/-- The cells read and written by the loop `while( true )` of `FindPath`, in order, along
the rounds that `FindPathFlood` makes. -/
def FindPathFloodAccess (E : Engine) (map : Map) (pfd : PathFindData) :
    Nat → Flood → Nat → Nat → List (Int × Int)
  | 0, _, _, _ => []
  | fuel + 1, f, p, p_togo =>
    FindPathLayerAccess E map pfd p_togo f p ++
      match FindPathLayer E map pfd p_togo f p with
      | some (Sum.inr (f1, p1)) =>
        FindPathAddGagAccess f1 ++
          match FindPathAddGag E pfd f1 with
          | none => []
          | some f2 =>
            let p_togo1 := f2.coords.length - p1
            let r := if p_togo1 = 0 then FindPathAddSoft E pfd f2 else (f2, p_togo1)
            (if p_togo1 = 0 then FindPathAddSoftAccess f2 else []) ++
              (if r.2 = 0 then [] else FindPathFloodAccess E map pfd fuel r.1 p1 r.2)
      | _ => []

/-- The cells read by the chain of tests of `FindPathGrid`: the probes up to the first that
matches. -/
def FindPathGridScanAccess (E : Engine) (grid : GridBuf) (offsX offsY : Int) (hx hy : Nat)
    (index : Int) : List (Int × Int × Int) → List (Int × Int)
  | [] => []
  | (dx, dy, _) :: rest =>
    ((hx : Int) + dx, (hy : Int) + dy) ::
      (if grid (GRID E offsX offsY (hx + dx) (hy + dy)) = index then []
      else FindPathGridScanAccess E grid offsX offsY hx hy index rest)

/-- The cells read by the calls of `FindPathGrid` that the loop `while( numindex > 1 )` of
`FindPath` makes, in order. -/
def FindPathBacktraceAccess (E : Engine) (grid : GridBuf) (offsX offsY : Int)
    (smooth_count : Int) : Nat → Backtrace → List (Int × Int)
  | 0, _ => []
  | n + 1, b =>
    let numindex : Int := (n : Int) + 2
    let sw : Bool :=
      if E.MapSmoothPath then
        if E.MapHexagonal then
          (if numindex % 2 ≠ 0 then !b.smooth_switcher else b.smooth_switcher)
        else decide (smooth_count < 2 ∨ b.smooth_iteration.tmod smooth_count ≠ 0)
      else b.smooth_switcher
    let ps : PathStep := { (b.path.getD n default) with HexX := b.cx, HexY := b.cy }
    let r := FindPathGrid E grid offsX offsY b.cx b.cy (numindex - 1) sw
    FindPathGridScanAccess E grid offsX offsY b.cx b.cy (numindex - 1)
        (FindPathGridProbes E (b.cx % 2 != 0) sw) ++
      (if r.1 = -1 then []
      else
        FindPathBacktraceAccess E grid offsX offsY smooth_count n
          { path := b.path.set n { ps with Dir := r.1.toNat },
            cx := r.2.1, cy := r.2.2, smooth_switcher := sw,
            smooth_iteration := b.smooth_iteration + 1 })

/-- The cells of the scratch grid that a call of `FindPath` reads and writes through the
macro `GRID`, as pairs of coordinates and in order: the cell of the start hex, the cells of
the flood and the cells probed by the backtrace. -/
def FindPathAccess (E : Engine) (mm : MapManager) (pfd : PathFindData) : List (Int × Int) :=
  if pfd.Trace ≠ 0 ∧ pfd.TraceCr.isNone then []
  else
    match GetMap mm pfd.MapId with
    | none => []
    | some map =>
      if pfd.FromX ≥ map.Width ∨ pfd.FromY ≥ map.Height ∨ pfd.ToX ≥ map.Width ∨
          pfd.ToY ≥ map.Height then []
      else if CheckDist E pfd.FromX pfd.FromY pfd.ToX pfd.ToY pfd.Cut then []
      else if pfd.Cut = 0 ∧ FLAG (E.GetHexFlags map pfd.ToX pfd.ToY) E.FH_NOWAY then []
      else if pfd.Cut ≤ 1 ∧ pfd.Multihex = 0 ∧
          FindPathRingBusy E map pfd.ToX pfd.ToY
            ((GetHexOffsets E (pfd.ToX % 2 != 0)).take (DIRS_COUNT E)) then []
      else
        ((pfd.FromX : Int), (pfd.FromY : Int)) ::
          (FindPathFloodAccess E map pfd (map.Width * map.Height + 1) (FindPathStart E pfd) 0 1 ++
            match FindPathFlood E map pfd (map.Width * map.Height + 1)
              (FindPathStart E pfd) 0 1 with
            | some (FloodEnd.findOk f cx cy numindex) =>
              FindPathBacktraceAccess E f.Grid pfd.FromX pfd.FromY
                (FindPathSmooth E cx cy pfd.FromX pfd.FromY).1 (numindex - 1).toNat
                { path := resizePath (mm.pathesPool (nextPathNum E mm.pathNumCur))
                    (numindex - 1).toNat,
                  cx := cx, cy := cy,
                  smooth_switcher := if !E.MapSmoothPath then false else mm.smooth_switcher,
                  smooth_iteration := (FindPathSmooth E cx cy pfd.FromX pfd.FromY).2 }
            | _ => [])

/-- What the flood has settled when the first `p` hexes of `coords` are handled: the start
hex is in `coords`; no handled hex is within the cut of the target, each passed the test of
the depth limit, and each of its neighbours on the map has a cell that is set; and every hex
near the start whose cell is set and which the request admits is in `coords` or in one of the
two queues. -/
structure FloodClosed (E : Engine) (map : Map) (pfd : PathFindData) (f : Flood) (p : Nat) :
    Prop where
  p_le : p ≤ f.coords.length
  start : (pfd.FromX, pfd.FromY) ∈ f.coords
  done : ∀ c ∈ f.coords.take p,
    CheckDist E c.1 c.2 pfd.ToX pfd.ToY pfd.Cut = false ∧
    cellAt E pfd f.Grid c.1 c.2 + 1 ≤ E.FPATH_MAX_PATH ∧
    ∀ s ∈ GetHexOffsets E (c.1 % 2 != 0), ∀ x y : Nat,
      (x : Int) = c.1 + s.1 → (y : Int) = c.2 + s.2 → x < map.Width → y < map.Height →
      cellAt E pfd f.Grid x y ≠ 0
  listed : ∀ x y : Nat, x < map.Width → y < map.Height →
    Near pfd ((E.FPATH_MAX_PATH : Int) - 1) x y → cellAt E pfd f.Grid x y ≠ 0 →
    Admitted E map pfd x y →
    (x, y) ∈ f.coords ∨ (x, y) ∈ f.gag_coords ∨ (x, y) ∈ f.cr_coords

/-- The state in which the loop `while( true )` of `FindPath` returns `FPATH_DEADLOCK`: the
vectors and `p` at the statement `if( !p_togo ) return FPATH_DEADLOCK`, along the rounds that
`FindPathFlood` makes; no result when the flood ends otherwise. -/
def FindPathFloodLast (E : Engine) (map : Map) (pfd : PathFindData) :
    Nat → Flood → Nat → Nat → Option (Flood × Nat)
  | 0, _, _, _ => none
  | fuel + 1, f, p, p_togo =>
    match FindPathLayer E map pfd p_togo f p with
    | some (Sum.inr (f1, p1)) =>
      match FindPathAddGag E pfd f1 with
      | none => none
      | some f2 =>
        let p_togo1 := f2.coords.length - p1
        let r := if p_togo1 = 0 then FindPathAddSoft E pfd f2 else (f2, p_togo1)
        if r.2 = 0 then some (r.1, p1)
        else FindPathFloodLast E map pfd fuel r.1 p1 r.2
    | _ => none

/-- The hex `b` is a neighbour of the hex `a`: it lies at one of the offsets of the table
of `a`, one per direction. -/
def Neighbour (E : Engine) (a b : UShortPair) : Prop :=
  ∃ s ∈ GetHexOffsets E (a.1 % 2 != 0), (b.1 : Int) = a.1 + s.1 ∧ (b.2 : Int) = a.2 + s.2

/-- Every step of the path is reached from the hex before it, or from the hex `h` for the
first step, by one move in the direction `Dir` of the step. -/
def DirsLead (E : Engine) : UShortPair → List PathStep → Prop
  | _, [] => True
  | h, ps :: rest =>
    MoveHexByDirUnsafe E h.1 h.2 ps.Dir = ((ps.HexX : Int), (ps.HexY : Int)) ∧
    DirsLead E (ps.HexX, ps.HexY) rest

/-- The hex, the direction and nothing else of the steps of a path. -/
def pathMoves (path : List PathStep) : List (Nat × Nat × Nat) :=
  path.map (fun ps => (ps.HexX, ps.HexY, ps.Dir))

/-- A world with one open map of ten by ten hexes, registered under the id 2: the critters 1
and 2 travel on the global map in one group, led by the critter 1. -/
def sampleTravelWorld : MapManager :=
  { Maps := fun id => if id = 2 then some (sampleMap 10 10 [] []) else none,
    Locations := fun _ => none,
    Critters := fun id => if id = 1 ∨ id = 2 then some (sampleTraveller (some [1, 2])) else none,
    pathNumCur := 0, pathesPool := fun _ => [], smooth_switcher := false }

/-- The step from which the block `// Trace` of `FindPath` finds its target when it works
on the path `path`: the result of the loop over the five bands; `none` when the request
asks for no trace, when the trace critter is not registered and when no step finds the
target. -/
def FindPathTraceHit (E : Engine) (mm : MapManager) (map : Map) (pfd : PathFindData)
    (path : List PathStep) : Option Nat :=
  if pfd.Trace ≠ 0 then
    match pfd.TraceCr.bind mm.Critters with
    | none => none
    | some targ =>
      FindPathTraceBands E (FindPathTraceSeq E map (List.replicate (path.length + 4) 0) 0 path)
        targ.HexX targ.HexY pfd.Trace path
        { NewTraceData map with EndHx := targ.HexX, EndHy := targ.HexY, FindCr := pfd.TraceCr }
        [0, 1, 2, 3, 4]
  else none

/-- A map of one row of ten hexes: the hex `(3, 0)` is not passable and holds a gag item,
the hex `(6, 0)` holds the critter 1006. -/
def sampleDoorRow : Map := sampleMap 10 1 [((3, 0), 0x8001), ((6, 0), 0x0100)] [1006]

/-- The manager of the map `sampleDoorRow`, in which the critter 1006 is registered. -/
def sampleDoorWorld : MapManager :=
  { sampleManager sampleDoorRow with
    Critters := fun id => if id = 1006 then some (sampleCritter 1 6 0) else none }

/-- A request on the map 1 from the hex `(0, 0)` to within one hex of `(6, 0)` that checks
gag items and traces the critter 1006 over the given distance. -/
def sampleDoorRequest (trace : Nat) : PathFindData :=
  { sampleRequest 0 0 6 0 1 with CheckGagItems := true, Trace := trace, TraceCr := some 1006 }

/-- The hex is reached from the start hex of the request by `n` moves, each to a neighbour
of the hex before that lies on the map and is free. -/
inductive Reach (E : Engine) (map : Map) (pfd : PathFindData) : Nat → UShortPair → Prop
  | start : Reach E map pfd 0 (pfd.FromX, pfd.FromY)
  | step (n : Nat) (a b : UShortPair) : Reach E map pfd n a → Neighbour E a b →
      b.1 < map.Width → b.2 < map.Height →
      FLAG (E.GetHexFlags map b.1 b.2) E.FH_NOWAY = false → Reach E map pfd (n + 1) b

/-- What the flood of a request without soft-obstacle options has settled about the order of
its work when the first `p` hexes of `coords` are handled: both queues are empty; the hexes
that are not handled stand in `coords` in the order of their indices; no index is more than
one above the index of the hex that is handled next; and the index of a hex is at most one
above the number of moves of any way that reaches it. -/
structure FloodBfs (E : Engine) (map : Map) (pfd : PathFindData) (f : Flood) (p : Nat) :
    Prop where
  no_gag : f.gag_coords = []
  no_cr : f.cr_coords = []
  sorted : List.Pairwise
    (fun a b : UShortPair => cellAt E pfd f.Grid a.1 a.2 ≤ cellAt E pfd f.Grid b.1 b.2)
    (f.coords.drop p)
  front : ∀ u : UShortPair, f.coords.get? p = some u → ∀ c ∈ f.coords,
    cellAt E pfd f.Grid c.1 c.2 ≤ cellAt E pfd f.Grid u.1 u.2 + 1
  upper : ∀ (n : Nat) (c : UShortPair), Reach E map pfd n c →
    (n : Int) + 1 ≤ E.FPATH_MAX_PATH → cellAt E pfd f.Grid c.1 c.2 ≠ 0 →
    cellAt E pfd f.Grid c.1 c.2 ≤ n + 1

/-- The hex reached from the hex `(hx, hy)` by `k` moves in the direction `dir`, without a
bounds check. -/
def MoveHexByDirTimes (E : Engine) (hx hy : Int) (dir : Nat) : Nat → Int × Int
  | 0 => (hx, hy)
  | k + 1 =>
    MoveHexByDirUnsafe E (MoveHexByDirTimes E hx hy dir k).1 (MoveHexByDirTimes E hx hy dir k).2
      dir

/-- The second coordinate of a hex in a system in which every move adds a vector that
depends on the direction only: on a hexagonal map twice the row less the parity of the
column, on a square map the row. -/
def hexLin (E : Engine) (x y : Int) : Int := if E.MapHexagonal then 2 * y - x % 2 else y

/-- The vector that a move in a direction adds to the column and to `hexLin`. -/
def dirDelta (E : Engine) (dir : Nat) : Int × Int :=
  if E.MapHexagonal then
    ([(-1, -1), (-1, 1), (0, 2), (1, 1), (1, -1), (0, -2)] : List (Int × Int)).getD dir (0, 0)
  else
    ([(-1, 0), (-1, 1), (0, 1), (1, 1), (1, 0), (1, -1), (0, -1), (-1, -1)] :
      List (Int × Int)).getD dir (0, 0)

/-- A weight on the column and on `hexLin` under which the move in the direction `dir` gains
the most. -/
def dirWeight (E : Engine) (dir : Nat) : Int × Int :=
  if E.MapHexagonal then
    ([(-2, -1), (-2, 1), (0, 1), (2, 1), (2, -1), (0, -1)] : List (Int × Int)).getD dir (0, 0)
  else dirDelta E dir

/-- The weighted position of a hex for the direction `dir`. -/
def dirPot (E : Engine) (dir : Nat) (x y : Int) : Int :=
  (dirWeight E dir).1 * x + (dirWeight E dir).2 * hexLin E x y

/-- What a move in the direction `dir` gains in `dirPot` for that direction. -/
def dirGain (E : Engine) (dir : Nat) : Int :=
  (dirWeight E dir).1 * (dirDelta E dir).1 + (dirWeight E dir).2 * (dirDelta E dir).2

/-- The direction is one in which no other move gains as much as the move in the direction
itself: every direction of a hexagonal map, the diagonals of a square map. -/
def dirStrict (E : Engine) (dir : Nat) : Prop := E.MapHexagonal = true ∨ dir % 2 = 1

/-- The hex with the integer coordinates `q` is a hex of the map that is reached by `n`
moves. -/
def ReachAt (E : Engine) (map : Map) (pfd : PathFindData) (n : Nat) (q : Int × Int) : Prop :=
  ∃ b : UShortPair, (b.1 : Int) = q.1 ∧ (b.2 : Int) = q.2 ∧ Reach E map pfd n b

/-- A world without maps where the critters 1, 2 and 3 travel on the global map in one
group, led by the critter 1. -/
def sampleTrioWorld : MapManager :=
  { Maps := fun _ => none,
    Locations := fun _ => none,
    Critters := fun id =>
      if id = 1 ∨ id = 2 ∨ id = 3 then some (sampleTraveller (some [1, 2, 3])) else none,
    pathNumCur := 0, pathesPool := fun _ => [], smooth_switcher := false }

/-! # Theorems -/

/-! ## Machine integers and geometry -/

theorem toShort_of_range (v : Int) (h1 : -32768 ≤ v) (h2 : v ≤ 32767) : toShort v = v := by
  unfold toShort; omega

theorem toUShort_of_range (v : Int) (h1 : 0 ≤ v) (h2 : v ≤ 65535) : toUShort v = v.toNat := by
  unfold toUShort; congr 1; omega

theorem DistGame_self (E : Engine) (x y : Int) : DistGame E x y x y = 0 := by
  unfold DistGame
  split
  · simp only []
    split <;> split <;> simp <;> omega
  · simp


/-! ## The checks of `FindPath` before the flood -/

/-- C1. On a registered map, for in-bounds hexes `from` and `to` with `from` within `cut` of
`to` and no trace requested, `FindPath` returns `FPATH_ALREADY_HERE` before the flood: the
state of the manager (the path-pool counter with it) and the request (`PathNum`, `NewToX`,
`NewToY`, `GagItem`, `GagCritter` with it) are returned as they were. -/
theorem FindPath_already_here (E : Engine) (mm : MapManager) (pfd : PathFindData) (map : Map)
    (hmap : GetMap mm pfd.MapId = some map)
    (hfx : pfd.FromX < map.Width) (hfy : pfd.FromY < map.Height)
    (htx : pfd.ToX < map.Width) (hty : pfd.ToY < map.Height)
    (htrace : pfd.Trace = 0)
    (hdist : CheckDist E pfd.FromX pfd.FromY pfd.ToX pfd.ToY pfd.Cut = true) :
    FindPath E mm pfd = some (FPATH_ALREADY_HERE, mm, pfd) := by
  unfold FindPath
  simp only [htrace, hmap]
  simp [hdist]
  omega


theorem GetHexOffsets_bound (E : Engine) (odd : Bool) (s : Int × Int)
    (h : s ∈ GetHexOffsets E odd) : -1 ≤ s.1 ∧ s.1 ≤ 1 ∧ -1 ≤ s.2 ∧ s.2 ≤ 1 := by
  unfold GetHexOffsets at h
  split at h
  · split at h <;> simp at h <;> rcases h with h | h | h | h | h | h <;> subst h <;> simp
  · simp at h
    rcases h with h | h | h | h | h | h | h | h <;> subst h <;> simp

theorem GetHexOffsets_take (E : Engine) (odd : Bool) :
    (GetHexOffsets E odd).take (DIRS_COUNT E) = GetHexOffsets E odd := by
  unfold GetHexOffsets DIRS_COUNT
  cases E.MapHexagonal <;> cases odd <;> simp

theorem FindPathRingBusy_iff (E : Engine) (map : Map) (to_hx to_hy : Nat)
    (hw : map.Width ≤ 32767) (hh : map.Height ≤ 32767)
    (htx : to_hx < map.Width) (hty : to_hy < map.Height) (offs : List (Int × Int))
    (hoffs : ∀ s ∈ offs, -1 ≤ s.1 ∧ s.1 ≤ 1 ∧ -1 ≤ s.2 ∧ s.2 ≤ 1) :
    FindPathRingBusy E map to_hx to_hy offs = true ↔ RingAllBusy E map to_hx to_hy offs := by
  induction offs with
  | nil => simp [FindPathRingBusy, RingAllBusy]
  | cons s rest ih =>
    have hs := hoffs s (List.mem_cons_self _ _)
    have ih1 := ih (fun t ht => hoffs t (List.mem_cons_of_mem _ ht))
    have e1 : toShort ((to_hx : Int) + s.1) = (to_hx : Int) + s.1 := by
      apply toShort_of_range <;> omega
    have e2 : toShort ((to_hy : Int) + s.2) = (to_hy : Int) + s.2 := by
      apply toShort_of_range <;> omega
    unfold FindPathRingBusy
    simp only [e1, e2]
    unfold RingAllBusy at ih1 ⊢
    simp only [List.mem_cons, forall_eq_or_imp]
    by_cases hin : (to_hx : Int) + s.1 ≥ 0 ∧ (to_hx : Int) + s.1 < map.Width ∧
        (to_hy : Int) + s.2 ≥ 0 ∧ (to_hy : Int) + s.2 < map.Height
    · rw [if_pos hin]
      obtain ⟨h1, h2, h3, h4⟩ := hin
      cases hg : FLAG (E.GetHexFlags map ((to_hx : Int) + s.1).toNat ((to_hy : Int) + s.2).toNat)
          (E.FH_GAG_ITEM <<< 8)
      · cases hn : FLAG (E.GetHexFlags map ((to_hx : Int) + s.1).toNat ((to_hy : Int) + s.2).toNat)
            E.FH_NOWAY
        · simp only [Bool.false_eq_true, if_false, Bool.not_false, if_true, false_iff]
          intro h
          exact (h.1 h1 h2 h3 h4).1
        · simp only [Bool.false_eq_true, if_false, Bool.not_true]
          rw [ih1]
          constructor
          · intro h; exact ⟨fun _ _ _ _ => ⟨trivial, trivial⟩, h⟩
          · intro h; exact h.2
      · simp only [if_true, Bool.false_eq_true, false_iff]
        intro h
        exact absurd (h.1 h1 h2 h3 h4).2 (by decide)
    · rw [if_neg hin, ih1]
      constructor
      · intro h; exact ⟨fun a b c d => absurd ⟨a, b, c, d⟩ hin, h⟩
      · intro h; exact h.2

theorem FindPathResult_code (E : Engine) (mm : MapManager) (is_run : Bool)
    (path : List PathStep) (pfd : PathFindData) :
    (FindPathResult E mm is_run path pfd).1 = FPATH_ALREADY_HERE ∨
    (FindPathResult E mm is_run path pfd).1 = FPATH_OK := by
  unfold FindPathResult
  simp only []
  split <;> simp

theorem FindPathFinish_code (E : Engine) (mm : MapManager) (map : Map) (pfd : PathFindData)
    (grid : GridBuf) (cx cy : Nat) (numindex : Int)
    (r : FPathCode × MapManager × PathFindData)
    (h : FindPathFinish E mm map pfd grid cx cy numindex = some r) :
    r.1 = FPATH_ERROR ∨ r.1 = FPATH_TRACE_FAIL ∨ r.1 = FPATH_ALREADY_HERE ∨ r.1 = FPATH_OK := by
  unfold FindPathFinish at h
  simp only [] at h
  split at h
  · injection h with h; subst h; simp
  · split at h
    · exact absurd h (by simp)
    · injection h with h; subst h; simp
    · injection h with h; subst h
      exact Or.inr (Or.inr (FindPathResult_code E _ pfd.IsRun _ _))

/-- The ring check on a map whose sides fit a `short`. For a request with `cut <= 1` and no
multihex that passes the earlier checks: when every in-bounds neighbour of the target hex is blocked
for movement and carries no gag item, `FindPath` returns `FPATH_HEX_BUSY_RING` with the
state and the request untouched (no flood, no pool slot); otherwise no result of the call
has that status. -/
theorem FindPath_ring_check (E : Engine) (mm : MapManager) (pfd : PathFindData) (map : Map)
    (hmap : GetMap mm pfd.MapId = some map)
    (hw : map.Width ≤ 32767) (hh : map.Height ≤ 32767)
    (htrace : pfd.Trace = 0 ∨ pfd.TraceCr.isSome = true)
    (hfx : pfd.FromX < map.Width) (hfy : pfd.FromY < map.Height)
    (htx : pfd.ToX < map.Width) (hty : pfd.ToY < map.Height)
    (hdist : CheckDist E pfd.FromX pfd.FromY pfd.ToX pfd.ToY pfd.Cut = false)
    (hbusy : pfd.Cut = 0 → FLAG (E.GetHexFlags map pfd.ToX pfd.ToY) E.FH_NOWAY = false)
    (hcut : pfd.Cut ≤ 1) (hmulti : pfd.Multihex = 0) :
    (RingAllBusy E map pfd.ToX pfd.ToY (GetHexOffsets E (pfd.ToX % 2 != 0)) →
      FindPath E mm pfd = some (FPATH_HEX_BUSY_RING, mm, pfd)) ∧
    (¬ RingAllBusy E map pfd.ToX pfd.ToY (GetHexOffsets E (pfd.ToX % 2 != 0)) →
      ∀ r, FindPath E mm pfd = some r → r.1 ≠ FPATH_HEX_BUSY_RING) := by
  have hring := FindPathRingBusy_iff E map pfd.ToX pfd.ToY hw hh htx hty
    (GetHexOffsets E (pfd.ToX % 2 != 0)) (fun s hs => GetHexOffsets_bound E _ s hs)
  have h1 : ¬ (pfd.Trace ≠ 0 ∧ pfd.TraceCr.isNone = true) := by
    rcases htrace with h | h
    · simp [h]
    · cases hc : pfd.TraceCr <;> simp [hc] at h ⊢
  have h2 : ¬ (pfd.FromX ≥ map.Width ∨ pfd.FromY ≥ map.Height ∨ pfd.ToX ≥ map.Width ∨
      pfd.ToY ≥ map.Height) := by omega
  have h3 : ¬ (pfd.Cut = 0 ∧ FLAG (E.GetHexFlags map pfd.ToX pfd.ToY) E.FH_NOWAY = true) := by
    intro ⟨a, b⟩; rw [hbusy a] at b; exact absurd b (by decide)
  constructor
  · intro hall
    unfold FindPath
    rw [if_neg h1, hmap]
    simp only []
    rw [if_neg h2, hdist]
    simp only [Bool.false_eq_true, if_false]
    rw [if_neg h3, GetHexOffsets_take, if_pos ⟨hcut, hmulti, hring.mpr hall⟩]
  · intro hall r hr
    unfold FindPath at hr
    rw [if_neg h1, hmap] at hr
    simp only [] at hr
    rw [if_neg h2, hdist] at hr
    simp only [Bool.false_eq_true, if_false] at hr
    rw [if_neg h3, GetHexOffsets_take, if_neg (fun h => hall (hring.mp h.2.2))] at hr
    split at hr
    · exact absurd hr (by simp)
    · injection hr with hr; subst hr; simp
    · injection hr with hr; subst hr; simp
    · rcases FindPathFinish_code E mm map pfd _ _ _ _ r hr with h | h | h | h <;> simp [h]

/-! ## `TraceBullet` on an empty line -/

/-- C8 (amended). For a trace request with `Dist = 0` whose begin hex is its end hex, after
`TraceBullet` the flag `IsFullTrace` is set, no critter and no teammate is found and the
list `Critters` is as it was. -/
theorem TraceBullet_same_hex (E : Engine) (trace : TraceData)
    (hdist : trace.Dist = 0)
    (hx : trace.BeginHx = trace.EndHx) (hy : trace.BeginHy = trace.EndHy) :
    (TraceBullet E trace).IsFullTrace = true ∧
    (TraceBullet E trace).IsCritterFounded = false ∧
    (TraceBullet E trace).IsTeammateFounded = false ∧
    (TraceBullet E trace).Critters = trace.Critters := by
  unfold TraceBullet
  simp only [hdist, if_true, hx, hy, DistGame_self, TraceBulletLoop]
  split <;> split <;> simp

theorem TraceBullet_same_hex_witness :
    (TraceBullet (sampleEngine false false 400) (sampleTrace (sampleMap 10 10 [((1, 0), 2)] []) 2 2 2 2 0)).IsFullTrace = true ∧
    (TraceBullet (sampleEngine false false 400) (sampleTrace (sampleMap 10 10 [((1, 0), 2)] []) 2 2 2 2 0)).IsCritterFounded = false ∧
    (TraceBullet (sampleEngine false false 400) (sampleTrace (sampleMap 10 10 [((1, 0), 2)] []) 2 2 2 2 0)).IsTeammateFounded = false ∧
    (TraceBullet (sampleEngine false false 400) (sampleTrace (sampleMap 10 10 [((1, 0), 2)] []) 2 2 2 2 0)).Critters = none :=
  TraceBullet_same_hex _ _ rfl rfl rfl

/-- C8 fails as stated. With `Dist = 0` and an end hex three hexes from the begin hex, the
trace walks the line and stops on the hex `(1, 0)` that blocks shooting; with begin hex equal
to end hex and `Dist = 1`, the trace examines one hex and stops on it when it blocks
shooting. In both cases `IsFullTrace` is false. -/
theorem TraceBullet_zero_dist_blocked :
    (TraceBullet (sampleEngine false false 400)
      (sampleTrace (sampleMap 10 10 [((1, 0), 2)] []) 0 0 3 0 0)).IsFullTrace = false ∧
    (TraceBullet (sampleEngine false false 400)
      (sampleTrace (sampleMap 10 10 [((2, 2), 2)] []) 2 2 2 2 1)).IsFullTrace = false := by
  decide!


/-! ## Stepping forth and back on a hexagonal map -/

theorem GetHexOffsets_hex (E : Engine) (hhex : E.MapHexagonal = true) (odd : Bool) :
    GetHexOffsets E odd =
      if odd then [(-1, -1), (-1, 0), (0, 1), (1, 0), (1, -1), (0, -1)]
      else [(-1, 0), (-1, 1), (0, 1), (1, 1), (1, 0), (0, -1)] := by
  simp [GetHexOffsets, hhex]

theorem parity_add (hx d : Int) : ((hx + d) % 2 != 0) = xor (hx % 2 != 0) (d % 2 != 0) := by
  rcases Int.emod_two_eq_zero_or_one hx with h | h <;>
  rcases Int.emod_two_eq_zero_or_one d with h' | h' <;>
  · have : (hx + d) % 2 = 0 ∨ (hx + d) % 2 = 1 := Int.emod_two_eq_zero_or_one _
    rcases this with h'' | h'' <;> simp [h, h', h''] <;> omega

theorem hex_reverse_table (odd : Bool) (d : Nat) (hd : d < 6) :
    ∀ s, (if odd then [((-1 : Int), (-1 : Int)), (-1, 0), (0, 1), (1, 0), (1, -1), (0, -1)]
      else [(-1, 0), (-1, 1), (0, 1), (1, 1), (1, 0), (0, -1)]).get? d = some s →
    (if xor odd (s.1 % 2 != 0) then [((-1 : Int), (-1 : Int)), (-1, 0), (0, 1), (1, 0), (1, -1), (0, -1)]
      else [(-1, 0), (-1, 1), (0, 1), (1, 1), (1, 0), (0, -1)]).get? ((d + 3) % 6) =
      some (-s.1, -s.2) := by
  intro s hs
  cases odd <;> interval_cases d <;> simp at hs <;> subst hs <;> decide

theorem MoveHexByDirUnsafe_reverse (E : Engine) (hx hy : Int) (dir : Nat)
    (hhex : E.MapHexagonal = true) (hdir : dir < 6) :
    MoveHexByDirUnsafe E (MoveHexByDirUnsafe E hx hy dir).1 (MoveHexByDirUnsafe E hx hy dir).2
      (ReverseDir E dir) = (hx, hy) := by
  have hrev : ReverseDir E dir = (dir + 3) % 6 := by simp [ReverseDir, DIRS_COUNT, hhex]
  rw [hrev]
  have hlen : dir < (GetHexOffsets E (hx % 2 != 0)).length := by
    rw [GetHexOffsets_hex E hhex]; split <;> simpa using hdir
  obtain ⟨s, hs⟩ : ∃ s, (GetHexOffsets E (hx % 2 != 0)).get? dir = some s :=
    ⟨_, List.get?_eq_get hlen⟩
  have h1 : MoveHexByDirUnsafe E hx hy dir = (hx + s.1, hy + s.2) := by
    unfold MoveHexByDirUnsafe; rw [hs]
  rw [h1]
  have hs2 := hs
  rw [GetHexOffsets_hex E hhex] at hs2
  have h2 := hex_reverse_table _ dir hdir s hs2
  unfold MoveHexByDirUnsafe
  simp only []
  rw [parity_add, GetHexOffsets_hex E hhex, h2]
  simp

theorem MoveHexByDir_round_trip (E : Engine) (hx hy dir maxhx maxhy : Nat)
    (hhex : E.MapHexagonal = true) (hdir : dir < 6)
    (hin : hx < maxhx ∧ hy < maxhy)
    (hmove : (MoveHexByDir E hx hy dir maxhx maxhy).2 = true) :
    MoveHexByDir E (MoveHexByDir E hx hy dir maxhx maxhy).1.1
      (MoveHexByDir E hx hy dir maxhx maxhy).1.2 (ReverseDir E dir) maxhx maxhy = ((hx, hy), true) := by
  have hr := MoveHexByDirUnsafe_reverse E hx hy dir hhex hdir
  unfold MoveHexByDir at hmove ⊢
  simp only [] at hmove ⊢
  by_cases hc : 0 ≤ (MoveHexByDirUnsafe E hx hy dir).1 ∧ (MoveHexByDirUnsafe E hx hy dir).1 < maxhx ∧
      0 ≤ (MoveHexByDirUnsafe E hx hy dir).2 ∧ (MoveHexByDirUnsafe E hx hy dir).2 < maxhy
  · rw [if_pos hc]
    simp only []
    rw [Int.toNat_of_nonneg hc.1, Int.toNat_of_nonneg hc.2.2.1, hr]
    simp
    omega
  · rw [if_neg hc] at hmove
    exact absurd hmove (by simp)

/-- C9 fails as stated. On a hexagonal map of ten by ten hexes the step from the border hex
`(0, 0)` in direction 0 leaves the map, so the hex stays; the step in the reverse direction
then moves it to `(1, 1)`. -/
theorem Map_MoveHexByDir_round_trip_fails :
    Map_MoveHexByDir (sampleEngine true false 400) (sampleMap 10 10 [] [])
      (Map_MoveHexByDir (sampleEngine true false 400) (sampleMap 10 10 [] []) 0 0 0 1).1
      (Map_MoveHexByDir (sampleEngine true false 400) (sampleMap 10 10 [] []) 0 0 0 1).2
      (ReverseDir (sampleEngine true false 400) 0) 1 = (1, 1) := by decide!

/-! ## Critter transfer -/

theorem EraseCrFromGroups_frame (cr : Nat) (n : Nat) :
    ∀ (i : Nat) (cells : List Nat) (mm mm' : MapManager),
      EraseCrFromGroups cr n i cells mm = some mm' →
      mm'.Maps = mm.Maps ∧ mm'.Locations = mm.Locations ∧
      ∀ k, (mm'.Critters k).map Critter.noGroup = (mm.Critters k).map Critter.noGroup := by
  induction n with
  | zero =>
    intro i cells mm mm' h
    simp [EraseCrFromGroups] at h
    subst h; simp
  | succ n ih =>
    intro i cells mm mm' h
    unfold EraseCrFromGroups at h
    split at h
    · exact absurd h (by simp)
    · split at h
      · exact absurd h (by simp)
      · split at h
        · exact absurd h (by simp)
        · split at h
          · exact absurd h (by simp)
          · obtain ⟨h1, h2, h3⟩ := ih _ _ _ _ h
            refine ⟨by rw [h1]; rfl, by rw [h2]; rfl, ?_⟩
            intro k
            rw [h3 k]
            simp only [setCritter]
            split
            · rename_i hk
              subst hk
              have hc : mm.Critters _ = some _ := ‹mm.Critters _ = some _›
              rw [hc]
              simp [Critter.noGroup]
            · rfl

/-- The shapes of a completed call of `Transit`: nothing changed; or the critter moved on
its map; or it was taken from its old map (or from the global map) and added to another
map. -/
theorem Transit_cases (E : Engine) (mm : MapManager) (cr : Nat) (map : Option Nat)
    (hx hy dir radius rule_id : Nat) (force : Bool) (b : Bool) (mm' : MapManager) (c : Critter)
    (hc : mm.Critters cr = some c)
    (h : Transit E mm cr map hx hy dir radius rule_id force = some (b, mm')) :
    mm' = mm ∨
    (∃ mid m hex, map = some mid ∧ mm.Maps mid = some m ∧ c.MapId = mid ∧ mid ≠ 0 ∧
      mm' = TransitOneMap E mm cr c mid m hex dir) ∨
    (∃ mid m hex, map = some mid ∧ mm.Maps mid = some m ∧ c.MapId ≠ mid ∧
      TransitDifferentMaps E mm cr c (some mid) hex dir rule_id = some mm') := by
  unfold Transit at h
  rw [hc] at h
  cases map with
  | none =>
    simp only [Option.bind_none, Option.map_none', Option.getD_none, Bool.false_eq_true,
      if_false] at h
    repeat' split at h
    all_goals first
      | (injection h with h; injection h with h1 h2; exact Or.inl h2.symm)
      | (cases h; done)
  | some mid =>
    cases hm : mm.Maps mid with
    | none => simp only [hm, Option.map_none'] at h; cases h
    | some m =>
      simp only [hm, Option.map_some', Option.bind_some, Option.getD_some] at h
      repeat' split at h
      all_goals first
        | (injection h with h; injection h with h1 h2; exact Or.inl h2.symm)
        | (cases h; done)
        | skip
      · rename_i hmid hne _ _ hex _
        injection h with h; injection h with h1 h2
        exact Or.inr (Or.inl ⟨mid, m, hex, rfl, hm, hmid, hne, h2.symm⟩)
      · rename_i hmid _ hex _ _ _
        cases ht : TransitDifferentMaps E mm cr c (some mid) hex dir rule_id with
        | none => rw [ht] at h; cases h
        | some r =>
          rw [ht] at h
          injection h with h; injection h with h1 h2
          exact Or.inr (Or.inr ⟨mid, m, hex, rfl, hm, hmid, by rw [← h2, ht]⟩)

theorem EraseCrFromMap_global (E : Engine) (mm mm' : MapManager) (cr : Nat) (c : Critter)
    (hc : mm.Critters cr = some c)
    (h : EraseCrFromMap E mm cr none = some mm') :
    mm'.Maps = mm.Maps ∧ ∃ c', mm'.Critters cr = some c' ∧ c'.MapId = c.MapId ∧
      c'.GlobalMapGroup = none := by
  unfold EraseCrFromMap at h
  rw [hc] at h
  simp only [] at h
  split at h
  · cases h
  · split at h
    · cases h
    · rename_i mm1 hmm1
      obtain ⟨f1, f2, f3⟩ := EraseCrFromGroups_frame cr _ _ _ _ _ hmm1
      split at h
      · cases h
      · rename_i c1 hc1
        injection h with h
        subst h
        refine ⟨by show mm1.Maps = mm.Maps; rw [f1]; rfl, _, if_pos rfl, ?_, rfl⟩
        have := f3 cr
        rw [hc1] at this
        simp only [setCritter, if_true, Option.map_some', Option.some.injEq] at this
        show c1.MapId = c.MapId
        have h2 := congrArg Critter.MapId this
        simpa [Critter.noGroup] using h2

theorem EraseCrFromMap_local (E : Engine) (mm mm' : MapManager) (cr mid : Nat) (c : Critter)
    (m : Map) (hc : mm.Critters cr = some c) (hm : mm.Maps mid = some m)
    (h : EraseCrFromMap E mm cr (some mid) = some mm') :
    (∃ m', m'.MapCritters = m.MapCritters.erase cr ∧
      mm'.Maps = fun k => if k = mid then some m' else mm.Maps k) ∧
    ∃ c', mm'.Critters cr = some c' ∧ c'.MapId = 0 ∧ c'.GlobalMapGroup = c.GlobalMapGroup := by
  unfold EraseCrFromMap at h
  rw [hc] at h
  simp only [hm] at h
  injection h with h
  subst h
  exact ⟨⟨_, rfl, rfl⟩, _, if_pos rfl, rfl, rfl⟩

theorem AddCrToMap_local (E : Engine) (mm mm' : MapManager) (cr mid hx hy dir rule_id : Nat)
    (c : Critter) (m : Map) (hc : mm.Critters cr = some c) (hm : mm.Maps mid = some m)
    (h : AddCrToMap E mm cr (some mid) hx hy dir rule_id = some mm') :
    mm'.Maps = (fun k => if k = mid then some (m.AddCritter cr) else mm.Maps k) ∧
    ∃ c', mm'.Critters cr = some c' ∧ c'.MapId = mid ∧ c'.GlobalMapGroup = c.GlobalMapGroup := by
  unfold AddCrToMap at h
  rw [hc] at h
  simp only [hm] at h
  split at h
  · cases h
  · injection h with h
    subst h
    exact ⟨rfl, _, if_pos rfl, rfl, rfl⟩

theorem TransitOneMap_spec (E : Engine) (mm : MapManager) (cr : Nat) (c : Critter) (mid : Nat)
    (m : Map) (hex : UShortPair) (dir : Nat) :
    (∀ k, k ≠ mid → (TransitOneMap E mm cr c mid m hex dir).Maps k = mm.Maps k) ∧
    (∃ m', (TransitOneMap E mm cr c mid m hex dir).Maps mid = some m' ∧
      m'.MapCritters = m.MapCritters) ∧
    ∃ c', (TransitOneMap E mm cr c mid m hex dir).Critters cr = some c' ∧ c'.MapId = c.MapId ∧
      c'.GlobalMapGroup = c.GlobalMapGroup := by
  refine ⟨?_, ⟨_, if_pos rfl, rfl⟩, _, if_pos rfl, rfl, rfl⟩
  intro k hk
  unfold TransitOneMap
  simp [setCritter, setMap, hk]

theorem TransitDifferentMaps_spec (E : Engine) (mm mm' : MapManager) (cr : Nat) (c : Critter)
    (mid : Nat) (m : Map) (hex : UShortPair) (dir rule_id : Nat)
    (hp : CritterPlaced mm cr) (hc : mm.Critters cr = some c) (hm : mm.Maps mid = some m)
    (hne : c.MapId ≠ mid)
    (h : TransitDifferentMaps E mm cr c (some mid) hex dir rule_id = some mm') :
    (∃ c', mm'.Critters cr = some c' ∧ c'.MapId = mid ∧ c'.GlobalMapGroup = none) ∧
    (mm'.Maps mid = some (m.AddCritter cr)) ∧
    (∀ k, k ≠ mid → (k = c.MapId → c.MapId = 0) → mm'.Maps k = mm.Maps k) ∧
    (c.MapId ≠ 0 → ∃ mo mo', mm.Maps c.MapId = some mo ∧ mm'.Maps c.MapId = some mo' ∧
      mo'.MapCritters = mo.MapCritters.erase cr) := by
  obtain ⟨h0, hnd, c0, hc0, hidx, hex0, hgrp⟩ := hp
  rw [hc] at hc0; injection hc0 with hc0; subst hc0
  unfold TransitDifferentMaps at h
  simp only [GetMap] at h
  by_cases hz : c.MapId = 0
  · -- from the global map
    simp only [if_pos hz] at h
    simp only [hz, true_or, if_true, Option.isSome_none, Bool.false_eq_true, if_false] at h
    split at h
    · cases h
    · rename_i mm2 he
      obtain ⟨e1, c2, e2, e3, e4⟩ := EraseCrFromMap_global E _ _ cr _ (if_pos rfl) he
      rw [e2] at h
      simp only [] at h
      split at h
      · cases h
      · rename_i mm4 ha
        have hm3 : (setCritter mm2 cr { c2 with
            LastMapHexX := c2.HexX, LastMapHexY := c2.HexY, BreakTime := 0 }).Maps mid = some m := by
          show mm2.Maps mid = some m
          rw [e1]; exact hm
        obtain ⟨a1, c4, a2, a3, a4⟩ := AddCrToMap_local E _ _ cr mid _ _ _ _ _ m (if_pos rfl) hm3 ha
        rw [a2] at h
        simp only [] at h
        injection h with h
        subst h
        refine ⟨⟨_, if_pos rfl, a3, ?_⟩, ?_, ?_, fun hne0 => absurd hz hne0⟩
        · show c4.GlobalMapGroup = none
          rw [a4]; exact e4
        · show mm4.Maps mid = _
          rw [a1]; simp
        · intro k hk _
          show mm4.Maps k = _
          rw [a1]; simp only [hk, if_false]
          show mm2.Maps k = _
          rw [e1]; rfl
  · -- from a local map
    have hsome := hex0 hz
    obtain ⟨mo, hmo⟩ := Option.isSome_iff_exists.mp hsome
    have hg : c.GlobalMapGroup = none := by
      cases hgc : c.GlobalMapGroup with
      | none => rfl
      | some g => exact absurd (hgrp.mp (by simp [hgc])) hz
    simp only [if_neg hz, hmo, Option.isSome_some, or_true, if_true] at h
    split at h
    · cases h
    · rename_i mm2 he
      have hmo1 : (setCritter mm cr { c with LockMapTransfers := c.LockMapTransfers + 1 }).Maps
          c.MapId = some mo := hmo
      obtain ⟨⟨mo', e0, e1⟩, c2, e2, e3, e4⟩ :=
        EraseCrFromMap_local E _ _ cr c.MapId _ mo (if_pos rfl) hmo1 he
      rw [e2] at h
      simp only [] at h
      split at h
      · cases h
      · rename_i mm4 ha
        have hm3 : (setCritter mm2 cr { c2 with
            LastMapHexX := c2.HexX, LastMapHexY := c2.HexY, BreakTime := 0 }).Maps mid = some m := by
          show mm2.Maps mid = some m
          rw [e1]; simp only [Ne.symm hne, if_false]; exact hm
        obtain ⟨a1, c4, a2, a3, a4⟩ := AddCrToMap_local E _ _ cr mid _ _ _ _ _ m (if_pos rfl) hm3 ha
        rw [a2] at h
        simp only [] at h
        injection h with h
        subst h
        refine ⟨⟨_, if_pos rfl, a3, ?_⟩, ?_, ?_, fun _ => ⟨mo, mo', hmo, ?_, e0⟩⟩
        · show c4.GlobalMapGroup = none
          rw [a4]; show c2.GlobalMapGroup = none
          rw [e4]; exact hg
        · show mm4.Maps mid = _
          rw [a1]; simp
        · intro k hk hk2
          have hk3 : k ≠ c.MapId := fun hk4 => hz (hk2 hk4)
          show mm4.Maps k = _
          rw [a1]; simp only [hk, if_false]
          show mm2.Maps k = _
          rw [e1]; simp only [hk3, if_false]; rfl
        · show mm4.Maps c.MapId = _
          rw [a1]; simp only [hne, if_false]
          show mm2.Maps c.MapId = _
          rw [e1]; simp

theorem Map.mem_AddCritter (m : Map) (cr : Nat) : cr ∈ (m.AddCritter cr).MapCritters := by
  unfold Map.AddCritter
  split
  · assumption
  · simp

theorem Map.nodup_AddCritter (m : Map) (cr : Nat) (h : m.MapCritters.Nodup) :
    (m.AddCritter cr).MapCritters.Nodup := by
  unfold Map.AddCritter
  split
  · exact h
  · rename_i hn
    apply List.Nodup.append h (List.nodup_singleton cr)
    intro x hx hx2
    rw [List.mem_singleton] at hx2
    subst hx2
    exact hn hx

/-- C10. After a completed call of `Transit`, whatever it returned and whatever the
destination, a critter that was placed consistently is placed consistently: it is in the
critter index of the map whose id is its map id and in no other index, and it holds a
global-map group exactly when its map id is 0. -/
theorem Transit_keeps_placed (E : Engine) (mm : MapManager) (cr : Nat) (map : Option Nat)
    (hx hy dir radius rule_id : Nat) (force : Bool) (b : Bool) (mm' : MapManager)
    (hp : CritterPlaced mm cr)
    (h : Transit E mm cr map hx hy dir radius rule_id force = some (b, mm')) :
    CritterPlaced mm' cr := by
  have hp0 := hp
  obtain ⟨h0, hnd, c, hc, hidx, hex0, hgrp⟩ := hp
  rcases Transit_cases E mm cr map hx hy dir radius rule_id force b mm' c hc h with
    h1 | ⟨mid, m, hex, _, hm, hmid, hne, h1⟩ | ⟨mid, m, hex, _, hm, hne, h1⟩
  · rw [h1]; exact hp0
  · obtain ⟨s1, ⟨m', s2, s3⟩, c', s4, s5, s6⟩ := TransitOneMap_spec E mm cr c mid m hex dir
    rw [← h1] at s1 s2 s4
    have hmaps : ∀ id mx, mm'.Maps id = some mx →
        ∃ my, mm.Maps id = some my ∧ mx.MapCritters = my.MapCritters := by
      intro id mx hmx
      by_cases hid : id = mid
      · subst hid
        rw [s2] at hmx; injection hmx with hmx; subst hmx
        exact ⟨m, hm, s3⟩
      · rw [s1 id hid] at hmx
        exact ⟨mx, hmx, rfl⟩
    refine ⟨?_, ?_, c', s4, ?_, ?_, ?_⟩
    · rw [s1 0 (Ne.symm hne)]; exact h0
    · intro id mx hmx
      obtain ⟨my, h2, h3⟩ := hmaps id mx hmx
      rw [h3]; exact hnd id my h2
    · intro id mx hmx
      obtain ⟨my, h2, h3⟩ := hmaps id mx hmx
      rw [h3, s5]; exact hidx id my h2
    · intro _
      rw [s5, hmid, s2]; rfl
    · rw [s5, s6]; exact hgrp
  · obtain ⟨⟨c', t1, t2, t3⟩, t4, t5, t6⟩ :=
      TransitDifferentMaps_spec E mm mm' cr c mid m hex dir rule_id hp0 hc hm hne h1
    have hmid0 : mid ≠ 0 := by
      intro h; rw [h, h0] at hm; cases hm
    have hnotin : cr ∉ m.MapCritters := by
      intro hin
      exact hne ((hidx mid m hm).mp hin).symm
    -- the maps other than the destination and the old map of the critter are unchanged
    have hother : ∀ id mx, mm'.Maps id = some mx → id ≠ mid →
        (mm.Maps id = some mx ∧ (id = c.MapId → c.MapId = 0)) ∨
        (id = c.MapId ∧ c.MapId ≠ 0 ∧ ∃ mo, mm.Maps id = some mo ∧
          mx.MapCritters = mo.MapCritters.erase cr) := by
      intro id mx hmx hid
      by_cases hid2 : id = c.MapId → c.MapId = 0
      · rw [t5 id hid hid2] at hmx
        exact Or.inl ⟨hmx, hid2⟩
      · have hid3 : id = c.MapId := by
          by_contra hcon; exact hid2 (fun h => absurd h hcon)
        have hz : c.MapId ≠ 0 := fun hz => hid2 (fun _ => hz)
        obtain ⟨mo, mo', q1, q2, q3⟩ := t6 hz
        rw [hid3, q2] at hmx; injection hmx with hmx; subst hmx
        exact Or.inr ⟨hid3, hz, mo, by rw [hid3]; exact q1, q3⟩
    refine ⟨?_, ?_, c', t1, ?_, ?_, ?_⟩
    · cases hz : mm'.Maps 0 with
      | none => rfl
      | some mx =>
        rcases hother 0 mx hz (Ne.symm hmid0) with ⟨q1, _⟩ | ⟨q1, q2, _⟩
        · rw [h0] at q1; cases q1
        · exact absurd q1.symm q2
    · intro id mx hmx
      by_cases hid : id = mid
      · subst hid
        rw [t4] at hmx; injection hmx with hmx; subst hmx
        exact Map.nodup_AddCritter m cr (hnd _ m hm)
      · rcases hother id mx hmx hid with ⟨q1, _⟩ | ⟨_, _, mo, q1, q2⟩
        · exact hnd id mx q1
        · rw [q2]; exact (hnd id mo q1).erase cr
    · intro id mx hmx
      rw [t2]
      by_cases hid : id = mid
      · subst hid
        rw [t4] at hmx; injection hmx with hmx; subst hmx
        simp [Map.mem_AddCritter]
      · simp only [hid, iff_false]
        rcases hother id mx hmx hid with ⟨q1, q2⟩ | ⟨_, _, mo, q1, q2⟩
        · intro hin
          have h3 := (hidx id mx q1).mp hin
          have h4 := q2 h3
          rw [h3, h4, h0] at q1; cases q1
        · rw [q2]
          exact fun hin => ((List.Nodup.mem_erase_iff (hnd _ mo q1)).mp hin).1 rfl
    · intro _
      rw [t2, t4]; rfl
    · rw [t2, t3]; simp [hmid0]

theorem sampleWorld_placed : CritterPlaced sampleWorld 5 := by
  refine ⟨rfl, ?_, sampleCritter 1 3 3, rfl, ?_, ?_, ?_⟩
  · intro id m hm
    simp only [sampleWorld] at hm
    split at hm
    · injection hm with hm; subst hm; simp [sampleMap]
    · split at hm
      · injection hm with hm; subst hm; simp [sampleMap]
      · cases hm
  · intro id m hm
    simp only [sampleWorld] at hm
    split at hm
    · rename_i h; injection hm with hm; subst hm; simp [sampleMap, sampleCritter, h]
    · rename_i h
      split at hm
      · injection hm with hm; subst hm; simp [sampleMap, sampleCritter, h]
      · cases hm
  · intro _; rfl
  · simp [sampleCritter]

/-! ## Witnesses of the first checks -/

theorem FindPath_already_here_witness :
    FindPath (sampleEngine false false 400) (sampleManager (sampleMap 10 10 [] []))
        (sampleRequest 3 3 4 4 1) =
      some (FPATH_ALREADY_HERE, sampleManager (sampleMap 10 10 [] []), sampleRequest 3 3 4 4 1) :=
  FindPath_already_here _ _ _ (sampleMap 10 10 [] []) rfl (by decide) (by decide) (by decide)
    (by decide) rfl (by decide)

theorem sampleRingMap_busy :
    RingAllBusy (sampleEngine false false 400) sampleRingMap 5 5
      (GetHexOffsets (sampleEngine false false 400) ((5 : Nat) % 2 != 0)) := by
  intro s hs
  simp [GetHexOffsets, sampleEngine] at hs
  rcases hs with h | h | h | h | h | h | h | h <;> subst h <;> intros <;> decide

theorem FindPath_ring_check_witness :
    FindPath (sampleEngine false false 400) (sampleManager sampleRingMap) (sampleRequest 0 0 5 5 0) =
      some (FPATH_HEX_BUSY_RING, sampleManager sampleRingMap, sampleRequest 0 0 5 5 0) :=
  (FindPath_ring_check (sampleEngine false false 400) (sampleManager sampleRingMap)
    (sampleRequest 0 0 5 5 0) sampleRingMap rfl (by decide) (by decide) (Or.inl rfl) (by decide)
    (by decide) (by decide) (by decide) (by decide) (fun _ => by decide) (by decide) rfl).1
    sampleRingMap_busy

/-- C9 (amended). On a hexagonal map, when the neighbour of an in-bounds hex in a direction
`0..5` lies inside the map, one step in that direction followed by one step in the reverse
direction returns to the hex. -/
theorem Map_MoveHexByDir_round_trip (E : Engine) (map : Map) (hx hy dir : Nat)
    (hhex : E.MapHexagonal = true) (hdir : dir < 6)
    (hin : hx < map.Width ∧ hy < map.Height)
    (hmove : (MoveHexByDir E hx hy dir map.Width map.Height).2 = true) :
    Map_MoveHexByDir E map (Map_MoveHexByDir E map hx hy dir 1).1
      (Map_MoveHexByDir E map hx hy dir 1).2 (ReverseDir E dir) 1 = (hx, hy) := by
  have hrev : ReverseDir E dir < 6 := by
    simp only [ReverseDir, DIRS_COUNT, hhex, if_true]; omega
  have h1 : ∀ x y d, d < 6 → Map_MoveHexByDir E map x y d 1 =
      (MoveHexByDir E x y d map.Width map.Height).1 := by
    intro x y d hd
    unfold Map_MoveHexByDir
    simp only [DIRS_COUNT, hhex, if_true]
    rw [if_neg (by omega), if_neg (by omega)]
    simp [List.range_succ]
  rw [h1 _ _ _ hdir, h1 _ _ _ hrev, MoveHexByDir_round_trip E hx hy dir _ _ hhex hdir hin hmove]

theorem Map_MoveHexByDir_round_trip_witness :
    Map_MoveHexByDir (sampleEngine true false 400) (sampleMap 10 10 [] [])
      (Map_MoveHexByDir (sampleEngine true false 400) (sampleMap 10 10 [] []) 3 3 0 1).1
      (Map_MoveHexByDir (sampleEngine true false 400) (sampleMap 10 10 [] []) 3 3 0 1).2
      (ReverseDir (sampleEngine true false 400) 0) 1 = (3, 3) :=
  Map_MoveHexByDir_round_trip (sampleEngine true false 400) (sampleMap 10 10 [] []) 3 3 0 rfl
    (by decide) (by decide) (by decide)

/-! ## Marks on grid cells and the flat index of the grid -/

theorem nat_or_two_pow (k i : Nat) (h : k < 2 ^ i) : k ||| 2 ^ i = 2 ^ i + k := by
  have := Nat.mul_add_lt_is_or h 1
  rw [Nat.mul_one] at this
  rw [this, Nat.or_comm]

theorem nat_xor_two_pow (a k i : Nat) (h : k < 2 ^ i) :
    (2 ^ i * a + k) ^^^ 2 ^ i = 2 ^ i * (a ^^^ 1) + k := by
  apply Nat.eq_of_testBit_eq
  intro j
  rw [Nat.testBit_xor, Nat.testBit_mul_pow_two_add a h j, Nat.testBit_mul_pow_two_add _ h j,
    Nat.testBit_two_pow]
  by_cases hj : j < i
  · have : ¬ (i = j) := by omega
    simp [hj, this]
  · simp only [hj, if_false, Nat.testBit_xor]
    congr 1
    by_cases hij : i = j
    · subst hij; simp
    · have : j - i ≠ 0 := by omega
      simp only [hij, decide_False]
      symm
      rw [Bool.eq_false_iff]
      intro hc
      exact this (Nat.testBit_one_eq_true_iff_self_eq_zero.mp hc)

/-- The mark `numindex | 0x4000` stored in a cell. -/
theorem toShort_intOr_gag (k : Int) (h1 : 0 ≤ k) (h2 : k < 16384) :
    toShort (intOr k 0x4000) = k + 16384 := by
  obtain ⟨n, rfl⟩ := Int.eq_ofNat_of_zero_le h1
  have hn : n < 2 ^ 14 := by norm_num; omega
  have e1 : toUInt (n : Int) = n := by unfold toUInt; omega
  have e2 : toUInt (0x4000 : Int) = 2 ^ 14 := by unfold toUInt; decide
  unfold intOr
  rw [e1, e2, nat_or_two_pow n 14 hn]
  unfold ofUInt toShort
  norm_num
  omega

theorem toShort_intOr_cr (k : Int) (h1 : 0 ≤ k) (h2 : k < 16384) :
    toShort (intOr k 0x8000) = k - 32768 := by
  obtain ⟨n, rfl⟩ := Int.eq_ofNat_of_zero_le h1
  have hn : n < 2 ^ 15 := by norm_num; omega
  have e1 : toUInt (n : Int) = n := by unfold toUInt; omega
  have e2 : toUInt (0x8000 : Int) = 2 ^ 15 := by unfold toUInt; decide
  unfold intOr
  rw [e1, e2, nat_or_two_pow n 15 hn]
  unfold ofUInt toShort
  norm_num
  omega

theorem toShort_intXor_gag (k : Int) (h1 : 0 ≤ k) (h2 : k < 16384) :
    toShort (intXor (k + 16384) 0x4000) = k := by
  obtain ⟨n, rfl⟩ := Int.eq_ofNat_of_zero_le h1
  have hn : n < 2 ^ 14 := by norm_num; omega
  have e1 : toUInt ((n : Int) + 16384) = 2 ^ 14 * 1 + n := by unfold toUInt; omega
  have e2 : toUInt (0x4000 : Int) = 2 ^ 14 := by unfold toUInt; decide
  unfold intXor
  rw [e1, e2, nat_xor_two_pow 1 n 14 hn]
  unfold ofUInt toShort
  norm_num
  omega

theorem toShort_intXor_cr (k : Int) (h1 : 0 ≤ k) (h2 : k < 16384) :
    toShort (intXor (k - 32768) 0x8000) = k := by
  obtain ⟨n, rfl⟩ := Int.eq_ofNat_of_zero_le h1
  have hn : n < 2 ^ 15 := by norm_num; omega
  have e1 : toUInt ((n : Int) - 32768) = 2 ^ 15 * 131071 + n := by unfold toUInt; omega
  have e2 : toUInt (0x8000 : Int) = 2 ^ 15 := by unfold toUInt; decide
  have e3 : (131071 : Nat) ^^^ 1 = 131070 := by decide
  unfold intXor
  rw [e1, e2, nat_xor_two_pow 131071 n 15 hn, e3]
  unfold ofUInt toShort
  norm_num
  omega

theorem GRID_inj (E : Engine) (ox oy x y x' y' : Int)
    (hx : ox - E.FPATH_MAX_PATH - 1 ≤ x ∧ x ≤ ox + E.FPATH_MAX_PATH)
    (hx' : ox - E.FPATH_MAX_PATH - 1 ≤ x' ∧ x' ≤ ox + E.FPATH_MAX_PATH)
    (h : GRID E ox oy x y = GRID E ox oy x' y') : x = x' ∧ y = y' := by
  unfold GRID at h
  have hW : (0 : Int) < (E.FPATH_MAX_PATH : Int) * 2 + 2 := by omega
  have key : ∀ (r a : Int), 0 ≤ a → a < (E.FPATH_MAX_PATH : Int) * 2 + 2 →
      (r * ((E.FPATH_MAX_PATH : Int) * 2 + 2) + a) % ((E.FPATH_MAX_PATH : Int) * 2 + 2) = a := by
    intro r a ha1 ha2
    rw [Int.add_comm, Int.add_mul_emod_self, Int.emod_eq_of_lt ha1 ha2]
  have h1 := congrArg (fun v => v % ((E.FPATH_MAX_PATH : Int) * 2 + 2)) h
  simp only [] at h1
  rw [key _ _ (by omega) (by omega), key _ _ (by omega) (by omega)] at h1
  have hxx : x = x' := by omega
  subst hxx
  have h2 : ((E.FPATH_MAX_PATH : Int) + 1 + y - oy) * ((E.FPATH_MAX_PATH : Int) * 2 + 2) =
      ((E.FPATH_MAX_PATH : Int) + 1 + y' - oy) * ((E.FPATH_MAX_PATH : Int) * 2 + 2) := by omega
  have h3 := Int.eq_of_mul_eq_mul_right (by omega) h2
  exact ⟨rfl, by omega⟩

/-! ## Neighbour offsets -/

/-- The offsets that `FindPathGrid` probes are the offsets of the neighbours of the hex. -/
theorem FindPathGridProbes_mem (E : Engine) (odd sw : Bool) :
    ∀ p ∈ FindPathGridProbes E odd sw, (p.1, p.2.1) ∈ GetHexOffsets E odd := by
  unfold FindPathGridProbes GetHexOffsets
  cases E.MapHexagonal <;> cases E.MapSmoothPath <;> cases odd <;> cases sw <;> decide

theorem FindPathGridProbes_complete (E : Engine) (odd sw : Bool) :
    ∀ s ∈ GetHexOffsets E odd, ∃ p ∈ FindPathGridProbes E odd sw, (p.1, p.2.1) = s := by
  unfold FindPathGridProbes GetHexOffsets
  cases E.MapHexagonal <;> cases E.MapSmoothPath <;> cases odd <;> cases sw <;> decide

theorem GetHexOffsets_symm_table (E : Engine) (odd : Bool) :
    ∀ s ∈ GetHexOffsets E odd, (-s.1, -s.2) ∈ GetHexOffsets E (xor odd (s.1 % 2 != 0)) := by
  unfold GetHexOffsets
  cases E.MapHexagonal <;> cases odd <;> decide

/-- The neighbour relation is symmetric: the hex is a neighbour of each of its neighbours. -/
theorem GetHexOffsets_symm (E : Engine) (x : Int) (s : Int × Int)
    (h : s ∈ GetHexOffsets E (x % 2 != 0)) :
    (-s.1, -s.2) ∈ GetHexOffsets E ((x + s.1) % 2 != 0) := by
  rw [parity_add]
  exact GetHexOffsets_symm_table E _ s h

theorem DistGame_neighbour (E : Engine) (x y : Int) :
    ∀ s ∈ GetHexOffsets E (x % 2 != 0), DistGame E x y (x + s.1) (y + s.2) = 1 := by
  unfold GetHexOffsets DistGame
  rcases Int.emod_two_eq_zero_or_one x with hx | hx <;>
  cases hh : E.MapHexagonal <;>
    simp only [hh, hx, List.forall_mem_cons, bne_self_eq_false, Bool.false_eq_true, if_false,
      if_true] <;> simp <;> omega

/-! ## The invariant of the flood -/

theorem Near_mono (pfd : PathFindData) (k k' x y : Int) (h : Near pfd k x y) (hk : k ≤ k') :
    Near pfd k' x y := by
  unfold Near at h ⊢; omega

theorem Near_step (pfd : PathFindData) (k x y : Int) (s : Int × Int)
    (h : Near pfd k x y) (hs : -1 ≤ s.1 ∧ s.1 ≤ 1 ∧ -1 ≤ s.2 ∧ s.2 ≤ 1) :
    Near pfd (k + 1) (x + s.1) (y + s.2) := by
  unfold Near at h ⊢; omega

theorem nat_parity_cast (x : Nat) : ((x % 2 != 0) : Bool) = (((x : Int) % 2 != 0) : Bool) := by
  rcases Nat.mod_two_eq_zero_or_one x with h | h
  · have : (x : Int) % 2 = 0 := by omega
    simp [h, this]
  · have : (x : Int) % 2 = 1 := by omega
    simp [h, this]

/-- Two hexes near the start hex share a cell only when they are the same hex. -/
theorem GRID_inj_near (E : Engine) (pfd : PathFindData) (x y x' y' : Int)
    (h1 : Near pfd E.FPATH_MAX_PATH x y) (h2 : Near pfd E.FPATH_MAX_PATH x' y')
    (h : GRID E pfd.FromX pfd.FromY x y = GRID E pfd.FromX pfd.FromY x' y') :
    x = x' ∧ y = y' := by
  unfold Near at h1 h2
  exact GRID_inj E _ _ x y x' y' (by omega) (by omega) h

theorem cellAt_gridSet_self (E : Engine) (pfd : PathFindData) (g : GridBuf) (x y v : Int) :
    cellAt E pfd (gridSet g (GRID E pfd.FromX pfd.FromY x y) v) x y = v := by
  simp [cellAt, gridSet]

/-- A store to a cell leaves the cells with another value than the one overwritten. -/
theorem cellAt_gridSet_of_ne (E : Engine) (pfd : PathFindData) (g : GridBuf) (q v : Int)
    (x y : Int) (h : cellAt E pfd g x y ≠ g q) :
    cellAt E pfd (gridSet g q v) x y = cellAt E pfd g x y := by
  unfold cellAt gridSet at *
  split
  · rename_i hq; rw [hq] at h; exact absurd rfl h
  · rfl

/-- A store of `v` to the cell of a hex near the start whose cell is `0`, seen from the
hexes near the start. -/
theorem cellAt_gridSet_near (E : Engine) (pfd : PathFindData) (g : GridBuf) (nx ny v x y : Int)
    (h1 : Near pfd E.FPATH_MAX_PATH nx ny) (h2 : Near pfd E.FPATH_MAX_PATH x y) :
    cellAt E pfd (gridSet g (GRID E pfd.FromX pfd.FromY nx ny) v) x y =
      if x = nx ∧ y = ny then v else cellAt E pfd g x y := by
  unfold cellAt gridSet
  by_cases hq : GRID E pfd.FromX pfd.FromY x y = GRID E pfd.FromX pfd.FromY nx ny
  · have := GRID_inj_near E pfd x y nx ny h2 h1 hq
    rw [if_pos hq, if_pos this]
  · rw [if_neg hq, if_neg]
    rintro ⟨rfl, rfl⟩
    exact hq rfl

/-- The effect on the invariant of a store to a cell that holds `0`, with or without a
push to one of the three vectors: the obligations that remain are those of the new hex. -/
theorem FloodInv_store (E : Engine) (map : Map) (pfd : PathFindData) (f f' : Flood)
    (ctx : FloodCtx E map pfd) (hinv : FloodInv E map pfd f)
    (nx ny : Nat) (v : Int) (hnx : nx < map.Width) (hny : ny < map.Height)
    (hnear : Near pfd ((E.FPATH_MAX_PATH : Int) - 1) nx ny)
    (hzero : cellAt E pfd f.Grid nx ny = 0)
    (hgrid : f'.Grid = gridSet f.Grid (GRID E pfd.FromX pfd.FromY nx ny) v)
    (hcoords : f'.coords = f.coords ∨ (f'.coords = f.coords ++ [(nx, ny)] ∧
      2 ≤ v ∧ v ≤ E.FPATH_MAX_PATH ∧ Near pfd (v - 1) nx ny))
    (hgag : f'.gag_coords = f.gag_coords ∨ (f'.gag_coords = f.gag_coords ++ [(nx, ny)] ∧
      ∃ k : Int, 2 ≤ k ∧ k ≤ E.FPATH_MAX_PATH ∧ v = k + 16384 ∧ Near pfd (k - 1) nx ny))
    (hcr : f'.cr_coords = f.cr_coords ∨ (f'.cr_coords = f.cr_coords ++ [(nx, ny)] ∧
      ∃ k : Int, 2 ≤ k ∧ k ≤ E.FPATH_MAX_PATH ∧ v = k - 32768 ∧ Near pfd (k - 1) nx ny))
    (hpar : ∀ k : Int, 2 ≤ k → k ≤ E.FPATH_MAX_PATH → Marked v k →
      Admitted E map pfd nx ny ∧
      ∃ s ∈ GetHexOffsets E (nx % 2 != 0), cellAt E pfd f.Grid (nx + s.1) (ny + s.2) = k - 1)
    (hv : v ≠ 1) :
    FloodInv E map pfd f' := by
  have hM := ctx.max_lt
  -- cells that are not `0` keep their value
  have keep : ∀ x y : Int, cellAt E pfd f.Grid x y ≠ 0 →
      cellAt E pfd f'.Grid x y = cellAt E pfd f.Grid x y := by
    intro x y hne
    rw [hgrid]
    apply cellAt_gridSet_of_ne
    unfold cellAt at hzero
    rw [hzero]; exact hne
  have hnew : cellAt E pfd f'.Grid nx ny = v := by
    rw [hgrid]; exact cellAt_gridSet_self E pfd f.Grid nx ny v
  have hnotin : ∀ (l : List UShortPair), (∀ c ∈ l, cellAt E pfd f.Grid c.1 c.2 ≠ 0) →
      (nx, ny) ∉ l := by
    intro l hl hmem
    exact hl _ hmem hzero
  have hcz : ∀ c ∈ f.coords, cellAt E pfd f.Grid c.1 c.2 ≠ 0 := by
    intro c hc; have := hinv.coords_ok c hc; omega
  have hgz : ∀ c ∈ f.gag_coords, cellAt E pfd f.Grid c.1 c.2 ≠ 0 := by
    intro c hc; obtain ⟨_, _, k, _, _, hk, _⟩ := hinv.gag_ok c hc; omega
  have hrz : ∀ c ∈ f.cr_coords, cellAt E pfd f.Grid c.1 c.2 ≠ 0 := by
    intro c hc; obtain ⟨_, _, k, _, _, hk, _⟩ := hinv.cr_ok c hc; omega
  constructor
  · -- coords_ok
    intro c hc
    rcases hcoords with h | ⟨h, hv1, hv2, hv3⟩
    · rw [h] at hc
      rw [keep _ _ (hcz c hc)]
      exact hinv.coords_ok c hc
    · rw [h, List.mem_append, List.mem_singleton] at hc
      rcases hc with hc | rfl
      · rw [keep _ _ (hcz c hc)]
        exact hinv.coords_ok c hc
      · simp only [hnew]
        exact ⟨hnx, hny, by omega, hv2, hv3⟩
  · -- gag_ok
    intro c hc
    rcases hgag with h | ⟨h, k, hk1, hk2, hk3, hk4⟩
    · rw [h] at hc
      rw [keep _ _ (hgz c hc)]
      exact hinv.gag_ok c hc
    · rw [h, List.mem_append, List.mem_singleton] at hc
      rcases hc with hc | rfl
      · rw [keep _ _ (hgz c hc)]
        exact hinv.gag_ok c hc
      · simp only [hnew]
        exact ⟨hnx, hny, k, hk1, hk2, hk3, hk4⟩
  · -- cr_ok
    intro c hc
    rcases hcr with h | ⟨h, k, hk1, hk2, hk3, hk4⟩
    · rw [h] at hc
      rw [keep _ _ (hrz c hc)]
      exact hinv.cr_ok c hc
    · rw [h, List.mem_append, List.mem_singleton] at hc
      rcases hc with hc | rfl
      · rw [keep _ _ (hrz c hc)]
        exact hinv.cr_ok c hc
      · simp only [hnew]
        exact ⟨hnx, hny, k, hk1, hk2, hk3, hk4⟩
  · -- gag_nodup
    rcases hgag with h | ⟨h, _⟩
    · rw [h]; exact hinv.gag_nodup
    · rw [h]
      apply List.Nodup.append hinv.gag_nodup (List.nodup_singleton _)
      intro c hc hc2
      rw [List.mem_singleton] at hc2; subst hc2
      exact hnotin _ hgz hc
  · -- cr_nodup
    rcases hcr with h | ⟨h, _⟩
    · rw [h]; exact hinv.cr_nodup
    · rw [h]
      apply List.Nodup.append hinv.cr_nodup (List.nodup_singleton _)
      intro c hc hc2
      rw [List.mem_singleton] at hc2; subst hc2
      exact hnotin _ hrz hc
  · -- support
    intro q hq
    rw [hgrid] at hq
    unfold gridSet at hq
    split at hq
    · rename_i hqq
      exact ⟨nx, ny, hnx, hny, hnear, hqq⟩
    · exact hinv.support q hq
  · -- parent
    intro x y hx hy hxy k hk1 hk2 hmark
    have hxyM : Near pfd E.FPATH_MAX_PATH x y := Near_mono pfd _ _ _ _ hxy (by omega)
    have hnM : Near pfd E.FPATH_MAX_PATH nx ny := Near_mono pfd _ _ _ _ hnear (by omega)
    have hcell := cellAt_gridSet_near E pfd f.Grid nx ny v x y hnM hxyM
    rw [← hgrid] at hcell
    by_cases hsame : (x : Int) = nx ∧ (y : Int) = ny
    · have hx' : x = nx := by omega
      have hy' : y = ny := by omega
      subst hx'; subst hy'
      rw [hnew] at hmark
      obtain ⟨ha, s, hs, hs2⟩ := hpar k hk1 hk2 hmark
      refine ⟨ha, s, hs, ?_⟩
      rw [keep _ _ (by rw [hs2]; omega)]
      exact hs2
    · rw [hcell, if_neg hsame] at hmark
      obtain ⟨ha, s, hs, hs2⟩ := hinv.parent x y hx hy hxy k hk1 hk2 hmark
      refine ⟨ha, s, hs, ?_⟩
      rw [keep _ _ (by rw [hs2]; omega)]
      exact hs2
  · -- one
    intro x y hx hy hxy hone
    have hxyM : Near pfd E.FPATH_MAX_PATH x y := Near_mono pfd _ _ _ _ hxy (by omega)
    have hnM : Near pfd E.FPATH_MAX_PATH nx ny := Near_mono pfd _ _ _ _ hnear (by omega)
    have hcell := cellAt_gridSet_near E pfd f.Grid nx ny v x y hnM hxyM
    rw [← hgrid] at hcell
    by_cases hsame : (x : Int) = nx ∧ (y : Int) = ny
    · rw [hcell, if_pos hsame] at hone
      exact absurd hone hv
    · rw [hcell, if_neg hsame] at hone
      exact hinv.one x y hx hy hxy hone

theorem Marked_iff (v k : Int) (M : Nat) (hM : M < 16384) (hv1 : 2 ≤ v) (hv2 : v ≤ M)
    (hk1 : 2 ≤ k) (hk2 : k ≤ M) :
    (Marked v k ↔ k = v) ∧ (Marked (v + 16384) k ↔ k = v) ∧ (Marked (v - 32768) k ↔ k = v) ∧
    ¬ Marked (-1) k := by
  unfold Marked
  refine ⟨?_, ?_, ?_, ?_⟩ <;> omega

/-- The column or row of a neighbour as the flood computes it through `short`: when it is
not negative it is the true one. -/
theorem toShort_step (c : Nat) (hc : c < 65535) (s : Int) (hs1 : -1 ≤ s) (hs2 : s ≤ 1) :
    toShort (toShort (c : Int) + s) < 0 ∨ toShort (toShort (c : Int) + s) = c + s := by
  unfold toShort
  omega

/-- One neighbour of a hex of `coords` is handled: the invariant is kept, the cells that
are not `0` keep their value, and `coords` grows at its end. -/
theorem FindPathNeighbour_inv (E : Engine) (map : Map) (pfd : PathFindData) (f : Flood)
    (ctx : FloodCtx E map pfd) (hinv : FloodInv E map pfd f)
    (cx cy : Nat) (hc : (cx, cy) ∈ f.coords) (numindex : Int)
    (hnum : numindex = cellAt E pfd f.Grid cx cy + 1) (hle : numindex ≤ E.FPATH_MAX_PATH)
    (j : Nat) (s : Int × Int) (hs : s ∈ GetHexOffsets E (cx % 2 != 0)) :
    FloodInv E map pfd (FindPathNeighbour E map pfd cx cy numindex f j s) ∧
    (∀ q, f.Grid q ≠ 0 → (FindPathNeighbour E map pfd cx cy numindex f j s).Grid q = f.Grid q) ∧
    (∃ l, (FindPathNeighbour E map pfd cx cy numindex f j s).coords = f.coords ++ l) := by
  have hM := ctx.max_lt
  have hW := ctx.width_le
  have hH := ctx.height_le
  obtain ⟨hcx, hcy, hi1, hi2, hinear⟩ := hinv.coords_ok _ hc
  simp only [] at hcx hcy hi1 hi2 hinear
  have hsb := GetHexOffsets_bound E _ s hs
  have d1 := toShort_step cx (by omega) s.1 (by omega) (by omega)
  have d2 := toShort_step cy (by omega) s.2 (by omega) (by omega)
  unfold FindPathNeighbour
  by_cases hneg : toShort (toShort (cx : Int) + s.1) < 0 ∨ toShort (toShort (cy : Int) + s.2) < 0
  · simp only []
    rw [if_pos (by rcases hneg with h | h; exact Or.inl h; exact Or.inr (Or.inl h))]
    exact ⟨hinv, fun _ _ => rfl, [], by simp⟩
  have e1 : toShort (toShort (cx : Int) + s.1) = cx + s.1 := by
    rcases d1 with h | h
    · exact absurd (Or.inl h) hneg
    · exact h
  have e2 : toShort (toShort (cy : Int) + s.2) = cy + s.2 := by
    rcases d2 with h | h
    · exact absurd (Or.inr h) hneg
    · exact h
  simp only [e1, e2]
  by_cases hout : (cx : Int) + s.1 < 0 ∨ (cy : Int) + s.2 < 0 ∨ (cx : Int) + s.1 ≥ map.Width ∨
      (cy : Int) + s.2 ≥ map.Height
  · rw [if_pos hout]
    exact ⟨hinv, fun _ _ => rfl, [], by simp⟩
  rw [if_neg hout]
  by_cases hnz : f.Grid (GRID E pfd.FromX pfd.FromY ((cx : Int) + s.1) ((cy : Int) + s.2)) ≠ 0
  · rw [if_pos hnz]
    exact ⟨hinv, fun _ _ => rfl, [], by simp⟩
  rw [if_neg hnz]
  -- the neighbour as a pair of naturals
  obtain ⟨nx, hnx⟩ := Int.eq_ofNat_of_zero_le (show 0 ≤ (cx : Int) + s.1 by omega)
  obtain ⟨ny, hny⟩ := Int.eq_ofNat_of_zero_le (show 0 ≤ (cy : Int) + s.2 by omega)
  rw [hnx, hny] at hout hnz ⊢
  simp only [Int.toNat_ofNat]
  have hnxW : nx < map.Width := by omega
  have hnyH : ny < map.Height := by omega
  have hzero : cellAt E pfd f.Grid nx ny = 0 := by
    unfold cellAt; by_contra h; exact hnz h
  have hnear0 : Near pfd (numindex - 1) nx ny := by
    have := Near_step pfd _ _ _ s hinear hsb
    rw [hnx, hny] at this
    rw [hnum]
    exact Near_mono pfd _ _ _ _ this (by omega)
  have hnear : Near pfd ((E.FPATH_MAX_PATH : Int) - 1) nx ny :=
    Near_mono pfd _ _ _ _ hnear0 (by omega)
  have hn1 : 2 ≤ numindex := by omega
  have t0 : toShort numindex = numindex := toShort_of_range _ (by omega) (by omega)
  have t1 : toShort (intOr numindex 0x4000) = numindex + 16384 :=
    toShort_intOr_gag numindex (by omega) (by omega)
  have t2 : toShort (intOr numindex 0x8000) = numindex - 32768 :=
    toShort_intOr_cr numindex (by omega) (by omega)
  -- the start of the step is a neighbour of the new hex and holds the index before
  have hback : ∃ s' ∈ GetHexOffsets E (nx % 2 != 0),
      cellAt E pfd f.Grid ((nx : Int) + s'.1) ((ny : Int) + s'.2) = numindex - 1 := by
    refine ⟨(-s.1, -s.2), ?_, ?_⟩
    · have := GetHexOffsets_symm E (cx : Int) s (by rw [← nat_parity_cast]; exact hs)
      rw [hnx, ← nat_parity_cast] at this
      exact this
    · have ex : (nx : Int) + (-s.1, -s.2).1 = cx := by simp only []; omega
      have ey : (ny : Int) + (-s.1, -s.2).2 = cy := by simp only []; omega
      rw [ex, ey, hnum]; omega
  have hkeep : ∀ (v : Int) (q : Int), f.Grid q ≠ 0 →
      gridSet f.Grid (GRID E pfd.FromX pfd.FromY nx ny) v q = f.Grid q := by
    intro v q hq
    unfold gridSet
    split
    · rename_i hqq; rw [hqq] at hq; exact absurd hzero hq
    · rfl
  have hmk := Marked_iff numindex
  -- the four stores
  have store_blocked : FloodInv E map pfd
      { f with Grid := gridSet f.Grid (GRID E pfd.FromX pfd.FromY nx ny) (-1) } := by
    refine FloodInv_store E map pfd f
      { f with Grid := gridSet f.Grid (GRID E pfd.FromX pfd.FromY nx ny) (-1) } ctx hinv nx ny (-1)
      hnxW hnyH hnear hzero rfl (Or.inl rfl) (Or.inl rfl) (Or.inl rfl) ?_ (by omega)
    intro k hk1 hk2 hmark
    exact absurd hmark (hmk k _ hM hn1 hle hk1 hk2).2.2.2
  have store_coords : Admitted E map pfd nx ny → FloodInv E map pfd
      { f with coords := f.coords ++ [(nx, ny)],
               Grid := gridSet f.Grid (GRID E pfd.FromX pfd.FromY nx ny) numindex } := by
    intro hadm
    refine FloodInv_store E map pfd f
      { f with coords := f.coords ++ [(nx, ny)],
               Grid := gridSet f.Grid (GRID E pfd.FromX pfd.FromY nx ny) numindex }
      ctx hinv nx ny numindex hnxW hnyH hnear hzero rfl
      (Or.inr ⟨rfl, hn1, hle, hnear0⟩) (Or.inl rfl) (Or.inl rfl) ?_ (by omega)
    intro k hk1 hk2 hmark
    have := (hmk k _ hM hn1 hle hk1 hk2).1.mp hmark
    subst this
    exact ⟨hadm, hback⟩
  by_cases hmulti : pfd.Multihex = 0
  · rw [if_pos hmulti]
    cases hway : FLAG (E.GetHexFlags map nx ny) E.FH_NOWAY
    · simp only [Bool.not_false, if_true, t0]
      exact ⟨store_coords (Or.inr (Or.inl hway)), hkeep _, [(nx, ny)], rfl⟩
    · simp only [Bool.not_true, Bool.false_eq_true, if_false]
      by_cases hg : (pfd.CheckGagItems && FLAG (E.GetHexFlags map nx ny) (E.FH_GAG_ITEM <<< 8)) = true
      · rw [if_pos hg, t1]
        refine ⟨?_, hkeep _, [], by simp⟩
        refine FloodInv_store E map pfd f
          { f with gag_coords := f.gag_coords ++ [(nx, ny)],
                   Grid := gridSet f.Grid (GRID E pfd.FromX pfd.FromY nx ny) (numindex + 16384) }
          ctx hinv nx ny (numindex + 16384) hnxW hnyH hnear hzero
          rfl (Or.inl rfl) (Or.inr ⟨rfl, numindex, hn1, hle, rfl, hnear0⟩) (Or.inl rfl) ?_
          (by omega)
        intro k hk1 hk2 hmark
        have := (hmk k _ hM hn1 hle hk1 hk2).2.1.mp hmark
        subst this
        rw [Bool.and_eq_true] at hg
        exact ⟨Or.inr (Or.inr (Or.inl hg)), hback⟩
      · rw [if_neg hg]
        by_cases hcr : (pfd.CheckCrit && FLAG (E.GetHexFlags map nx ny) (E.FH_CRITTER <<< 8)) = true
        · rw [if_pos hcr, t2]
          refine ⟨?_, hkeep _, [], by simp⟩
          refine FloodInv_store E map pfd f
            { f with cr_coords := f.cr_coords ++ [(nx, ny)],
                     Grid := gridSet f.Grid (GRID E pfd.FromX pfd.FromY nx ny) (numindex - 32768) }
            ctx hinv nx ny (numindex - 32768) hnxW hnyH hnear
            hzero rfl (Or.inl rfl) (Or.inl rfl) (Or.inr ⟨rfl, numindex, hn1, hle, rfl, hnear0⟩) ?_
            (by omega)
          intro k hk1 hk2 hmark
          have := (hmk k _ hM hn1 hle hk1 hk2).2.2.1.mp hmark
          subst this
          rw [Bool.and_eq_true] at hcr
          exact ⟨Or.inr (Or.inr (Or.inr hcr)), hback⟩
        · rw [if_neg hcr]
          exact ⟨store_blocked, hkeep _, [], by simp⟩
  · rw [if_neg hmulti]
    split
    · rw [t0]
      exact ⟨store_coords (Or.inl hmulti), hkeep _, [(nx, ny)], rfl⟩
    · exact ⟨store_blocked, hkeep _, [], by simp⟩

/-- A hex leaves the gag queue or the critter queue: its mark is taken off its cell and it
is pushed to `coords`. -/
theorem FloodInv_unmark (E : Engine) (map : Map) (pfd : PathFindData) (f f' : Flood)
    (ctx : FloodCtx E map pfd) (hinv : FloodInv E map pfd f)
    (xy : UShortPair) (k : Int) (hx : xy.1 < map.Width) (hy : xy.2 < map.Height)
    (hk1 : 2 ≤ k) (hk2 : k ≤ E.FPATH_MAX_PATH) (hnear : Near pfd (k - 1) xy.1 xy.2)
    (hcell : cellAt E pfd f.Grid xy.1 xy.2 = k + 16384 ∨ cellAt E pfd f.Grid xy.1 xy.2 = k - 32768)
    (hgrid : f'.Grid = gridSet f.Grid (GRID E pfd.FromX pfd.FromY xy.1 xy.2) k)
    (hcoords : f'.coords = f.coords ++ [xy])
    (hgag : f'.gag_coords.Sublist f.gag_coords ∧ xy ∉ f'.gag_coords)
    (hcr : f'.cr_coords.Sublist f.cr_coords ∧ xy ∉ f'.cr_coords) :
    FloodInv E map pfd f' := by
  have hM := ctx.max_lt
  have hxyM : Near pfd E.FPATH_MAX_PATH xy.1 xy.2 := Near_mono pfd _ _ _ _ hnear (by omega)
  have hxyM1 : Near pfd ((E.FPATH_MAX_PATH : Int) - 1) xy.1 xy.2 :=
    Near_mono pfd _ _ _ _ hnear (by omega)
  have hnew : cellAt E pfd f'.Grid xy.1 xy.2 = k := by
    rw [hgrid]; exact cellAt_gridSet_self E pfd f.Grid _ _ k
  -- cells with another value than the mark keep their value
  have keep : ∀ x y : Int, cellAt E pfd f.Grid x y ≠ cellAt E pfd f.Grid xy.1 xy.2 →
      cellAt E pfd f'.Grid x y = cellAt E pfd f.Grid x y := by
    intro x y hne
    rw [hgrid]
    exact cellAt_gridSet_of_ne E pfd f.Grid _ k x y hne
  -- the cells of the other hexes near the start keep their value
  have keep2 : ∀ x y : Int, Near pfd E.FPATH_MAX_PATH x y → ¬ (x = xy.1 ∧ y = xy.2) →
      cellAt E pfd f'.Grid x y = cellAt E pfd f.Grid x y := by
    intro x y hn hne
    rw [hgrid, cellAt_gridSet_near E pfd f.Grid _ _ k x y hxyM hn, if_neg hne]
  constructor
  · -- coords_ok
    intro c hc
    rw [hcoords, List.mem_append, List.mem_singleton] at hc
    rcases hc with hc | rfl
    · have := hinv.coords_ok c hc
      rw [keep _ _ (by omega)]
      exact this
    · simp only [hnew]
      exact ⟨hx, hy, by omega, hk2, hnear⟩
  · -- gag_ok
    intro c hc
    obtain ⟨h1, h2, k', h3, h4, h5, h6⟩ := hinv.gag_ok c (hgag.1.subset hc)
    have hne : ¬ ((c.1 : Int) = xy.1 ∧ (c.2 : Int) = xy.2) := by
      rintro ⟨e1, e2⟩
      have : c = xy := Prod.ext (by omega) (by omega)
      rw [this] at hc
      exact hgag.2 hc
    rw [keep2 _ _ (Near_mono pfd _ _ _ _ h6 (by omega)) hne]
    exact ⟨h1, h2, k', h3, h4, h5, h6⟩
  · -- cr_ok
    intro c hc
    obtain ⟨h1, h2, k', h3, h4, h5, h6⟩ := hinv.cr_ok c (hcr.1.subset hc)
    have hne : ¬ ((c.1 : Int) = xy.1 ∧ (c.2 : Int) = xy.2) := by
      rintro ⟨e1, e2⟩
      have : c = xy := Prod.ext (by omega) (by omega)
      rw [this] at hc
      exact hcr.2 hc
    rw [keep2 _ _ (Near_mono pfd _ _ _ _ h6 (by omega)) hne]
    exact ⟨h1, h2, k', h3, h4, h5, h6⟩
  · exact hinv.gag_nodup.sublist hgag.1
  · exact hinv.cr_nodup.sublist hcr.1
  · -- support
    intro q hq
    rw [hgrid] at hq
    unfold gridSet at hq
    split at hq
    · rename_i hqq
      exact ⟨xy.1, xy.2, hx, hy, hxyM1, hqq⟩
    · exact hinv.support q hq
  · -- parent
    intro x y hx' hy' hxy k' hk1' hk2' hmark
    have hxyM' : Near pfd E.FPATH_MAX_PATH x y := Near_mono pfd _ _ _ _ hxy (by omega)
    have hold : Marked (cellAt E pfd f.Grid x y) k' := by
      by_cases hsame : (x : Int) = xy.1 ∧ (y : Int) = xy.2
      · rw [hsame.1, hsame.2, hnew] at hmark
        rw [hsame.1, hsame.2]
        unfold Marked at hmark ⊢
        omega
      · rw [keep2 _ _ hxyM' hsame] at hmark
        exact hmark
    obtain ⟨ha, s, hs, hs2⟩ := hinv.parent x y hx' hy' hxy k' hk1' hk2' hold
    refine ⟨ha, s, hs, ?_⟩
    rw [keep _ _ (by rw [hs2]; omega)]
    exact hs2
  · -- one
    intro x y hx' hy' hxy hone
    have hxyM' : Near pfd E.FPATH_MAX_PATH x y := Near_mono pfd _ _ _ _ hxy (by omega)
    by_cases hsame : (x : Int) = xy.1 ∧ (y : Int) = xy.2
    · rw [hsame.1, hsame.2, hnew] at hone; omega
    · rw [keep2 _ _ hxyM' hsame] at hone
      exact hinv.one x y hx' hy' hxy hone

theorem FindPathAddGag_inv (E : Engine) (map : Map) (pfd : PathFindData) (f f' : Flood)
    (ctx : FloodCtx E map pfd) (hinv : FloodInv E map pfd f)
    (h : FindPathAddGag E pfd f = some f') : FloodInv E map pfd f' := by
  have hM := ctx.max_lt
  unfold FindPathAddGag at h
  split at h
  · injection h with h; subst h; exact hinv
  · rename_i xy rest hg
    split at h
    · cases h
    · simp only [] at h
      have hmem : xy ∈ f.gag_coords := by rw [hg]; exact List.mem_cons_self _ _
      obtain ⟨h1, h2, k, h3, h4, h5, h6⟩ := hinv.gag_ok xy hmem
      have hk : toShort (intXor (f.Grid (GRID E pfd.FromX pfd.FromY xy.1 xy.2)) 0x4000) = k := by
        unfold cellAt at h5
        rw [h5]; exact toShort_intXor_gag k (by omega) (by omega)
      rw [hk] at h
      have hnd := hinv.gag_nodup
      rw [hg] at hnd
      split at h
      · injection h with h
        subst h
        exact FloodInv_unmark E map pfd f _ ctx hinv xy k h1 h2 h3 h4 h6 (Or.inl h5) rfl rfl
          ⟨by simp only [hg]; exact List.sublist_cons_self _ _, (List.nodup_cons.mp hnd).1⟩
          ⟨List.Sublist.refl _, fun hc => by
            obtain ⟨_, _, k', _, _, e, _⟩ := hinv.cr_ok xy hc
            omega⟩
      · injection h with h; subst h; exact hinv

theorem FindPathAddSoft_inv (E : Engine) (map : Map) (pfd : PathFindData) (f : Flood)
    (ctx : FloodCtx E map pfd) (hinv : FloodInv E map pfd f) :
    FloodInv E map pfd (FindPathAddSoft E pfd f).1 := by
  have hM := ctx.max_lt
  unfold FindPathAddSoft
  split
  · rename_i xy rest hg
    simp only []
    have hmem : xy ∈ f.gag_coords := by rw [hg]; exact List.mem_cons_self _ _
    obtain ⟨h1, h2, k, h3, h4, h5, h6⟩ := hinv.gag_ok xy hmem
    have hk : toShort (intXor (f.Grid (GRID E pfd.FromX pfd.FromY xy.1 xy.2)) 0x4000) = k := by
      unfold cellAt at h5
      rw [h5]; exact toShort_intXor_gag k (by omega) (by omega)
    rw [hk]
    have hnd := hinv.gag_nodup
    rw [hg] at hnd
    exact FloodInv_unmark E map pfd f _ ctx hinv xy k h1 h2 h3 h4 h6 (Or.inl h5) rfl rfl
      ⟨by simp only [hg]; exact List.sublist_cons_self _ _, (List.nodup_cons.mp hnd).1⟩
      ⟨List.Sublist.refl _, fun hc => by
        obtain ⟨_, _, k', _, _, e, _⟩ := hinv.cr_ok xy hc
        omega⟩
  · split
    · rename_i hgn xy rest hg
      simp only []
      have hmem : xy ∈ f.cr_coords := by rw [hg]; exact List.mem_cons_self _ _
      obtain ⟨h1, h2, k, h3, h4, h5, h6⟩ := hinv.cr_ok xy hmem
      have hk : toShort (intXor (f.Grid (GRID E pfd.FromX pfd.FromY xy.1 xy.2)) 0x8000) = k := by
        unfold cellAt at h5
        rw [h5]; exact toShort_intXor_cr k (by omega) (by omega)
      rw [hk]
      have hnd := hinv.cr_nodup
      rw [hg] at hnd
      exact FloodInv_unmark E map pfd f _ ctx hinv xy k h1 h2 h3 h4 h6 (Or.inr h5) rfl rfl
        ⟨List.Sublist.refl _, fun hc => by
          obtain ⟨_, _, k', _, _, e, _⟩ := hinv.gag_ok xy hc
          omega⟩
        ⟨by simp only [hg]; exact List.sublist_cons_self _ _, (List.nodup_cons.mp hnd).1⟩
    · exact hinv

/-- The loop over no neighbour. -/
theorem FindPathNeighbours_nil (E : Engine) (map : Map) (pfd : PathFindData) (cx cy : Nat)
    (numindex : Int) (f : Flood) (j : Nat) :
    FindPathNeighbours E map pfd cx cy numindex f j [] = f := rfl

/-- One round of the loop over the neighbours. -/
theorem FindPathNeighbours_cons (E : Engine) (map : Map) (pfd : PathFindData) (cx cy : Nat)
    (numindex : Int) (f : Flood) (j : Nat) (s : Int × Int) (rest : List (Int × Int)) :
    FindPathNeighbours E map pfd cx cy numindex f j (s :: rest) =
      FindPathNeighbours E map pfd cx cy numindex
        (FindPathNeighbour E map pfd cx cy numindex f j s) (j + 1) rest := by
  delta FindPathNeighbours
  rfl

/-- All neighbours of a hex of `coords` are handled. -/
theorem FindPathNeighbours_inv (E : Engine) (map : Map) (pfd : PathFindData)
    (ctx : FloodCtx E map pfd) (cx cy : Nat) (numindex : Int)
    (hle : numindex ≤ E.FPATH_MAX_PATH) (offs : List (Int × Int)) :
    ∀ (f : Flood) (j : Nat), FloodInv E map pfd f → (cx, cy) ∈ f.coords →
      numindex = cellAt E pfd f.Grid cx cy + 1 →
      (∀ s ∈ offs, s ∈ GetHexOffsets E (cx % 2 != 0)) →
      FloodInv E map pfd (FindPathNeighbours E map pfd cx cy numindex f j offs) ∧
      (∀ q, f.Grid q ≠ 0 →
        (FindPathNeighbours E map pfd cx cy numindex f j offs).Grid q = f.Grid q) ∧
      (∃ l, (FindPathNeighbours E map pfd cx cy numindex f j offs).coords = f.coords ++ l) := by
  induction offs with
  | nil =>
    intro f j hinv _ _ _
    rw [FindPathNeighbours_nil]
    exact ⟨hinv, fun _ _ => rfl, [], (List.append_nil _).symm⟩
  | cons s rest ih =>
    intro f j hinv hc hnum hoffs
    obtain ⟨h1, h2, l1, h3⟩ := FindPathNeighbour_inv E map pfd f ctx hinv cx cy hc numindex hnum
      hle j s (hoffs s (List.mem_cons_self _ _))
    have hcz : cellAt E pfd f.Grid cx cy ≠ 0 := by
      have := (hinv.coords_ok _ hc).2.2.1
      simp only [] at this
      omega
    have hc' : (cx, cy) ∈ (FindPathNeighbour E map pfd cx cy numindex f j s).coords := by
      rw [h3]; exact List.mem_append_left _ hc
    have hnum' : numindex =
        cellAt E pfd (FindPathNeighbour E map pfd cx cy numindex f j s).Grid cx cy + 1 := by
      unfold cellAt at hcz ⊢
      rw [h2 _ hcz]; exact hnum
    obtain ⟨g1, g2, l2, g3⟩ := ih _ (j + 1) h1 hc' hnum'
      (fun t ht => hoffs t (List.mem_cons_of_mem _ ht))
    rw [FindPathNeighbours_cons]
    refine ⟨g1, ?_, l1 ++ l2, ?_⟩
    · intro q hq
      rw [g2 q (by rw [h2 q hq]; exact hq), h2 q hq]
    · rw [g3, h3, List.append_assoc]

/-- One run of the loop over the hexes `coords[p .. p + n - 1]`. -/
theorem FindPathLayer_inv (E : Engine) (map : Map) (pfd : PathFindData)
    (ctx : FloodCtx E map pfd) (n : Nat) :
    ∀ (f : Flood) (p : Nat), FloodInv E map pfd f →
      match FindPathLayer E map pfd n f p with
      | none => True
      | some (Sum.inl e) => e.Good E map pfd
      | some (Sum.inr (f', _)) => FloodInv E map pfd f' := by
  induction n with
  | zero => intro f p hinv; rw [FindPathLayer]; exact hinv
  | succ n ih =>
    intro f p hinv
    rw [FindPathLayer]
    cases hget : f.coords.get? p with
    | none => simp
    | some c =>
      obtain ⟨cx, cy⟩ := c
      have hc : (cx, cy) ∈ f.coords := List.get?_mem hget
      simp only []
      by_cases hd : CheckDist E cx cy pfd.ToX pfd.ToY pfd.Cut = true
      · rw [if_pos hd]
        exact ⟨hinv, hc, rfl, hd⟩
      · rw [if_neg hd]
        by_cases hfar : f.Grid (GRID E pfd.FromX pfd.FromY cx cy) + 1 > E.FPATH_MAX_PATH
        · rw [if_pos hfar]; trivial
        · rw [if_neg hfar]
          have hoffs : ∀ s ∈ (GetHexOffsets E (cx % 2 != 0)).take (DIRS_COUNT E),
              s ∈ GetHexOffsets E (cx % 2 != 0) := fun s hs => List.mem_of_mem_take hs
          have hle : f.Grid (GRID E pfd.FromX pfd.FromY cx cy) + 1 ≤ E.FPATH_MAX_PATH := by
            omega
          obtain ⟨h1, _, _⟩ := FindPathNeighbours_inv E map pfd ctx cx cy
            (f.Grid (GRID E pfd.FromX pfd.FromY cx cy) + 1) hle
            ((GetHexOffsets E (cx % 2 != 0)).take (DIRS_COUNT E)) f 0 hinv hc rfl hoffs
          exact ih _ (p + 1) h1

/-- One round of the loop `while( true )` of the flood. -/
theorem FindPathFlood_succ (E : Engine) (map : Map) (pfd : PathFindData) (fuel : Nat)
    (f : Flood) (p p_togo : Nat) :
    FindPathFlood E map pfd (fuel + 1) f p p_togo =
      match FindPathLayer E map pfd p_togo f p with
      | none => none
      | some (Sum.inl e) => some e
      | some (Sum.inr (f1, p1)) =>
        match FindPathAddGag E pfd f1 with
        | none => none
        | some f2 =>
          let p_togo1 := f2.coords.length - p1
          let r := if p_togo1 = 0 then FindPathAddSoft E pfd f2 else (f2, p_togo1)
          if r.2 = 0 then some FloodEnd.deadlock
          else FindPathFlood E map pfd fuel r.1 p1 r.2 := by
  delta FindPathFlood
  rfl

/-- The flood keeps its invariant up to the hex it stops at. -/
theorem FindPathFlood_inv (E : Engine) (map : Map) (pfd : PathFindData)
    (ctx : FloodCtx E map pfd) (fuel : Nat) :
    ∀ (f : Flood) (p p_togo : Nat), FloodInv E map pfd f →
      ∀ e, FindPathFlood E map pfd fuel f p p_togo = some e → e.Good E map pfd := by
  induction fuel with
  | zero => intro f p p_togo _ e h; delta FindPathFlood at h; cases h
  | succ fuel ih =>
    intro f p p_togo hinv e h
    rw [FindPathFlood_succ] at h
    have hl := FindPathLayer_inv E map pfd ctx p_togo f p hinv
    cases hlay : FindPathLayer E map pfd p_togo f p with
    | none => rw [hlay] at h; cases h
    | some r =>
      rw [hlay] at h hl
      cases r with
      | inl e1 =>
        simp only [Option.some.injEq] at h
        subst h
        exact hl
      | inr r1 =>
        obtain ⟨f1, p1⟩ := r1
        simp only [] at h hl
        cases hg : FindPathAddGag E pfd f1 with
        | none => rw [hg] at h; cases h
        | some f2 =>
          rw [hg] at h
          simp only [] at h
          have h2 := FindPathAddGag_inv E map pfd f1 f2 ctx hl hg
          by_cases hp : f2.coords.length - p1 = 0
          · rw [if_pos hp] at h
            by_cases hr : (FindPathAddSoft E pfd f2).2 = 0
            · rw [if_pos hr] at h
              simp only [Option.some.injEq] at h
              subst h; trivial
            · rw [if_neg hr] at h
              exact ih _ _ _ (FindPathAddSoft_inv E map pfd f2 ctx h2) e h
          · rw [if_neg hp] at h
            rw [if_neg (show ¬ (f2, f2.coords.length - p1).2 = 0 from hp)] at h
            exact ih _ _ _ h2 e h

/-- The invariant holds for the vectors and the grid that `FindPath` prepares. -/
theorem FloodInv_init (E : Engine) (map : Map) (pfd : PathFindData)
    (ctx : FloodCtx E map pfd) :
    FloodInv E map pfd
      { Grid := gridSet (fun _ => 0) (GRID E pfd.FromX pfd.FromY pfd.FromX pfd.FromY) 1,
        coords := [(pfd.FromX, pfd.FromY)], cr_coords := [], gag_coords := [] } := by
  have hM := ctx.max_pos
  have hM2 := ctx.max_lt
  have hgrid : ∀ q, gridSet (fun _ => (0 : Int)) (GRID E pfd.FromX pfd.FromY pfd.FromX pfd.FromY) 1 q ≠ 0 →
      q = GRID E pfd.FromX pfd.FromY pfd.FromX pfd.FromY ∧
      gridSet (fun _ => (0 : Int)) (GRID E pfd.FromX pfd.FromY pfd.FromX pfd.FromY) 1 q = 1 := by
    intro q hq
    unfold gridSet at hq ⊢
    by_cases h : q = GRID E pfd.FromX pfd.FromY pfd.FromX pfd.FromY
    · simp [h]
    · simp [h] at hq
  have hnear : ∀ k : Int, 0 ≤ k → Near pfd k pfd.FromX pfd.FromY := by
    intro k hk; unfold Near; omega
  refine ⟨?_, ?_, ?_, List.nodup_nil, List.nodup_nil, ?_, ?_, ?_⟩
  · intro c hc
    simp only [List.mem_singleton] at hc
    subst hc
    simp only [cellAt, gridSet, if_true]
    exact ⟨ctx.from_x, ctx.from_y, by omega, by omega, hnear _ (by omega)⟩
  · intro c hc; cases hc
  · intro c hc; cases hc
  · intro q hq
    exact ⟨pfd.FromX, pfd.FromY, ctx.from_x, ctx.from_y, hnear _ (by omega), (hgrid q hq).1⟩
  · intro x y hx hy hn k hk1 hk2 hm
    exfalso
    simp only [] at hm
    by_cases hz : cellAt E pfd (gridSet (fun _ => (0 : Int))
        (GRID E pfd.FromX pfd.FromY pfd.FromX pfd.FromY) 1) x y = 0
    · rw [hz] at hm; unfold Marked at hm; omega
    · have := (hgrid _ hz).2
      unfold cellAt at hm
      rw [this] at hm; unfold Marked at hm; omega
  · intro x y hx hy hn hone
    have hz : gridSet (fun _ => (0 : Int)) (GRID E pfd.FromX pfd.FromY pfd.FromX pfd.FromY) 1
        (GRID E pfd.FromX pfd.FromY x y) ≠ 0 := by
      unfold cellAt at hone
      simp only [] at hone
      rw [hone]; omega
    have := GRID_inj_near E pfd x y pfd.FromX pfd.FromY (Near_mono pfd _ _ _ _ hn (by omega))
      (hnear _ (by omega)) (hgrid _ hz).1
    omega

/-- Every probe of `FindPathGrid` returns a direction, never `-1`. -/
theorem FindPathGridProbes_dir (E : Engine) (odd sw : Bool) :
    ∀ p ∈ FindPathGridProbes E odd sw, 0 ≤ p.2.2 := by
  unfold FindPathGridProbes
  cases E.MapHexagonal <;> cases E.MapSmoothPath <;> cases odd <;> cases sw <;> decide

/-- The chain of tests of `FindPathGrid` either finds no probe with the index, or stops
at a probe that has it. -/
theorem FindPathGridScan_spec (E : Engine) (grid : GridBuf) (ox oy : Int) (hx hy : Nat)
    (index : Int) : ∀ probes : List (Int × Int × Int),
    (FindPathGridScan E grid ox oy hx hy index probes = (-1, hx, hy) ∧
      ∀ p ∈ probes, grid (GRID E ox oy (hx + p.1) (hy + p.2.1)) ≠ index) ∨
    ∃ p ∈ probes, grid (GRID E ox oy (hx + p.1) (hy + p.2.1)) = index ∧
      FindPathGridScan E grid ox oy hx hy index probes =
        (p.2.2, toUShort (hx + p.1), toUShort (hy + p.2.1)) := by
  intro probes
  induction probes with
  | nil => left; exact ⟨rfl, fun p hp => by cases hp⟩
  | cons p rest ih =>
    obtain ⟨dx, dy, dir⟩ := p
    by_cases h : grid (GRID E ox oy (hx + dx) (hy + dy)) = index
    · right
      refine ⟨(dx, dy, dir), List.mem_cons_self _ _, h, ?_⟩
      simp only [FindPathGridScan, h, if_true]
    · rcases ih with ⟨h1, h2⟩ | ⟨q, hq, h1, h2⟩
      · left
        refine ⟨?_, ?_⟩
        · simp only [FindPathGridScan, h, if_false]; exact h1
        · intro q hq
          rcases List.mem_cons.1 hq with rfl | hq
          · exact h
          · exact h2 q hq
      · right
        refine ⟨q, List.mem_cons_of_mem _ hq, h1, ?_⟩
        simp only [FindPathGridScan, h, if_false]; exact h2

/-- A store into the vector right after a prefix. -/
theorem set_after_prefix (pre suf : List PathStep) (old ps : PathStep) :
    (pre ++ old :: suf).set pre.length ps = pre ++ ps :: suf := by
  induction pre with
  | nil => rfl
  | cons a pre ih => simp [ih]

/-- One round of the loop `while( numindex > 1 )` of the backtrace. -/
theorem FindPathBacktrace_succ (E : Engine) (grid : GridBuf) (offsX offsY : Int)
    (smooth_count : Int) (n : Nat) (b : Backtrace) :
    FindPathBacktrace E grid offsX offsY smooth_count (n + 1) b =
      (let numindex : Int := (n : Int) + 2
       let sw : Bool :=
        if E.MapSmoothPath then
          if E.MapHexagonal then
            (if numindex % 2 ≠ 0 then !b.smooth_switcher else b.smooth_switcher)
          else decide (smooth_count < 2 ∨ b.smooth_iteration.tmod smooth_count ≠ 0)
        else b.smooth_switcher
       let ps : PathStep := { (b.path.getD n default) with HexX := b.cx, HexY := b.cy }
       let r := FindPathGrid E grid offsX offsY b.cx b.cy (numindex - 1) sw
       if r.1 = -1 then ({ b with path := b.path.set n ps, smooth_switcher := sw }, false)
       else
        FindPathBacktrace E grid offsX offsY smooth_count n
          { path := b.path.set n { ps with Dir := r.1.toNat },
            cx := r.2.1, cy := r.2.2, smooth_switcher := sw,
            smooth_iteration := b.smooth_iteration + 1 }) := by
  delta FindPathBacktrace
  rfl

/-- One call of `FindPathGrid` of the backtrace, from a hex whose cell holds `n + 2`: it
finds a neighbour on the map whose cell holds `n + 1`. -/
theorem FindPathGrid_spec (E : Engine) (map : Map) (pfd : PathFindData) (f : Flood)
    (ctx : FloodCtx E map pfd) (hinv : FloodInv E map pfd f) (hx hy n : Nat) (sw : Bool)
    (hxw : hx < map.Width) (hyh : hy < map.Height)
    (hnear : Near pfd ((E.FPATH_MAX_PATH : Int) - 1) hx hy)
    (hcell : cellAt E pfd f.Grid hx hy = (n : Int) + 2)
    (hmax : (n : Int) + 2 ≤ E.FPATH_MAX_PATH) :
    Admitted E map pfd hx hy ∧
    ∃ (dir : Int) (x y : Nat),
      FindPathGrid E f.Grid pfd.FromX pfd.FromY hx hy ((n : Int) + 2 - 1) sw = (dir, x, y) ∧
      0 ≤ dir ∧ x < map.Width ∧ y < map.Height ∧
      Near pfd ((E.FPATH_MAX_PATH : Int) - 1) x y ∧
      cellAt E pfd f.Grid x y = (n : Int) + 1 ∧ StepBack E (x, y) (hx, hy) := by
  have hW := ctx.width_le
  have hH := ctx.height_le
  obtain ⟨hadm, s, hs, hpar⟩ := hinv.parent hx hy hxw hyh hnear ((n : Int) + 2) (by omega) hmax
    (Or.inl hcell)
  refine ⟨hadm, ?_⟩
  unfold FindPathGrid
  rcases FindPathGridScan_spec E f.Grid pfd.FromX pfd.FromY hx hy ((n : Int) + 2 - 1)
    (FindPathGridProbes E (hx % 2 != 0) sw) with ⟨_, hno⟩ | ⟨p, hp, hval, hres⟩
  · exfalso
    obtain ⟨p, hp, hps⟩ := FindPathGridProbes_complete E (hx % 2 != 0) sw s
      (by simpa [nat_parity_cast] using hs)
    have := hno p hp
    rw [← hps] at hpar
    unfold cellAt at hpar
    simp only [] at hpar
    exact this hpar
  · have hmem := FindPathGridProbes_mem E (hx % 2 != 0) sw p hp
    have hsb := GetHexOffsets_bound E _ _ hmem
    simp only [] at hsb
    have hnz : f.Grid (GRID E pfd.FromX pfd.FromY (hx + p.1) (hy + p.2.1)) ≠ 0 := by
      rw [hval]; omega
    obtain ⟨x, y, hxw', hyh', hnear', hq⟩ := hinv.support _ hnz
    have hn1 : Near pfd E.FPATH_MAX_PATH ((hx : Int) + p.1) ((hy : Int) + p.2.1) := by
      have := Near_step pfd _ hx hy (p.1, p.2.1) hnear hsb
      simpa using this
    have hn2 : Near pfd E.FPATH_MAX_PATH (x : Int) (y : Int) :=
      Near_mono pfd _ _ _ _ hnear' (by omega)
    obtain ⟨ex, ey⟩ := GRID_inj_near E pfd _ _ _ _ hn1 hn2 hq
    refine ⟨p.2.2, x, y, ?_, FindPathGridProbes_dir E _ sw p hp, hxw', hyh', hnear', ?_, ?_⟩
    · rw [hres, ex, ey, toUShort_of_range _ (by omega) (by omega),
        toUShort_of_range _ (by omega) (by omega)]
      simp
    · unfold cellAt
      rw [← ex, ← ey, hval]; omega
    · refine ⟨(p.1, p.2.1), ?_, ?_, ?_⟩
      · show (p.1, p.2.1) ∈ GetHexOffsets E (((hx : Nat) : Int) % 2 != 0)
        rw [← nat_parity_cast]; exact hmem
      · simp only []; omega
      · simp only []; omega

/-- The backtrace on the grid of a flood that kept its invariant never fails: it fills the
`n` steps of the path that are still to be written, with hexes that are on the map and
admitted by the request, each one a neighbour of the next. -/
theorem FindPathBacktrace_spec (E : Engine) (map : Map) (pfd : PathFindData) (f : Flood)
    (ctx : FloodCtx E map pfd) (hinv : FloodInv E map pfd f) (smooth_count : Int) :
    ∀ (n : Nat) (b : Backtrace) (pre suf : List PathStep),
      b.path = pre ++ suf → pre.length = n →
      b.cx < map.Width → b.cy < map.Height →
      Near pfd ((E.FPATH_MAX_PATH : Int) - 1) b.cx b.cy →
      cellAt E pfd f.Grid b.cx b.cy = (n : Int) + 1 → (n : Int) + 1 ≤ E.FPATH_MAX_PATH →
      ∃ (b' : Backtrace) (news : List PathStep),
        FindPathBacktrace E f.Grid pfd.FromX pfd.FromY smooth_count n b = (b', true) ∧
        b'.path = news ++ suf ∧ news.length = n ∧
        List.Chain' (StepBack E) (pathHexes news) ∧
        (pathHexes news).getLast? = (if n = 0 then none else some (b.cx, b.cy)) ∧
        (∀ h ∈ pathHexes news, h.1 < map.Width ∧ h.2 < map.Height ∧ Admitted E map pfd h.1 h.2) ∧
        cellAt E pfd f.Grid b'.cx b'.cy = 1 ∧ b'.cx < map.Width ∧ b'.cy < map.Height ∧
        Near pfd ((E.FPATH_MAX_PATH : Int) - 1) b'.cx b'.cy ∧
        (n = 0 → b'.cx = b.cx ∧ b'.cy = b.cy) ∧
        List.Chain' (StepBack E) ((b'.cx, b'.cy) :: pathHexes news) := by
  intro n
  induction n with
  | zero =>
    intro b pre suf hp hl hxw hyh hnear hcell _
    have : pre = [] := List.length_eq_zero.1 hl
    subst this
    refine ⟨b, [], ?_, hp, rfl, List.chain'_nil, rfl, fun h hh => absurd hh (List.not_mem_nil _),
      by simpa using hcell, hxw, hyh, hnear, fun _ => ⟨rfl, rfl⟩, List.chain'_singleton _⟩
    delta FindPathBacktrace
    rfl
  | succ n ih =>
    intro b pre suf hp hl hxw hyh hnear hcell hmax
    rcases List.eq_nil_or_concat pre with hnil | ⟨pre', old, hpre⟩
    · subst hnil; cases hl
    subst hpre
    have hl' : pre'.length = n := by simpa using hl
    have hp' : b.path = pre' ++ old :: suf := by simpa using hp
    subst hl'
    obtain ⟨hadm, dir, x, y, hres, hdir, hxw', hyh', hnear', hcell', hback⟩ :=
      FindPathGrid_spec E map pfd f ctx hinv b.cx b.cy pre'.length
        (if E.MapSmoothPath then
          if E.MapHexagonal then
            (if ((pre'.length : Int) + 2) % 2 ≠ 0 then !b.smooth_switcher else b.smooth_switcher)
          else decide (smooth_count < 2 ∨ b.smooth_iteration.tmod smooth_count ≠ 0)
        else b.smooth_switcher)
        hxw hyh hnear (by push_cast at hcell; omega) (by push_cast at hmax; omega)
    rw [FindPathBacktrace_succ]
    simp only [hres]
    rw [if_neg (by omega)]
    rw [hp', set_after_prefix]
    obtain ⟨b', news, h1, h2, h3, h4, h5, h6, h7, h8, h9, h10, h11, h12⟩ := ih
      { path := pre' ++ { (List.getD (pre' ++ old :: suf) pre'.length default) with
            HexX := b.cx, HexY := b.cy, Dir := dir.toNat } :: suf,
        cx := x, cy := y,
        smooth_switcher := (if E.MapSmoothPath then
          if E.MapHexagonal then
            (if ((pre'.length : Int) + 2) % 2 ≠ 0 then !b.smooth_switcher else b.smooth_switcher)
          else decide (smooth_count < 2 ∨ b.smooth_iteration.tmod smooth_count ≠ 0)
        else b.smooth_switcher),
        smooth_iteration := b.smooth_iteration + 1 }
      pre' _ rfl rfl hxw' hyh' hnear' hcell' (by push_cast at hmax; omega)
    refine ⟨b', news ++ [{ (List.getD (pre' ++ old :: suf) pre'.length default) with
            HexX := b.cx, HexY := b.cy, Dir := dir.toNat }], h1, ?_, ?_, ?_, ?_, ?_,
      h7, h8, h9, h10, fun h => absurd h (Nat.succ_ne_zero _), ?_⟩
    · rw [h2]; simp
    · simp [h3]
    · unfold pathHexes at h4 h5 ⊢
      rw [List.map_append, List.chain'_append]
      refine ⟨h4, List.chain'_singleton _, ?_⟩
      intro a ha c hc
      rw [h5] at ha
      simp only [List.map_cons, List.map_nil, List.head?_cons, Option.mem_def,
        Option.some.injEq] at hc
      subst hc
      by_cases hz : pre'.length = 0
      · rw [if_pos hz] at ha; cases ha
      · rw [if_neg hz] at ha
        simp only [Option.mem_def, Option.some.injEq] at ha
        subst ha
        exact hback
    · unfold pathHexes
      simp
    · intro h hh
      unfold pathHexes at hh h6
      rw [List.map_append, List.mem_append] at hh
      rcases hh with hh | hh
      · exact h6 h hh
      · simp only [List.map_cons, List.map_nil, List.mem_singleton] at hh
        subst hh
        exact ⟨hxw, hyh, hadm⟩
    · unfold pathHexes at h5 h12 ⊢
      rw [List.map_append, ← List.cons_append, List.chain'_append]
      refine ⟨h12, List.chain'_singleton _, ?_⟩
      intro a ha c hc
      simp only [List.map_cons, List.map_nil, List.head?_cons, Option.mem_def,
        Option.some.injEq] at hc
      subst hc
      by_cases hz : pre'.length = 0
      · have hn : news = [] := List.length_eq_zero.1 (by rw [h3]; exact hz)
        subst hn
        simp only [List.map_nil, List.getLast?_singleton, Option.mem_def,
          Option.some.injEq] at ha
        obtain ⟨e1, e2⟩ := h11 hz
        simp only [] at e1 e2
        rw [← ha, e1, e2]
        exact hback
      · rw [if_neg hz] at h5
        have : (List.map (fun ps : PathStep => (ps.HexX, ps.HexY)) news) ≠ [] := by
          intro hnil; rw [hnil] at h5; cases h5
        obtain ⟨h0, t, ht⟩ := List.exists_cons_of_ne_nil this
        rw [ht] at ha h5
        rw [List.getLast?_cons_cons, h5] at ha
        simp only [Option.mem_def, Option.some.injEq] at ha
        subst ha
        exact hback

/-- The backtrace of `FindPath` from the hex at which the flood stopped: it succeeds and
writes a path of `numindex - 1` steps that ends at that hex. -/
theorem FindPathTraceBack_spec (E : Engine) (mm : MapManager) (map : Map) (pfd : PathFindData)
    (f : Flood) (cx cy : Nat) (numindex : Int) (ctx : FloodCtx E map pfd)
    (hgood : (FloodEnd.findOk f cx cy numindex).Good E map pfd) :
    ∃ b' : Backtrace, FindPathTraceBack E mm pfd f.Grid cx cy numindex = (b', true) ∧
      b'.path.length = (numindex - 1).toNat ∧ 1 ≤ numindex ∧ numindex ≤ E.FPATH_MAX_PATH ∧
      List.Chain' (StepBack E) (pathHexes b'.path) ∧
      (pathHexes b'.path).getLast? = (if (numindex - 1).toNat = 0 then none else some (cx, cy)) ∧
      (∀ h ∈ pathHexes b'.path,
        h.1 < map.Width ∧ h.2 < map.Height ∧ Admitted E map pfd h.1 h.2) ∧
      List.Chain' (StepBack E) ((pfd.FromX, pfd.FromY) :: pathHexes b'.path) := by
  obtain ⟨hinv, hc, hnum, _⟩ := hgood
  obtain ⟨hxw, hyh, h1, h2, hnear⟩ := hinv.coords_ok _ hc
  simp only [] at hxw hyh h1 h2 hnear
  rw [← hnum] at h1 h2 hnear
  unfold FindPathTraceBack
  simp only []
  have hlen : (resizePath (mm.pathesPool (nextPathNum E mm.pathNumCur)) (numindex - 1).toNat).length
      = (numindex - 1).toNat := by
    unfold resizePath
    simp only [List.length_append, List.length_take, List.length_replicate]
    omega
  obtain ⟨b', news, e1, e2, e3, e4, e5, e6, e7, e8, e9, e10, _, e12⟩ := FindPathBacktrace_spec E map pfd f ctx hinv
    (FindPathSmooth E cx cy pfd.FromX pfd.FromY).1 (numindex - 1).toNat
    { path := resizePath (mm.pathesPool (nextPathNum E mm.pathNumCur)) (numindex - 1).toNat,
      cx := cx, cy := cy,
      smooth_switcher := if (!E.MapSmoothPath) = true then false else mm.smooth_switcher,
      smooth_iteration := (FindPathSmooth E cx cy pfd.FromX pfd.FromY).2 }
    _ [] (List.append_nil _).symm hlen hxw hyh (Near_mono pfd _ _ _ _ hnear (by omega))
    (by rw [← hnum]; omega) (by omega)
  rw [List.append_nil] at e2
  refine ⟨b', e1, by rw [e2, e3], h1, h2, ?_, ?_, ?_, ?_⟩
  · rw [e2]; exact e4
  · rw [e2]; exact e5
  · rw [e2]; exact e6
  · obtain ⟨o1, o2⟩ := hinv.one b'.cx b'.cy e8 e9 e10 e7
    rw [e2, ← o1, ← o2]
    exact e12

/-- Shrinking a vector by `resize` keeps its first elements. -/
theorem resizePath_of_le (path : List PathStep) (n : Nat) (h : n ≤ path.length) :
    resizePath path n = path.take n := by
  unfold resizePath
  simp [Nat.sub_eq_zero_of_le h]

/-- The soft-obstacle check leaves the path as it is or cuts it. -/
theorem FindPathCheckSoft_prefix (E : Engine) (map : Map) (pfd : PathFindData)
    (path : List PathStep) : ∀ (rest : List PathStep) (i : Nat),
    i + rest.length ≤ path.length →
    ∃ k, (FindPathCheckSoft E map pfd path i rest).1 = path.take k := by
  intro rest
  induction rest with
  | nil => intro i _; exact ⟨path.length, by simp [FindPathCheckSoft]⟩
  | cons ps rest ih =>
    intro i hi
    have hi' : i + 1 + rest.length ≤ path.length := by
      simp only [List.length_cons] at hi; omega
    have hk : ∃ k, resizePath path i = path.take k :=
      ⟨i, resizePath_of_le path i (by omega)⟩
    unfold FindPathCheckSoft
    split
    · exact ih _ hi'
    · split
      · split
        · exact ih _ hi'
        · exact hk
      · split
        · split
          · exact ih _ hi'
          · split
            · exact ih _ hi'
            · exact hk
        · exact ih _ hi'

/-- The step at which a band of the trace block sees the target is a step of the path. -/
theorem FindPathTraceBand_bound (E : Engine) (trace_seq : List Int) (tx ty trace k : Nat) :
    ∀ (rest : List PathStep) (t : TraceData) (i j : Nat) (t' : TraceData),
    FindPathTraceBand E trace_seq tx ty trace k t i rest = (some j, t') →
    j < i + rest.length := by
  intro rest
  induction rest with
  | nil => intro t i j t' h; simp [FindPathTraceBand] at h
  | cons ps rest ih =>
    intro t i j t' h
    have step : ∀ t0, FindPathTraceBand E trace_seq tx ty trace k t0 (i + 1) rest = (some j, t') →
        j < i + (ps :: rest).length := by
      intro t0 h0
      have := ih t0 (i + 1) j t' h0
      simp only [List.length_cons]; omega
    unfold FindPathTraceBand at h
    split at h
    · exact step _ h
    · split at h
      · exact step _ h
      · split at h
        · exact step _ h
        · simp only [] at h
          split at h
          · simp only [Prod.mk.injEq, Option.some.injEq] at h
            simp only [List.length_cons]; omega
          · exact step _ h

/-- The step at which the trace block sees the target is a step of the path. -/
theorem FindPathTraceBands_bound (E : Engine) (trace_seq : List Int) (tx ty trace : Nat)
    (path : List PathStep) : ∀ (ks : List Nat) (t : TraceData) (j : Nat),
    FindPathTraceBands E trace_seq tx ty trace path t ks = some j → j < path.length := by
  intro ks
  induction ks with
  | nil => intro t j h; simp [FindPathTraceBands] at h
  | cons k ks ih =>
    intro t j h
    unfold FindPathTraceBands at h
    split at h
    · rename_i i t1 heq
      simp only [Option.some.injEq] at h
      subst h
      have := FindPathTraceBand_bound E trace_seq tx ty trace k path t 0 _ _ heq
      omega
    · exact ih _ _ h

/-- The trace block leaves the path as it is or cuts it. -/
theorem FindPathTrace_prefix (E : Engine) (mm : MapManager) (map : Map) (pfd : PathFindData)
    (cs r : List PathStep × PathFindData)
    (h : FindPathTrace E mm map pfd cs = some (some r)) : ∃ k, r.1 = cs.1.take k := by
  unfold FindPathTrace at h
  split at h
  · split at h
    · cases h
    · simp only [] at h
      split at h
      · rename_i i heq
        have := FindPathTraceBands_bound E _ _ _ _ _ _ _ _ heq
        simp only [Option.some.injEq] at h
        subst h
        exact ⟨i + 1, resizePath_of_le _ _ (by omega)⟩
      · split at h
        · cases h
        · simp only [Option.some.injEq] at h
          subst h
          exact ⟨cs.1.length, by simp⟩
  · simp only [Option.some.injEq] at h
    subst h
    exact ⟨cs.1.length, by simp⟩

/-- The loop of `PathSetMoveParams` changes no hex. -/
theorem PathSetMoveParamsLoop_hexes (E : Engine) (is_run : Bool) :
    ∀ (l : List PathStep) (mp : Nat),
    pathHexes (PathSetMoveParamsLoop E is_run mp l) = pathHexes l := by
  intro l
  induction l with
  | nil => intro mp; rfl
  | cons ps rest ih =>
    intro mp
    unfold PathSetMoveParamsLoop
    simp only [pathHexes, List.map_cons] at ih ⊢
    rw [ih]

/-- `PathSetMoveParams` changes no hex of the path. -/
theorem PathSetMoveParams_hexes (E : Engine) (path : List PathStep) (is_run : Bool) :
    pathHexes (PathSetMoveParams E path is_run) = pathHexes path := by
  unfold PathSetMoveParams
  have h := PathSetMoveParamsLoop_hexes E is_run path.reverse 0
  unfold pathHexes at h ⊢
  rw [List.map_reverse, h, List.map_reverse, List.reverse_reverse]

/-- A call of `FindPath` that returns `FPATH_OK` went through the flood, which stopped at
`label_FindOk`, and through the part after it. -/
theorem FindPath_ok_cases (E : Engine) (mm mm' : MapManager) (pfd pfd' : PathFindData)
    (map : Map) (hmap : GetMap mm pfd.MapId = some map)
    (h : FindPath E mm pfd = some (FPATH_OK, mm', pfd')) :
    pfd.FromX < map.Width ∧ pfd.FromY < map.Height ∧
    ∃ (f : Flood) (cx cy : Nat) (numindex : Int),
      FindPathFlood E map pfd (map.Width * map.Height + 1)
        { Grid := gridSet (fun _ => 0) (GRID E pfd.FromX pfd.FromY pfd.FromX pfd.FromY) 1,
          coords := [(pfd.FromX, pfd.FromY)], cr_coords := [], gag_coords := [] } 0 1 =
        some (FloodEnd.findOk f cx cy numindex) ∧
      FindPathFinish E mm map pfd f.Grid cx cy numindex = some (FPATH_OK, mm', pfd') := by
  unfold FindPath at h
  rw [hmap] at h
  simp only [] at h
  split at h
  · cases h
  · split at h
    · cases h
    · rename_i hb
      split at h
      · cases h
      · split at h
        · cases h
        · split at h
          · cases h
          · split at h
            · cases h
            · cases h
            · cases h
            · rename_i f cx cy numindex hfl
              exact ⟨by omega, by omega, f, cx, cy, numindex, hfl, h⟩

/-- The slot of the pool that a successful result names holds the path with its move
parameters set. -/
theorem FindPathResult_ok (E : Engine) (mm mm' : MapManager) (is_run : Bool)
    (path : List PathStep) (pfd pfd' : PathFindData)
    (h : FindPathResult E mm is_run path pfd = (FPATH_OK, mm', pfd')) :
    mm'.pathesPool pfd'.PathNum = PathSetMoveParams E path is_run ∧
    (PathSetMoveParams E path is_run).getLast?.map (fun ps => (ps.HexX, ps.HexY)) =
      some (pfd'.NewToX, pfd'.NewToY) := by
  unfold FindPathResult at h
  simp only [] at h
  split at h
  · cases h
  · rename_i ps hps
    simp only [Prod.mk.injEq, true_and] at h
    obtain ⟨h1, h2⟩ := h
    subst h1 h2
    simp [setPool, hps]

/-- The path of a successful result is the path of the backtrace or a beginning of it. -/
theorem FindPathFinish_ok (E : Engine) (mm mm' : MapManager) (map : Map)
    (pfd pfd' : PathFindData) (grid : GridBuf) (cx cy : Nat) (numindex : Int)
    (h : FindPathFinish E mm map pfd grid cx cy numindex = some (FPATH_OK, mm', pfd')) :
    (FindPathTraceBack E mm pfd grid cx cy numindex).2 = true ∧
    ∃ k, pathHexes (mm'.pathesPool pfd'.PathNum) =
      (pathHexes (FindPathTraceBack E mm pfd grid cx cy numindex).1.path).take k := by
  unfold FindPathFinish at h
  simp only [] at h
  split at h
  · cases h
  · rename_i hbt
    refine ⟨by simpa using hbt, ?_⟩
    split at h
    · cases h
    · cases h
    · rename_i r htr
      simp only [Option.some.injEq] at h
      obtain ⟨k1, hk1⟩ := FindPathTrace_prefix E mm map pfd _ r htr
      obtain ⟨e1, _⟩ := FindPathResult_ok E _ mm' pfd.IsRun r.1 r.2 pfd' h
      rw [e1, PathSetMoveParams_hexes, hk1]
      by_cases hs : (pfd.CheckCrit || pfd.CheckGagItems) = true
      · rw [if_pos hs]
        obtain ⟨k2, hk2⟩ := FindPathCheckSoft_prefix E map pfd
          (FindPathTraceBack E mm pfd grid cx cy numindex).1.path
          (FindPathTraceBack E mm pfd grid cx cy numindex).1.path 0 (by omega)
        rw [hk2]
        refine ⟨min k1 k2, ?_⟩
        unfold pathHexes
        rw [List.take_take, List.map_take]
      · rw [if_neg hs]
        exact ⟨k1, by unfold pathHexes; rw [List.map_take]⟩

/-- The path of a successful call of `FindPath`: it has fewer steps than the depth limit,
each step is a neighbour of the next, and every step is a hex of the map that the request
admits. -/
theorem FindPath_ok_path (E : Engine) (mm mm' : MapManager) (pfd pfd' : PathFindData)
    (map : Map) (hmap : GetMap mm pfd.MapId = some map)
    (hmax0 : 0 < E.FPATH_MAX_PATH) (hmax : E.FPATH_MAX_PATH < 16384)
    (hw : map.Width ≤ 65535) (hh : map.Height ≤ 65535)
    (h : FindPath E mm pfd = some (FPATH_OK, mm', pfd')) :
    (pathHexes (mm'.pathesPool pfd'.PathNum)).length + 1 ≤ E.FPATH_MAX_PATH ∧
    List.Chain' (StepBack E) (pathHexes (mm'.pathesPool pfd'.PathNum)) ∧
    ∀ c ∈ pathHexes (mm'.pathesPool pfd'.PathNum),
      c.1 < map.Width ∧ c.2 < map.Height ∧ Admitted E map pfd c.1 c.2 := by
  obtain ⟨hfx, hfy, f, cx, cy, numindex, hfl, hfin⟩ := FindPath_ok_cases E mm mm' pfd pfd' map hmap h
  have ctx : FloodCtx E map pfd := ⟨hmax0, hmax, hw, hh, hfx, hfy⟩
  have hgood := FindPathFlood_inv E map pfd ctx _ _ _ _ (FloodInv_init E map pfd ctx) _ hfl
  obtain ⟨b', e1, e2, e3, e4, e5, _, e7, _⟩ :=
    FindPathTraceBack_spec E mm map pfd f cx cy numindex ctx hgood
  obtain ⟨_, k, hk⟩ := FindPathFinish_ok E mm mm' map pfd pfd' f.Grid cx cy numindex hfin
  rw [e1] at hk
  simp only [] at hk
  rw [hk]
  refine ⟨?_, List.Chain'.take e5 k, fun c hc => e7 c (List.mem_of_mem_take hc)⟩
  have : (pathHexes b'.path).length = (numindex - 1).toNat := by
    unfold pathHexes; rw [List.length_map, e2]
  rw [List.length_take, this]
  omega

/-- The neighbour relation of the backtrace, read forwards: the later step is at distance 1
from the earlier one, at one of the offsets of the table of the earlier one. -/
theorem StepBack_forward (E : Engine) (a b : UShortPair) (h : StepBack E a b) :
    DistGame E a.1 a.2 b.1 b.2 = 1 ∧
    ((b.1 : Int) - a.1, (b.2 : Int) - a.2) ∈ GetHexOffsets E (a.1 % 2 != 0) := by
  obtain ⟨s, hs, h1, h2⟩ := h
  have hsym := GetHexOffsets_symm E b.1 s hs
  rw [← h1] at hsym
  have e1 : (b.1 : Int) - a.1 = -s.1 := by omega
  have e2 : (b.2 : Int) - a.2 = -s.2 := by omega
  have hd := DistGame_neighbour E a.1 a.2 _ hsym
  simp only [] at hd
  rw [e1, e2, nat_parity_cast]
  refine ⟨?_, hsym⟩
  have e3 : (a.1 : Int) + -s.1 = b.1 := by omega
  have e4 : (a.2 : Int) + -s.2 = b.2 := by omega
  rw [e3, e4] at hd
  exact hd

/-! ## The steps of a successful path -/

/-- C2. For engine limits `0 < FPATH_MAX_PATH < 16384` (the two mark bits of the grid stay
free) and a map whose sides fit their type `ushort`: when `FindPath` returns `FPATH_OK`, the path in
the slot `PathNum` of the pool has at most `FPATH_MAX_PATH` steps, and every step is
followed by a step at distance 1 from it, which lies at one of the neighbour offsets of
the tessellation (six, by the parity of the column, on a hexagonal map; eight on a square
map). -/
theorem FindPath_steps_adjacent (E : Engine) (mm mm' : MapManager) (pfd pfd' : PathFindData)
    (map : Map) (hmap : GetMap mm pfd.MapId = some map)
    (hmax0 : 0 < E.FPATH_MAX_PATH) (hmax : E.FPATH_MAX_PATH < 16384)
    (hw : map.Width ≤ 65535) (hh : map.Height ≤ 65535)
    (h : FindPath E mm pfd = some (FPATH_OK, mm', pfd')) :
    (mm'.pathesPool pfd'.PathNum).length ≤ E.FPATH_MAX_PATH ∧
    List.Chain' (fun a b : PathStep =>
        DistGame E a.HexX a.HexY b.HexX b.HexY = 1 ∧
        ((b.HexX : Int) - a.HexX, (b.HexY : Int) - a.HexY) ∈ GetHexOffsets E (a.HexX % 2 != 0))
      (mm'.pathesPool pfd'.PathNum) := by
  obtain ⟨h1, h2, _⟩ := FindPath_ok_path E mm mm' pfd pfd' map hmap hmax0 hmax hw hh h
  refine ⟨?_, ?_⟩
  · unfold pathHexes at h1
    rw [List.length_map] at h1
    omega
  · unfold pathHexes at h2
    rw [List.chain'_map] at h2
    exact List.Chain'.imp (fun a b hab => StepBack_forward E _ _ hab) h2

theorem FindPath_steps_adjacent_witness :
    ∃ mm' pfd',
      FindPath (sampleEngine true true 400)
        (sampleManager (sampleMap 10 10 [((2, 2), 1), ((3, 3), 1)] []))
        (sampleRequest 0 0 5 5 0) = some (FPATH_OK, mm', pfd') ∧
      (mm'.pathesPool pfd'.PathNum).length ≤ 400 ∧
      List.Chain' (fun a b : PathStep =>
          DistGame (sampleEngine true true 400) a.HexX a.HexY b.HexX b.HexY = 1 ∧
          ((b.HexX : Int) - a.HexX, (b.HexY : Int) - a.HexY) ∈
            GetHexOffsets (sampleEngine true true 400) (a.HexX % 2 != 0))
        (mm'.pathesPool pfd'.PathNum) := by
  have hd : (FindPath (sampleEngine true true 400)
      (sampleManager (sampleMap 10 10 [((2, 2), 1), ((3, 3), 1)] []))
      (sampleRequest 0 0 5 5 0)).map (fun r => r.1) = some FPATH_OK := by decide!
  cases hr : FindPath (sampleEngine true true 400)
      (sampleManager (sampleMap 10 10 [((2, 2), 1), ((3, 3), 1)] []))
      (sampleRequest 0 0 5 5 0) with
  | none => rw [hr] at hd; cases hd
  | some r =>
    obtain ⟨c, mm', pfd'⟩ := r
    rw [hr] at hd
    simp only [Option.map_some', Option.some.injEq] at hd
    subst hd
    exact ⟨mm', pfd', rfl, FindPath_steps_adjacent (sampleEngine true true 400)
      (sampleManager (sampleMap 10 10 [((2, 2), 1), ((3, 3), 1)] [])) mm'
      (sampleRequest 0 0 5 5 0) pfd'
      (sampleMap 10 10 [((2, 2), 1), ((3, 3), 1)] []) rfl (by decide) (by decide) (by decide)
      (by decide) hr⟩

/-- C4. For engine limits `0 < FPATH_MAX_PATH < 16384` and a map whose sides fit their
type `ushort`: when `FindPath` is called with `Multihex = 0` and with `CheckCrit` and `CheckGagItems`
off and returns `FPATH_OK`, no step of the path in the slot `PathNum` of the pool is a hex
whose flags, in the map given to the call, have a bit of `FH_NOWAY` set. -/
theorem FindPath_avoids_blocked (E : Engine) (mm mm' : MapManager) (pfd pfd' : PathFindData)
    (map : Map) (hmap : GetMap mm pfd.MapId = some map)
    (hmax0 : 0 < E.FPATH_MAX_PATH) (hmax : E.FPATH_MAX_PATH < 16384)
    (hw : map.Width ≤ 65535) (hh : map.Height ≤ 65535)
    (hmulti : pfd.Multihex = 0) (hcrit : pfd.CheckCrit = false)
    (hgag : pfd.CheckGagItems = false)
    (h : FindPath E mm pfd = some (FPATH_OK, mm', pfd')) :
    ∀ ps ∈ mm'.pathesPool pfd'.PathNum,
      FLAG (E.GetHexFlags map ps.HexX ps.HexY) E.FH_NOWAY = false := by
  obtain ⟨_, _, h3⟩ := FindPath_ok_path E mm mm' pfd pfd' map hmap hmax0 hmax hw hh h
  intro ps hps
  have hm : (ps.HexX, ps.HexY) ∈ pathHexes (mm'.pathesPool pfd'.PathNum) := by
    unfold pathHexes
    exact List.mem_map.2 ⟨ps, hps, rfl⟩
  obtain ⟨_, _, hadm⟩ := h3 _ hm
  simp only [] at hadm
  rcases hadm with hadm | hadm | hadm | hadm
  · exact absurd hmulti hadm
  · exact hadm
  · rw [hgag] at hadm; cases hadm.1
  · rw [hcrit] at hadm; cases hadm.1

theorem FindPath_avoids_blocked_witness :
    ∃ mm' pfd',
      FindPath (sampleEngine false false 400) (sampleManager (sampleMap 10 10 [((2, 2), 1)] []))
        (sampleRequest 0 0 5 5 0) = some (FPATH_OK, mm', pfd') ∧
      ∀ ps ∈ mm'.pathesPool pfd'.PathNum,
        FLAG ((sampleEngine false false 400).GetHexFlags (sampleMap 10 10 [((2, 2), 1)] [])
          ps.HexX ps.HexY) (sampleEngine false false 400).FH_NOWAY = false := by
  have hd : (FindPath (sampleEngine false false 400)
      (sampleManager (sampleMap 10 10 [((2, 2), 1)] []))
      (sampleRequest 0 0 5 5 0)).map (fun r => r.1) = some FPATH_OK := by decide!
  cases hr : FindPath (sampleEngine false false 400)
      (sampleManager (sampleMap 10 10 [((2, 2), 1)] [])) (sampleRequest 0 0 5 5 0) with
  | none => rw [hr] at hd; cases hd
  | some r =>
    obtain ⟨c, mm', pfd'⟩ := r
    rw [hr] at hd
    simp only [Option.map_some', Option.some.injEq] at hd
    subst hd
    exact ⟨mm', pfd', rfl, FindPath_avoids_blocked (sampleEngine false false 400)
      (sampleManager (sampleMap 10 10 [((2, 2), 1)] [])) mm' (sampleRequest 0 0 5 5 0) pfd'
      (sampleMap 10 10 [((2, 2), 1)] []) rfl (by decide) (by decide) (by decide)
      (by decide) rfl rfl rfl hr⟩

/-! ## Distances on the map -/

/-- The distance on a hexagonal map in doubled rows (`v = 2 y - x % 2`): it is the largest
of `|dx|` and `(|dx| + |dv|) / 2`, here as the linear facts that say so. -/
theorem DistGame_hex_char (E : Engine) (hh : E.MapHexagonal = true) (x1 y1 x2 y2 : Int) :
    ((DistGame E x1 y1 x2 y2 : Int) ≥ x1 - x2 ∧ (DistGame E x1 y1 x2 y2 : Int) ≥ x2 - x1 ∧
      2 * (DistGame E x1 y1 x2 y2 : Int) ≥ (x1 - x2) + ((2 * y1 - x1 % 2) - (2 * y2 - x2 % 2)) ∧
      2 * (DistGame E x1 y1 x2 y2 : Int) ≥ (x1 - x2) - ((2 * y1 - x1 % 2) - (2 * y2 - x2 % 2)) ∧
      2 * (DistGame E x1 y1 x2 y2 : Int) ≥ (x2 - x1) + ((2 * y1 - x1 % 2) - (2 * y2 - x2 % 2)) ∧
      2 * (DistGame E x1 y1 x2 y2 : Int) ≥ (x2 - x1) - ((2 * y1 - x1 % 2) - (2 * y2 - x2 % 2))) ∧
    ((DistGame E x1 y1 x2 y2 : Int) = x1 - x2 ∨ (DistGame E x1 y1 x2 y2 : Int) = x2 - x1 ∨
      2 * (DistGame E x1 y1 x2 y2 : Int) = (x1 - x2) + ((2 * y1 - x1 % 2) - (2 * y2 - x2 % 2)) ∨
      2 * (DistGame E x1 y1 x2 y2 : Int) = (x1 - x2) - ((2 * y1 - x1 % 2) - (2 * y2 - x2 % 2)) ∨
      2 * (DistGame E x1 y1 x2 y2 : Int) = (x2 - x1) + ((2 * y1 - x1 % 2) - (2 * y2 - x2 % 2)) ∨
      2 * (DistGame E x1 y1 x2 y2 : Int) = (x2 - x1) - ((2 * y1 - x1 % 2) - (2 * y2 - x2 % 2))) := by
  unfold DistGame
  rw [if_pos hh]
  simp only []
  split_ifs <;> (simp only [Int.toNat_of_nonneg, Int.ofNat_toNat]) <;> omega

/-- The distance on a square map, as linear facts. -/
theorem DistGame_square_char (E : Engine) (hh : E.MapHexagonal = false) (x1 y1 x2 y2 : Int) :
    ((DistGame E x1 y1 x2 y2 : Int) ≥ x1 - x2 ∧ (DistGame E x1 y1 x2 y2 : Int) ≥ x2 - x1 ∧
      (DistGame E x1 y1 x2 y2 : Int) ≥ y1 - y2 ∧ (DistGame E x1 y1 x2 y2 : Int) ≥ y2 - y1) ∧
    ((DistGame E x1 y1 x2 y2 : Int) = x1 - x2 ∨ (DistGame E x1 y1 x2 y2 : Int) = x2 - x1 ∨
      (DistGame E x1 y1 x2 y2 : Int) = y1 - y2 ∨ (DistGame E x1 y1 x2 y2 : Int) = y2 - y1) := by
  unfold DistGame
  rw [hh]
  simp only [Bool.false_eq_true, if_false]
  omega

/-- The neighbour offsets of a hexagonal map, by cases. -/
theorem GetHexOffsets_hex_cases (E : Engine) (hh : E.MapHexagonal = true) (x : Int)
    (s : Int × Int) :
    s ∈ GetHexOffsets E (x % 2 != 0) ↔
      (x % 2 = 0 ∧ ((s.1 = -1 ∧ s.2 = 0) ∨ (s.1 = -1 ∧ s.2 = 1) ∨ (s.1 = 0 ∧ s.2 = 1) ∨
        (s.1 = 1 ∧ s.2 = 1) ∨ (s.1 = 1 ∧ s.2 = 0) ∨ (s.1 = 0 ∧ s.2 = -1))) ∨
      (x % 2 = 1 ∧ ((s.1 = -1 ∧ s.2 = -1) ∨ (s.1 = -1 ∧ s.2 = 0) ∨ (s.1 = 0 ∧ s.2 = 1) ∨
        (s.1 = 1 ∧ s.2 = 0) ∨ (s.1 = 1 ∧ s.2 = -1) ∨ (s.1 = 0 ∧ s.2 = -1))) := by
  obtain ⟨a, b⟩ := s
  unfold GetHexOffsets
  rw [if_pos hh]
  rcases Int.emod_two_eq_zero_or_one x with hx | hx <;> simp [hx]

/-- The neighbour offsets of a square map, by cases. -/
theorem GetHexOffsets_square_cases (E : Engine) (hh : E.MapHexagonal = false) (odd : Bool)
    (s : Int × Int) :
    s ∈ GetHexOffsets E odd ↔
      (-1 ≤ s.1 ∧ s.1 ≤ 1 ∧ -1 ≤ s.2 ∧ s.2 ≤ 1 ∧ (s.1 ≠ 0 ∨ s.2 ≠ 0)) := by
  obtain ⟨a, b⟩ := s
  unfold GetHexOffsets
  rw [hh]
  simp only [Bool.false_eq_true, if_false, List.mem_cons, Prod.mk.injEq, List.mem_singleton,
    List.not_mem_nil, or_false]
  omega

/-- A step to a neighbour changes the distance from a fixed hex by at most one. -/
theorem DistGame_step_le (E : Engine) (fx fy x y : Int) (s : Int × Int)
    (hs : s ∈ GetHexOffsets E (x % 2 != 0)) :
    DistGame E fx fy (x + s.1) (y + s.2) ≤ DistGame E fx fy x y + 1 := by
  cases hh : E.MapHexagonal
  · have h1 := DistGame_square_char E hh fx fy x y
    have h2 := DistGame_square_char E hh fx fy (x + s.1) (y + s.2)
    have h3 := (GetHexOffsets_square_cases E hh _ s).1 hs
    omega
  · have h1 := (DistGame_hex_char E hh fx fy x y).1
    have h2 := (DistGame_hex_char E hh fx fy (x + s.1) (y + s.2)).2
    have h3 := (GetHexOffsets_hex_cases E hh x s).1 hs
    omega

/-- Two hexes at distance 0 are the same hex. -/
theorem DistGame_eq_zero (E : Engine) (x1 y1 x2 y2 : Int)
    (h : DistGame E x1 y1 x2 y2 = 0) : x1 = x2 ∧ y1 = y2 := by
  cases hh : E.MapHexagonal
  · have h1 := (DistGame_square_char E hh x1 y1 x2 y2).1
    omega
  · have h1 := (DistGame_hex_char E hh x1 y1 x2 y2).1
    omega

/-- A hex is within its distance of the start hex, by columns and by rows. -/
theorem DistGame_near (E : Engine) (pfd : PathFindData) (x y : Int) :
    Near pfd (DistGame E pfd.FromX pfd.FromY x y) x y := by
  unfold Near
  cases hh : E.MapHexagonal
  · have h1 := (DistGame_square_char E hh pfd.FromX pfd.FromY x y).1
    omega
  · have h1 := (DistGame_hex_char E hh pfd.FromX pfd.FromY x y).1
    omega

/-- The distance between two hexes of a map is at most the sum of its sides. -/
theorem DistGame_le_sides (E : Engine) (w h fx fy x y : Nat)
    (hfx : fx < w) (hfy : fy < h) (hx : x < w) (hy : y < h) :
    DistGame E fx fy x y + 2 ≤ w + h := by
  cases hh : E.MapHexagonal
  · have h1 := (DistGame_square_char E hh fx fy x y).2
    omega
  · have h1 := (DistGame_hex_char E hh fx fy x y).2
    omega

/-- An upper bound of the distance on a hexagonal map, from the six linear bounds. -/
theorem DistGame_hex_le (E : Engine) (hh : E.MapHexagonal = true) (x1 y1 x2 y2 m : Int)
    (h : x1 - x2 ≤ m ∧ x2 - x1 ≤ m ∧
      (x1 - x2) + ((2 * y1 - x1 % 2) - (2 * y2 - x2 % 2)) ≤ 2 * m ∧
      (x1 - x2) - ((2 * y1 - x1 % 2) - (2 * y2 - x2 % 2)) ≤ 2 * m ∧
      (x2 - x1) + ((2 * y1 - x1 % 2) - (2 * y2 - x2 % 2)) ≤ 2 * m ∧
      (x2 - x1) - ((2 * y1 - x1 % 2) - (2 * y2 - x2 % 2)) ≤ 2 * m) :
    (DistGame E x1 y1 x2 y2 : Int) ≤ m := by
  have h1 := (DistGame_hex_char E hh x1 y1 x2 y2).2
  omega

/-- The neighbour one step nearer to the start hex, on a hexagonal map. -/
theorem DistGame_descent_hex (E : Engine) (hh : E.MapHexagonal = true) (w h fx fy x y : Nat)
    (hfx : fx < w) (hfy : fy < h) (hx : x < w) (hy : y < h)
    (hd : 1 ≤ DistGame E fx fy x y) :
    ∃ s ∈ GetHexOffsets E (((x : Nat) : Int) % 2 != 0),
      0 ≤ (x : Int) + s.1 ∧ (x : Int) + s.1 < w ∧ 0 ≤ (y : Int) + s.2 ∧ (y : Int) + s.2 < h ∧
      DistGame E fx fy ((x : Int) + s.1) ((y : Int) + s.2) + 1 = DistGame E fx fy x y := by
  have h1 := (DistGame_hex_char E hh fx fy x y).1
  have cand : ∀ a b : Int, ((a, b) : Int × Int) ∈ GetHexOffsets E (((x : Nat) : Int) % 2 != 0) →
      (0 ≤ (x : Int) + a ∧ (x : Int) + a < w ∧ 0 ≤ (y : Int) + b ∧ (y : Int) + b < h) →
      DistGame E fx fy ((x : Int) + a) ((y : Int) + b) + 1 ≤ DistGame E fx fy x y →
      ∃ s ∈ GetHexOffsets E (((x : Nat) : Int) % 2 != 0),
        0 ≤ (x : Int) + s.1 ∧ (x : Int) + s.1 < w ∧ 0 ≤ (y : Int) + s.2 ∧ (y : Int) + s.2 < h ∧
        DistGame E fx fy ((x : Int) + s.1) ((y : Int) + s.2) + 1 = DistGame E fx fy x y := by
    intro a b hmem hin hle
    refine ⟨(a, b), hmem, hin.1, hin.2.1, hin.2.2.1, hin.2.2.2, ?_⟩
    have h3 := DistGame_step_le E fx fy ((x : Int) + a) ((y : Int) + b) (-a, -b)
      (by
        have := GetHexOffsets_symm E x (a, b) hmem
        exact this)
    simp only [] at h3
    have e1 : (x : Int) + a + -a = x := by omega
    have e2 : (y : Int) + b + -b = y := by omega
    rw [e1, e2] at h3
    show DistGame E fx fy ((x : Int) + a) ((y : Int) + b) + 1 = DistGame E fx fy x y
    omega
  have mem : ∀ a b : Int,
      (((x : Int) % 2 = 0 ∧ ((a = -1 ∧ b = 0) ∨ (a = -1 ∧ b = 1) ∨ (a = 0 ∧ b = 1) ∨
        (a = 1 ∧ b = 1) ∨ (a = 1 ∧ b = 0) ∨ (a = 0 ∧ b = -1))) ∨
      ((x : Int) % 2 = 1 ∧ ((a = -1 ∧ b = -1) ∨ (a = -1 ∧ b = 0) ∨ (a = 0 ∧ b = 1) ∨
        (a = 1 ∧ b = 0) ∨ (a = 1 ∧ b = -1) ∨ (a = 0 ∧ b = -1)))) →
      ((a, b) : Int × Int) ∈ GetHexOffsets E (((x : Nat) : Int) % 2 != 0) :=
    fun a b hab => (GetHexOffsets_hex_cases E hh x (a, b)).2 hab
  obtain ⟨dv, hdv⟩ : ∃ dv : Int,
      dv = (2 * (y : Int) - (x : Int) % 2) - (2 * (fy : Int) - (fx : Int) % 2) := ⟨_, rfl⟩
  by_cases hA : dv ≥ (x : Int) - fx + 2 ∧ dv ≥ (fx : Int) - x + 2
  · have h2 : (DistGame E fx fy ((x : Int) + 0) ((y : Int) + -1) : Int) ≤
    DistGame E fx fy x y - 1 := DistGame_hex_le E hh _ _ _ _ _ (by omega)
    exact cand 0 (-1) (mem _ _ (by omega)) (by omega) (by omega)
  by_cases hB : -dv ≥ (x : Int) - fx + 2 ∧ -dv ≥ (fx : Int) - x + 2
  · have h2 : (DistGame E fx fy ((x : Int) + 0) ((y : Int) + 1) : Int) ≤
    DistGame E fx fy x y - 1 := DistGame_hex_le E hh _ _ _ _ _ (by omega)
    exact cand 0 1 (mem _ _ (by omega)) (by omega) (by omega)
  have hne : (x : Int) ≠ fx := by
    intro he
    have := DistGame_hex_le E hh fx fy x y 0 (by omega)
    omega
  rcases Int.emod_two_eq_zero_or_one (x : Int) with hx2 | hx2
  · by_cases hC : (fx : Int) < x
    · by_cases hv : 0 ≤ dv
      · have h2 : (DistGame E fx fy ((x : Int) + -1) ((y : Int) + 0) : Int) ≤
    DistGame E fx fy x y - 1 := DistGame_hex_le E hh _ _ _ _ _ (by omega)
        exact cand (-1) 0 (mem _ _ (by omega)) (by omega) (by omega)
      · have h2 : (DistGame E fx fy ((x : Int) + -1) ((y : Int) + 1) : Int) ≤
    DistGame E fx fy x y - 1 := DistGame_hex_le E hh _ _ _ _ _ (by omega)
        exact cand (-1) 1 (mem _ _ (by omega)) (by omega) (by omega)
    · by_cases hv : 0 ≤ dv
      · have h2 : (DistGame E fx fy ((x : Int) + 1) ((y : Int) + 0) : Int) ≤
    DistGame E fx fy x y - 1 := DistGame_hex_le E hh _ _ _ _ _ (by omega)
        exact cand 1 0 (mem _ _ (by omega)) (by omega) (by omega)
      · have h2 : (DistGame E fx fy ((x : Int) + 1) ((y : Int) + 1) : Int) ≤
    DistGame E fx fy x y - 1 := DistGame_hex_le E hh _ _ _ _ _ (by omega)
        exact cand 1 1 (mem _ _ (by omega)) (by omega) (by omega)
  · by_cases hC : (fx : Int) < x
    · by_cases hv : 1 ≤ dv
      · have h2 : (DistGame E fx fy ((x : Int) + -1) ((y : Int) + -1) : Int) ≤
    DistGame E fx fy x y - 1 := DistGame_hex_le E hh _ _ _ _ _ (by omega)
        exact cand (-1) (-1) (mem _ _ (by omega)) (by omega) (by omega)
      · have h2 : (DistGame E fx fy ((x : Int) + -1) ((y : Int) + 0) : Int) ≤
    DistGame E fx fy x y - 1 := DistGame_hex_le E hh _ _ _ _ _ (by omega)
        exact cand (-1) 0 (mem _ _ (by omega)) (by omega) (by omega)
    · by_cases hv : 1 ≤ dv
      · have h2 : (DistGame E fx fy ((x : Int) + 1) ((y : Int) + -1) : Int) ≤
    DistGame E fx fy x y - 1 := DistGame_hex_le E hh _ _ _ _ _ (by omega)
        exact cand 1 (-1) (mem _ _ (by omega)) (by omega) (by omega)
      · have h2 : (DistGame E fx fy ((x : Int) + 1) ((y : Int) + 0) : Int) ≤
    DistGame E fx fy x y - 1 := DistGame_hex_le E hh _ _ _ _ _ (by omega)
        exact cand 1 0 (mem _ _ (by omega)) (by omega) (by omega)

/-- A hex of the map other than the start hex has a neighbour on the map that is one step
nearer to the start hex. -/
theorem DistGame_descent (E : Engine) (w h fx fy x y : Nat)
    (hfx : fx < w) (hfy : fy < h) (hx : x < w) (hy : y < h)
    (hd : 1 ≤ DistGame E fx fy x y) :
    ∃ s ∈ GetHexOffsets E (((x : Nat) : Int) % 2 != 0),
      0 ≤ (x : Int) + s.1 ∧ (x : Int) + s.1 < w ∧ 0 ≤ (y : Int) + s.2 ∧ (y : Int) + s.2 < h ∧
      DistGame E fx fy ((x : Int) + s.1) ((y : Int) + s.2) + 1 = DistGame E fx fy x y := by
  cases hh : E.MapHexagonal
  · have h1 := DistGame_square_char E hh fx fy x y
    have key : ∀ a b : Int, -1 ≤ a → a ≤ 1 → -1 ≤ b → b ≤ 1 → (a ≠ 0 ∨ b ≠ 0) →
        (0 ≤ (x : Int) + a ∧ (x : Int) + a < w ∧ 0 ≤ (y : Int) + b ∧ (y : Int) + b < h) →
        ((fx : Int) - (x + a) ≤ DistGame E fx fy x y - 1 ∧
          (x + a) - (fx : Int) ≤ DistGame E fx fy x y - 1 ∧
          (fy : Int) - (y + b) ≤ DistGame E fx fy x y - 1 ∧
          (y + b) - (fy : Int) ≤ DistGame E fx fy x y - 1) →
        ∃ s ∈ GetHexOffsets E (((x : Nat) : Int) % 2 != 0),
          0 ≤ (x : Int) + s.1 ∧ (x : Int) + s.1 < w ∧ 0 ≤ (y : Int) + s.2 ∧ (y : Int) + s.2 < h ∧
          DistGame E fx fy ((x : Int) + s.1) ((y : Int) + s.2) + 1 = DistGame E fx fy x y := by
      intro a b ha1 ha2 hb1 hb2 hab hin hle
      refine ⟨(a, b), (GetHexOffsets_square_cases E hh _ _).2 ⟨ha1, ha2, hb1, hb2, hab⟩,
        hin.1, hin.2.1, hin.2.2.1, hin.2.2.2, ?_⟩
      have h2 := DistGame_square_char E hh fx fy ((x : Int) + a) ((y : Int) + b)
      have h3 := DistGame_step_le E fx fy ((x : Int) + a) ((y : Int) + b) (-a, -b)
        ((GetHexOffsets_square_cases E hh _ _).2 ⟨by simp only []; omega, by simp only []; omega,
          by simp only []; omega, by simp only []; omega, by simp only []; omega⟩)
      simp only [] at h3
      have e1 : (x : Int) + a + -a = x := by omega
      have e2 : (y : Int) + b + -b = y := by omega
      rw [e1, e2] at h3
      show DistGame E fx fy ((x : Int) + a) ((y : Int) + b) + 1 = DistGame E fx fy x y
      omega
    have hsx : ∃ a : Int, -1 ≤ a ∧ a ≤ 1 ∧ (a = 0 ↔ (x : Int) = fx) ∧
        (a = 1 ↔ (x : Int) < fx) := by
      rcases lt_trichotomy (x : Int) fx with h | h | h
      · exact ⟨1, by omega, by omega, by omega, by omega⟩
      · exact ⟨0, by omega, by omega, by omega, by omega⟩
      · exact ⟨-1, by omega, by omega, by omega, by omega⟩
    have hsy : ∃ b : Int, -1 ≤ b ∧ b ≤ 1 ∧ (b = 0 ↔ (y : Int) = fy) ∧
        (b = 1 ↔ (y : Int) < fy) := by
      rcases lt_trichotomy (y : Int) fy with h | h | h
      · exact ⟨1, by omega, by omega, by omega, by omega⟩
      · exact ⟨0, by omega, by omega, by omega, by omega⟩
      · exact ⟨-1, by omega, by omega, by omega, by omega⟩
    obtain ⟨a, ha1, ha2, ha3, ha4⟩ := hsx
    obtain ⟨b, hb1, hb2, hb3, hb4⟩ := hsy
    exact key a b ha1 ha2 hb1 hb2 (by omega) (by omega) (by omega)
  · exact DistGame_descent_hex E hh w h fx fy x y hfx hfy hx hy hd

/-! ## The flood on an open map -/

/-- On an open map the step of the flood for one neighbour either leaves everything as it
is, when the neighbour is off the map or has a cell that is set, or sets the cell of the
neighbour to the index and appends it to `coords`. -/
theorem FindPathNeighbour_open (E : Engine) (map : Map) (pfd : PathFindData)
    (octx : OpenCtx E map pfd) (cx cy : Nat) (hcx : cx < map.Width) (hcy : cy < map.Height)
    (numindex : Int) (hn1 : 2 ≤ numindex) (hn2 : numindex ≤ E.FPATH_MAX_PATH) (f : Flood)
    (j : Nat) (s : Int × Int) (hs : s ∈ GetHexOffsets E (cx % 2 != 0)) :
    (FindPathNeighbour E map pfd cx cy numindex f j s = f ∧
      ∀ nx ny : Nat, (nx : Int) = cx + s.1 → (ny : Int) = cy + s.2 → nx < map.Width →
        ny < map.Height → cellAt E pfd f.Grid nx ny ≠ 0) ∨
    ∃ nx ny : Nat, (nx : Int) = cx + s.1 ∧ (ny : Int) = cy + s.2 ∧ nx < map.Width ∧
      ny < map.Height ∧ cellAt E pfd f.Grid nx ny = 0 ∧
      FindPathNeighbour E map pfd cx cy numindex f j s =
        { f with coords := f.coords ++ [(nx, ny)],
                 Grid := gridSet f.Grid (GRID E pfd.FromX pfd.FromY nx ny) numindex } := by
  have hM := octx.ctx.max_lt
  have hW := octx.width_s
  have hH := octx.height_s
  have hsb := GetHexOffsets_bound E _ s hs
  have e1 : toShort (toShort (cx : Int) + s.1) = cx + s.1 := by
    rw [toShort_of_range (cx : Int) (by omega) (by omega)]
    exact toShort_of_range _ (by omega) (by omega)
  have e2 : toShort (toShort (cy : Int) + s.2) = cy + s.2 := by
    rw [toShort_of_range (cy : Int) (by omega) (by omega)]
    exact toShort_of_range _ (by omega) (by omega)
  unfold FindPathNeighbour
  simp only [e1, e2]
  by_cases hout : (cx : Int) + s.1 < 0 ∨ (cy : Int) + s.2 < 0 ∨ (cx : Int) + s.1 ≥ map.Width ∨
      (cy : Int) + s.2 ≥ map.Height
  · rw [if_pos hout]
    left
    refine ⟨rfl, ?_⟩
    intro nx ny h1 h2 h3 h4
    omega
  rw [if_neg hout]
  by_cases hnz : f.Grid (GRID E pfd.FromX pfd.FromY ((cx : Int) + s.1) ((cy : Int) + s.2)) ≠ 0
  · rw [if_pos hnz]
    left
    refine ⟨rfl, ?_⟩
    intro nx ny h1 h2 _ _
    unfold cellAt
    rw [h1, h2]; exact hnz
  rw [if_neg hnz]
  obtain ⟨nx, hnx⟩ := Int.eq_ofNat_of_zero_le (show 0 ≤ (cx : Int) + s.1 by omega)
  obtain ⟨ny, hny⟩ := Int.eq_ofNat_of_zero_le (show 0 ≤ (cy : Int) + s.2 by omega)
  rw [hnx, hny] at hout hnz ⊢
  simp only [Int.toNat_ofNat]
  have hnxW : nx < map.Width := by omega
  have hnyH : ny < map.Height := by omega
  have t0 : toShort numindex = numindex := toShort_of_range _ (by omega) (by omega)
  right
  refine ⟨nx, ny, rfl, rfl, hnxW, hnyH, ?_, ?_⟩
  · unfold cellAt; by_contra h; exact hnz h
  · rw [if_pos octx.multihex]
    simp only [octx.open_map nx ny hnxW hnyH, Bool.not_false, if_true, t0]

/-- The step of the flood for one neighbour keeps the invariant of the open map: the hex
in hand has one offset less to look at. -/
theorem OpenInv_neighbour (E : Engine) (map : Map) (pfd : PathFindData)
    (octx : OpenCtx E map pfd) (k : Nat) (hk1 : 1 ≤ k) (hk : (k : Int) + 1 ≤ E.FPATH_MAX_PATH)
    (f : Flood) (done cur next : List UShortPair) (c0 : UShortPair) (s0 : Int × Int)
    (rem : List (Int × Int)) (hc0x : c0.1 < map.Width) (hc0y : c0.2 < map.Height)
    (hc0d : DistGame E pfd.FromX pfd.FromY c0.1 c0.2 + 1 = k)
    (hs0 : s0 ∈ GetHexOffsets E (c0.1 % 2 != 0)) (j : Nat)
    (hinv : OpenInv E map pfd k f done cur next
      (fun c s => c ∈ cur ∨ (c = c0 ∧ s ∈ s0 :: rem))) :
    ∃ next', OpenInv E map pfd k (FindPathNeighbour E map pfd c0.1 c0.2 ((k : Int) + 1) f j s0)
      done cur next' (fun c s => c ∈ cur ∨ (c = c0 ∧ s ∈ rem)) := by
  obtain ⟨c0x, c0y⟩ := c0
  simp only [] at hc0x hc0y hc0d hs0 ⊢
  have hpend : ∀ (x y : Nat) (s : Int × Int) (cx cy : Nat), (cx : Int) = x + s.1 →
      (cy : Int) = y + s.2 →
      ((cx, cy) ∈ cur ∨ ((cx, cy) = (c0x, c0y) ∧ (-s.1, -s.2) ∈ s0 :: rem)) →
      ¬ ((x : Int) = c0x + s0.1 ∧ (y : Int) = c0y + s0.2) →
      ((cx, cy) ∈ cur ∨ ((cx, cy) = (c0x, c0y) ∧ (-s.1, -s.2) ∈ rem)) := by
    intro x y s cx cy e1 e2 h hne
    rcases h with h | ⟨h1, h2⟩
    · exact Or.inl h
    · rcases List.mem_cons.1 h2 with h3 | h3
      · exfalso
        apply hne
        simp only [Prod.mk.injEq] at h1
        have e3 : -s.1 = s0.1 := congrArg Prod.fst h3
        have e4 : -s.2 = s0.2 := congrArg Prod.snd h3
        omega
      · exact Or.inr ⟨h1, h3⟩
  rcases FindPathNeighbour_open E map pfd octx c0x c0y hc0x hc0y ((k : Int) + 1) (by omega) hk
    f j s0 hs0 with ⟨heq, hnz⟩ | ⟨nx, ny, hnx, hny, hnxW, hnyH, hzero, heq⟩
  · rw [heq]
    refine ⟨next, hinv.coords_eq, hinv.gag_nil, hinv.cr_nil, hinv.done_ok, hinv.cur_ok,
      hinv.next_ok, hinv.cells, hinv.full, ?_⟩
    intro x y hx hy hd hz s hs cx cy e1 e2 hcx hcy hcd
    refine hpend x y s cx cy e1 e2 (hinv.pend x y hx hy hd hz s hs cx cy e1 e2 hcx hcy hcd) ?_
    intro hh
    exact hnz x y hh.1 hh.2 hx hy hz
  · rw [heq]
    have hM := octx.ctx.max_lt
    -- the distance of the new hex
    have hdn : DistGame E pfd.FromX pfd.FromY nx ny = k := by
      have h1 := DistGame_step_le E pfd.FromX pfd.FromY c0x c0y s0
        (by rw [← nat_parity_cast]; exact hs0)
      rw [← hnx, ← hny] at h1
      have h2 : ¬ DistGame E pfd.FromX pfd.FromY nx ny + 1 ≤ k :=
        fun h => hinv.full nx ny hnxW hnyH h hzero
      omega
    have hnearn : Near pfd E.FPATH_MAX_PATH nx ny :=
      Near_mono pfd _ _ _ _ (DistGame_near E pfd nx ny) (by omega)
    have hcell : ∀ x y : Nat, DistGame E pfd.FromX pfd.FromY x y ≤ E.FPATH_MAX_PATH →
        cellAt E pfd (gridSet f.Grid (GRID E pfd.FromX pfd.FromY nx ny) ((k : Int) + 1)) x y =
          if x = nx ∧ y = ny then (k : Int) + 1 else cellAt E pfd f.Grid x y := by
      intro x y hd
      have := cellAt_gridSet_near E pfd f.Grid nx ny ((k : Int) + 1) x y hnearn
        (Near_mono pfd _ _ _ _ (DistGame_near E pfd x y) (by omega))
      rw [this]
      simp only [Nat.cast_inj]
    refine ⟨next ++ [(nx, ny)], ?_, hinv.gag_nil, hinv.cr_nil, hinv.done_ok, ?_, ?_, ?_, ?_, ?_⟩
    · simp only [hinv.coords_eq, List.append_assoc]
    · intro c hc
      obtain ⟨h1, h2, h3, h4⟩ := hinv.cur_ok c hc
      refine ⟨h1, h2, h3, ?_⟩
      simp only []
      rw [hcell c.1 c.2 (by omega)]
      by_cases he : c.1 = nx ∧ c.2 = ny
      · rw [he.1, he.2] at h4; rw [h4] at hzero; omega
      · rw [if_neg he]; exact h4
    · intro c hc
      rw [List.mem_append, List.mem_singleton] at hc
      simp only []
      rcases hc with hc | hc
      · obtain ⟨h1, h2, h3, h4⟩ := hinv.next_ok c hc
        refine ⟨h1, h2, h3, ?_⟩
        rw [hcell c.1 c.2 (by omega)]
        by_cases he : c.1 = nx ∧ c.2 = ny
        · rw [he.1, he.2] at h4; rw [h4] at hzero; omega
        · rw [if_neg he]; exact h4
      · subst hc
        refine ⟨hnxW, hnyH, hdn, ?_⟩
        rw [hcell nx ny (by omega)]
        simp
    · intro x y hx hy hd hz
      simp only [] at hz ⊢
      rw [hcell x y hd] at hz ⊢
      by_cases he : x = nx ∧ y = ny
      · rw [if_pos he]
        rw [he.1, he.2, hdn]
        exact ⟨rfl, le_refl _, by simp⟩
      · rw [if_neg he] at hz ⊢
        obtain ⟨h1, h2, h3⟩ := hinv.cells x y hx hy hd hz
        exact ⟨h1, h2, List.mem_append_left _ h3⟩
    · intro x y hx hy hd
      simp only []
      rw [hcell x y (by omega)]
      by_cases he : x = nx ∧ y = ny
      · rw [if_pos he]; omega
      · rw [if_neg he]; exact hinv.full x y hx hy hd
    · intro x y hx hy hd hz s hs cx cy e1 e2 hcx hcy hcd
      simp only [] at hz
      rw [hcell x y (by omega)] at hz
      by_cases he : x = nx ∧ y = ny
      · rw [if_pos he] at hz; omega
      · rw [if_neg he] at hz
        refine hpend x y s cx cy e1 e2
          (hinv.pend x y hx hy hd hz s hs cx cy e1 e2 hcx hcy hcd) ?_
        intro hh
        apply he
        omega

/-- The invariant of the open map stays true when fewer looks are pending. -/
theorem OpenInv_pend_mono (E : Engine) (map : Map) (pfd : PathFindData) (k : Nat) (f : Flood)
    (done cur next : List UShortPair) (P Q : UShortPair → Int × Int → Prop)
    (h : OpenInv E map pfd k f done cur next P) (hPQ : ∀ c s, P c s → Q c s) :
    OpenInv E map pfd k f done cur next Q :=
  ⟨h.coords_eq, h.gag_nil, h.cr_nil, h.done_ok, h.cur_ok, h.next_ok, h.cells, h.full,
    fun x y hx hy hd hz s hs cx cy e1 e2 hcx hcy hcd =>
      hPQ _ _ (h.pend x y hx hy hd hz s hs cx cy e1 e2 hcx hcy hcd)⟩

/-- The loop over the neighbours of a hex keeps the invariant of the open map; after it
the hex has no look pending. -/
theorem OpenInv_neighbours (E : Engine) (map : Map) (pfd : PathFindData)
    (octx : OpenCtx E map pfd) (k : Nat) (hk1 : 1 ≤ k) (hk : (k : Int) + 1 ≤ E.FPATH_MAX_PATH)
    (done cur : List UShortPair) (c0 : UShortPair)
    (hc0x : c0.1 < map.Width) (hc0y : c0.2 < map.Height)
    (hc0d : DistGame E pfd.FromX pfd.FromY c0.1 c0.2 + 1 = k) (offs : List (Int × Int)) :
    ∀ (f : Flood) (next : List UShortPair) (j : Nat),
      (∀ s ∈ offs, s ∈ GetHexOffsets E (c0.1 % 2 != 0)) →
      OpenInv E map pfd k f done cur next (fun c s => c ∈ cur ∨ (c = c0 ∧ s ∈ offs)) →
      ∃ next', OpenInv E map pfd k
        (FindPathNeighbours E map pfd c0.1 c0.2 ((k : Int) + 1) f j offs) done cur next'
        (fun c _ => c ∈ cur) := by
  induction offs with
  | nil =>
    intro f next j _ hinv
    rw [FindPathNeighbours_nil]
    refine ⟨next, OpenInv_pend_mono E map pfd k f done cur next _ _ hinv ?_⟩
    intro c s h
    rcases h with h | ⟨_, h⟩
    · exact h
    · cases h
  | cons s0 rest ih =>
    intro f next j hoffs hinv
    rw [FindPathNeighbours_cons]
    obtain ⟨next1, h1⟩ := OpenInv_neighbour E map pfd octx k hk1 hk f done cur next c0 s0 rest
      hc0x hc0y hc0d (hoffs s0 (List.mem_cons_self _ _)) j hinv
    exact ih _ next1 (j + 1) (fun t ht => hoffs t (List.mem_cons_of_mem _ ht)) h1

/-- The test `CheckDist` of the flood with `cut = 0` holds at the target hex only. -/
theorem CheckDist_zero_iff (E : Engine) (x y tx ty : Nat) :
    CheckDist E x y tx ty 0 = true ↔ (x, y) = (tx, ty) := by
  unfold CheckDist
  simp only [decide_eq_true_eq, Prod.mk.injEq]
  constructor
  · intro h
    have := DistGame_eq_zero E x y tx ty (by omega)
    omega
  · rintro ⟨rfl, rfl⟩
    rw [DistGame_self]

/-- The loop over the hexes of one index on an open map: it stops at the target hex when
the target has that index, and otherwise handles every hex of the index, after which no
look is pending. -/
theorem OpenInv_layer (E : Engine) (map : Map) (pfd : PathFindData)
    (octx : OpenCtx E map pfd) (k : Nat) (hk1 : 1 ≤ k) (hk : (k : Int) + 1 ≤ E.FPATH_MAX_PATH)
    (cur : List UShortPair) :
    ∀ (f : Flood) (done next : List UShortPair),
      OpenInv E map pfd k f done cur next (fun c _ => c ∈ cur) →
      ((pfd.ToX, pfd.ToY) ∈ cur → ∃ f', FindPathLayer E map pfd cur.length f done.length =
        some (Sum.inl (FloodEnd.findOk f' pfd.ToX pfd.ToY k))) ∧
      ((pfd.ToX, pfd.ToY) ∉ cur → ∃ f' next',
        FindPathLayer E map pfd cur.length f done.length =
          some (Sum.inr (f', done.length + cur.length)) ∧
        OpenInv E map pfd k f' (done ++ cur) [] next' (fun _ _ => False)) := by
  induction cur with
  | nil =>
    intro f done next hinv
    refine ⟨fun h => absurd h (List.not_mem_nil _), fun _ => ⟨f, next, ?_, ?_⟩⟩
    · simp only [List.length_nil, Nat.add_zero]
      rw [FindPathLayer]
    · rw [List.append_nil]
      exact OpenInv_pend_mono E map pfd k f done [] next _ _ hinv (fun c s h => by cases h)
  | cons c0 cur' ih =>
    intro f done next hinv
    obtain ⟨hc0x, hc0y, hc0d, hc0c⟩ := hinv.cur_ok c0 (List.mem_cons_self _ _)
    have hget : f.coords.get? done.length = some c0 := by
      rw [hinv.coords_eq, List.get?_eq_getElem?, List.getElem?_append_right (le_refl _)]
      simp
    have hnum : f.Grid (GRID E pfd.FromX pfd.FromY c0.1 c0.2) = k := hc0c
    rw [List.length_cons, FindPathLayer, hget]
    simp only [hnum, octx.cut]
    by_cases hto : c0 = (pfd.ToX, pfd.ToY)
    · have hcd : CheckDist E c0.1 c0.2 pfd.ToX pfd.ToY 0 = true :=
        (CheckDist_zero_iff E _ _ _ _).2 (by rw [← hto])
      rw [if_pos hcd]
      refine ⟨fun _ => ⟨f, ?_⟩, fun h => absurd (by rw [hto]; exact List.mem_cons_self _ _) h⟩
      rw [hto]
    · have hcd : ¬ CheckDist E c0.1 c0.2 pfd.ToX pfd.ToY 0 = true :=
        fun h => hto ((CheckDist_zero_iff E _ _ _ _).1 h)
      rw [if_neg hcd, if_neg (by omega), GetHexOffsets_take]
      have hinv0 : OpenInv E map pfd k f (done ++ [c0]) cur' next
          (fun c s => c ∈ cur' ∨ (c = c0 ∧ s ∈ GetHexOffsets E (c0.1 % 2 != 0))) := by
        refine ⟨?_, hinv.gag_nil, hinv.cr_nil, ?_, ?_, hinv.next_ok, hinv.cells, hinv.full, ?_⟩
        · rw [hinv.coords_eq]; simp
        · intro c hc
          rw [List.mem_append, List.mem_singleton] at hc
          rcases hc with hc | hc
          · exact hinv.done_ok c hc
          · subst hc; exact ⟨hto, by omega⟩
        · intro c hc
          exact hinv.cur_ok c (List.mem_cons_of_mem _ hc)
        · intro x y hx hy hd hz s hs cx cy e1 e2 hcx hcy hcd'
          have := hinv.pend x y hx hy hd hz s hs cx cy e1 e2 hcx hcy hcd'
          simp only [] at this
          rcases List.mem_cons.1 this with h | h
          · right
            refine ⟨h, ?_⟩
            have hsym := GetHexOffsets_symm E x s (by rw [← nat_parity_cast]; exact hs)
            rw [← e1] at hsym
            rw [← nat_parity_cast] at hsym
            rw [← h]
            exact hsym
          · left; exact h
      obtain ⟨next1, h1⟩ := OpenInv_neighbours E map pfd octx k hk1 hk (done ++ [c0]) cur' c0
        hc0x hc0y hc0d _ f next 0 (fun s hs => hs) hinv0
      obtain ⟨ih1, ih2⟩ := ih _ (done ++ [c0]) next1 h1
      have hlen : (done ++ [c0]).length = done.length + 1 := by simp
      rw [hlen] at ih1 ih2
      constructor
      · intro hmem
        rcases List.mem_cons.1 hmem with h | h
        · exact absurd h.symm hto
        · exact ih1 h
      · intro hmem
        obtain ⟨f', next', e1, e2⟩ := ih2 (fun h => hmem (List.mem_cons_of_mem _ h))
        refine ⟨f', next', ?_, ?_⟩
        · rw [e1]
          congr 3
          omega
        · rw [List.append_assoc] at e2
          exact e2

/-- On the way from a hex of the map to the start hex there is a hex of the map at every
distance from the start hex. -/
theorem DistGame_reach (E : Engine) (w h fx fy tx ty : Nat)
    (hfx : fx < w) (hfy : fy < h) (htx : tx < w) (hty : ty < h) :
    ∀ j : Nat, j ≤ DistGame E fx fy tx ty →
      ∃ x y : Nat, x < w ∧ y < h ∧ DistGame E fx fy x y + j = DistGame E fx fy tx ty := by
  intro j
  induction j with
  | zero => intro _; exact ⟨tx, ty, htx, hty, rfl⟩
  | succ j ih =>
    intro hj
    obtain ⟨x, y, hx, hy, hd⟩ := ih (by omega)
    obtain ⟨s, _, h1, h2, h3, h4, h5⟩ := DistGame_descent E w h fx fy x y hfx hfy hx hy (by omega)
    obtain ⟨nx, hnx⟩ := Int.eq_ofNat_of_zero_le h1
    obtain ⟨ny, hny⟩ := Int.eq_ofNat_of_zero_le h3
    rw [hnx, hny] at h5
    exact ⟨nx, ny, by omega, by omega, by omega⟩

/-- When every hex of index `k` is handled, every hex of the map at distance `k` from the
start hex has its cell set, and the flood goes on with the index `k + 1`. -/
theorem OpenInv_next (E : Engine) (map : Map) (pfd : PathFindData)
    (octx : OpenCtx E map pfd) (k : Nat) (hk1 : 1 ≤ k)
    (hk : k ≤ DistGame E pfd.FromX pfd.FromY pfd.ToX pfd.ToY)
    (f : Flood) (done next : List UShortPair)
    (hinv : OpenInv E map pfd k f done [] next (fun _ _ => False)) :
    OpenInv E map pfd (k + 1) f done next [] (fun c _ => c ∈ next) ∧ next ≠ [] := by
  have hd := octx.dist
  have hfull : ∀ x y : Nat, x < map.Width → y < map.Height →
      DistGame E pfd.FromX pfd.FromY x y = k →
      cellAt E pfd f.Grid x y ≠ 0 ∧ (x, y) ∈ next := by
    intro x y hx hy hxy
    have hnz : cellAt E pfd f.Grid x y ≠ 0 := by
      intro hz
      obtain ⟨s, hs, h1, h2, h3, h4, h5⟩ := DistGame_descent E map.Width map.Height pfd.FromX
        pfd.FromY x y octx.ctx.from_x octx.ctx.from_y hx hy (by omega)
      obtain ⟨nx, hnx⟩ := Int.eq_ofNat_of_zero_le h1
      obtain ⟨ny, hny⟩ := Int.eq_ofNat_of_zero_le h3
      rw [hnx, hny] at h5
      exact hinv.pend x y hx hy hxy hz s (by rw [nat_parity_cast]; exact hs) nx ny hnx.symm
        hny.symm (by omega) (by omega) (by omega)
    refine ⟨hnz, ?_⟩
    obtain ⟨_, _, hmem⟩ := hinv.cells x y hx hy (by omega) hnz
    rw [hinv.coords_eq, List.nil_append, List.mem_append] at hmem
    rcases hmem with hmem | hmem
    · have := (hinv.done_ok _ hmem).2
      simp only [] at this
      omega
    · exact hmem
  constructor
  · refine ⟨?_, hinv.gag_nil, hinv.cr_nil, ?_, ?_, ?_, ?_, ?_, ?_⟩
    · rw [hinv.coords_eq]; simp
    · intro c hc
      obtain ⟨h1, h2⟩ := hinv.done_ok c hc
      exact ⟨h1, by omega⟩
    · intro c hc
      obtain ⟨h1, h2, h3, h4⟩ := hinv.next_ok c hc
      refine ⟨h1, h2, by omega, ?_⟩
      rw [h4]; push_cast; rfl
    · intro c hc; cases hc
    · intro x y hx hy hdm hnz
      obtain ⟨h1, h2, h3⟩ := hinv.cells x y hx hy hdm hnz
      exact ⟨h1, by omega, h3⟩
    · intro x y hx hy hdx
      by_cases hlt : DistGame E pfd.FromX pfd.FromY x y + 1 ≤ k
      · exact hinv.full x y hx hy hlt
      · exact (hfull x y hx hy (by omega)).1
    · intro x y hx hy hdx hz s hs cx cy e1 e2 hcx hcy hcd
      exact (hfull cx cy hcx hcy (by omega)).2
  · obtain ⟨x, y, hx, hy, hxy⟩ := DistGame_reach E map.Width map.Height pfd.FromX pfd.FromY
      pfd.ToX pfd.ToY octx.ctx.from_x octx.ctx.from_y octx.to_x octx.to_y
      (DistGame E pfd.FromX pfd.FromY pfd.ToX pfd.ToY - k) (by omega)
    have := (hfull x y hx hy (by omega)).2
    intro hnil
    rw [hnil] at this
    cases this

/-- The flood on an open map, from the hexes of index `k` on: it stops at the target hex,
whose index is its distance from the start hex plus one. -/
theorem OpenInv_flood (E : Engine) (map : Map) (pfd : PathFindData)
    (octx : OpenCtx E map pfd) (fuel : Nat) :
    ∀ (k : Nat) (f : Flood) (done cur : List UShortPair), 1 ≤ k →
      k ≤ DistGame E pfd.FromX pfd.FromY pfd.ToX pfd.ToY + 1 →
      DistGame E pfd.FromX pfd.FromY pfd.ToX pfd.ToY + 2 ≤ k + fuel →
      OpenInv E map pfd k f done cur [] (fun c _ => c ∈ cur) →
      ∃ f', FindPathFlood E map pfd fuel f done.length cur.length =
        some (FloodEnd.findOk f' pfd.ToX pfd.ToY
          ((DistGame E pfd.FromX pfd.FromY pfd.ToX pfd.ToY : Int) + 1)) := by
  have hd := octx.dist
  induction fuel with
  | zero => intro k f done cur _ h1 h2 _; omega
  | succ fuel ih =>
    intro k f done cur hk1 hk2 hfuel hinv
    rw [FindPathFlood_succ]
    obtain ⟨l1, l2⟩ := OpenInv_layer E map pfd octx k hk1 (by omega) cur f done [] hinv
    by_cases hlast : k = DistGame E pfd.FromX pfd.FromY pfd.ToX pfd.ToY + 1
    · have hto : (pfd.ToX, pfd.ToY) ∈ cur := by
        have hnz := hinv.full pfd.ToX pfd.ToY octx.to_x octx.to_y (by omega)
        obtain ⟨_, _, hmem⟩ := hinv.cells pfd.ToX pfd.ToY octx.to_x octx.to_y (by omega) hnz
        rw [hinv.coords_eq, List.append_nil, List.mem_append] at hmem
        rcases hmem with hmem | hmem
        · exact absurd rfl (hinv.done_ok _ hmem).1
        · exact hmem
      obtain ⟨f', hf'⟩ := l1 hto
      rw [hf']
      refine ⟨f', ?_⟩
      simp only [hlast]
      push_cast
      rfl
    · have hto : (pfd.ToX, pfd.ToY) ∉ cur := by
        intro hmem
        have := (hinv.cur_ok _ hmem).2.2.1
        simp only [] at this
        omega
      obtain ⟨f', next', hf', hinv'⟩ := l2 hto
      rw [hf']
      simp only []
      obtain ⟨hinv2, hne⟩ := OpenInv_next E map pfd octx k hk1 (by omega) f' (done ++ cur) next'
        hinv'
      have hgag : FindPathAddGag E pfd f' = some f' := by
        unfold FindPathAddGag
        rw [hinv'.gag_nil]
      rw [hgag]
      simp only []
      have hlen : f'.coords.length - (done.length + cur.length) = next'.length := by
        rw [hinv'.coords_eq]
        simp only [List.length_append, List.nil_append]
        omega
      have hpos : next'.length ≠ 0 := fun h => hne (List.length_eq_zero.1 h)
      rw [hlen, if_neg hpos]
      simp only []
      rw [if_neg hpos]
      have := ih (k + 1) f' (done ++ cur) next' (by omega) (by omega) (by omega) hinv2
      rw [List.length_append] at this
      exact this

/-- The invariant of the open map holds for the vectors and the grid that `FindPath`
prepares: the start hex is the only hex of index 1. -/
theorem OpenInv_init (E : Engine) (map : Map) (pfd : PathFindData)
    (octx : OpenCtx E map pfd) :
    OpenInv E map pfd 1
      { Grid := gridSet (fun _ => 0) (GRID E pfd.FromX pfd.FromY pfd.FromX pfd.FromY) 1,
        coords := [(pfd.FromX, pfd.FromY)], cr_coords := [], gag_coords := [] }
      [] [(pfd.FromX, pfd.FromY)] [] (fun c _ => c ∈ [(pfd.FromX, pfd.FromY)]) := by
  have hM := octx.ctx.max_pos
  have hcell : ∀ x y : Nat, DistGame E pfd.FromX pfd.FromY x y ≤ E.FPATH_MAX_PATH →
      cellAt E pfd (gridSet (fun _ => (0 : Int))
        (GRID E pfd.FromX pfd.FromY pfd.FromX pfd.FromY) 1) x y =
        if x = pfd.FromX ∧ y = pfd.FromY then 1 else 0 := by
    intro x y hd
    have := cellAt_gridSet_near E pfd (fun _ => (0 : Int)) pfd.FromX pfd.FromY 1 x y
      (by unfold Near; omega)
      (Near_mono pfd _ _ _ _ (DistGame_near E pfd x y) (by omega))
    rw [this]
    simp only [Nat.cast_inj, cellAt]
  have hself : DistGame E pfd.FromX pfd.FromY pfd.FromX pfd.FromY = 0 := DistGame_self E _ _
  refine ⟨rfl, rfl, rfl, fun c hc => absurd hc (List.not_mem_nil _), ?_,
    fun c hc => absurd hc (List.not_mem_nil _), ?_, ?_, ?_⟩
  · intro c hc
    rw [List.mem_singleton] at hc
    subst hc
    simp only []
    refine ⟨octx.ctx.from_x, octx.ctx.from_y, by omega, ?_⟩
    rw [hcell _ _ (by omega)]
    simp
  · intro x y hx hy hd hnz
    simp only [] at hnz ⊢
    rw [hcell x y hd] at hnz ⊢
    by_cases he : x = pfd.FromX ∧ y = pfd.FromY
    · rw [if_pos he, he.1, he.2, hself]
      exact ⟨by simp, by omega, by simp⟩
    · rw [if_neg he] at hnz; exact absurd rfl hnz
  · intro x y hx hy hd
    simp only []
    have := DistGame_eq_zero E pfd.FromX pfd.FromY x y (by omega)
    rw [hcell x y (by omega), if_pos (by omega)]
    omega
  · intro x y hx hy hd hz s hs cx cy e1 e2 hcx hcy hcd
    have := DistGame_eq_zero E pfd.FromX pfd.FromY cx cy (by omega)
    have e3 : cx = pfd.FromX := by omega
    have e4 : cy = pfd.FromY := by omega
    rw [e3, e4]
    exact List.mem_singleton.2 rfl

/-- The end of `FindPath` for a path that is not empty: the status is `FPATH_OK`, the slot
of the pool named by the result holds the path with its move parameters set, and the new
target is the hex of the last step. -/
theorem FindPathResult_last (E : Engine) (mm : MapManager) (is_run : Bool)
    (path : List PathStep) (pfd : PathFindData) (x y : Nat)
    (hlast : (pathHexes path).getLast? = some (x, y)) :
    ∃ mm' pfd', FindPathResult E mm is_run path pfd = (FPATH_OK, mm', pfd') ∧
      mm'.pathesPool pfd'.PathNum = PathSetMoveParams E path is_run ∧
      pfd'.NewToX = x ∧ pfd'.NewToY = y ∧
      mm'.Maps = mm.Maps ∧ mm'.Critters = mm.Critters ∧
      mm'.smooth_switcher = mm.smooth_switcher ∧
      (∀ q : PathFindData → Nat, (∀ p a b c, q { p with PathNum := a, NewToX := b, NewToY := c } = q p) →
        q pfd' = q pfd) := by
  have h2 : (pathHexes (PathSetMoveParams E path is_run)).getLast? = some (x, y) := by
    rw [PathSetMoveParams_hexes]; exact hlast
  unfold pathHexes at h2
  rw [List.getLast?_map] at h2
  unfold FindPathResult
  simp only []
  cases hl : (PathSetMoveParams E path is_run).getLast? with
  | none => rw [hl] at h2; cases h2
  | some ps =>
    rw [hl] at h2
    simp only [Option.map_some', Option.some.injEq, Prod.mk.injEq] at h2
    refine ⟨_, _, rfl, ?_, h2.1, h2.2, rfl, rfl, rfl, ?_⟩
    · simp [setPool]
    · intro q hq
      exact hq _ _ _ _

/-- The part of `FindPath` after the flood, for a request without soft-obstacle options
and without trace, when the backtrace succeeds. -/
theorem FindPathFinish_plain (E : Engine) (mm : MapManager) (map : Map) (pfd : PathFindData)
    (grid : GridBuf) (cx cy : Nat) (numindex : Int) (b' : Backtrace)
    (hcrit : pfd.CheckCrit = false) (hgag : pfd.CheckGagItems = false)
    (htrace : pfd.Trace = 0)
    (hbt : FindPathTraceBack E mm pfd grid cx cy numindex = (b', true)) :
    FindPathFinish E mm map pfd grid cx cy numindex =
      some (FindPathResult E
        { mm with pathNumCur := nextPathNum E mm.pathNumCur,
                  smooth_switcher := b'.smooth_switcher } pfd.IsRun b'.path pfd) := by
  unfold FindPathFinish
  simp only [hbt, hcrit, hgag, Bool.not_true, Bool.false_eq_true, if_false, Bool.or_self]
  unfold FindPathTrace
  simp only [htrace, ne_eq, not_true_eq_false, if_false]

/-- A call of `FindPath` that passes the checks before the flood and whose flood stops at
`label_FindOk` returns what the part after the flood returns. -/
theorem FindPath_of_flood (E : Engine) (mm : MapManager) (pfd : PathFindData) (map : Map)
    (hmap : GetMap mm pfd.MapId = some map)
    (htr : ¬ (pfd.Trace ≠ 0 ∧ pfd.TraceCr.isNone = true))
    (hin : ¬ (pfd.FromX ≥ map.Width ∨ pfd.FromY ≥ map.Height ∨ pfd.ToX ≥ map.Width ∨
      pfd.ToY ≥ map.Height))
    (hcd : ¬ CheckDist E pfd.FromX pfd.FromY pfd.ToX pfd.ToY pfd.Cut = true)
    (hbusy : ¬ (pfd.Cut = 0 ∧ FLAG (E.GetHexFlags map pfd.ToX pfd.ToY) E.FH_NOWAY = true))
    (hring : ¬ (pfd.Cut ≤ 1 ∧ pfd.Multihex = 0 ∧
      FindPathRingBusy E map pfd.ToX pfd.ToY
        ((GetHexOffsets E (pfd.ToX % 2 != 0)).take (DIRS_COUNT E)) = true))
    (f : Flood) (cx cy : Nat) (numindex : Int)
    (hfl : FindPathFlood E map pfd (map.Width * map.Height + 1)
      { Grid := gridSet (fun _ => 0) (GRID E pfd.FromX pfd.FromY pfd.FromX pfd.FromY) 1,
        coords := [(pfd.FromX, pfd.FromY)], cr_coords := [], gag_coords := [] } 0 1 =
      some (FloodEnd.findOk f cx cy numindex)) :
    FindPath E mm pfd = FindPathFinish E mm map pfd f.Grid cx cy numindex := by
  unfold FindPath
  rw [if_neg htr, hmap]
  simp only [if_neg hin, if_neg hcd, if_neg hbusy, if_neg hring, hfl]

/-- On an open map the ring check of `FindPath` does not fire for a target other than the
start hex. -/
theorem OpenCtx_ring (E : Engine) (map : Map) (pfd : PathFindData) (octx : OpenCtx E map pfd)
    (hd : 1 ≤ DistGame E pfd.FromX pfd.FromY pfd.ToX pfd.ToY) :
    ¬ (pfd.Cut ≤ 1 ∧ pfd.Multihex = 0 ∧
      FindPathRingBusy E map pfd.ToX pfd.ToY
        ((GetHexOffsets E (pfd.ToX % 2 != 0)).take (DIRS_COUNT E)) = true) := by
  rintro ⟨_, _, hr⟩
  rw [GetHexOffsets_take, FindPathRingBusy_iff E map pfd.ToX pfd.ToY octx.width_s
    octx.height_s octx.to_x octx.to_y _ (fun s hs => GetHexOffsets_bound E _ s hs)] at hr
  obtain ⟨s, hs, h1, h2, h3, h4, _⟩ := DistGame_descent E map.Width map.Height pfd.FromX
    pfd.FromY pfd.ToX pfd.ToY octx.ctx.from_x octx.ctx.from_y octx.to_x octx.to_y hd
  have := (hr s (by rw [nat_parity_cast]; exact hs) h1 h2 h3 h4).1
  rw [octx.open_map _ _ (by omega) (by omega)] at this
  cases this

/-! ## The path on an open map -/

/-- C3, counterexample. On an open 3x2 square map with the depth limit 3, the hexes (0,0)
and (2,0) are distinct, on the map and at distance 2, which is below the limit; yet
`FindPath` with `cut = 0`, no multihex, no soft-obstacle option and no trace returns
`FPATH_TOOFAR`: the target is not the first hex of its index to be handled, and the
flood gives up at the hex before it. -/
theorem FindPath_open_map_too_far :
    DistGame (sampleEngine false false 3) 0 0 2 0 = 2 ∧
    DistGame (sampleEngine false false 3) 0 0 2 0 < (sampleEngine false false 3).FPATH_MAX_PATH ∧
    (FindPath (sampleEngine false false 3) (sampleManager (sampleMap 3 2 [] []))
      (sampleRequest 0 0 2 0 0)).map (fun r => r.1) = some FPATH_TOOFAR := by
  refine ⟨by decide, by decide, by decide!⟩

/-- The sides of a map bound the distances on it by its area. -/
theorem sides_le_area (w h : Nat) (hw : 1 ≤ w) (hh : 1 ≤ h) : w + h ≤ w * h + 1 := by
  obtain ⟨a, rfl⟩ := Nat.exists_eq_add_of_le hw
  obtain ⟨b, rfl⟩ := Nat.exists_eq_add_of_le hh
  have : (1 + a) * (1 + b) = 1 + a + b + a * b := by ring
  rw [this]
  omega

/-- The search on an open map: `FindPath` returns `FPATH_OK`, the path has as many steps as
the distance between the two hexes, and it ends at the target hex. -/
theorem FindPath_open_ok (E : Engine) (mm : MapManager) (pfd : PathFindData) (map : Map)
    (hmap : GetMap mm pfd.MapId = some map)
    (hmax : E.FPATH_MAX_PATH < 16384)
    (hw : map.Width ≤ 32767) (hh : map.Height ≤ 32767)
    (hopen : ∀ x y : Nat, x < map.Width → y < map.Height →
      FLAG (E.GetHexFlags map x y) E.FH_NOWAY = false)
    (hfx : pfd.FromX < map.Width) (hfy : pfd.FromY < map.Height)
    (htx : pfd.ToX < map.Width) (hty : pfd.ToY < map.Height)
    (hne : (pfd.FromX, pfd.FromY) ≠ (pfd.ToX, pfd.ToY))
    (hdist : DistGame E pfd.FromX pfd.FromY pfd.ToX pfd.ToY + 1 < E.FPATH_MAX_PATH)
    (hcut : pfd.Cut = 0) (hmulti : pfd.Multihex = 0) (hcrit : pfd.CheckCrit = false)
    (hgag : pfd.CheckGagItems = false) (htrace : pfd.Trace = 0) :
    ∃ mm' pfd', FindPath E mm pfd = some (FPATH_OK, mm', pfd') ∧
      (mm'.pathesPool pfd'.PathNum).length = DistGame E pfd.FromX pfd.FromY pfd.ToX pfd.ToY ∧
      (mm'.pathesPool pfd'.PathNum).getLast?.map (fun ps => (ps.HexX, ps.HexY)) =
        some (pfd.ToX, pfd.ToY) ∧
      pfd'.NewToX = pfd.ToX ∧ pfd'.NewToY = pfd.ToY := by
  have ctx : FloodCtx E map pfd := ⟨by omega, hmax, by omega, by omega, hfx, hfy⟩
  have octx : OpenCtx E map pfd := ⟨ctx, hopen, hmulti, hcut, htx, hty, by omega, hw, hh⟩
  have hd1 : 1 ≤ DistGame E pfd.FromX pfd.FromY pfd.ToX pfd.ToY := by
    by_contra h
    have := DistGame_eq_zero E pfd.FromX pfd.FromY pfd.ToX pfd.ToY (by omega)
    apply hne
    rw [Prod.mk.injEq]
    omega
  -- the flood
  have harea := sides_le_area map.Width map.Height (by omega) (by omega)
  have hsides := DistGame_le_sides E map.Width map.Height pfd.FromX pfd.FromY pfd.ToX pfd.ToY
    hfx hfy htx hty
  obtain ⟨f, hfl⟩ := OpenInv_flood E map pfd octx (map.Width * map.Height + 1) 1 _ [] _
    (le_refl _) (by omega) (by omega) (OpenInv_init E map pfd octx)
  simp only [List.length_nil, List.length_singleton] at hfl
  have hgood := FindPathFlood_inv E map pfd ctx _ _ _ _ (FloodInv_init E map pfd ctx) _ hfl
  -- the checks before the flood
  have hcd : ¬ CheckDist E pfd.FromX pfd.FromY pfd.ToX pfd.ToY pfd.Cut = true := by
    rw [hcut]
    intro h
    exact hne ((CheckDist_zero_iff E _ _ _ _).1 h)
  have hfp := FindPath_of_flood E mm pfd map hmap (by rw [htrace]; simp) (by omega) hcd
    (by rw [hopen _ _ htx hty]; simp) (OpenCtx_ring E map pfd octx hd1) f pfd.ToX pfd.ToY _ hfl
  -- the backtrace and the end
  obtain ⟨b', e1, e2, _, _, _, e6, _, _⟩ :=
    FindPathTraceBack_spec E mm map pfd f pfd.ToX pfd.ToY _ ctx hgood
  have hlen : b'.path.length = DistGame E pfd.FromX pfd.FromY pfd.ToX pfd.ToY := by
    rw [e2]; omega
  rw [if_neg (by omega)] at e6
  obtain ⟨mm', pfd', r1, r2, r3, r4, _⟩ := FindPathResult_last E
    { mm with pathNumCur := nextPathNum E mm.pathNumCur, smooth_switcher := b'.smooth_switcher }
    pfd.IsRun b'.path pfd pfd.ToX pfd.ToY e6
  have hhex := PathSetMoveParams_hexes E b'.path pfd.IsRun
  have hlen2 : (mm'.pathesPool pfd'.PathNum).length =
      DistGame E pfd.FromX pfd.FromY pfd.ToX pfd.ToY := by
    have := congrArg List.length hhex
    unfold pathHexes at this
    rw [List.length_map, List.length_map] at this
    rw [r2, this, hlen]
  refine ⟨mm', pfd', ?_, hlen2, ?_, r3, r4⟩
  · rw [hfp, FindPathFinish_plain E mm map pfd f.Grid pfd.ToX pfd.ToY _ b' hcrit hgag htrace e1,
      r1]
  · rw [r2, ← List.getLast?_map]
    have := hhex
    unfold pathHexes at this e6
    rw [this]
    exact e6

/-- C3, amended. For a depth limit below 16384 and a map whose sides fit a `short` and on
which no hex is blocked: for distinct hexes `from` and `to` of the map whose distance `d`
satisfies `d + 1 < FPATH_MAX_PATH`, `FindPath` with `cut = 0`, `Multihex = 0`, no
soft-obstacle option and no trace returns `FPATH_OK`; the path in the slot `PathNum` of the
pool has exactly `d` steps (on a square map `max(|dx|,|dy|)`), its last step is the hex
`to`, and so is the new target of the request. -/
theorem FindPath_open_map (E : Engine) (mm : MapManager) (pfd : PathFindData) (map : Map)
    (hmap : GetMap mm pfd.MapId = some map)
    (hmax : E.FPATH_MAX_PATH < 16384)
    (hw : map.Width ≤ 32767) (hh : map.Height ≤ 32767)
    (hopen : ∀ x y : Nat, x < map.Width → y < map.Height →
      FLAG (E.GetHexFlags map x y) E.FH_NOWAY = false)
    (hfx : pfd.FromX < map.Width) (hfy : pfd.FromY < map.Height)
    (htx : pfd.ToX < map.Width) (hty : pfd.ToY < map.Height)
    (hne : (pfd.FromX, pfd.FromY) ≠ (pfd.ToX, pfd.ToY))
    (hdist : DistGame E pfd.FromX pfd.FromY pfd.ToX pfd.ToY + 1 < E.FPATH_MAX_PATH)
    (hcut : pfd.Cut = 0) (hmulti : pfd.Multihex = 0) (hcrit : pfd.CheckCrit = false)
    (hgag : pfd.CheckGagItems = false) (htrace : pfd.Trace = 0) :
    ∃ mm' pfd', FindPath E mm pfd = some (FPATH_OK, mm', pfd') ∧
      (mm'.pathesPool pfd'.PathNum).length = DistGame E pfd.FromX pfd.FromY pfd.ToX pfd.ToY ∧
      (E.MapHexagonal = false → (mm'.pathesPool pfd'.PathNum).length =
        max ((pfd.ToX : Int) - pfd.FromX).natAbs ((pfd.ToY : Int) - pfd.FromY).natAbs) ∧
      (mm'.pathesPool pfd'.PathNum).getLast?.map (fun ps => (ps.HexX, ps.HexY)) =
        some (pfd.ToX, pfd.ToY) ∧
      pfd'.NewToX = pfd.ToX ∧ pfd'.NewToY = pfd.ToY := by
  obtain ⟨mm', pfd', h1, h2, h3, h4, h5⟩ := FindPath_open_ok E mm pfd map hmap hmax hw hh hopen
    hfx hfy htx hty hne hdist hcut hmulti hcrit hgag htrace
  refine ⟨mm', pfd', h1, h2, ?_, h3, h4, h5⟩
  intro hsq
  rw [h2]
  unfold DistGame
  rw [hsq]
  simp

theorem FindPath_open_map_witness :
    ∃ mm' pfd',
      FindPath (sampleEngine false false 400) (sampleManager (sampleMap 10 10 [] []))
        (sampleRequest 0 0 5 5 0) = some (FPATH_OK, mm', pfd') ∧
      (mm'.pathesPool pfd'.PathNum).length = 5 ∧
      (mm'.pathesPool pfd'.PathNum).getLast?.map (fun ps => (ps.HexX, ps.HexY)) = some (5, 5) := by
  obtain ⟨mm', pfd', h1, h2, _, h4, _⟩ := FindPath_open_map (sampleEngine false false 400)
    (sampleManager (sampleMap 10 10 [] [])) (sampleRequest 0 0 5 5 0) (sampleMap 10 10 [] [])
    rfl (by decide) (by decide) (by decide) (by intro x y _ _; simp [sampleEngine, sampleMap, FLAG]) (by decide) (by decide)
    (by decide) (by decide) (by decide) (by decide) rfl rfl rfl rfl rfl
  exact ⟨mm', pfd', h1, h2, h4⟩

/-! ## Blocked hexes and the length of the path -/

/-- The index of a hex is at least its distance from the start hex plus one: a cell that
holds `k + 1` belongs to a hex at distance at most `k`. -/
theorem FloodInv_dist (E : Engine) (map : Map) (pfd : PathFindData) (f : Flood)
    (hinv : FloodInv E map pfd f) :
    ∀ (k x y : Nat), x < map.Width → y < map.Height →
      Near pfd ((E.FPATH_MAX_PATH : Int) - 1) x y → cellAt E pfd f.Grid x y = (k : Int) + 1 →
      (k : Int) + 1 ≤ E.FPATH_MAX_PATH → DistGame E pfd.FromX pfd.FromY x y ≤ k := by
  intro k
  induction k with
  | zero =>
    intro x y hx hy hn hc _
    obtain ⟨e1, e2⟩ := hinv.one x y hx hy hn (by simpa using hc)
    rw [e1, e2, DistGame_self]
  | succ k ih =>
    intro x y hx hy hn hc hk
    obtain ⟨_, s, hs, hpar⟩ := hinv.parent x y hx hy hn ((k : Int) + 2) (by omega) (by omega)
      (Or.inl (by rw [hc]; push_cast; ring))
    have hsb := GetHexOffsets_bound E _ s hs
    have hnz : f.Grid (GRID E pfd.FromX pfd.FromY ((x : Int) + s.1) ((y : Int) + s.2)) ≠ 0 := by
      unfold cellAt at hpar
      rw [hpar]; omega
    obtain ⟨x', y', hx', hy', hn', hq⟩ := hinv.support _ hnz
    have hn1 : Near pfd E.FPATH_MAX_PATH ((x : Int) + s.1) ((y : Int) + s.2) := by
      have := Near_step pfd _ x y s hn hsb
      simpa using this
    obtain ⟨ex, ey⟩ := GRID_inj_near E pfd _ _ _ _ hn1
      (Near_mono pfd _ _ _ _ hn' (by omega)) hq
    have hc' : cellAt E pfd f.Grid x' y' = (k : Int) + 1 := by
      rw [← ex, ← ey, hpar]; ring
    have h1 := ih x' y' hx' hy' hn' hc' (by omega)
    have hsym := GetHexOffsets_symm E x s (by rw [← nat_parity_cast]; exact hs)
    rw [ex] at hsym
    have h2 := DistGame_step_le E pfd.FromX pfd.FromY x' y' _ hsym
    simp only [] at h2
    have e1 : (x' : Int) + -s.1 = x := by omega
    have e2 : (y' : Int) + -s.2 = y := by omega
    rw [e1, e2] at h2
    omega

/-- A path that `FindPath` returns for a request with `cut = 0`, without soft-obstacle
options and without trace, on any map, has at least as many steps as the distance
between the two hexes. -/
theorem FindPath_ok_length_ge (E : Engine) (mm mm' : MapManager) (pfd pfd' : PathFindData)
    (map : Map) (hmap : GetMap mm pfd.MapId = some map)
    (hmax0 : 0 < E.FPATH_MAX_PATH) (hmax : E.FPATH_MAX_PATH < 16384)
    (hw : map.Width ≤ 65535) (hh : map.Height ≤ 65535)
    (hcut : pfd.Cut = 0) (hcrit : pfd.CheckCrit = false) (hgag : pfd.CheckGagItems = false)
    (htrace : pfd.Trace = 0)
    (h : FindPath E mm pfd = some (FPATH_OK, mm', pfd')) :
    DistGame E pfd.FromX pfd.FromY pfd.ToX pfd.ToY ≤ (mm'.pathesPool pfd'.PathNum).length := by
  obtain ⟨hfx, hfy, f, cx, cy, numindex, hfl, hfin⟩ := FindPath_ok_cases E mm mm' pfd pfd' map hmap h
  have ctx : FloodCtx E map pfd := ⟨hmax0, hmax, hw, hh, hfx, hfy⟩
  have hgood := FindPathFlood_inv E map pfd ctx _ _ _ _ (FloodInv_init E map pfd ctx) _ hfl
  obtain ⟨b', e1, e2, e3, e4, _, _, _, _⟩ :=
    FindPathTraceBack_spec E mm map pfd f cx cy numindex ctx hgood
  obtain ⟨hinv, hc, hnum, hcd⟩ := hgood
  rw [hcut] at hcd
  have hto := (CheckDist_zero_iff E _ _ _ _).1 hcd
  rw [Prod.mk.injEq] at hto
  obtain ⟨hcx, hcy, _, _, hnear⟩ := hinv.coords_ok _ hc
  simp only [] at hcx hcy hnear
  rw [FindPathFinish_plain E mm map pfd f.Grid cx cy numindex b' hcrit hgag htrace e1] at hfin
  simp only [Option.some.injEq] at hfin
  obtain ⟨r1, _⟩ := FindPathResult_ok E _ mm' pfd.IsRun b'.path pfd pfd' hfin
  have hlen : (mm'.pathesPool pfd'.PathNum).length = (numindex - 1).toNat := by
    have := congrArg List.length (PathSetMoveParams_hexes E b'.path pfd.IsRun)
    unfold pathHexes at this
    rw [List.length_map, List.length_map] at this
    rw [r1, this, e2]
  have hd := FloodInv_dist E map pfd f hinv (numindex - 1).toNat cx cy hcx hcy
    (Near_mono pfd _ _ _ _ hnear (by omega)) (by rw [← hnum]; omega) (by omega)
  rw [hto.1, hto.2] at hd
  omega

/-- C5, counterexample. On the 10x10 square map that is open but for the hex (2,3), which
lies directly between (0,3) and (5,3) and whose eight neighbours are open, `FindPath`
from (0,3) to (5,3) with `cut = 0` returns `FPATH_OK` with a path of 5 steps, as many as
on the open map and not one more: the path goes round the blocked hex by two diagonal
steps. With the depth limit 7 the search from (0,0) to (5,5) on the open 10x10 square map
returns `FPATH_OK` with 5 steps, and with the hex (2,2) blocked, where the way round has 6
steps, it returns `FPATH_TOOFAR`. And on a square map of 40000 by 3 hexes with the hex
(35002,1) blocked the search from (35000,1) to (35004,1) returns `FPATH_HEX_BUSY_RING`,
because the ring check holds the neighbours of the target in a `short`. On the hexagonal
10x10 map the hex (2,5) stands in the row of (0,5) and (4,5) between them, and the path has
4 steps with that hex open and 4 steps with it blocked: a row of a hexagonal map is not a
line of moves in one direction, and a second shortest way passes beside it. -/
theorem FindPath_blocked_same_length :
    (FindPath (sampleEngine false false 400) (sampleManager (sampleMap 10 10 [] []))
      (sampleRequest 0 3 5 3 0)).map
        (fun r => (r.1, (r.2.1.pathesPool r.2.2.PathNum).length)) = some (FPATH_OK, 5) ∧
    (FindPath (sampleEngine false false 400) (sampleManager (sampleMap 10 10 [((2, 3), 1)] []))
      (sampleRequest 0 3 5 3 0)).map
        (fun r => (r.1, (r.2.1.pathesPool r.2.2.PathNum).length)) = some (FPATH_OK, 5) ∧
    (FindPath (sampleEngine false false 7) (sampleManager (sampleMap 10 10 [] []))
      (sampleRequest 0 0 5 5 0)).map
        (fun r => (r.1, (r.2.1.pathesPool r.2.2.PathNum).length)) = some (FPATH_OK, 5) ∧
    (FindPath (sampleEngine false false 7) (sampleManager (sampleMap 10 10 [((2, 2), 1)] []))
      (sampleRequest 0 0 5 5 0)).map (fun r => r.1) = some FPATH_TOOFAR ∧
    (FindPath (sampleEngine false false 400)
      (sampleManager (sampleMap 40000 3 [((35002, 1), 1)] []))
      (sampleRequest 35000 1 35004 1 0)).map (fun r => r.1) = some FPATH_HEX_BUSY_RING ∧
    (FindPath (sampleEngine true false 400) (sampleManager (sampleMap 10 10 [] []))
      (sampleRequest 0 5 4 5 0)).map
        (fun r => (r.1, (r.2.1.pathesPool r.2.2.PathNum).length)) = some (FPATH_OK, 4) ∧
    (FindPath (sampleEngine true false 400) (sampleManager (sampleMap 10 10 [((2, 5), 1)] []))
      (sampleRequest 0 5 4 5 0)).map
        (fun r => (r.1, (r.2.1.pathesPool r.2.2.PathNum).length)) = some (FPATH_OK, 4) := by
  refine ⟨by decide!, by decide!, by decide!, by decide!, by decide!, by decide!, by decide!⟩

/-- The path that `FindPath` returns for a request with `cut = 0`, without soft-obstacle
options and without trace: from the start hex on, each hex is a neighbour of the next, the
last one is the target, and all are hexes of the map that the request admits. -/
theorem FindPath_ok_plain (E : Engine) (mm mm' : MapManager) (pfd pfd' : PathFindData)
    (map : Map) (hmap : GetMap mm pfd.MapId = some map)
    (hmax0 : 0 < E.FPATH_MAX_PATH) (hmax : E.FPATH_MAX_PATH < 16384)
    (hw : map.Width ≤ 65535) (hh : map.Height ≤ 65535)
    (hcut : pfd.Cut = 0) (hcrit : pfd.CheckCrit = false) (hgag : pfd.CheckGagItems = false)
    (htrace : pfd.Trace = 0)
    (h : FindPath E mm pfd = some (FPATH_OK, mm', pfd')) :
    List.Chain' (StepBack E) ((pfd.FromX, pfd.FromY) :: pathHexes (mm'.pathesPool pfd'.PathNum)) ∧
    (pathHexes (mm'.pathesPool pfd'.PathNum)).getLast? = some (pfd.ToX, pfd.ToY) ∧
    ∀ c ∈ pathHexes (mm'.pathesPool pfd'.PathNum),
      c.1 < map.Width ∧ c.2 < map.Height ∧ Admitted E map pfd c.1 c.2 := by
  obtain ⟨hfx, hfy, f, cx, cy, numindex, hfl, hfin⟩ := FindPath_ok_cases E mm mm' pfd pfd' map hmap h
  have ctx : FloodCtx E map pfd := ⟨hmax0, hmax, hw, hh, hfx, hfy⟩
  have hgood := FindPathFlood_inv E map pfd ctx _ _ _ _ (FloodInv_init E map pfd ctx) _ hfl
  obtain ⟨b', e1, e2, e3, e4, _, e6, e7, e8⟩ :=
    FindPathTraceBack_spec E mm map pfd f cx cy numindex ctx hgood
  obtain ⟨hinv, hc, hnum, hcd⟩ := hgood
  rw [hcut] at hcd
  have hto := (CheckDist_zero_iff E _ _ _ _).1 hcd
  rw [FindPathFinish_plain E mm map pfd f.Grid cx cy numindex b' hcrit hgag htrace e1] at hfin
  simp only [Option.some.injEq] at hfin
  obtain ⟨r1, r2⟩ := FindPathResult_ok E _ mm' pfd.IsRun b'.path pfd pfd' hfin
  rw [r1, PathSetMoveParams_hexes]
  refine ⟨e8, ?_, e7⟩
  by_cases hz : (numindex - 1).toNat = 0
  · -- an empty path is not returned with `FPATH_OK`
    exfalso
    have hnil : b'.path = [] := List.length_eq_zero.1 (by rw [e2]; exact hz)
    rw [hnil] at r2
    simp [PathSetMoveParams, PathSetMoveParamsLoop] at r2
  · rw [if_neg hz] at e6
    rw [e6, hto]

/-- Along a chain of neighbours the columns and the rows change by at most one a step. -/
theorem chain_lip (E : Engine) : ∀ (hs : List UShortPair) (F T : UShortPair),
    List.Chain' (StepBack E) (F :: hs) → (F :: hs).getLast? = some T →
    (T.1 : Int) - F.1 ≤ hs.length ∧ (F.1 : Int) - T.1 ≤ hs.length ∧
    (T.2 : Int) - F.2 ≤ hs.length ∧ (F.2 : Int) - T.2 ≤ hs.length := by
  intro hs
  induction hs with
  | nil =>
    intro F T _ hl
    simp only [List.getLast?_singleton, Option.some.injEq] at hl
    subst hl
    simp
  | cons h1 rest ih =>
    intro F T hch hl
    rw [List.chain'_cons] at hch
    rw [List.getLast?_cons_cons] at hl
    obtain ⟨s, hs, e1, e2⟩ := hch.1
    have hsb := GetHexOffsets_bound E _ s hs
    have := ih h1 T hch.2 hl
    simp only [List.length_cons]
    push_cast
    omega

/-- A chain of neighbours that gains a column and a row with every step, from its first
hex to its last, runs along the diagonal: it holds the hex at every number of diagonal
steps from the first hex. -/
theorem chain_diag (E : Engine) (σx σy : Int) (hσx : σx = 1 ∨ σx = -1)
    (hσy : σy = 1 ∨ σy = -1) : ∀ (hs : List UShortPair) (F T : UShortPair),
    List.Chain' (StepBack E) (F :: hs) → (F :: hs).getLast? = some T →
    σx * ((T.1 : Int) - F.1) = hs.length → σy * ((T.2 : Int) - F.2) = hs.length →
    ∀ j : Nat, 1 ≤ j → j ≤ hs.length →
      ∃ c ∈ hs, σx * ((c.1 : Int) - F.1) = j ∧ σy * ((c.2 : Int) - F.2) = j := by
  intro hs
  induction hs with
  | nil => intro F T _ _ _ _ j h1 h2; simp at h2; omega
  | cons h1 rest ih =>
    intro F T hch hl hx hy j hj1 hj2
    rw [List.chain'_cons] at hch
    rw [List.getLast?_cons_cons] at hl
    obtain ⟨s, hs, e1, e2⟩ := hch.1
    have hsb := GetHexOffsets_bound E _ s hs
    have hlip := chain_lip E rest h1 T hch.2 hl
    simp only [List.length_cons] at hx hy hj2
    push_cast at hx hy
    have a1 : σx * ((h1.1 : Int) - F.1) = 1 ∧ σx * ((T.1 : Int) - h1.1) = rest.length := by
      rcases hσx with rfl | rfl <;> omega
    have a2 : σy * ((h1.2 : Int) - F.2) = 1 ∧ σy * ((T.2 : Int) - h1.2) = rest.length := by
      rcases hσy with rfl | rfl <;> omega
    by_cases hj : j = 1
    · exact ⟨h1, List.mem_cons_self _ _, by rw [hj]; exact_mod_cast a1.1,
        by rw [hj]; exact_mod_cast a2.1⟩
    · obtain ⟨c, hc, c1, c2⟩ := ih h1 T hch.2 hl a1.2 a2.2 (j - 1) (by omega) (by omega)
      refine ⟨c, List.mem_cons_of_mem _ hc, ?_, ?_⟩
      · have : ((j - 1 : Nat) : Int) = (j : Int) - 1 := by omega
        rw [this] at c1
        rcases hσx with rfl | rfl <;> omega
      · have : ((j - 1 : Nat) : Int) = (j : Int) - 1 := by omega
        rw [this] at c2
        rcases hσy with rfl | rfl <;> omega

/-- A point between two others on a line lies on the same side of the first as the
second. -/
theorem between_sign (a t o σ : Int) (hσ : σ = 1 ∨ σ = -1)
    (h1 : σ * (t - a) = (t - a).natAbs)
    (h3 : (o - a).natAbs + (t - o).natAbs = (t - a).natAbs) :
    σ * (o - a) = (o - a).natAbs := by
  rcases hσ with rfl | rfl <;> omega

/-- A number has a sign that turns it into its absolute value. -/
theorem exists_sign (v : Int) : ∃ σ : Int, (σ = 1 ∨ σ = -1) ∧ σ * v = v.natAbs := by
  by_cases hs : 0 ≤ v
  · exact ⟨1, Or.inl rfl, by omega⟩
  · exact ⟨-1, Or.inr rfl, by omega⟩

/-- Two numbers at the same signed offset from a third are equal. -/
theorem eq_of_sign_mul (a c o σ : Int) (j : Nat) (hσ : σ = 1 ∨ σ = -1)
    (h1 : σ * (c - a) = j) (h2 : σ * (o - a) = j) : c = o := by
  rcases hσ with rfl | rfl <;> omega

/-- Blocked hexes do not shorten the path. For a depth limit below 16384, an open map whose
sides fit a `short` and a map of the same size with blocked hexes: for distinct hexes `from` and `to` whose
distance `d` satisfies `d + 1 < FPATH_MAX_PATH`, and a request with `cut = 0`,
`Multihex = 0`, no soft-obstacle option and no trace, `FindPath` returns `FPATH_OK` on the
open map, and whenever it returns `FPATH_OK` on the map with the blocked hexes its path
there has at least as many steps as its path on the open map; it has at least one step
more when the map is square, `from` and `to` lie on a diagonal and a blocked hex lies on
that diagonal strictly between them. -/
theorem FindPath_blocked_not_shorter (E : Engine) (mm_open mm_blocked mm' : MapManager)
    (pfd pfd' : PathFindData) (map_open map_blocked : Map)
    (hmo : GetMap mm_open pfd.MapId = some map_open)
    (hmb : GetMap mm_blocked pfd.MapId = some map_blocked)
    (hsw : map_blocked.Width = map_open.Width) (hsh : map_blocked.Height = map_open.Height)
    (hmax : E.FPATH_MAX_PATH < 16384)
    (hw : map_open.Width ≤ 32767) (hh : map_open.Height ≤ 32767)
    (hopen : ∀ x y : Nat, x < map_open.Width → y < map_open.Height →
      FLAG (E.GetHexFlags map_open x y) E.FH_NOWAY = false)
    (hfx : pfd.FromX < map_open.Width) (hfy : pfd.FromY < map_open.Height)
    (htx : pfd.ToX < map_open.Width) (hty : pfd.ToY < map_open.Height)
    (hne : (pfd.FromX, pfd.FromY) ≠ (pfd.ToX, pfd.ToY))
    (hdist : DistGame E pfd.FromX pfd.FromY pfd.ToX pfd.ToY + 1 < E.FPATH_MAX_PATH)
    (hcut : pfd.Cut = 0) (hmulti : pfd.Multihex = 0) (hcrit : pfd.CheckCrit = false)
    (hgag : pfd.CheckGagItems = false) (htrace : pfd.Trace = 0)
    (h : FindPath E mm_blocked pfd = some (FPATH_OK, mm', pfd')) :
    ∃ mm_o pfd_o, FindPath E mm_open pfd = some (FPATH_OK, mm_o, pfd_o) ∧
      (mm_o.pathesPool pfd_o.PathNum).length ≤ (mm'.pathesPool pfd'.PathNum).length ∧
      (E.MapHexagonal = false →
        ((pfd.ToX : Int) - pfd.FromX).natAbs = ((pfd.ToY : Int) - pfd.FromY).natAbs →
        ∀ ox oy : Nat, FLAG (E.GetHexFlags map_blocked ox oy) E.FH_NOWAY = true →
          ((ox : Int) - pfd.FromX).natAbs = ((oy : Int) - pfd.FromY).natAbs →
          ((pfd.ToX : Int) - ox).natAbs = ((pfd.ToY : Int) - oy).natAbs →
          ((ox : Int) - pfd.FromX).natAbs + ((pfd.ToX : Int) - ox).natAbs =
            ((pfd.ToX : Int) - pfd.FromX).natAbs →
          0 < ((ox : Int) - pfd.FromX).natAbs → 0 < ((pfd.ToX : Int) - ox).natAbs →
          (mm_o.pathesPool pfd_o.PathNum).length + 1 ≤ (mm'.pathesPool pfd'.PathNum).length) := by
  obtain ⟨mm_o, pfd_o, o1, o2, _, _, _⟩ := FindPath_open_ok E mm_open pfd map_open hmo hmax hw
    hh hopen hfx hfy htx hty hne hdist hcut hmulti hcrit hgag htrace
  have hge := FindPath_ok_length_ge E mm_blocked mm' pfd pfd' map_blocked hmb (by omega) hmax
    (by omega) (by omega) hcut hcrit hgag htrace h
  refine ⟨mm_o, pfd_o, o1, by omega, ?_⟩
  intro hsq hdiag ox oy hblocked hd1 hd2 hd3 hd4 hd5
  by_contra hlt
  obtain ⟨p1, p2, p3⟩ := FindPath_ok_plain E mm_blocked mm' pfd pfd' map_blocked hmb (by omega)
    hmax (by omega) (by omega) hcut hcrit hgag htrace h
  have hDx : DistGame E pfd.FromX pfd.FromY pfd.ToX pfd.ToY =
      ((pfd.ToX : Int) - pfd.FromX).natAbs := by
    unfold DistGame
    rw [hsq]
    simp only [Bool.false_eq_true, if_false]
    rw [← hdiag, max_self]
  have hlen : (pathHexes (mm'.pathesPool pfd'.PathNum)).length =
      ((pfd.ToX : Int) - pfd.FromX).natAbs := by
    unfold pathHexes
    rw [List.length_map]
    omega
  have hlast : ((pfd.FromX, pfd.FromY) :: pathHexes (mm'.pathesPool pfd'.PathNum)).getLast? =
      some (pfd.ToX, pfd.ToY) := by
    cases hp : pathHexes (mm'.pathesPool pfd'.PathNum) with
    | nil => rw [hp] at p2; cases p2
    | cons a l => rw [hp] at p2; rw [List.getLast?_cons_cons]; exact p2
  obtain ⟨σx, hσx, hσx'⟩ := exists_sign ((pfd.ToX : Int) - pfd.FromX)
  obtain ⟨σy, hσy, hσy'⟩ := exists_sign ((pfd.ToY : Int) - pfd.FromY)
  have hox := between_sign pfd.FromX pfd.ToX ox σx hσx hσx' (by exact_mod_cast hd3)
  have hoy := between_sign pfd.FromY pfd.ToY oy σy hσy hσy'
    (by rw [← hd1, ← hd2, ← hdiag]; exact_mod_cast hd3)
  have hj2 : ((ox : Int) - pfd.FromX).natAbs ≤
      (pathHexes (mm'.pathesPool pfd'.PathNum)).length := by
    rw [hlen]; omega
  obtain ⟨c, hc, c1, c2⟩ := chain_diag E σx σy hσx hσy _ (pfd.FromX, pfd.FromY)
    (pfd.ToX, pfd.ToY) p1 hlast (by rw [hlen]; exact hσx') (by rw [hlen, hdiag]; exact hσy')
    ((ox : Int) - pfd.FromX).natAbs hd4 hj2
  simp only [] at c1 c2
  have hcx : (c.1 : Int) = ox := eq_of_sign_mul pfd.FromX c.1 ox σx _ hσx c1 hox
  have hcy : (c.2 : Int) = oy := eq_of_sign_mul pfd.FromY c.2 oy σy _ hσy c2
    (by rw [hd1]; exact hoy)
  obtain ⟨_, _, hadm⟩ := p3 c hc
  rw [Nat.cast_inj.1 hcx, Nat.cast_inj.1 hcy] at hadm
  rcases hadm with hadm | hadm | hadm | hadm
  · exact hadm hmulti
  · rw [hblocked] at hadm; cases hadm
  · rw [hgag] at hadm; cases hadm.1
  · rw [hcrit] at hadm; cases hadm.1

theorem FindPath_blocked_not_shorter_witness :
    ∃ mm' pfd' mm_o pfd_o,
      FindPath (sampleEngine false false 400) (sampleManager (sampleMap 10 10 [((2, 2), 1)] []))
        (sampleRequest 0 0 5 5 0) = some (FPATH_OK, mm', pfd') ∧
      FindPath (sampleEngine false false 400) (sampleManager (sampleMap 10 10 [] []))
        (sampleRequest 0 0 5 5 0) = some (FPATH_OK, mm_o, pfd_o) ∧
      (mm_o.pathesPool pfd_o.PathNum).length + 1 ≤ (mm'.pathesPool pfd'.PathNum).length := by
  have hd : (FindPath (sampleEngine false false 400)
      (sampleManager (sampleMap 10 10 [((2, 2), 1)] []))
      (sampleRequest 0 0 5 5 0)).map (fun r => r.1) = some FPATH_OK := by decide!
  cases hr : FindPath (sampleEngine false false 400)
      (sampleManager (sampleMap 10 10 [((2, 2), 1)] [])) (sampleRequest 0 0 5 5 0) with
  | none => rw [hr] at hd; cases hd
  | some r =>
    obtain ⟨c, mm', pfd'⟩ := r
    rw [hr] at hd
    simp only [Option.map_some', Option.some.injEq] at hd
    subst hd
    obtain ⟨mm_o, pfd_o, o1, _, o3⟩ := FindPath_blocked_not_shorter (sampleEngine false false 400)
      (sampleManager (sampleMap 10 10 [] [])) (sampleManager (sampleMap 10 10 [((2, 2), 1)] []))
      mm' (sampleRequest 0 0 5 5 0) pfd' (sampleMap 10 10 [] []) (sampleMap 10 10 [((2, 2), 1)] [])
      rfl rfl rfl rfl (by decide) (by decide) (by decide)
      (by intro x y _ _; simp [sampleEngine, sampleMap, FLAG]) (by decide) (by decide)
      (by decide) (by decide) (by decide) (by decide) rfl rfl rfl rfl rfl hr
    exact ⟨mm', pfd', mm_o, pfd_o, rfl, o1,
      o3 rfl (by decide) 2 2 (by decide) (by decide) (by decide) (by decide) (by decide)
        (by decide)⟩

/-! ## Two calls in a row -/

/-- The three ways of a call of `FindPath`, which depend on the request and on the map
only: it fails before the part after the flood with a status that is not `FPATH_OK` and
leaves state and request as they are, or it has no result, or its flood stops at
`label_FindOk` and it returns what the part after the flood returns. -/
theorem FindPath_stage (E : Engine) (pfd : PathFindData) (m : Option Map) :
    (∃ code, code ≠ FPATH_OK ∧
      ∀ mm, GetMap mm pfd.MapId = m → FindPath E mm pfd = some (code, mm, pfd)) ∨
    (∀ mm, GetMap mm pfd.MapId = m → FindPath E mm pfd = none) ∨
    (∃ (map : Map) (f : Flood) (cx cy : Nat) (numindex : Int), m = some map ∧
      pfd.FromX < map.Width ∧ pfd.FromY < map.Height ∧
      FindPathFlood E map pfd (map.Width * map.Height + 1)
        { Grid := gridSet (fun _ => 0) (GRID E pfd.FromX pfd.FromY pfd.FromX pfd.FromY) 1,
          coords := [(pfd.FromX, pfd.FromY)], cr_coords := [], gag_coords := [] } 0 1 =
        some (FloodEnd.findOk f cx cy numindex) ∧
      ∀ mm, GetMap mm pfd.MapId = m →
        FindPath E mm pfd = FindPathFinish E mm map pfd f.Grid cx cy numindex) := by
  by_cases htr : pfd.Trace ≠ 0 ∧ pfd.TraceCr.isNone = true
  · left
    refine ⟨FPATH_TRACE_TARG_NULL_PTR, by decide, fun mm _ => ?_⟩
    unfold FindPath
    rw [if_pos htr]
  cases m with
  | none =>
    left
    refine ⟨FPATH_MAP_NOT_FOUND, by decide, fun mm hm => ?_⟩
    unfold FindPath
    rw [if_neg htr, hm]
  | some map =>
    by_cases hin : pfd.FromX ≥ map.Width ∨ pfd.FromY ≥ map.Height ∨ pfd.ToX ≥ map.Width ∨
        pfd.ToY ≥ map.Height
    · left
      refine ⟨FPATH_INVALID_HEXES, by decide, fun mm hm => ?_⟩
      unfold FindPath
      rw [if_neg htr, hm]
      simp only [if_pos hin]
    by_cases hcd : CheckDist E pfd.FromX pfd.FromY pfd.ToX pfd.ToY pfd.Cut = true
    · left
      refine ⟨FPATH_ALREADY_HERE, by decide, fun mm hm => ?_⟩
      unfold FindPath
      rw [if_neg htr, hm]
      simp only [if_neg hin, if_pos hcd]
    by_cases hbusy : pfd.Cut = 0 ∧ FLAG (E.GetHexFlags map pfd.ToX pfd.ToY) E.FH_NOWAY = true
    · left
      refine ⟨FPATH_HEX_BUSY, by decide, fun mm hm => ?_⟩
      unfold FindPath
      rw [if_neg htr, hm]
      simp only [if_neg hin, if_neg hcd, if_pos hbusy]
    by_cases hring : pfd.Cut ≤ 1 ∧ pfd.Multihex = 0 ∧
        FindPathRingBusy E map pfd.ToX pfd.ToY
          ((GetHexOffsets E (pfd.ToX % 2 != 0)).take (DIRS_COUNT E)) = true
    · left
      refine ⟨FPATH_HEX_BUSY_RING, by decide, fun mm hm => ?_⟩
      unfold FindPath
      rw [if_neg htr, hm]
      simp only [if_neg hin, if_neg hcd, if_neg hbusy, if_pos hring]
    cases hfl : FindPathFlood E map pfd (map.Width * map.Height + 1)
        { Grid := gridSet (fun _ => 0) (GRID E pfd.FromX pfd.FromY pfd.FromX pfd.FromY) 1,
          coords := [(pfd.FromX, pfd.FromY)], cr_coords := [], gag_coords := [] } 0 1 with
    | none =>
      right; left
      intro mm hm
      unfold FindPath
      rw [if_neg htr, hm]
      simp only [if_neg hin, if_neg hcd, if_neg hbusy, if_neg hring, hfl]
    | some e =>
      cases e with
      | findOk f cx cy numindex =>
        right; right
        exact ⟨map, f, cx, cy, numindex, rfl, by omega, by omega, hfl, fun mm hm =>
          FindPath_of_flood E mm pfd map hm htr hin hcd hbusy hring f cx cy numindex hfl⟩
      | tooFar =>
        left
        refine ⟨FPATH_TOOFAR, by decide, fun mm hm => ?_⟩
        unfold FindPath
        rw [if_neg htr, hm]
        simp only [if_neg hin, if_neg hcd, if_neg hbusy, if_neg hring, hfl]
      | deadlock =>
        left
        refine ⟨FPATH_DEADLOCK, by decide, fun mm hm => ?_⟩
        unfold FindPath
        rw [if_neg htr, hm]
        simp only [if_neg hin, if_neg hcd, if_neg hbusy, if_neg hring, hfl]

/-- The end of `FindPath`, by cases: an empty path gives `FPATH_ALREADY_HERE`, a path that
is not empty gives `FPATH_OK`, the slot named by the result holds as many steps as the
path, and the new target is the hex of its last step. The registries of maps and critters
are left as they are. -/
theorem FindPathResult_cases (E : Engine) (mm : MapManager) (is_run : Bool)
    (path : List PathStep) (pfd : PathFindData) :
    (FindPathResult E mm is_run path pfd).2.1.Maps = mm.Maps ∧
    (FindPathResult E mm is_run path pfd).2.1.Critters = mm.Critters ∧
    ((path = [] ∧ (FindPathResult E mm is_run path pfd).1 = FPATH_ALREADY_HERE) ∨
     ((FindPathResult E mm is_run path pfd).1 = FPATH_OK ∧
      ((FindPathResult E mm is_run path pfd).2.1.pathesPool
        (FindPathResult E mm is_run path pfd).2.2.PathNum).length = path.length ∧
      (pathHexes path).getLast? = some ((FindPathResult E mm is_run path pfd).2.2.NewToX,
        (FindPathResult E mm is_run path pfd).2.2.NewToY))) := by
  have hhex := PathSetMoveParams_hexes E path is_run
  have hlen : (PathSetMoveParams E path is_run).length = path.length := by
    have := congrArg List.length hhex
    unfold pathHexes at this
    rwa [List.length_map, List.length_map] at this
  unfold FindPathResult
  simp only []
  cases hl : (PathSetMoveParams E path is_run).getLast? with
  | none =>
    refine ⟨rfl, rfl, Or.inl ⟨?_, rfl⟩⟩
    have := List.getLast?_eq_none_iff.1 hl
    rw [this] at hlen
    exact List.length_eq_zero.1 hlen.symm
  | some ps =>
    refine ⟨rfl, rfl, Or.inr ⟨rfl, ?_, ?_⟩⟩
    · simp only [setPool, if_true]
      exact hlen
    · rw [← hhex]
      unfold pathHexes
      rw [List.getLast?_map, hl]
      rfl

/-- The end of `FindPath` observes of the path only its length and its last hex. -/
theorem FindPathResult_same (E : Engine) (mm mm' : MapManager) (is_run : Bool)
    (p q : List PathStep) (pfd pfd' : PathFindData) (hlen : p.length = q.length)
    (hlast : (pathHexes p).getLast? = (pathHexes q).getLast?) :
    SameOutcome (FindPathResult E mm is_run p pfd) (FindPathResult E mm' is_run q pfd') := by
  obtain ⟨_, _, h1⟩ := FindPathResult_cases E mm is_run p pfd
  obtain ⟨_, _, h2⟩ := FindPathResult_cases E mm' is_run q pfd'
  unfold SameOutcome
  rcases h1 with ⟨hp, c1⟩ | ⟨c1, l1, e1⟩
  · rcases h2 with ⟨hq, c2⟩ | ⟨c2, l2, e2⟩
    · rw [c1, c2]
      exact ⟨rfl, fun h => by cases h⟩
    · exfalso
      rw [hp] at hlast
      rw [← hlast] at e2
      cases e2
  · rcases h2 with ⟨hq, c2⟩ | ⟨c2, l2, e2⟩
    · exfalso
      rw [hq] at hlast
      rw [hlast] at e1
      cases e1
    · rw [c1, c2]
      refine ⟨rfl, fun _ => ?_⟩
      rw [l1, l2]
      rw [hlast, e2] at e1
      simp only [Option.some.injEq, Prod.mk.injEq] at e1
      exact ⟨hlen, e1.1.symm, e1.2.symm⟩

/-- The part of `FindPath` after the flood, for a request without soft-obstacle options
and without trace: whatever the pool and the smoothing switch hold, the result has the
same status, the same number of steps and the same new target. -/
theorem FindPathFinish_plain_same (E : Engine) (mm mm' : MapManager) (map : Map)
    (pfd : PathFindData) (f : Flood) (cx cy : Nat) (numindex : Int)
    (ctx : FloodCtx E map pfd)
    (hgood : (FloodEnd.findOk f cx cy numindex).Good E map pfd)
    (hcrit : pfd.CheckCrit = false) (hgag : pfd.CheckGagItems = false)
    (htrace : pfd.Trace = 0) :
    ∃ r1 r2, FindPathFinish E mm map pfd f.Grid cx cy numindex = some r1 ∧
      FindPathFinish E mm' map pfd f.Grid cx cy numindex = some r2 ∧ SameOutcome r1 r2 := by
  obtain ⟨b1, e1, e2, _, _, _, e6, _, _⟩ :=
    FindPathTraceBack_spec E mm map pfd f cx cy numindex ctx hgood
  obtain ⟨b2, d1, d2, _, _, _, d6, _, _⟩ :=
    FindPathTraceBack_spec E mm' map pfd f cx cy numindex ctx hgood
  refine ⟨_, _, FindPathFinish_plain E mm map pfd f.Grid cx cy numindex b1 hcrit hgag htrace e1,
    FindPathFinish_plain E mm' map pfd f.Grid cx cy numindex b2 hcrit hgag htrace d1, ?_⟩
  exact FindPathResult_same E _ _ pfd.IsRun b1.path b2.path pfd pfd (by rw [e2, d2])
    (by rw [e6, d6])

/-- The hexes of a resized path are given by the hexes of the path. -/
theorem pathHexes_resizePath (p : List PathStep) (n : Nat) :
    pathHexes (resizePath p n) =
      (pathHexes p).take n ++
        List.replicate (n - (pathHexes p).length)
          ((default : PathStep).HexX, (default : PathStep).HexY) := by
  unfold resizePath pathHexes
  rw [List.map_append, List.map_take, List.map_replicate, List.length_map]

/-- Resizing keeps two paths with the same hexes so. -/
theorem resizePath_same (p q : List PathStep) (n : Nat) (h : pathHexes p = pathHexes q) :
    pathHexes (resizePath p n) = pathHexes (resizePath q n) := by
  rw [pathHexes_resizePath, pathHexes_resizePath, h]

/-- The soft-obstacle check reads of the steps it walks over only their hexes. -/
theorem FindPathCheckSoft_rest (E : Engine) (map : Map) (pfd : PathFindData)
    (path : List PathStep) : ∀ (rest1 rest2 : List PathStep) (i : Nat),
    pathHexes rest1 = pathHexes rest2 →
    FindPathCheckSoft E map pfd path i rest1 = FindPathCheckSoft E map pfd path i rest2 := by
  intro rest1
  induction rest1 with
  | nil =>
    intro rest2 i h
    cases rest2 with
    | nil => rfl
    | cons a l => simp [pathHexes] at h
  | cons ps1 r1 ih =>
    intro rest2 i h
    cases rest2 with
    | nil => simp [pathHexes] at h
    | cons ps2 r2 =>
      simp only [pathHexes, List.map_cons, List.cons.injEq, Prod.mk.injEq] at h
      obtain ⟨⟨hx, hy⟩, ht⟩ := h
      have ih' := fun i => ih r2 i ht
      unfold FindPathCheckSoft
      simp only [hx, hy, ih']

/-- The soft-obstacle check leaves the path as it is or resizes it, to a size and with a
request that do not depend on the path it is given to resize. -/
theorem FindPathCheckSoft_shape (E : Engine) (map : Map) (pfd : PathFindData) :
    ∀ (rest : List PathStep) (i : Nat), ∃ (o : Option Nat) (pfd' : PathFindData),
      ∀ path : List PathStep, FindPathCheckSoft E map pfd path i rest =
        ((match o with
          | none => path
          | some k => resizePath path k), pfd') := by
  intro rest
  induction rest with
  | nil => intro i; exact ⟨none, pfd, fun path => by unfold FindPathCheckSoft; rfl⟩
  | cons ps rest ih =>
    intro i
    obtain ⟨o, pfd', hrec⟩ := ih (i + 1)
    by_cases h1 : E.IsHexPassed map ps.HexX ps.HexY = true
    · exact ⟨o, pfd', fun path => by unfold FindPathCheckSoft; rw [if_pos h1]; exact hrec path⟩
    by_cases h2 : (pfd.CheckGagItems && E.IsHexGag map ps.HexX ps.HexY) = true
    · cases hg : E.GetItemGag map ps.HexX ps.HexY with
      | none =>
        exact ⟨o, pfd', fun path => by
          unfold FindPathCheckSoft; rw [if_neg h1, if_pos h2]; simp only [hg]; exact hrec path⟩
      | some item =>
        exact ⟨some i, { pfd with GagItem := some item }, fun path => by
          unfold FindPathCheckSoft; rw [if_neg h1, if_pos h2]; simp only [hg]⟩
    by_cases h3 : (pfd.CheckCrit && E.IsFlagCritter map ps.HexX ps.HexY false) = true
    · cases hc : E.GetHexCritter map ps.HexX ps.HexY false with
      | none =>
        exact ⟨o, pfd', fun path => by
          unfold FindPathCheckSoft; rw [if_neg h1, if_neg h2, if_pos h3]; simp only [hc]
          exact hrec path⟩
      | some cr =>
        by_cases h4 : some cr = pfd.FromCritter
        · exact ⟨o, pfd', fun path => by
            unfold FindPathCheckSoft; rw [if_neg h1, if_neg h2, if_pos h3]; simp only [hc]
            rw [if_pos h4]; exact hrec path⟩
        · exact ⟨some i, { pfd with GagCritter := some cr }, fun path => by
            unfold FindPathCheckSoft; rw [if_neg h1, if_neg h2, if_pos h3]; simp only [hc]
            rw [if_neg h4]⟩
    · exact ⟨o, pfd', fun path => by
        unfold FindPathCheckSoft; rw [if_neg h1, if_neg h2, if_neg h3]; exact hrec path⟩

/-- The soft-obstacle check treats two paths with the same hexes alike. -/
theorem FindPathCheckSoft_same (E : Engine) (map : Map) (pfd : PathFindData)
    (p q : List PathStep) (h : pathHexes p = pathHexes q) :
    pathHexes (FindPathCheckSoft E map pfd p 0 p).1 =
      pathHexes (FindPathCheckSoft E map pfd q 0 q).1 ∧
    (FindPathCheckSoft E map pfd p 0 p).2 = (FindPathCheckSoft E map pfd q 0 q).2 := by
  rw [FindPathCheckSoft_rest E map pfd p p q 0 h]
  obtain ⟨o, pfd', hs⟩ := FindPathCheckSoft_shape E map pfd q 0
  rw [hs p, hs q]
  refine ⟨?_, rfl⟩
  cases o with
  | none => exact h
  | some k => exact resizePath_same p q k h

/-- The first loop of the trace block reads of the steps only their hexes. -/
theorem FindPathTraceSeq_same (E : Engine) (map : Map) :
    ∀ (rest1 rest2 : List PathStep) (seq : List Int) (i : Nat),
    pathHexes rest1 = pathHexes rest2 →
    FindPathTraceSeq E map seq i rest1 = FindPathTraceSeq E map seq i rest2 := by
  intro rest1
  induction rest1 with
  | nil =>
    intro rest2 seq i h
    cases rest2 with
    | nil => rfl
    | cons a l => simp [pathHexes] at h
  | cons ps1 r1 ih =>
    intro rest2 seq i h
    cases rest2 with
    | nil => simp [pathHexes] at h
    | cons ps2 r2 =>
      simp only [pathHexes, List.map_cons, List.cons.injEq, Prod.mk.injEq] at h
      obtain ⟨⟨hx, hy⟩, ht⟩ := h
      have ih' := fun seq i => ih r2 seq i ht
      unfold FindPathTraceSeq
      simp only [hx, hy, ih']

/-- The search of one band of the trace block reads of the steps only their hexes. -/
theorem FindPathTraceBand_same (E : Engine) (trace_seq : List Int) (tx ty trace k : Nat) :
    ∀ (rest1 rest2 : List PathStep) (t : TraceData) (i : Nat),
    pathHexes rest1 = pathHexes rest2 →
    FindPathTraceBand E trace_seq tx ty trace k t i rest1 =
      FindPathTraceBand E trace_seq tx ty trace k t i rest2 := by
  intro rest1
  induction rest1 with
  | nil =>
    intro rest2 t i h
    cases rest2 with
    | nil => rfl
    | cons a l => simp [pathHexes] at h
  | cons ps1 r1 ih =>
    intro rest2 t i h
    cases rest2 with
    | nil => simp [pathHexes] at h
    | cons ps2 r2 =>
      simp only [pathHexes, List.map_cons, List.cons.injEq, Prod.mk.injEq] at h
      obtain ⟨⟨hx, hy⟩, ht⟩ := h
      have ih' := fun t i => ih r2 t i ht
      unfold FindPathTraceBand
      simp only [hx, hy, ih']

/-- The search of the trace block reads of the path only its hexes. -/
theorem FindPathTraceBands_same (E : Engine) (trace_seq : List Int) (tx ty trace : Nat)
    (p q : List PathStep) (h : pathHexes p = pathHexes q) :
    ∀ (ks : List Nat) (t : TraceData),
    FindPathTraceBands E trace_seq tx ty trace p t ks =
      FindPathTraceBands E trace_seq tx ty trace q t ks := by
  intro ks
  induction ks with
  | nil => intro t; unfold FindPathTraceBands; rfl
  | cons k ks ih =>
    intro t
    unfold FindPathTraceBands
    rw [FindPathTraceBand_same E trace_seq tx ty trace k p q t 0 h]
    simp only [ih]

/-- The trace block treats two paths with the same hexes alike. -/
theorem FindPathTrace_same (E : Engine) (mm mm' : MapManager) (map : Map) (pfd : PathFindData)
    (cs1 cs2 : List PathStep × PathFindData) (hcr : mm'.Critters = mm.Critters)
    (h1 : pathHexes cs1.1 = pathHexes cs2.1) (h2 : cs1.2 = cs2.2) :
    (FindPathTrace E mm map pfd cs1 = none ∧ FindPathTrace E mm' map pfd cs2 = none) ∨
    (FindPathTrace E mm map pfd cs1 = some none ∧ FindPathTrace E mm' map pfd cs2 = some none) ∨
    ∃ r1 r2, FindPathTrace E mm map pfd cs1 = some (some r1) ∧
      FindPathTrace E mm' map pfd cs2 = some (some r2) ∧
      pathHexes r1.1 = pathHexes r2.1 ∧ r1.2 = r2.2 := by
  have hlen : cs1.1.length = cs2.1.length := by
    have := congrArg List.length h1
    unfold pathHexes at this
    rwa [List.length_map, List.length_map] at this
  unfold FindPathTrace
  rw [hcr, hlen, FindPathTraceSeq_same E map cs1.1 cs2.1 _ 0 h1, h2]
  by_cases htr : pfd.Trace ≠ 0
  · rw [if_pos htr, if_pos htr]
    cases hc : pfd.TraceCr.bind mm.Critters with
    | none => left; simp only []; exact ⟨trivial, trivial⟩
    | some targ =>
      simp only []
      rw [FindPathTraceBands_same E _ targ.HexX targ.HexY pfd.Trace cs1.1 cs2.1 h1]
      cases hb : FindPathTraceBands E
          (FindPathTraceSeq E map (List.replicate (cs2.1.length + 4) 0) 0 cs2.1)
          targ.HexX targ.HexY pfd.Trace cs2.1
          { NewTraceData map with EndHx := targ.HexX, EndHy := targ.HexY, FindCr := pfd.TraceCr }
          [0, 1, 2, 3, 4] with
      | some i =>
        right; right
        exact ⟨_, _, rfl, rfl, resizePath_same _ _ _ h1, rfl⟩
      | none =>
        simp only []
        by_cases hg : cs2.2.GagItem.isNone = true ∧ cs2.2.GagCritter.isNone = true
        · right; left
          rw [if_pos hg, if_pos hg]
          exact ⟨rfl, rfl⟩
        · right; right
          rw [if_neg hg, if_neg hg]
          exact ⟨_, _, rfl, rfl, h1, h2⟩
  · rw [if_neg htr, if_neg htr]
    right; right
    exact ⟨_, _, rfl, rfl, h1, h2⟩

/-- The loop of the backtrace with no steps left. -/
theorem FindPathBacktrace_zero (E : Engine) (grid : GridBuf) (offsX offsY : Int)
    (smooth_count : Int) (b : Backtrace) :
    FindPathBacktrace E grid offsX offsY smooth_count 0 b = (b, true) := by
  delta FindPathBacktrace
  rfl

/-- A store into the vector right after a prefix of known length. -/
theorem set_after_prefix_of_length (pre suf : List PathStep) (old ps : PathStep) (k : Nat)
    (hk : pre.length = k) : (pre ++ old :: suf).set k ps = pre ++ ps :: suf := by
  subst hk
  exact set_after_prefix pre suf old ps

/-- Without smoothing, or on a square map, the backtrace does not depend on what the path
vector held before nor, with smoothing, on the switch: two runs from the same hex end
both well or both badly, and when well with the same hexes. -/
theorem FindPathBacktrace_same (E : Engine) (grid : GridBuf) (offsX offsY : Int)
    (smooth_count : Int) (hdet : E.MapSmoothPath = false ∨ E.MapHexagonal = false) :
    ∀ (n : Nat) (pre1 pre2 suf1 suf2 : List PathStep) (cx cy : Nat) (sw1 sw2 : Bool)
      (it : Int), pre1.length = n → pre2.length = n →
      pathHexes suf1 = pathHexes suf2 → (E.MapSmoothPath = false → sw1 = sw2) →
      (FindPathBacktrace E grid offsX offsY smooth_count n
        { path := pre1 ++ suf1, cx := cx, cy := cy, smooth_switcher := sw1,
          smooth_iteration := it }).2 =
        (FindPathBacktrace E grid offsX offsY smooth_count n
          { path := pre2 ++ suf2, cx := cx, cy := cy, smooth_switcher := sw2,
            smooth_iteration := it }).2 ∧
      ((FindPathBacktrace E grid offsX offsY smooth_count n
        { path := pre1 ++ suf1, cx := cx, cy := cy, smooth_switcher := sw1,
          smooth_iteration := it }).2 = true →
        pathHexes (FindPathBacktrace E grid offsX offsY smooth_count n
          { path := pre1 ++ suf1, cx := cx, cy := cy, smooth_switcher := sw1,
            smooth_iteration := it }).1.path =
          pathHexes (FindPathBacktrace E grid offsX offsY smooth_count n
            { path := pre2 ++ suf2, cx := cx, cy := cy, smooth_switcher := sw2,
              smooth_iteration := it }).1.path) := by
  intro n
  induction n with
  | zero =>
    intro pre1 pre2 suf1 suf2 cx cy sw1 sw2 it hl1 hl2 hs _
    rw [FindPathBacktrace_zero, FindPathBacktrace_zero]
    refine ⟨rfl, fun _ => ?_⟩
    have e1 : pre1 = [] := List.length_eq_zero.1 hl1
    have e2 : pre2 = [] := List.length_eq_zero.1 hl2
    simp only []
    rw [e1, e2]
    exact hs
  | succ n ih =>
    intro pre1 pre2 suf1 suf2 cx cy sw1 sw2 it hl1 hl2 hs hsw
    rcases List.eq_nil_or_concat pre1 with hnil | ⟨q1, old1, hq1⟩
    · subst hnil; cases hl1
    rcases List.eq_nil_or_concat pre2 with hnil | ⟨q2, old2, hq2⟩
    · subst hnil; cases hl2
    subst hq1 hq2
    have hl1' : q1.length = n := by simpa using hl1
    have hl2' : q2.length = n := by simpa using hl2
    -- the switch of the round is the same in both runs
    have hswr : (if E.MapSmoothPath then
          if E.MapHexagonal then
            (if ((n : Int) + 2) % 2 ≠ 0 then !sw1 else sw1)
          else decide (smooth_count < 2 ∨ it.tmod smooth_count ≠ 0)
        else sw1) =
        (if E.MapSmoothPath then
          if E.MapHexagonal then
            (if ((n : Int) + 2) % 2 ≠ 0 then !sw2 else sw2)
          else decide (smooth_count < 2 ∨ it.tmod smooth_count ≠ 0)
        else sw2) := by
      cases hsm : E.MapSmoothPath with
      | false => simp only [Bool.false_eq_true, if_false]; exact hsw hsm
      | true =>
        rcases hdet with hd | hd
        · rw [hsm] at hd; cases hd
        · simp only [hd, if_true, Bool.false_eq_true, if_false]
    rw [FindPathBacktrace_succ, FindPathBacktrace_succ]
    simp only [List.concat_eq_append, List.append_assoc, List.singleton_append]
    rw [← hswr]
    by_cases hr : (FindPathGrid E grid offsX offsY cx cy ((n : Int) + 2 - 1)
        (if E.MapSmoothPath then
          if E.MapHexagonal then
            (if ((n : Int) + 2) % 2 ≠ 0 then !sw1 else sw1)
          else decide (smooth_count < 2 ∨ it.tmod smooth_count ≠ 0)
        else sw1)).1 = -1
    · rw [if_pos hr, if_pos hr]
      exact ⟨rfl, fun h => by cases h⟩
    · rw [if_neg hr, if_neg hr]
      rw [set_after_prefix_of_length q1 suf1 old1 _ n hl1',
        set_after_prefix_of_length q2 suf2 old2 _ n hl2']
      exact ih q1 q2 (_ :: suf1) (_ :: suf2) _ _ _ _ _ hl1' hl2'
        (by simpa [pathHexes] using hs) (fun _ => rfl)

/-- The length of a resized path. -/
theorem length_resizePath (p : List PathStep) (n : Nat) : (resizePath p n).length = n := by
  unfold resizePath
  simp only [List.length_append, List.length_take, List.length_replicate]
  omega

/-- Without smoothing, or on a square map, the backtrace of `FindPath` does not depend on
the pool nor on the switch. -/
theorem FindPathTraceBack_same (E : Engine) (mm mm' : MapManager) (pfd : PathFindData)
    (grid : GridBuf) (cx cy : Nat) (numindex : Int)
    (hdet : E.MapSmoothPath = false ∨ E.MapHexagonal = false) :
    (FindPathTraceBack E mm pfd grid cx cy numindex).2 =
      (FindPathTraceBack E mm' pfd grid cx cy numindex).2 ∧
    ((FindPathTraceBack E mm pfd grid cx cy numindex).2 = true →
      pathHexes (FindPathTraceBack E mm pfd grid cx cy numindex).1.path =
        pathHexes (FindPathTraceBack E mm' pfd grid cx cy numindex).1.path) := by
  have h := FindPathBacktrace_same E grid pfd.FromX pfd.FromY
    (FindPathSmooth E cx cy pfd.FromX pfd.FromY).1 hdet (numindex - 1).toNat
    (resizePath (mm.pathesPool (nextPathNum E mm.pathNumCur)) (numindex - 1).toNat)
    (resizePath (mm'.pathesPool (nextPathNum E mm'.pathNumCur)) (numindex - 1).toNat)
    [] [] cx cy (if !E.MapSmoothPath then false else mm.smooth_switcher)
    (if !E.MapSmoothPath then false else mm'.smooth_switcher)
    (FindPathSmooth E cx cy pfd.FromX pfd.FromY).2
    (length_resizePath _ _) (length_resizePath _ _) rfl
    (fun hs => by rw [hs]; rfl)
  simp only [List.append_nil] at h
  unfold FindPathTraceBack
  exact h

/-- Two paths with the same hexes have the same length and the same last hex. -/
theorem pathHexes_same (p q : List PathStep) (h : pathHexes p = pathHexes q) :
    p.length = q.length ∧ (pathHexes p).getLast? = (pathHexes q).getLast? := by
  refine ⟨?_, by rw [h]⟩
  have := congrArg List.length h
  unfold pathHexes at this
  rwa [List.length_map, List.length_map] at this

/-- Without smoothing, or on a square map, the part of `FindPath` after the flood gives for
two states with the same critters results with the same status, the same number of steps
and the same new target, whatever the pool and the switch hold. -/
theorem FindPathFinish_det_same (E : Engine) (mm mm' : MapManager) (map : Map)
    (pfd : PathFindData) (grid : GridBuf) (cx cy : Nat) (numindex : Int)
    (hdet : E.MapSmoothPath = false ∨ E.MapHexagonal = false)
    (hcr : mm'.Critters = mm.Critters)
    (r1 : FPathCode × MapManager × PathFindData)
    (h : FindPathFinish E mm map pfd grid cx cy numindex = some r1) :
    ∃ r2, FindPathFinish E mm' map pfd grid cx cy numindex = some r2 ∧ SameOutcome r1 r2 := by
  obtain ⟨hb1, hb2⟩ := FindPathTraceBack_same E mm mm' pfd grid cx cy numindex hdet
  unfold FindPathFinish at h ⊢
  simp only [] at h ⊢
  rw [← hb1]
  cases hflag : (FindPathTraceBack E mm pfd grid cx cy numindex).2 with
  | false =>
    rw [hflag] at h
    simp only [Bool.not_false, if_true, Option.some.injEq] at h ⊢
    subst h
    exact ⟨_, rfl, rfl, fun hh => by cases hh⟩
  | true =>
    rw [hflag] at h
    simp only [Bool.not_true, Bool.false_eq_true, if_false] at h ⊢
    have hhex := hb2 hflag
    -- the path and the request after the soft-obstacle check
    have hcs : pathHexes (if (pfd.CheckCrit || pfd.CheckGagItems) = true then
          FindPathCheckSoft E map pfd (FindPathTraceBack E mm pfd grid cx cy numindex).1.path 0
            (FindPathTraceBack E mm pfd grid cx cy numindex).1.path
        else ((FindPathTraceBack E mm pfd grid cx cy numindex).1.path, pfd)).1 =
        pathHexes (if (pfd.CheckCrit || pfd.CheckGagItems) = true then
          FindPathCheckSoft E map pfd (FindPathTraceBack E mm' pfd grid cx cy numindex).1.path 0
            (FindPathTraceBack E mm' pfd grid cx cy numindex).1.path
        else ((FindPathTraceBack E mm' pfd grid cx cy numindex).1.path, pfd)).1 ∧
        (if (pfd.CheckCrit || pfd.CheckGagItems) = true then
          FindPathCheckSoft E map pfd (FindPathTraceBack E mm pfd grid cx cy numindex).1.path 0
            (FindPathTraceBack E mm pfd grid cx cy numindex).1.path
        else ((FindPathTraceBack E mm pfd grid cx cy numindex).1.path, pfd)).2 =
        (if (pfd.CheckCrit || pfd.CheckGagItems) = true then
          FindPathCheckSoft E map pfd (FindPathTraceBack E mm' pfd grid cx cy numindex).1.path 0
            (FindPathTraceBack E mm' pfd grid cx cy numindex).1.path
        else ((FindPathTraceBack E mm' pfd grid cx cy numindex).1.path, pfd)).2 := by
      by_cases ho : (pfd.CheckCrit || pfd.CheckGagItems) = true
      · rw [if_pos ho, if_pos ho]
        exact FindPathCheckSoft_same E map pfd _ _ hhex
      · rw [if_neg ho, if_neg ho]
        exact ⟨hhex, rfl⟩
    rcases FindPathTrace_same E mm mm' map pfd _ _ hcr hcs.1 hcs.2 with
      ⟨t1, t2⟩ | ⟨t1, t2⟩ | ⟨ra, rb, t1, t2, t3, t4⟩
    · rw [t1] at h; cases h
    · rw [t1] at h
      rw [t2]
      simp only [Option.some.injEq] at h ⊢
      subst h
      exact ⟨_, rfl, rfl, fun hh => by cases hh⟩
    · rw [t1] at h
      rw [t2]
      simp only [Option.some.injEq] at h ⊢
      subst h
      obtain ⟨l1, l2⟩ := pathHexes_same ra.1 rb.1 t3
      exact ⟨_, rfl, FindPathResult_same E _ _ pfd.IsRun ra.1 rb.1 ra.2 rb.2 l1 l2⟩

/-- The part of `FindPath` after the flood leaves the registries of maps and critters as
they are. -/
theorem FindPathFinish_maps (E : Engine) (mm : MapManager) (map : Map) (pfd : PathFindData)
    (grid : GridBuf) (cx cy : Nat) (numindex : Int)
    (r : FPathCode × MapManager × PathFindData)
    (h : FindPathFinish E mm map pfd grid cx cy numindex = some r) :
    r.2.1.Maps = mm.Maps ∧ r.2.1.Critters = mm.Critters := by
  unfold FindPathFinish at h
  simp only [] at h
  split at h
  · simp only [Option.some.injEq] at h
    subst h
    exact ⟨rfl, rfl⟩
  · split at h
    · cases h
    · simp only [Option.some.injEq] at h
      subst h
      exact ⟨rfl, rfl⟩
    · simp only [Option.some.injEq] at h
      subst h
      obtain ⟨m1, m2, _⟩ := FindPathResult_cases E
        { mm with pathNumCur := nextPathNum E mm.pathNumCur,
                  smooth_switcher := (FindPathTraceBack E mm pfd grid cx cy numindex).1.smooth_switcher }
        pfd.IsRun _ _
      exact ⟨m1, m2⟩

/-- C7, amended. Two calls of `FindPath` in a row, the second on the state that the first
left and with the same request, return the same status and, when that is `FPATH_OK`,
paths with the same number of steps and the same new target (`NewToX`, `NewToY`), in each
of these cases: smoothing is off, or the map is square (for every soft-obstacle option
and trace); or the request has no soft-obstacle option and no trace (for every setting of
smoothing, with `0 < FPATH_MAX_PATH < 16384` and a map whose sides fit their type
`ushort`). The
first call leaves the registry of maps as it is. -/
theorem FindPath_twice_same (E : Engine) (mm : MapManager) (pfd : PathFindData)
    (r1 : FPathCode × MapManager × PathFindData)
    (h1 : FindPath E mm pfd = some r1)
    (hcase : (E.MapSmoothPath = false ∨ E.MapHexagonal = false) ∨
      (pfd.CheckCrit = false ∧ pfd.CheckGagItems = false ∧ pfd.Trace = 0 ∧
        0 < E.FPATH_MAX_PATH ∧ E.FPATH_MAX_PATH < 16384 ∧
        ∀ map, GetMap mm pfd.MapId = some map → map.Width ≤ 65535 ∧ map.Height ≤ 65535)) :
    r1.2.1.Maps = mm.Maps ∧
    ∃ r2, FindPath E r1.2.1 pfd = some r2 ∧ r2.1 = r1.1 ∧
      (r1.1 = FPATH_OK →
        (r2.2.1.pathesPool r2.2.2.PathNum).length = (r1.2.1.pathesPool r1.2.2.PathNum).length ∧
        r2.2.2.NewToX = r1.2.2.NewToX ∧ r2.2.2.NewToY = r1.2.2.NewToY) := by
  have key : r1.2.1.Maps = mm.Maps ∧ ∃ r2, FindPath E r1.2.1 pfd = some r2 ∧ SameOutcome r1 r2 := by
    rcases FindPath_stage E pfd (GetMap mm pfd.MapId) with
      ⟨code, _, hall⟩ | hall | ⟨map, f, cx, cy, numindex, hm, hfx, hfy, hfl, hall⟩
    · rw [hall mm rfl] at h1
      simp only [Option.some.injEq] at h1
      subst h1
      exact ⟨rfl, _, hall mm rfl, rfl, fun _ => ⟨rfl, rfl, rfl⟩⟩
    · rw [hall mm rfl] at h1
      cases h1
    · rw [hall mm rfl] at h1
      obtain ⟨hmaps, hcrit⟩ := FindPathFinish_maps E mm map pfd f.Grid cx cy numindex r1 h1
      have hget : GetMap r1.2.1 pfd.MapId = GetMap mm pfd.MapId := by
        unfold GetMap; rw [hmaps]
      refine ⟨hmaps, ?_⟩
      rw [hall r1.2.1 hget]
      rcases hcase with hdet | ⟨hc, hg, ht, hm0, hm1, hsize⟩
      · exact FindPathFinish_det_same E mm r1.2.1 map pfd f.Grid cx cy numindex hdet hcrit r1 h1
      · obtain ⟨hw, hh⟩ := hsize map hm
        have ctx : FloodCtx E map pfd := ⟨hm0, hm1, hw, hh, hfx, hfy⟩
        have hgood := FindPathFlood_inv E map pfd ctx _ _ _ _ (FloodInv_init E map pfd ctx) _ hfl
        obtain ⟨ra, rb, e1, e2, e3⟩ := FindPathFinish_plain_same E mm r1.2.1 map pfd f cx cy
          numindex ctx hgood hc hg ht
        rw [h1] at e1
        simp only [Option.some.injEq] at e1
        subst e1
        exact ⟨rb, e2, e3⟩
  obtain ⟨k1, r2, k2, k3, k4⟩ := key
  refine ⟨k1, r2, k2, k3.symm, fun hok => ?_⟩
  obtain ⟨a, b, c⟩ := k4 hok
  exact ⟨a.symm, b.symm, c.symm⟩

theorem FindPath_twice_same_witness :
    ∃ r1 r2,
      FindPath (sampleEngine true true 400)
        (sampleManager (sampleMap 10 10 [((2, 2), 1), ((3, 3), 1)] []))
        (sampleRequest 0 0 5 5 0) = some r1 ∧
      FindPath (sampleEngine true true 400) r1.2.1 (sampleRequest 0 0 5 5 0) = some r2 ∧
      r1.1 = FPATH_OK ∧ r2.1 = FPATH_OK ∧
      (r2.2.1.pathesPool r2.2.2.PathNum).length = (r1.2.1.pathesPool r1.2.2.PathNum).length ∧
      r2.2.2.NewToX = r1.2.2.NewToX ∧ r2.2.2.NewToY = r1.2.2.NewToY := by
  have hd : (FindPath (sampleEngine true true 400)
      (sampleManager (sampleMap 10 10 [((2, 2), 1), ((3, 3), 1)] []))
      (sampleRequest 0 0 5 5 0)).map (fun r => r.1) = some FPATH_OK := by decide!
  cases hr : FindPath (sampleEngine true true 400)
      (sampleManager (sampleMap 10 10 [((2, 2), 1), ((3, 3), 1)] []))
      (sampleRequest 0 0 5 5 0) with
  | none => rw [hr] at hd; cases hd
  | some r1 =>
    rw [hr] at hd
    simp only [Option.map_some', Option.some.injEq] at hd
    obtain ⟨_, r2, e1, e2, e3⟩ := FindPath_twice_same (sampleEngine true true 400)
      (sampleManager (sampleMap 10 10 [((2, 2), 1), ((3, 3), 1)] []))
      (sampleRequest 0 0 5 5 0) r1 hr
      (Or.inr ⟨rfl, rfl, rfl, by decide, by decide, fun map hm => by
        simp only [GetMap, sampleManager, sampleRequest, if_true, Nat.one_ne_zero, if_false,
          Option.some.injEq] at hm
        subst hm
        exact ⟨by decide, by decide⟩⟩)
    obtain ⟨a, b, c⟩ := e3 hd
    exact ⟨r1, r2, rfl, e1, hd, by rw [e2, hd], a, b, c⟩

/-- C7, counterexample. On a hexagonal 3x3 map with smoothing, with the hexes (2,1) and
(0,0) blocked and a critter on (1,1), a request from (0,2) to (1,0) with `cut = 0` and
`CheckCrit` set is made twice in a row with the same map and the same request. Both calls
return `FPATH_OK` with a path of one step, cut before the critter, but the first call ends
at (1,2) and the second at (0,1): the smoothing switch left by the first call makes the
backtrace of the second pick another neighbour. -/
theorem FindPath_twice_differs :
    (FindPath (sampleEngine true true 400)
      (sampleManager (sampleMap 3 3 [((2, 1), 1), ((1, 1), 256), ((0, 0), 1)] []))
      { sampleRequest 0 2 1 0 0 with CheckCrit := true }).bind (fun r1 =>
        (FindPath (sampleEngine true true 400) r1.2.1
          { sampleRequest 0 2 1 0 0 with CheckCrit := true }).map (fun r2 =>
            ((r1.1, (r1.2.1.pathesPool r1.2.2.PathNum).length, r1.2.2.NewToX, r1.2.2.NewToY),
             (r2.1, (r2.2.1.pathesPool r2.2.2.PathNum).length, r2.2.2.NewToX, r2.2.2.NewToY)))) =
      some ((FPATH_OK, 1, 1, 2), (FPATH_OK, 1, 0, 1)) := by
  decide!

/-! ## Transfer to another map -/

/-- A call of `Transit` to a map other than the map of the critter that returned true went
through the branch `// Different maps` with the hex that `FindStartHex` left. -/
theorem Transit_true_other_map (E : Engine) (mm mm' : MapManager) (cr mid : Nat) (c : Critter)
    (m : Map) (hx hy dir radius rule_id : Nat) (force : Bool)
    (hc : mm.Critters cr = some c) (hm : mm.Maps mid = some m) (hne : c.MapId ≠ mid)
    (h : Transit E mm cr (some mid) hx hy dir radius rule_id force = some (true, mm')) :
    ∃ hex, (E.FindStartHex m hx hy c.Multihex radius true).orElse
        (fun _ => E.FindStartHex m hx hy c.Multihex radius false) = some hex ∧
      CanAddCrToMap E mm cr (some mid) hex.1 hex.2 rule_id = some true ∧
      TransitDifferentMaps E mm cr c (some mid) hex dir rule_id = some mm' := by
  unfold Transit at h
  rw [hc] at h
  simp only [hm, Option.map_some', Option.bind_some, Option.getD_some, if_neg hne] at h
  repeat' split at h
  all_goals first
    | (injection h with h; injection h with h1 h2; cases h1; done)
    | (cases h; done)
    | skip
  rename_i hex hfs _ hcan
  cases ht : TransitDifferentMaps E mm cr c (some mid) hex dir rule_id with
  | none => rw [ht] at h; cases h
  | some r =>
    rw [ht] at h
    injection h with h; injection h with h1 h2
    exact ⟨hex, hfs, hcan, by rw [← h2]; exact ht⟩

theorem EraseCrFromMap_local_eq (E : Engine) (mm : MapManager) (cr mid : Nat) (c : Critter)
    (m : Map) (hc : mm.Critters cr = some c) (hm : mm.Maps mid = some m) :
    EraseCrFromMap E mm cr (some mid) =
      some (setCritter (setMap (setCritter mm cr { c with LockMapTransfers := c.LockMapTransfers + 1 })
        mid { m.EraseCritter cr with
          Hexes := E.UnsetFlagCritter
            (setCritter mm cr { c with LockMapTransfers := c.LockMapTransfers + 1 }).Critters
            (m.EraseCritter cr) c.HexX c.HexY c.Multihex c.IsDead })
        cr { c with MapId := 0, MapPid := 0, LockMapTransfers := c.LockMapTransfers + 1 - 1 }) := by
  unfold EraseCrFromMap
  rw [hc]
  simp only [hm]

theorem AddCrToMap_local_eq (E : Engine) (mm : MapManager) (cr mid hx hy dir rule_id : Nat)
    (c : Critter) (m : Map) (hc : mm.Critters cr = some c) (hm : mm.Maps mid = some m) :
    AddCrToMap E mm cr (some mid) hx hy dir rule_id =
      if ¬ (hx < m.Width ∧ hy < m.Height) then none
      else some (setCritter (setMap (setCritter mm cr { c with
          LockMapTransfers := c.LockMapTransfers + 1,
          TimeoutBattle := 0, TimeoutTransfer := E.FullSecond + E.TimeoutTransfer,
          MapId := mid, MapPid := m.ProtoId, HexX := hx, HexY := hy, Dir := dir }) mid (m.AddCritter cr))
        cr { c with
          TimeoutBattle := 0, TimeoutTransfer := E.FullSecond + E.TimeoutTransfer,
          MapId := mid, MapPid := m.ProtoId, HexX := hx, HexY := hy, Dir := dir,
          LockMapTransfers := c.LockMapTransfers + 1 - 1 }) := by
  unfold AddCrToMap
  rw [hc]
  simp only [hm]

/-- The branch `// Different maps` of `Transit` for a critter that stands on a registered
map: the state it leaves. -/
theorem TransitDifferentMaps_local (E : Engine) (mm mm' : MapManager) (cr mid : Nat)
    (c : Critter) (m1 m2 : Map) (hex : UShortPair) (dir rule_id : Nat)
    (hz : c.MapId ≠ 0) (hm1 : mm.Maps c.MapId = some m1) (hm2 : mm.Maps mid = some m2)
    (hne : c.MapId ≠ mid)
    (h : TransitDifferentMaps E mm cr c (some mid) hex dir rule_id = some mm') :
    (∃ c', mm'.Critters cr = some c' ∧ c'.MapId = mid ∧ c'.HexX = hex.1 ∧ c'.HexY = hex.2) ∧
    (∃ crs, mm'.Maps c.MapId = some { m1.EraseCritter cr with
      Hexes := E.UnsetFlagCritter crs (m1.EraseCritter cr) c.HexX c.HexY c.Multihex c.IsDead }) ∧
    mm'.Maps mid = some (m2.AddCritter cr) := by
  unfold TransitDifferentMaps at h
  simp only [GetMap, if_neg hz, hm1, Option.isSome_some, or_true, if_true] at h
  rw [EraseCrFromMap_local_eq E (setCritter mm cr _) cr c.MapId _ m1 (if_pos rfl) hm1] at h
  simp only [] at h
  rw [show ∀ (a : MapManager) (x : Critter), (setCritter a cr x).Critters cr = some x from
    fun _ _ => if_pos rfl] at h
  simp only [] at h
  rw [AddCrToMap_local_eq E _ cr mid _ _ _ _ _ m2 (if_pos rfl)
    (by simp only [setCritter, setMap, if_neg (Ne.symm hne)]; exact hm2)] at h
  by_cases hb : ¬(hex.1 < m2.Width ∧ hex.2 < m2.Height)
  · rw [if_pos hb] at h
    cases h
  · rw [if_neg hb] at h
    simp only [] at h
    rw [show ∀ (a : MapManager) (x : Critter), (setCritter a cr x).Critters cr = some x from
      fun _ _ => if_pos rfl] at h
    simp only [Option.some.injEq] at h
    subst h
    refine ⟨⟨_, if_pos rfl, rfl, rfl, rfl⟩, ?_, ?_⟩
    · simp only [setCritter, setMap, if_neg hne, if_true]
      exact ⟨_, rfl⟩
    · simp only [setCritter, setMap, if_true]

theorem unset_bit_clears (v : Nat) : ((v ||| 256) ^^^ 256) &&& 256 = 0 := by
  apply Nat.eq_of_testBit_eq
  intro i
  have h256 : (256 : Nat) = 2 ^ 8 := by norm_num
  rw [h256]
  simp only [Nat.testBit_and, Nat.testBit_xor, Nat.testBit_or, Nat.testBit_two_pow,
    Nat.zero_testBit]
  by_cases hi : 8 = i <;> simp [hi]

theorem sampleEngine_unset (hexagonal smooth : Bool) (max_path : Nat) :
    UnsetFlagClears (sampleEngine hexagonal smooth max_path) := by
  intro crs m hx hy multihex
  simp only [sampleEngine, FLAG, and_self, if_true]
  have := unset_bit_clears (m.Hexes hx hy)
  simpa using this

/-- C11. A critter that is alive and stands on a registered map (its map id is not 0), in
whose critter index it is listed once, is moved by a call of `Transit` to another map that returns true, with a
destination hex that `FindStartHex` keeps: afterwards its map id is the id of the
destination map and its hex is the destination hex, the index of the old map does not list
it, the index of the destination map lists it, and the hex flags of the old map at the old
hex do not carry `FH_CRITTER` (given that `UnsetFlagCritter` clears that flag). -/
theorem Transit_to_other_map (E : Engine) (mm mm' : MapManager) (cr mid : Nat) (c : Critter)
    (m1 m2 : Map) (hx hy dir radius rule_id : Nat) (force : Bool)
    (hunset : UnsetFlagClears E)
    (hc : mm.Critters cr = some c) (hz : c.MapId ≠ 0) (hm1 : mm.Maps c.MapId = some m1)
    (hnd : m1.MapCritters.Nodup) (halive : c.IsDead = false)
    (hm2 : mm.Maps mid = some m2) (hne : c.MapId ≠ mid)
    (hfree : (E.FindStartHex m2 hx hy c.Multihex radius true).orElse
      (fun _ => E.FindStartHex m2 hx hy c.Multihex radius false) = some (hx, hy))
    (h : Transit E mm cr (some mid) hx hy dir radius rule_id force = some (true, mm')) :
    ∃ c' m1' m2', mm'.Critters cr = some c' ∧ c'.MapId = mid ∧ c'.HexX = hx ∧ c'.HexY = hy ∧
      mm'.Maps c.MapId = some m1' ∧ cr ∉ m1'.MapCritters ∧
      FLAG (E.GetHexFlags m1' c.HexX c.HexY) (E.FH_CRITTER <<< 8) = false ∧
      mm'.Maps mid = some m2' ∧ cr ∈ m2'.MapCritters := by
  obtain ⟨hex, h1, _, h3⟩ :=
    Transit_true_other_map E mm mm' cr mid c m2 hx hy dir radius rule_id force hc hm2 hne h
  rw [hfree] at h1
  injection h1 with h1
  subst h1
  obtain ⟨⟨c', t1, t2, t3, t4⟩, ⟨crs, t5⟩, t6⟩ :=
    TransitDifferentMaps_local E mm mm' cr mid c m1 m2 (hx, hy) dir rule_id hz hm1 hm2 hne h3
  refine ⟨c', _, _, t1, t2, t3, t4, t5, ?_, ?_, t6, Map.mem_AddCritter m2 cr⟩
  · show cr ∉ m1.MapCritters.erase cr
    exact fun hin => ((List.Nodup.mem_erase_iff hnd).mp hin).1 rfl
  · rw [halive]
    exact hunset crs (m1.EraseCritter cr) c.HexX c.HexY c.Multihex

theorem Transit_to_other_map_witness :
    ∃ mm' c' m1' m2',
      Transit (sampleEngine false false 400) sampleWorld 5 (some 2) 4 4 0 2 0 false =
        some (true, mm') ∧
      mm'.Critters 5 = some c' ∧ c'.MapId = 2 ∧ c'.HexX = 4 ∧ c'.HexY = 4 ∧
      mm'.Maps 1 = some m1' ∧ 5 ∉ m1'.MapCritters ∧
      FLAG ((sampleEngine false false 400).GetHexFlags m1' 3 3)
        ((sampleEngine false false 400).FH_CRITTER <<< 8) = false ∧
      mm'.Maps 2 = some m2' ∧ 5 ∈ m2'.MapCritters := by
  obtain ⟨c', m1', m2', h⟩ := Transit_to_other_map (sampleEngine false false 400) sampleWorld _ 5 2
    (sampleCritter 1 3 3) (sampleMap 10 10 [((3, 3), 0x0100)] [5]) (sampleMap 10 10 [] [])
    4 4 0 2 0 false (sampleEngine_unset _ _ _) rfl (by decide) rfl (by simp [sampleMap]) rfl rfl
    (by decide)
    rfl rfl
  exact ⟨_, c', m1', m2', rfl, h⟩

/-! ## A rejected transfer -/

/-- Each `return false` of `Transit` comes before its first write. -/
theorem Transit_false_state (E : Engine) (mm mm' : MapManager) (cr : Nat)
    (map : Option Nat) (hx hy dir radius rule_id : Nat) (force : Bool)
    (h : Transit E mm cr map hx hy dir radius rule_id force = some (false, mm')) :
    mm' = mm := by
  unfold Transit at h
  split at h
  · cases h
  · cases h
  · simp only [] at h
    split_ifs at h
    all_goals first
      | (injection h with h; injection h with h1 h2; exact h2.symm)
      | skip
    all_goals repeat' split at h
    all_goals first
      | (injection h with h; injection h with h1 h2; exact h2.symm)
      | (cases h; done)
      | skip
    simp only [Option.map_eq_some', Prod.mk.injEq, Bool.true_eq_false, false_and, and_false,
      exists_false] at h

/-- C13. Whenever `Transit` returns false, the state afterwards is the state before the
call: the registry of critters (map id, hex, direction, timeouts, transfer lock and global
group of every critter), the registry of maps (critter index and hex data of every map) and
all the rest. -/
theorem Transit_false_unchanged (E : Engine) (mm mm' : MapManager) (cr : Nat)
    (map : Option Nat) (hx hy dir radius rule_id : Nat) (force : Bool)
    (h : Transit E mm cr map hx hy dir radius rule_id force = some (false, mm')) :
    mm' = mm ∧ mm'.Critters = mm.Critters ∧ mm'.Maps = mm.Maps ∧
      mm'.Locations = mm.Locations := by
  have e := Transit_false_state E mm mm' cr map hx hy dir radius rule_id force h
  subst e
  exact ⟨rfl, rfl, rfl, rfl⟩

theorem Transit_false_unchanged_witness :
    ∃ mm', Transit (sampleEngine false false 400) sampleWorld 5 (some 2) 20 20 0 2 0 false =
        some (false, mm') ∧ mm' = sampleWorld ∧ mm'.Critters = sampleWorld.Critters ∧
      mm'.Maps = sampleWorld.Maps ∧ mm'.Locations = sampleWorld.Locations :=
  ⟨_, rfl, Transit_false_unchanged (sampleEngine false false 400) sampleWorld _ 5 (some 2)
    20 20 0 2 0 false rfl⟩

/-! ## Groups on the global map and transfers to it -/

/-- C15. A critter without a group that joins the global map with a rule id other than 0
and other than its own id, naming a critter on the global map that holds a group, is added
to that group: the list of the rule critter becomes its previous list followed by the
joiner, the list of the joiner is that same list, and the joiner takes the world position
and the group uid of the rule critter and records the rule id. -/
theorem AddCrToMap_joins_rule (E : Engine) (mm : MapManager) (cr rule_id hx hy dir : Nat)
    (c rule : Critter) (group : List Nat)
    (hc : mm.Critters cr = some c) (hgrp : c.GlobalMapGroup = none)
    (hrule : rule_id ≠ 0) (hne : rule_id ≠ cr)
    (hr : mm.Critters rule_id = some rule) (hglobal : rule.MapId = 0)
    (hg : rule.GlobalMapGroup = some group) :
    ∃ mm' c', AddCrToMap E mm cr none hx hy dir rule_id = some mm' ∧
      mm'.Critters rule_id = some { rule with GlobalMapGroup := some (group ++ [cr]) } ∧
      mm'.Critters cr = some c' ∧ c'.GlobalMapGroup = some (group ++ [cr]) ∧
      c'.WorldX = rule.WorldX ∧ c'.WorldY = rule.WorldY ∧
      c'.GlobalGroupUid = rule.GlobalGroupUid ∧ c'.GlobalGroupRuleId = rule_id ∧
      c'.MapId = 0 := by
  unfold AddCrToMap
  rw [hc]
  simp only [hgrp, Option.isSome_none, Bool.false_eq_true, if_false, hrule, hne, ne_eq,
    not_false_eq_true, and_self, if_true, hr, hglobal, not_true_eq_false, hg]
  refine ⟨_, _, rfl, ?_, if_pos rfl, rfl, rfl, rfl, rfl, rfl, rfl⟩
  simp only [setCritter, if_neg hne, if_true]

theorem AddCrToMap_joins_rule_witness :
    ∃ mm' c', AddCrToMap (sampleEngine false false 400) sampleGroupWorld 3 none 0 0 0 1 =
        some mm' ∧
      mm'.Critters 1 = some { sampleTraveller (some [1, 2]) with
        GlobalMapGroup := some ([1, 2] ++ [3]) } ∧
      mm'.Critters 3 = some c' ∧ c'.GlobalMapGroup = some ([1, 2] ++ [3]) ∧
      c'.WorldX = (sampleTraveller (some [1, 2])).WorldX ∧
      c'.WorldY = (sampleTraveller (some [1, 2])).WorldY ∧
      c'.GlobalGroupUid = (sampleTraveller (some [1, 2])).GlobalGroupUid ∧
      c'.GlobalGroupRuleId = 1 ∧ c'.MapId = 0 :=
  AddCrToMap_joins_rule (sampleEngine false false 400) sampleGroupWorld 3 1 0 0 0
    (sampleTraveller none) (sampleTraveller (some [1, 2])) [1, 2] rfl rfl (by decide) (by decide)
    rfl rfl rfl

/-- C12 (defect). The critter 1 leads a group of two, the critters 1 and 2, and the critter
3 joins the global map under the critter 1: the lists of the critters 1 and 3 hold the three
critters, the list of the critter 2 still holds two, and when the critter 3 leaves the
global map afterwards, the assertion of `EraseCrFromMap` that each member of its list holds
it fails on the critter 2. -/
theorem AddCrToMap_third_member_not_mirrored :
    ((AddCrToMap (sampleEngine false false 400) sampleGroupWorld 3 none 0 0 0 1).map
      (fun mm => (groupOf mm 1, groupOf mm 2, groupOf mm 3))) =
      some (some [1, 2, 3], some [1, 2], some [1, 2, 3]) ∧
    ((AddCrToMap (sampleEngine false false 400) sampleGroupWorld 3 none 0 0 0 1).bind
      (fun mm => EraseCrFromMap (sampleEngine false false 400) mm 3 none)).isNone = true := by
  decide!

/-- C16 (defect). The critter 5 stands on the hex `(3, 3)` of the map 1 and is free to
transfer; `TransitToGlobal` with the rule id 0 reaches the call `map->FindStartHex` of the
branch `// Different maps` with a null `map`, so the call has no defined result, with and
without `force`. -/
theorem TransitToGlobal_from_map_undefined :
    (TransitToGlobal (sampleEngine false false 400) sampleWorld 5 0 false).isNone = true ∧
    (TransitToGlobal (sampleEngine false false 400) sampleWorld 5 0 true).isNone = true := by
  decide!

/-- C14 (defect). A critter on the global map that calls `Transit` to the global map with a
rule id that names no critter is accepted, the branch `// One map` returns true without a
look at the rule critter; a critter on a map that does the same reaches `map->FindStartHex`
with a null `map`, and the call has no defined result. -/
theorem Transit_global_rule_unchecked :
    (Transit (sampleEngine false false 400) sampleGroupWorld 1 none 0 0 0 0 99 false).map
      (fun r => r.1) = some true ∧
    (sampleGroupWorld.Critters 99).isNone = true ∧
    (Transit (sampleEngine false false 400) sampleWorld 5 none 0 0 0 0 99 false).isNone = true := by
  decide!

/-! ## Rejections of a transfer -/

/-- The rejections of `Transit` that do not depend on the rule critter: a locked critter, a
destination location marked `ToGarbage`, a dead or knocked out critter or one with an active
timeout when `force` is false, a hex outside the own map of the critter, and a local map on
which `FindStartHex` finds no hex. In each case the call returns false and the state is
kept. -/
theorem Transit_rejects (E : Engine) (mm : MapManager) (cr : Nat) (map : Option Nat)
    (hx hy dir radius rule_id : Nat) (force : Bool) (c : Critter) (mapv : Option Map)
    (hc : mm.Critters cr = some c)
    (hmap : (map = none ∧ mapv = none) ∨ ∃ mid m, map = some mid ∧ mm.Maps mid = some m ∧
      mapv = some m)
    (hcase : c.LockMapTransfers ≠ 0 ∨
      (∃ m l, mapv = some m ∧ mm.Locations m.LocId = some l ∧ l.ToGarbage = true) ∨
      (force = false ∧ (c.IsDead = true ∨ c.IsKnockout = true ∨
        E.IS_TIMEOUT c.TimeoutTransfer = true ∨ E.IS_TIMEOUT c.TimeoutBattle = true)) ∨
      (∃ mid m, map = some mid ∧ mid ≠ 0 ∧ mapv = some m ∧
        ((c.MapId = mid ∧ (hx ≥ m.Width ∨ hy ≥ m.Height)) ∨
          (E.FindStartHex m hx hy c.Multihex radius true = none ∧
            E.FindStartHex m hx hy c.Multihex radius false = none)))) :
    Transit E mm cr map hx hy dir radius rule_id force = some (false, mm) := by
  rcases hmap with ⟨e1, e2⟩ | ⟨mid0, m0, e1, e2, e3⟩
  all_goals
    subst e1
    unfold Transit
    rw [hc]
  · subst e2
    simp only [Option.bind_none, Option.map_none', Option.getD_none]
    rcases hcase with hl | ⟨m, l, e1, e2, e3⟩ | ⟨hf, hd⟩ | ⟨mid, m, e1, e2, e3, _⟩
    · simp [hl]
    · cases e1
    · subst hf
      by_cases hl : c.LockMapTransfers = 0
      · rcases hd with hd | hd | hd | hd <;> simp [hl, hd]
      · simp [hl]
    · cases e1
  · subst e3
    simp only [e2, Option.map_some', Option.bind_some, Option.getD_some]
    split_ifs with h1 h2 h3 h4 h5 h6 h7 h8 h9
    all_goals first
      | rfl
      | skip
    all_goals rcases hcase with hl | ⟨m, l, e1, e2, e3⟩ | ⟨hf, hd | hk | ht | ht⟩ |
        ⟨mid, m, e1, e2, e3, ⟨e4, e5⟩ | ⟨e4, e5⟩⟩
    all_goals first
      | exact absurd hl h2
      | (injection e1 with e1; subst e1; simp [e2, e3] at h1; done)
      | (subst hf; simp [hd] at h4; done)
      | (subst hf; simp [hk] at h5; done)
      | (subst hf; simp [ht] at h3; done)
      | skip
    all_goals
      injection e1 with e1
      injection e3 with e3
      subst e1
      subst e3
    all_goals first
      | exact absurd h8 e2
      | exact absurd e5 h9
      | exact absurd e4 h7
      | (rw [e4, e5]; rfl)

/-- With `force`, a call of `Transit` that returns false was rejected for the lock of the
critter or for its destination: the location is marked `ToGarbage`, the hex lies outside the
own map of the critter, `FindStartHex` found no hex, or `CanAddCrToMap` refused the hex
found. The critter being dead or knocked out and its timeouts play no part. -/
theorem Transit_force_rejects (E : Engine) (mm mm' : MapManager) (cr : Nat) (map : Option Nat)
    (hx hy dir radius rule_id : Nat) (c : Critter)
    (hc : mm.Critters cr = some c)
    (h : Transit E mm cr map hx hy dir radius rule_id true = some (false, mm')) :
    c.LockMapTransfers ≠ 0 ∨ ∃ mid m, map = some mid ∧ mm.Maps mid = some m ∧
      ((∃ l, mm.Locations m.LocId = some l ∧ l.ToGarbage = true) ∨
        (c.MapId = mid ∧ (hx ≥ m.Width ∨ hy ≥ m.Height)) ∨
        ((E.FindStartHex m hx hy c.Multihex radius true).orElse
          (fun _ => E.FindStartHex m hx hy c.Multihex radius false) = none) ∨
        ∃ hex, (E.FindStartHex m hx hy c.Multihex radius true).orElse
            (fun _ => E.FindStartHex m hx hy c.Multihex radius false) = some hex ∧
          CanAddCrToMap E mm cr map hex.1 hex.2 rule_id = some false) := by
  by_cases hl : c.LockMapTransfers = 0
  swap
  · exact Or.inl hl
  right
  unfold Transit at h
  rw [hc] at h
  cases map with
  | none =>
    simp only [Option.none_bind, Option.map_none', Option.getD_none, hl, ne_eq,
      not_true_eq_false, Bool.not_true, Bool.false_and, Bool.false_eq_true, if_false] at h
    split_ifs at h
    all_goals cases h
  | some mid =>
    cases hm : mm.Maps mid with
    | none => simp only [hm, Option.map_none'] at h; cases h
    | some m =>
      simp only [hm, Option.map_some', Option.some_bind, Option.getD_some, hl, ne_eq,
        not_true_eq_false, Bool.not_true, Bool.false_and, Bool.false_eq_true, if_false] at h
      refine ⟨mid, m, rfl, hm, ?_⟩
      by_cases hg : (Option.map (fun l => l.ToGarbage) (mm.Locations m.LocId)).getD false = true
      · left
        cases hlo : mm.Locations m.LocId with
        | none => rw [hlo] at hg; cases hg
        | some l => rw [hlo] at hg; exact ⟨l, rfl, hg⟩
      · right
        rw [if_neg hg] at h
        by_cases h7 : c.MapId = mid
        · rw [if_pos h7] at h
          split_ifs at h with h8 h9
          · cases h
          · exact Or.inl ⟨h7, h9⟩
          · right; left
            split at h
            · assumption
            · cases h
        · rw [if_neg h7] at h
          right
          split at h
          · left; assumption
          · rename_i hex hfs
            right
            refine ⟨hex, hfs, ?_⟩
            split at h
            · cases h
            · assumption
            · simp only [Option.map_eq_some', Prod.mk.injEq, Bool.true_eq_false, false_and,
                and_false, exists_false] at h

/-! ## The wrapper TransitToMapHex -/

/-- C17 fails as stated. The critter 5 stands on an exit grid that leads to the hex
`(20, 20)` outside the map 2; its battle timeout is 150 and it knows no location. The call
of `TransitToMapHex` with `force` returns false, and afterwards the battle timeout is 0 and
the location 1 is known. -/
theorem TransitToMapHex_false_resets :
    transitSummary (some (true, sampleExitWorld)) 5 = some (true, some (0, 150, [], 1, 9, 9)) ∧
    transitSummary (TransitToMapHex (sampleExitEngine 2 20 20) sampleExitWorld 5 (some 1) 9 9 0
      true) 5 = some (false, some (0, 0, [1], 1, 9, 9)) :=
  ⟨rfl, rfl⟩

/-- C17 (amended). When `TransitToMapHex` returns false, either the state is the state before
the call, or `GetTransit` had succeeded on the location of the map and the state differs from
the state before only in the critter, whose two timeouts are 0 and which knows the location
if it is visible. In both cases the map id and the hex of the critter and all maps are as
before. -/
theorem TransitToMapHex_false (E : Engine) (mm mm' : MapManager) (cr : Nat) (map : Option Nat)
    (hx hy dir : Nat) (force : Bool) (c : Critter)
    (hc : mm.Critters cr = some c)
    (h : TransitToMapHex E mm cr map hx hy dir force = some (false, mm')) :
    (mm' = mm ∨ ∃ mid m loc t, map = some mid ∧ mm.Maps mid = some m ∧
      mm.Locations m.LocId = some loc ∧ E.GetTransit loc m hx hy dir = some t ∧
      mm' = setCritter mm cr (TransitToMapHexEnter E c loc m.LocId)) ∧
    mm'.Maps = mm.Maps ∧
    ∃ c', mm'.Critters cr = some c' ∧ c'.MapId = c.MapId ∧ c'.HexX = c.HexX ∧
      c'.HexY = c.HexY := by
  have hent : ∀ loc id, (TransitToMapHexEnter E c loc id).MapId = c.MapId ∧
      (TransitToMapHexEnter E c loc id).HexX = c.HexX ∧
      (TransitToMapHexEnter E c loc id).HexY = c.HexY := by
    intro loc id
    unfold TransitToMapHexEnter Critter.AddKnownLoc
    split_ifs <;> exact ⟨rfl, rfl, rfl⟩
  suffices key : mm' = mm ∨ ∃ mid m loc t, map = some mid ∧ mm.Maps mid = some m ∧
      mm.Locations m.LocId = some loc ∧ E.GetTransit loc m hx hy dir = some t ∧
      mm' = setCritter mm cr (TransitToMapHexEnter E c loc m.LocId) by
    refine ⟨key, ?_⟩
    rcases key with e | ⟨mid, m, loc, t, _, _, _, _, e⟩
    · subst e
      exact ⟨rfl, c, hc, rfl, rfl, rfl⟩
    · subst e
      exact ⟨rfl, _, if_pos rfl, hent loc m.LocId⟩
  have hsame : mm' = mm → (mm' = mm ∨ ∃ mid m loc t, map = some mid ∧ mm.Maps mid = some m ∧
      mm.Locations m.LocId = some loc ∧ E.GetTransit loc m hx hy dir = some t ∧
      mm' = setCritter mm cr (TransitToMapHexEnter E c loc m.LocId)) := Or.inl
  unfold TransitToMapHex at h
  rw [hc] at h
  simp only [] at h
  split_ifs at h with h1 h2
  · exact hsame (by injection h with h; injection h with _ h; exact h.symm)
  · exact hsame (by injection h with h; injection h with _ h; exact h.symm)
  · cases map with
    | none => exact hsame (by injection h with h; injection h with _ h; exact h.symm)
    | some mid =>
      simp only [] at h
      cases hm : mm.Maps mid with
      | none => rw [hm] at h; cases h
      | some m =>
        rw [hm] at h
        simp only [] at h
        split_ifs at h with h3 h4
        · exact hsame (by injection h with h; injection h with _ h; exact h.symm)
        · exact hsame (by injection h with h; injection h with _ h; exact h.symm)
        · cases hl : mm.Locations m.LocId with
          | none => rw [hl] at h; cases h
          | some loc =>
            rw [hl] at h
            simp only [] at h
            cases ht : E.GetTransit loc m hx hy dir with
            | none =>
              rw [ht] at h
              exact hsame (by injection h with h; injection h with _ h; exact h.symm)
            | some t =>
              obtain ⟨id_map, hx1, hy1, dir1⟩ := t
              rw [ht] at h
              simp only [] at h
              refine Or.inr ⟨mid, m, loc, _, rfl, hm, hl, ht, ?_⟩
              split_ifs at h with h5
              · -- To global
                unfold TransitToGlobal at h
                rw [show ∀ (a : MapManager) (x : Critter), (setCritter a cr x).Critters cr = some x
                  from fun _ _ => if_pos rfl] at h
                simp only [] at h
                split_ifs at h
                · injection h with h; injection h with _ h; exact h.symm
                · exact Transit_false_state E _ mm' cr none 0 0 0 0 0 force h
              · -- To local
                split at h
                · injection h with h; injection h with _ h; exact h.symm
                · exact Transit_false_state E _ mm' cr (some id_map) hx1 hy1 dir1 2 0 force h

theorem TransitToMapHex_false_witness :
    ∃ mm', TransitToMapHex (sampleExitEngine 2 20 20) sampleExitWorld 5 (some 1) 9 9 0 true =
        some (false, mm') ∧
      (mm' = sampleExitWorld ∨ ∃ mid m loc t, some 1 = some mid ∧
        sampleExitWorld.Maps mid = some m ∧
        sampleExitWorld.Locations m.LocId = some loc ∧
        (sampleExitEngine 2 20 20).GetTransit loc m 9 9 0 = some t ∧
        mm' = setCritter sampleExitWorld 5 (TransitToMapHexEnter (sampleExitEngine 2 20 20)
          { sampleCritter 1 9 9 with TimeoutBattle := 150 } loc m.LocId)) ∧
      mm'.Maps = sampleExitWorld.Maps ∧
      ∃ c', mm'.Critters 5 = some c' ∧ c'.MapId = 1 ∧ c'.HexX = 9 ∧ c'.HexY = 9 :=
  ⟨_, rfl, TransitToMapHex_false (sampleExitEngine 2 20 20) sampleExitWorld _ 5 (some 1) 9 9 0
    true { sampleCritter 1 9 9 with TimeoutBattle := 150 } rfl rfl⟩

/-! ## Creation of locations and maps -/

/-- A call of `CreateMap` or of `CreateLocation` whose own prototype is not loaded returns
a null pointer and keeps the state, and so does a call of `CreateLocation` when the
prototype of the first map of the location is not loaded. -/
theorem Create_not_loaded (E : Engine) (mm : MapManager) :
    (∀ proto_id loc_id maps, E.GetProtoMap proto_id = none →
      CreateMap E mm proto_id loc_id maps = (mm, maps, none)) ∧
    (∀ loc_pid wx wy, E.GetProtoLocation loc_pid = none →
      CreateLocation E mm loc_pid wx wy = some (mm, none)) ∧
    (∀ loc_pid wx wy map_pid pids, E.GetProtoLocation loc_pid = some ⟨map_pid :: pids⟩ →
      E.GetProtoMap map_pid = none → CreateLocation E mm loc_pid wx wy = some (mm, none)) := by
  refine ⟨?_, ?_, ?_⟩
  · intro proto_id loc_id maps h
    simp only [CreateMap, h]
  · intro loc_pid wx wy h
    simp only [CreateLocation, h]
  · intro loc_pid wx wy map_pid pids h1 h2
    simp only [CreateLocation, h1, CreateLocationMaps, CreateMap, h2, Bool.not_false, if_true]
    split_ifs <;> rfl

/-- C18 (defect). The location prototype 1 is made of the map prototypes 10 and 11, of which
only 10 is loaded. `CreateLocation` returns a null pointer, and the map that it made from the
prototype 10 stays registered, under the id 6, and queued as a map job; a location with two
loaded maps is created under the id 8 after its maps 6 and 7. -/
theorem CreateLocation_second_map_not_loaded :
    createSummary (some (sampleEntityWorld, none)) = some (none, [1, 2], [1], []) ∧
    createSummary (CreateLocation sampleProtoEngine sampleEntityWorld 1 10 10) =
      some (none, [1, 2, 6], [1], [6]) ∧
    createSummary (CreateLocation sampleProtoEngine sampleEntityWorld 2 10 10) =
      some (some 8, [1, 2, 6, 7], [1, 8], [6, 7]) := by
  decide!

/-! ## The scan of TraceBullet -/

theorem TraceSame.refl (t : TraceData) : TraceSame t t := ⟨rfl, rfl, rfl, rfl, rfl, rfl, rfl, rfl, rfl⟩

theorem TraceSame.trans {t t1 t2 : TraceData} (h1 : TraceSame t t1) (h2 : TraceSame t1 t2) :
    TraceSame t t2 :=
  ⟨h2.map.trans h1.map, h2.find.trans h1.find, h2.type.trans h1.type, h2.team.trans h1.team,
    h2.base.trans h1.base, h2.callback.trans h1.callback, h2.pre.trans h1.pre,
    h2.block.trans h1.block, h2.full.trans h1.full⟩

theorem TraceStop_same (E : Engine) {t t1 : TraceData} (h : TraceSame t t1) (x : UShortPair) :
    TraceStop E t1 x = TraceStop E t x := by
  unfold TraceStop
  rw [h.map, h.find, h.team, h.base]

theorem TraceCollect_same (E : Engine) {t t1 : TraceData} (h : TraceSame t t1) (x : UShortPair) :
    TraceCollect E t1 x = TraceCollect E t x := by
  unfold TraceCollect
  rw [h.map, h.type]

theorem TraceBulletHex_eq (E : Engine) (s : TraceLoop) (cx cy : Nat) :
    TraceBulletHex E s cx cy =
      if !E.IsHexRaked s.trace.TraceMap cx cy then
        ({ TraceHexPassed E s cx cy with cx := cx, cy := cy }, false)
      else TraceHexFind E s.trace.TraceMap
        (TraceHexCollect E s.trace.TraceMap { TraceHexPassed E s cx cy with cx := cx, cy := cy }
          cx cy) cx cy := rfl

theorem TraceHexPassed_spec (E : Engine) (s : TraceLoop) (cx cy : Nat) :
    TraceSame s.trace (TraceHexPassed E s cx cy).trace ∧
    (TraceHexPassed E s cx cy).old_cx = s.old_cx ∧ (TraceHexPassed E s cx cy).old_cy = s.old_cy ∧
    (TraceHexPassed E s cx cy).trace.Critters = s.trace.Critters ∧
    (TraceHexPassed E s cx cy).trace.IsCritterFounded = s.trace.IsCritterFounded ∧
    (TraceHexPassed E s cx cy).trace.IsTeammateFounded = s.trace.IsTeammateFounded := by
  unfold TraceHexPassed
  split_ifs <;> exact ⟨⟨rfl, rfl, rfl, rfl, rfl, rfl, rfl, rfl, rfl⟩, rfl, rfl, rfl, rfl, rfl⟩

theorem TraceHexCollect_spec (E : Engine) (map : Map) (s2 : TraceLoop) (cx cy : Nat) :
    TraceSame s2.trace (TraceHexCollect E map s2 cx cy).trace ∧
    (TraceHexCollect E map s2 cx cy).cx = s2.cx ∧ (TraceHexCollect E map s2 cx cy).cy = s2.cy ∧
    (TraceHexCollect E map s2 cx cy).old_cx = s2.old_cx ∧
    (TraceHexCollect E map s2 cx cy).old_cy = s2.old_cy ∧
    (TraceHexCollect E map s2 cx cy).trace.Critters = s2.trace.Critters.map (fun l => l ++
      if E.IsHexCritter map cx cy then E.GetCrittersHex map cx cy 0 s2.trace.FindType else []) ∧
    (TraceHexCollect E map s2 cx cy).trace.IsCritterFounded = s2.trace.IsCritterFounded ∧
    (TraceHexCollect E map s2 cx cy).trace.IsTeammateFounded = s2.trace.IsTeammateFounded := by
  unfold TraceHexCollect
  split
  · rename_i crs hcrs
    split_ifs with hc
    · exact ⟨⟨rfl, rfl, rfl, rfl, rfl, rfl, rfl, rfl, rfl⟩, rfl, rfl, rfl, rfl,
        by simp [hcrs, hc], rfl, rfl⟩
    · exact ⟨⟨rfl, rfl, rfl, rfl, rfl, rfl, rfl, rfl, rfl⟩, rfl, rfl, rfl, rfl,
        by simp [hcrs, hc], rfl, rfl⟩
  · rename_i hcrs
    exact ⟨⟨rfl, rfl, rfl, rfl, rfl, rfl, rfl, rfl, rfl⟩, rfl, rfl, rfl, rfl,
      by simp [hcrs], rfl, rfl⟩

theorem TraceHexFind_spec (E : Engine) (s3 : TraceLoop) (cx cy : Nat)
    (hr : E.IsHexRaked s3.trace.TraceMap cx cy = true) :
    TraceSame s3.trace (TraceHexFind E s3.trace.TraceMap s3 cx cy).1.trace ∧
    (TraceHexFind E s3.trace.TraceMap s3 cx cy).1.cx = s3.cx ∧
    (TraceHexFind E s3.trace.TraceMap s3 cx cy).1.cy = s3.cy ∧
    (TraceHexFind E s3.trace.TraceMap s3 cx cy).2 = !TraceStop E s3.trace (cx, cy) ∧
    ((TraceHexFind E s3.trace.TraceMap s3 cx cy).2 = true →
      (TraceHexFind E s3.trace.TraceMap s3 cx cy).1.old_cx = cx ∧
      (TraceHexFind E s3.trace.TraceMap s3 cx cy).1.old_cy = cy ∧
      (TraceHexFind E s3.trace.TraceMap s3 cx cy).1.trace.IsCritterFounded =
        s3.trace.IsCritterFounded ∧
      (TraceHexFind E s3.trace.TraceMap s3 cx cy).1.trace.IsTeammateFounded =
        s3.trace.IsTeammateFounded) ∧
    ((TraceHexFind E s3.trace.TraceMap s3 cx cy).2 = false →
      (TraceHexFind E s3.trace.TraceMap s3 cx cy).1.old_cx = s3.old_cx ∧
      (TraceHexFind E s3.trace.TraceMap s3 cx cy).1.old_cy = s3.old_cy) ∧
    (TraceHexFind E s3.trace.TraceMap s3 cx cy).1.trace.Critters = s3.trace.Critters := by
  unfold TraceHexFind TraceStop
  simp only [hr, Bool.not_true, Bool.false_or]
  split_ifs with h1
  · rw [h1]
    simp only [Bool.true_and]
    split
    · rename_i cr hcr
      split_ifs with h2 h3
      · simp [h2]
        exact ⟨rfl, rfl, rfl, rfl, rfl, rfl, rfl, rfl, rfl⟩
      · simp [h2, h3]
        exact ⟨rfl, rfl, rfl, rfl, rfl, rfl, rfl, rfl, rfl⟩
      · simp [h2, h3]
        exact ⟨rfl, rfl, rfl, rfl, rfl, rfl, rfl, rfl, rfl⟩
    · simp
      exact ⟨rfl, rfl, rfl, rfl, rfl, rfl, rfl, rfl, rfl⟩
  · simp only [Bool.not_eq_true] at h1
    rw [h1]
    simp
    exact ⟨rfl, rfl, rfl, rfl, rfl, rfl, rfl, rfl, rfl⟩

/-- One hex of the scan: the loop goes on exactly when the hex does not end the scan; the
hex becomes the current hex, and the previous hex too when the loop goes on; the critters on
a raked hex are collected. -/
theorem TraceBulletHex_spec (E : Engine) (s : TraceLoop) (cx cy : Nat) :
    TraceSame s.trace (TraceBulletHex E s cx cy).1.trace ∧
    (TraceBulletHex E s cx cy).1.cx = cx ∧ (TraceBulletHex E s cx cy).1.cy = cy ∧
    (TraceBulletHex E s cx cy).2 = !TraceStop E s.trace (cx, cy) ∧
    ((TraceBulletHex E s cx cy).2 = true →
      (TraceBulletHex E s cx cy).1.old_cx = cx ∧ (TraceBulletHex E s cx cy).1.old_cy = cy) ∧
    ((TraceBulletHex E s cx cy).2 = false →
      (TraceBulletHex E s cx cy).1.old_cx = s.old_cx ∧
      (TraceBulletHex E s cx cy).1.old_cy = s.old_cy) ∧
    (TraceBulletHex E s cx cy).1.trace.Critters = s.trace.Critters.map (fun l =>
      l ++ if E.IsHexRaked s.trace.TraceMap cx cy then TraceCollect E s.trace (cx, cy) else []) ∧
    ((TraceBulletHex E s cx cy).2 = true ∨ E.IsHexRaked s.trace.TraceMap cx cy = false →
      (TraceBulletHex E s cx cy).1.trace.IsCritterFounded = s.trace.IsCritterFounded ∧
      (TraceBulletHex E s cx cy).1.trace.IsTeammateFounded = s.trace.IsTeammateFounded) := by
  obtain ⟨k1, k2, k3, k4, k5, k6⟩ := TraceHexPassed_spec E s cx cy
  rw [TraceBulletHex_eq]
  by_cases hr : E.IsHexRaked s.trace.TraceMap cx cy = true
  · simp only [hr, Bool.not_true, Bool.false_eq_true, if_false, if_true]
    obtain ⟨q1, q2, q3, q4, q5, q6, q7, q8⟩ := TraceHexCollect_spec E s.trace.TraceMap
      { TraceHexPassed E s cx cy with cx := cx, cy := cy } cx cy
    generalize TraceHexCollect E s.trace.TraceMap
      { TraceHexPassed E s cx cy with cx := cx, cy := cy } cx cy = s3 at q1 q2 q3 q4 q5 q6 q7 q8 ⊢
    have hsame : TraceSame s.trace s3.trace := k1.trans q1
    have hmap : s.trace.TraceMap = s3.trace.TraceMap := hsame.map.symm
    have hr3 : E.IsHexRaked s3.trace.TraceMap cx cy = true := by rw [← hmap]; exact hr
    rw [hmap]
    obtain ⟨f1, f2, f3, f4, f5, f6, f7⟩ := TraceHexFind_spec E s3 cx cy hr3
    refine ⟨hsame.trans f1, by rw [f2, q2], by rw [f3, q3], by rw [f4, TraceStop_same E hsame],
      fun hb => ⟨(f5 hb).1, (f5 hb).2.1⟩, fun hb => ?_, ?_, ?_⟩
    · obtain ⟨g1, g2⟩ := f6 hb
      exact ⟨by rw [g1, q4]; exact k2, by rw [g2, q5]; exact k3⟩
    · rw [f7, q6]
      show Option.map _ (TraceHexPassed E s cx cy).trace.Critters = _
      rw [k4]
      unfold TraceCollect
      show Option.map (fun l => l ++ if E.IsHexCritter s.trace.TraceMap cx cy = true then
        E.GetCrittersHex s.trace.TraceMap cx cy 0 (TraceHexPassed E s cx cy).trace.FindType
        else []) s.trace.Critters =
        Option.map (fun l => l ++ if E.IsHexCritter s.trace.TraceMap cx cy = true then
        E.GetCrittersHex s.trace.TraceMap cx cy 0 s.trace.FindType else []) s.trace.Critters
      rw [k1.type]
    · intro hb
      rcases hb with hb | hb
      · obtain ⟨_, _, g3, g4⟩ := f5 hb
        exact ⟨by rw [g3, q7]; exact k5, by rw [g4, q8]; exact k6⟩
      · exact Bool.noConfusion hb
  · simp only [hr, Bool.not_false, if_true, Bool.not_true, Bool.false_eq_true, false_imp_iff,
      true_and, if_false, List.append_nil, or_true, true_imp_iff, and_true]
    simp only [Bool.not_eq_true] at hr
    refine ⟨k1, ?_, ⟨k2, k3⟩, by rw [k4]; simp, k5, k6⟩
    unfold TraceStop
    simp [hr]

theorem TraceLine_succ (E : Engine) (lt : LineTracer) (n i : Nat) (c : UShortPair) :
    TraceLine E lt (n + 1) i c =
      TraceNext E lt i c :: TraceLine E lt n (i + 1) (TraceNext E lt i c) := rfl

theorem TraceBulletLoop_succ (E : Engine) (lt : LineTracer) (n i : Nat) (s : TraceLoop) :
    TraceBulletLoop E lt (n + 1) i s =
      if s.trace.HexCallback then
        TraceBulletLoop E lt n (i + 1) { s with
          cx := (TraceNext E lt i (s.cx, s.cy)).1, cy := (TraceNext E lt i (s.cx, s.cy)).2,
          old_cx := (TraceNext E lt i (s.cx, s.cy)).1, old_cy := (TraceNext E lt i (s.cx, s.cy)).2 }
      else if (TraceBulletHex E s (TraceNext E lt i (s.cx, s.cy)).1
          (TraceNext E lt i (s.cx, s.cy)).2).2 then
        TraceBulletLoop E lt n (i + 1) (TraceBulletHex E s (TraceNext E lt i (s.cx, s.cy)).1
          (TraceNext E lt i (s.cx, s.cy)).2).1
      else (TraceBulletHex E s (TraceNext E lt i (s.cx, s.cy)).1
          (TraceNext E lt i (s.cx, s.cy)).2).1 := by
  unfold TraceNext
  cases hh : E.MapHexagonal <;> simp only [TraceBulletLoop, hh, Bool.false_eq_true, if_false, if_true]

theorem getLast?_getD_cons (a : UShortPair) (l : List UShortPair) (x y : UShortPair) :
    ((a :: l).getLast?).getD x = ((a :: l).getLast?).getD y := by
  rw [List.getLast?_eq_getLast _ (List.cons_ne_nil a l)]
  rfl

theorem Option.map_append_append (c : Option (List Nat)) (a b : List Nat) :
    (c.map (fun l => l ++ a)).map (fun l => l ++ b) = c.map (fun l => l ++ (a ++ b)) := by
  cases c <;> simp

/-- The scan without a callback on a line on which no hex ends it: it runs the full
distance, the current and the previous hex are the last hex of the line, and the critters
of every hex of the line are collected. -/
theorem TraceBulletLoop_full (E : Engine) (lt : LineTracer) (n : Nat) :
    ∀ (i : Nat) (s : TraceLoop), s.trace.HexCallback = false →
      (∀ h ∈ TraceLine E lt n i (s.cx, s.cy), TraceStop E s.trace h = false) →
      (TraceBulletLoop E lt n i s).trace.IsFullTrace = true ∧
      ((TraceBulletLoop E lt n i s).cx, (TraceBulletLoop E lt n i s).cy) =
        ((TraceLine E lt n i (s.cx, s.cy)).getLast?).getD (s.cx, s.cy) ∧
      ((TraceBulletLoop E lt n i s).old_cx, (TraceBulletLoop E lt n i s).old_cy) =
        ((TraceLine E lt n i (s.cx, s.cy)).getLast?).getD (s.old_cx, s.old_cy) ∧
      (TraceBulletLoop E lt n i s).trace.Critters = s.trace.Critters.map (fun l =>
        l ++ (TraceLine E lt n i (s.cx, s.cy)).flatMap (TraceCollect E s.trace)) ∧
      (TraceBulletLoop E lt n i s).trace.IsCritterFounded = s.trace.IsCritterFounded ∧
      (TraceBulletLoop E lt n i s).trace.IsTeammateFounded = s.trace.IsTeammateFounded ∧
      (TraceBulletLoop E lt n i s).trace.PreBlock = s.trace.PreBlock ∧
      (TraceBulletLoop E lt n i s).trace.Block = s.trace.Block := by
  induction n with
  | zero =>
    intro i s _ _
    simp [TraceBulletLoop, TraceLine]
  | succ n ih =>
    intro i s hcb hno
    rw [TraceLine_succ] at hno ⊢
    rw [TraceBulletLoop_succ, hcb]
    simp only [Bool.false_eq_true, if_false]
    obtain ⟨k1, k2, k3, k4, k5, k6, k7, k8⟩ := TraceBulletHex_spec E s
      (TraceNext E lt i (s.cx, s.cy)).1 (TraceNext E lt i (s.cx, s.cy)).2
    have hns : TraceStop E s.trace (TraceNext E lt i (s.cx, s.cy)) = false :=
      hno _ (List.mem_cons_self _ _)
    have hgo : (TraceBulletHex E s (TraceNext E lt i (s.cx, s.cy)).1
        (TraceNext E lt i (s.cx, s.cy)).2).2 = true := by rw [k4, hns]; rfl
    have hraked : E.IsHexRaked s.trace.TraceMap (TraceNext E lt i (s.cx, s.cy)).1
        (TraceNext E lt i (s.cx, s.cy)).2 = true := by
      unfold TraceStop at hns
      simp only [Bool.or_eq_false_iff, Bool.not_eq_false'] at hns
      exact hns.1
    rw [hgo]
    simp only [if_true]
    generalize (TraceBulletHex E s (TraceNext E lt i (s.cx, s.cy)).1
      (TraceNext E lt i (s.cx, s.cy)).2).1 = s1 at k1 k2 k3 k5 k6 k7 k8 ⊢
    have hc1 : (s1.cx, s1.cy) = TraceNext E lt i (s.cx, s.cy) := by rw [k2, k3]
    have hold1 : (s1.old_cx, s1.old_cy) = TraceNext E lt i (s.cx, s.cy) := by
      rw [(k5 hgo).1, (k5 hgo).2]
    obtain ⟨r1, r2, r3, r4, r5, r6, r7, r8⟩ := ih (i + 1) s1 (k1.callback.trans hcb) (by
      intro h hh
      rw [hc1] at hh
      rw [TraceStop_same E k1]
      exact hno h (List.mem_cons_of_mem _ hh))
    rw [hc1] at r2 r3 r4
    refine ⟨r1, ?_, ?_, ?_, by rw [r5, (k8 (Or.inl hgo)).1], by rw [r6, (k8 (Or.inl hgo)).2],
      by rw [r7, k1.pre], by rw [r8, k1.block]⟩
    · rw [r2]
      cases hL : TraceLine E lt n (i + 1) (TraceNext E lt i (s.cx, s.cy)) with
      | nil => simp [hc1]
      | cons a l => rw [List.getLast?_cons_cons]; exact getLast?_getD_cons a l _ _
    · rw [r3]
      cases hL : TraceLine E lt n (i + 1) (TraceNext E lt i (s.cx, s.cy)) with
      | nil => simp [hold1]
      | cons a l => rw [List.getLast?_cons_cons]; exact getLast?_getD_cons a l _ _
    · rw [r4, k7, hraked]
      simp only [if_true, Option.map_append_append, List.flatMap_cons]
      congr 1
      funext l
      congr 2
      apply List.flatMap_congr
      intro x _
      exact TraceCollect_same E k1 x

/-- The scan without a callback on a line whose first hex that ends the scan is `h`, after
the hexes `pre`: the scan stops on `h`, the previous hex is the last hex of `pre`, and the
critters of the hexes of `pre`, and of `h` if it is raked, are collected. -/
theorem TraceBulletLoop_stop (E : Engine) (lt : LineTracer) (n : Nat) :
    ∀ (i : Nat) (s : TraceLoop) (pre : List UShortPair) (h : UShortPair)
      (post : List UShortPair), s.trace.HexCallback = false →
      TraceLine E lt n i (s.cx, s.cy) = pre ++ h :: post →
      (∀ x ∈ pre, TraceStop E s.trace x = false) → TraceStop E s.trace h = true →
      (TraceBulletLoop E lt n i s).trace.IsFullTrace = s.trace.IsFullTrace ∧
      ((TraceBulletLoop E lt n i s).cx, (TraceBulletLoop E lt n i s).cy) = h ∧
      ((TraceBulletLoop E lt n i s).old_cx, (TraceBulletLoop E lt n i s).old_cy) =
        (pre.getLast?).getD (s.old_cx, s.old_cy) ∧
      (TraceBulletLoop E lt n i s).trace.Critters = s.trace.Critters.map (fun l =>
        l ++ (pre.flatMap (TraceCollect E s.trace) ++
          if E.IsHexRaked s.trace.TraceMap h.1 h.2 then TraceCollect E s.trace h else [])) ∧
      (E.IsHexRaked s.trace.TraceMap h.1 h.2 = false →
        (TraceBulletLoop E lt n i s).trace.IsCritterFounded = s.trace.IsCritterFounded ∧
        (TraceBulletLoop E lt n i s).trace.IsTeammateFounded = s.trace.IsTeammateFounded) ∧
      (TraceBulletLoop E lt n i s).trace.PreBlock = s.trace.PreBlock ∧
      (TraceBulletLoop E lt n i s).trace.Block = s.trace.Block := by
  induction n with
  | zero =>
    intro i s pre h post _ hL
    simp [TraceLine] at hL
  | succ n ih =>
    intro i s pre h post hcb hL hno hstop
    rw [TraceLine_succ] at hL
    rw [TraceBulletLoop_succ, hcb]
    simp only [Bool.false_eq_true, if_false]
    obtain ⟨k1, k2, k3, k4, k5, k6, k7, k8⟩ := TraceBulletHex_spec E s
      (TraceNext E lt i (s.cx, s.cy)).1 (TraceNext E lt i (s.cx, s.cy)).2
    cases pre with
    | nil =>
      simp only [List.nil_append, List.cons.injEq] at hL
      obtain ⟨hh, _⟩ := hL
      have hgo : (TraceBulletHex E s (TraceNext E lt i (s.cx, s.cy)).1
          (TraceNext E lt i (s.cx, s.cy)).2).2 = false := by
        rw [k4]
        show (!TraceStop E s.trace (TraceNext E lt i (s.cx, s.cy))) = false
        rw [hh, hstop]; rfl
      rw [hgo]
      simp only [Bool.false_eq_true, if_false]
      refine ⟨k1.full, by rw [k2, k3]; exact hh, by rw [(k6 hgo).1, (k6 hgo).2]; rfl, ?_,
        fun hr => k8 (Or.inr (by rw [hh]; exact hr)), k1.pre, k1.block⟩
      rw [k7, hh]
      simp
    | cons p pre1 =>
      simp only [List.cons_append, List.cons.injEq] at hL
      obtain ⟨hp, hL1⟩ := hL
      have hns : TraceStop E s.trace (TraceNext E lt i (s.cx, s.cy)) = false := by
        rw [hp]; exact hno p (List.mem_cons_self _ _)
      have hgo : (TraceBulletHex E s (TraceNext E lt i (s.cx, s.cy)).1
          (TraceNext E lt i (s.cx, s.cy)).2).2 = true := by rw [k4, hns]; rfl
      have hraked : E.IsHexRaked s.trace.TraceMap (TraceNext E lt i (s.cx, s.cy)).1
          (TraceNext E lt i (s.cx, s.cy)).2 = true := by
        unfold TraceStop at hns
        simp only [Bool.or_eq_false_iff, Bool.not_eq_false'] at hns
        exact hns.1
      rw [hgo]
      simp only [if_true]
      generalize (TraceBulletHex E s (TraceNext E lt i (s.cx, s.cy)).1
        (TraceNext E lt i (s.cx, s.cy)).2).1 = s1 at k1 k2 k3 k5 k6 k7 k8 ⊢
      have hc1 : (s1.cx, s1.cy) = TraceNext E lt i (s.cx, s.cy) := by rw [k2, k3]
      have hold1 : (s1.old_cx, s1.old_cy) = p := by
        rw [(k5 hgo).1, (k5 hgo).2]; exact hp
      obtain ⟨r1, r2, r3, r4, r5, r6, r7⟩ := ih (i + 1) s1 pre1 h post (k1.callback.trans hcb)
        (by rw [hc1]; exact hL1)
        (by
          intro x hx
          rw [TraceStop_same E k1]
          exact hno x (List.mem_cons_of_mem _ hx))
        (by rw [TraceStop_same E k1]; exact hstop)
      refine ⟨r1.trans k1.full, r2, ?_, ?_, fun hr => ?_, by rw [r6, k1.pre],
        by rw [r7, k1.block]⟩
      · rw [r3]
        cases pre1 with
        | nil => simp [hold1]
        | cons a l => rw [List.getLast?_cons_cons]; exact getLast?_getD_cons a l _ _
      · rw [r4, k7, hraked, k1.map]
        simp only [if_true, Option.map_append_append, List.flatMap_cons, hp, TraceCollect_same E k1,
          List.append_assoc]
        congr 1
        funext l
        congr 3
        apply List.flatMap_congr
        intro x _
        exact TraceCollect_same E k1 x
      · obtain ⟨g1, g2⟩ := r5 (by rw [k1.map]; exact hr)
        exact ⟨by rw [g1, (k8 (Or.inl hgo)).1], by rw [g2, (k8 (Or.inl hgo)).2]⟩

/-- The scan with a callback: it runs the full distance, and the current and the previous
hex are the last hex of the line. -/
theorem TraceBulletLoop_callback (E : Engine) (lt : LineTracer) (n : Nat) :
    ∀ (i : Nat) (s : TraceLoop), s.trace.HexCallback = true →
      (s.old_cx, s.old_cy) = (s.cx, s.cy) →
      (TraceBulletLoop E lt n i s).trace.IsFullTrace = true ∧
      ((TraceBulletLoop E lt n i s).cx, (TraceBulletLoop E lt n i s).cy) =
        ((TraceLine E lt n i (s.cx, s.cy)).getLast?).getD (s.cx, s.cy) ∧
      ((TraceBulletLoop E lt n i s).old_cx, (TraceBulletLoop E lt n i s).old_cy) =
        ((TraceLine E lt n i (s.cx, s.cy)).getLast?).getD (s.cx, s.cy) ∧
      (TraceBulletLoop E lt n i s).trace.PreBlock = s.trace.PreBlock ∧
      (TraceBulletLoop E lt n i s).trace.Block = s.trace.Block := by
  induction n with
  | zero =>
    intro i s _ hold
    simp [TraceBulletLoop, TraceLine, hold]
  | succ n ih =>
    intro i s hcb _
    rw [TraceLine_succ, TraceBulletLoop_succ, hcb]
    simp only [if_true]
    obtain ⟨r1, r2, r3, r4, r5⟩ := ih (i + 1) { s with
      cx := (TraceNext E lt i (s.cx, s.cy)).1, cy := (TraceNext E lt i (s.cx, s.cy)).2,
      old_cx := (TraceNext E lt i (s.cx, s.cy)).1, old_cy := (TraceNext E lt i (s.cx, s.cy)).2 }
      hcb rfl
    refine ⟨r1, ?_, ?_, r4, r5⟩
    · rw [r2]
      cases hL : TraceLine E lt n (i + 1) (TraceNext E lt i (s.cx, s.cy)) with
      | nil => simp
      | cons a l => rw [List.getLast?_cons_cons]; exact getLast?_getD_cons a l _ _
    · rw [r3]
      cases hL : TraceLine E lt n (i + 1) (TraceNext E lt i (s.cx, s.cy)) with
      | nil => simp
      | cons a l => rw [List.getLast?_cons_cons]; exact getLast?_getD_cons a l _ _

theorem TraceLine_length (E : Engine) (lt : LineTracer) (n : Nat) :
    ∀ (i : Nat) (c : UShortPair), (TraceLine E lt n i c).length = n := by
  induction n with
  | zero => intro i c; rfl
  | succ n ih => intro i c; rw [TraceLine_succ, List.length_cons, ih]

theorem first_stop (p : UShortPair → Bool) (l : List UShortPair) (h : ∃ x ∈ l, p x = true) :
    ∃ pre x post, l = pre ++ x :: post ∧ (∀ y ∈ pre, p y = false) ∧ p x = true := by
  induction l with
  | nil => obtain ⟨x, hx, _⟩ := h; cases hx
  | cons a l ih =>
    by_cases ha : p a = true
    · exact ⟨[], a, l, rfl, fun y hy => absurd hy (List.not_mem_nil y), ha⟩
    · obtain ⟨x, hx, hpx⟩ := h
      have hxl : x ∈ l := by
        rcases List.mem_cons.mp hx with e | e
        · rw [e] at hpx; exact absurd hpx ha
        · exact e
      obtain ⟨pre, y, post, e1, e2, e3⟩ := ih ⟨x, hxl, hpx⟩
      refine ⟨a :: pre, y, post, by rw [e1]; rfl, ?_, e3⟩
      intro z hz
      rcases List.mem_cons.mp hz with e | e
      · rw [e]; simpa using ha
      · exact e2 z e

/-- What `TraceBullet` writes after its loop. -/
theorem TraceBullet_out (E : Engine) (t : TraceData) :
    (TraceBullet E t).IsFullTrace = (TraceBulletEnd E t).trace.IsFullTrace ∧
    (TraceBullet E t).IsCritterFounded = (TraceBulletEnd E t).trace.IsCritterFounded ∧
    (TraceBullet E t).IsTeammateFounded = (TraceBulletEnd E t).trace.IsTeammateFounded ∧
    (TraceBullet E t).Critters = (TraceBulletEnd E t).trace.Critters ∧
    (TraceBullet E t).PreBlock = (TraceBulletEnd E t).trace.PreBlock.map
      (fun _ => ((TraceBulletEnd E t).old_cx, (TraceBulletEnd E t).old_cy)) ∧
    (TraceBullet E t).Block = (TraceBulletEnd E t).trace.Block.map
      (fun _ => ((TraceBulletEnd E t).cx, (TraceBulletEnd E t).cy)) := by
  have h : TraceBullet E t =
      (if (if (TraceBulletEnd E t).trace.PreBlock.isSome then
            { (TraceBulletEnd E t).trace with
              PreBlock := some ((TraceBulletEnd E t).old_cx, (TraceBulletEnd E t).old_cy) }
          else (TraceBulletEnd E t).trace).Block.isSome then
        { (if (TraceBulletEnd E t).trace.PreBlock.isSome then
            { (TraceBulletEnd E t).trace with
              PreBlock := some ((TraceBulletEnd E t).old_cx, (TraceBulletEnd E t).old_cy) }
          else (TraceBulletEnd E t).trace) with
          Block := some ((TraceBulletEnd E t).cx, (TraceBulletEnd E t).cy) }
      else (if (TraceBulletEnd E t).trace.PreBlock.isSome then
            { (TraceBulletEnd E t).trace with
              PreBlock := some ((TraceBulletEnd E t).old_cx, (TraceBulletEnd E t).old_cy) }
          else (TraceBulletEnd E t).trace)) := rfl
  rw [h]
  generalize TraceBulletEnd E t = s
  cases hp : s.trace.PreBlock <;> cases hb : s.trace.Block <;> simp [hp, hb]

/-- C19. For a request without a callback, the line tracer produces `dist` hexes, where
`dist` is `Dist` or the distance from the begin hex to the end hex when `Dist` is 0;
`IsFullTrace` is set exactly when none of them ends the scan, that is, none is not raked or
holds the searched critter or a teammate (for a request that seeks no critter: none is not
raked); and when the first hex that ends the scan is not raked, `IsFullTrace` is not set,
`Block` is that hex, the critters collected are those of the hexes before it, and neither
the searched critter nor a teammate is found. -/
theorem TraceBullet_scan (E : Engine) (t : TraceData) (hcb : t.HexCallback = false) :
    (TraceHexes E t).length = TraceDist E t ∧
    ((TraceBullet E t).IsFullTrace = true ↔ ∀ h ∈ TraceHexes E t, TraceStop E t h = false) ∧
    (t.FindCr = none → t.IsCheckTeam = false →
      ∀ h, TraceStop E t h = !E.IsHexRaked t.TraceMap h.1 h.2) ∧
    ∀ pre h post, TraceHexes E t = pre ++ h :: post →
      (∀ x ∈ pre, TraceStop E t x = false) → E.IsHexRaked t.TraceMap h.1 h.2 = false →
      (TraceBullet E t).IsFullTrace = false ∧
      (TraceBullet E t).Block = t.Block.map (fun _ => h) ∧
      (TraceBullet E t).Critters = t.Critters.map
        (fun l => l ++ pre.flatMap (TraceCollect E t)) ∧
      (TraceBullet E t).IsCritterFounded = false ∧
      (TraceBullet E t).IsTeammateFounded = false := by
  obtain ⟨o1, o2, o3, o4, _, o6⟩ := TraceBullet_out E t
  have hstop : ∀ pre h post, TraceHexes E t = pre ++ h :: post →
      (∀ x ∈ pre, TraceStop E t x = false) → TraceStop E t h = true → _ :=
    fun pre h post hL hno hs => TraceBulletLoop_stop E _ (TraceDist E t) 0
      { trace := { t with IsFullTrace := false, IsCritterFounded := false,
                          IsHaveLastPassed := false, IsTeammateFounded := false },
        cx := t.BeginHx, cy := t.BeginHy, old_cx := t.BeginHx, old_cy := t.BeginHy,
        last_passed_ok := false } pre h post hcb hL hno hs
  refine ⟨TraceLine_length E _ _ _ _, ⟨fun hfull => ?_, fun hno => ?_⟩, ?_, ?_⟩
  · by_contra hcon
    simp only [not_forall, Bool.not_eq_false] at hcon
    obtain ⟨x, hx, hpx⟩ := hcon
    obtain ⟨pre, y, post, e1, e2, e3⟩ := first_stop (TraceStop E t) _ ⟨x, hx, hpx⟩
    obtain ⟨r1, _⟩ := hstop pre y post e1 e2 e3
    rw [o1] at hfull
    have : (TraceBulletEnd E t).trace.IsFullTrace = false := r1
    rw [this] at hfull
    cases hfull
  · rw [o1]
    exact (TraceBulletLoop_full E _ (TraceDist E t) 0
      { trace := { t with IsFullTrace := false, IsCritterFounded := false,
                          IsHaveLastPassed := false, IsTeammateFounded := false },
        cx := t.BeginHx, cy := t.BeginHy, old_cx := t.BeginHx, old_cy := t.BeginHy,
        last_passed_ok := false } hcb hno).1
  · intro hf ht h
    unfold TraceStop
    simp [hf, ht]
  · intro pre h post hL hno hr
    have hs : TraceStop E t h = true := by
      unfold TraceStop
      simp [hr]
    obtain ⟨r1, r2, _, r4, r5, _, r7⟩ := hstop pre h post hL hno hs
    obtain ⟨r5a, r5b⟩ := r5 hr
    refine ⟨by rw [o1]; exact r1, ?_, ?_, by rw [o2]; exact r5a, by rw [o3]; exact r5b⟩
    · rw [o6]
      show Option.map _ (TraceBulletEnd E t).trace.Block = _
      have e1 : (TraceBulletEnd E t).trace.Block = t.Block := r7
      have e2 : ((TraceBulletEnd E t).cx, (TraceBulletEnd E t).cy) = h := r2
      rw [e1, e2]
    · rw [o4]
      have e1 : (TraceBulletEnd E t).trace.Critters = _ := r4
      rw [e1]
      simp only [hr, Bool.false_eq_true, if_false, List.append_nil]
      rfl

theorem TraceBullet_scan_witness :
    (TraceBullet (sampleEngine false false 400) sampleShot).IsFullTrace = false ∧
    (TraceBullet (sampleEngine false false 400) sampleShot).Block =
      sampleShot.Block.map (fun _ => (3, 0)) ∧
    (TraceBullet (sampleEngine false false 400) sampleShot).Critters = sampleShot.Critters.map
      (fun l => l ++ [(1, 0), (2, 0)].flatMap (TraceCollect (sampleEngine false false 400)
        sampleShot)) ∧
    (TraceBullet (sampleEngine false false 400) sampleShot).IsCritterFounded = false ∧
    (TraceBullet (sampleEngine false false 400) sampleShot).IsTeammateFounded = false :=
  (TraceBullet_scan (sampleEngine false false 400) sampleShot rfl).2.2.2 [(1, 0), (2, 0)] (3, 0)
    [(4, 0), (5, 0)] (by decide!) (by decide!) (by decide!)

/-- C20 fails as stated. On an open map the trace from `(0, 0)` to `(3, 0)` examines the
hexes `(1, 0)`, `(2, 0)` and `(3, 0)` and runs the full distance; afterwards `Block` is the
hex `(3, 0)` and `PreBlock` is the hex `(3, 0)` too, not the hex `(2, 0)` examined before
it. -/
theorem TraceBullet_full_pre_block :
    TraceHexes (sampleEngine false false 400) sampleOpenShot = [(1, 0), (2, 0), (3, 0)] ∧
    (TraceBullet (sampleEngine false false 400) sampleOpenShot).IsFullTrace = true ∧
    (TraceBullet (sampleEngine false false 400) sampleOpenShot).Block = some (3, 0) ∧
    (TraceBullet (sampleEngine false false 400) sampleOpenShot).PreBlock = some (3, 0) := by
  decide!

/-- C20 (amended). When the scan of a request without a callback ends on a hex, be it not
raked or the hex of the searched critter or of a teammate, `Block` is that hex and `PreBlock`
is the hex examined before it, the begin hex when it is the first hex examined. When the
trace runs the full distance, as it always does with a callback, `PreBlock` and `Block` are
both the last hex examined, the begin hex when no hex is examined. Each of the two is
written only if it is supplied. -/
theorem TraceBullet_pre_block (E : Engine) (t : TraceData) :
    (t.HexCallback = false → ∀ pre h post, TraceHexes E t = pre ++ h :: post →
      (∀ x ∈ pre, TraceStop E t x = false) → TraceStop E t h = true →
      (TraceBullet E t).PreBlock =
        t.PreBlock.map (fun _ => (pre.getLast?).getD (t.BeginHx, t.BeginHy)) ∧
      (TraceBullet E t).Block = t.Block.map (fun _ => h)) ∧
    (t.HexCallback = true ∨ (∀ h ∈ TraceHexes E t, TraceStop E t h = false) →
      (TraceBullet E t).IsFullTrace = true ∧
      (TraceBullet E t).PreBlock =
        t.PreBlock.map (fun _ => ((TraceHexes E t).getLast?).getD (t.BeginHx, t.BeginHy)) ∧
      (TraceBullet E t).Block =
        t.Block.map (fun _ => ((TraceHexes E t).getLast?).getD (t.BeginHx, t.BeginHy))) := by
  obtain ⟨o1, _, _, _, o5, o6⟩ := TraceBullet_out E t
  refine ⟨fun hcb pre h post hL hno hs => ?_, fun hfull => ?_⟩
  · obtain ⟨_, r2, r3, _, _, r6, r7⟩ := TraceBulletLoop_stop E _ (TraceDist E t) 0
      { trace := { t with IsFullTrace := false, IsCritterFounded := false,
                          IsHaveLastPassed := false, IsTeammateFounded := false },
        cx := t.BeginHx, cy := t.BeginHy, old_cx := t.BeginHx, old_cy := t.BeginHy,
        last_passed_ok := false } pre h post hcb hL hno hs
    have e1 : (TraceBulletEnd E t).trace.Block = t.Block := r7
    have e2 : ((TraceBulletEnd E t).cx, (TraceBulletEnd E t).cy) = h := r2
    have e3 : (TraceBulletEnd E t).trace.PreBlock = t.PreBlock := r6
    have e4 : ((TraceBulletEnd E t).old_cx, (TraceBulletEnd E t).old_cy) =
        (pre.getLast?).getD (t.BeginHx, t.BeginHy) := r3
    rw [o5, o6, e1, e2, e3, e4]
    exact ⟨rfl, rfl⟩
  · have key : (TraceBulletEnd E t).trace.IsFullTrace = true ∧
        ((TraceBulletEnd E t).cx, (TraceBulletEnd E t).cy) =
          ((TraceHexes E t).getLast?).getD (t.BeginHx, t.BeginHy) ∧
        ((TraceBulletEnd E t).old_cx, (TraceBulletEnd E t).old_cy) =
          ((TraceHexes E t).getLast?).getD (t.BeginHx, t.BeginHy) ∧
        (TraceBulletEnd E t).trace.PreBlock = t.PreBlock ∧
        (TraceBulletEnd E t).trace.Block = t.Block := by
      by_cases hcb : t.HexCallback = true
      · exact TraceBulletLoop_callback E _ (TraceDist E t) 0
          { trace := { t with IsFullTrace := false, IsCritterFounded := false,
                              IsHaveLastPassed := false, IsTeammateFounded := false },
            cx := t.BeginHx, cy := t.BeginHy, old_cx := t.BeginHx, old_cy := t.BeginHy,
            last_passed_ok := false } hcb rfl
      · simp only [Bool.not_eq_true] at hcb
        have hno : ∀ h ∈ TraceHexes E t, TraceStop E t h = false := by
          rcases hfull with h1 | h1
          · rw [hcb] at h1; cases h1
          · exact h1
        obtain ⟨r1, r2, r3, _, _, _, r7, r8⟩ := TraceBulletLoop_full E _ (TraceDist E t) 0
          { trace := { t with IsFullTrace := false, IsCritterFounded := false,
                              IsHaveLastPassed := false, IsTeammateFounded := false },
            cx := t.BeginHx, cy := t.BeginHy, old_cx := t.BeginHx, old_cy := t.BeginHy,
            last_passed_ok := false } hcb hno
        exact ⟨r1, r2, r3, r7, r8⟩
    obtain ⟨k1, k2, k3, k4, k5⟩ := key
    rw [o1, o5, o6, k1, k2, k3, k4, k5]
    exact ⟨rfl, rfl, rfl⟩

theorem TraceBullet_pre_block_witness :
    (TraceBullet (sampleEngine false false 400) sampleShot).PreBlock =
      sampleShot.PreBlock.map (fun _ => ([(1, 0), (2, 0)].getLast?).getD
        (sampleShot.BeginHx, sampleShot.BeginHy)) ∧
    (TraceBullet (sampleEngine false false 400) sampleShot).Block =
      sampleShot.Block.map (fun _ => (3, 0)) :=
  (TraceBullet_pre_block (sampleEngine false false 400) sampleShot).1 rfl [(1, 0), (2, 0)] (3, 0)
    [(4, 0), (5, 0)] (by decide!) (by decide!) (by decide!)

/-! ## Transit of a critter that is already on the global map -/

/-- C30. A call of `Transit` with a null destination map for a critter on the global map
(map id 0) whose transfers are not locked and which, unless the call is forced, has no
active timeout and is neither dead nor knocked out, returns true and leaves the state as it
was, whatever the rule id: the critter, with its group list, group uid, rule id and world
position, is as before. -/
theorem Transit_global_stays (E : Engine) (mm : MapManager) (cr : Nat)
    (hx hy dir radius rule_id : Nat) (force : Bool) (c : Critter)
    (hc : mm.Critters cr = some c) (hmap : c.MapId = 0) (hlock : c.LockMapTransfers = 0)
    (hfree : force = true ∨ (E.IS_TIMEOUT c.TimeoutTransfer = false ∧
      E.IS_TIMEOUT c.TimeoutBattle = false ∧ c.IsDead = false ∧ c.IsKnockout = false)) :
    ∃ mm', Transit E mm cr none hx hy dir radius rule_id force = some (true, mm') ∧
      mm' = mm ∧ mm'.Critters cr = some c := by
  refine ⟨mm, ?_, rfl, hc⟩
  unfold Transit
  rw [hc]
  simp only [Option.none_bind, Option.map_none', Option.getD_none, hlock, hmap, ne_eq,
    not_true_eq_false, Bool.false_eq_true, if_false, if_true]
  rcases hfree with hf | ⟨h1, h2, h3, h4⟩
  · simp [hf]
  · simp [h1, h2, h3, h4]

theorem Transit_global_stays_witness :
    ∃ mm', Transit (sampleEngine false false 400) sampleGroupWorld 1 none 0 0 0 0 2 false =
        some (true, mm') ∧
      mm' = sampleGroupWorld ∧ mm'.Critters 1 = some (sampleTraveller (some [1, 2])) :=
  Transit_global_stays (sampleEngine false false 400) sampleGroupWorld 1 0 0 0 0 2 false
    (sampleTraveller (some [1, 2])) rfl rfl rfl (Or.inr ⟨rfl, rfl, rfl, rfl⟩)

/-! ## The backtrace never fails -/

/-- The ways through `FindPath` on a registered map: one of the five early returns, which
leave the state and the request as they are, or the flood, which the call enters only with
both hexes on the map and the start hex not within the cut of the target. -/
theorem FindPath_split (E : Engine) (mm : MapManager) (pfd : PathFindData) (map : Map)
    (hmap : GetMap mm pfd.MapId = some map) :
    (FindPath E mm pfd = some (FPATH_TRACE_TARG_NULL_PTR, mm, pfd)) ∨
    (FindPath E mm pfd = some (FPATH_INVALID_HEXES, mm, pfd)) ∨
    (CheckDist E pfd.FromX pfd.FromY pfd.ToX pfd.ToY pfd.Cut = true ∧
      FindPath E mm pfd = some (FPATH_ALREADY_HERE, mm, pfd)) ∨
    (FindPath E mm pfd = some (FPATH_HEX_BUSY, mm, pfd)) ∨
    (FindPath E mm pfd = some (FPATH_HEX_BUSY_RING, mm, pfd)) ∨
    (CheckDist E pfd.FromX pfd.FromY pfd.ToX pfd.ToY pfd.Cut = false ∧
      pfd.FromX < map.Width ∧ pfd.FromY < map.Height ∧
      pfd.ToX < map.Width ∧ pfd.ToY < map.Height ∧
      ((FindPathFlood E map pfd (map.Width * map.Height + 1) (FindPathStart E pfd) 0 1 = none ∧
          FindPath E mm pfd = none) ∨
        (FindPathFlood E map pfd (map.Width * map.Height + 1) (FindPathStart E pfd) 0 1 =
            some FloodEnd.tooFar ∧ FindPath E mm pfd = some (FPATH_TOOFAR, mm, pfd)) ∨
        (FindPathFlood E map pfd (map.Width * map.Height + 1) (FindPathStart E pfd) 0 1 =
            some FloodEnd.deadlock ∧ FindPath E mm pfd = some (FPATH_DEADLOCK, mm, pfd)) ∨
        ∃ (f : Flood) (cx cy : Nat) (numindex : Int),
          FindPathFlood E map pfd (map.Width * map.Height + 1) (FindPathStart E pfd) 0 1 =
            some (FloodEnd.findOk f cx cy numindex) ∧
          FindPath E mm pfd = FindPathFinish E mm map pfd f.Grid cx cy numindex)) := by
  by_cases htr : pfd.Trace ≠ 0 ∧ pfd.TraceCr.isNone = true
  · left
    unfold FindPath
    rw [if_pos htr]
  right
  by_cases hin : pfd.FromX ≥ map.Width ∨ pfd.FromY ≥ map.Height ∨ pfd.ToX ≥ map.Width ∨
      pfd.ToY ≥ map.Height
  · left
    unfold FindPath
    rw [if_neg htr, hmap]
    simp only [if_pos hin]
  right
  by_cases hcd : CheckDist E pfd.FromX pfd.FromY pfd.ToX pfd.ToY pfd.Cut = true
  · left
    refine ⟨hcd, ?_⟩
    unfold FindPath
    rw [if_neg htr, hmap]
    simp only [if_neg hin, if_pos hcd]
  right
  by_cases hbusy : pfd.Cut = 0 ∧ FLAG (E.GetHexFlags map pfd.ToX pfd.ToY) E.FH_NOWAY = true
  · left
    unfold FindPath
    rw [if_neg htr, hmap]
    simp only [if_neg hin, if_neg hcd, if_pos hbusy]
  right
  by_cases hring : pfd.Cut ≤ 1 ∧ pfd.Multihex = 0 ∧
      FindPathRingBusy E map pfd.ToX pfd.ToY
        ((GetHexOffsets E (pfd.ToX % 2 != 0)).take (DIRS_COUNT E)) = true
  · left
    unfold FindPath
    rw [if_neg htr, hmap]
    simp only [if_neg hin, if_neg hcd, if_neg hbusy, if_pos hring]
  right
  refine ⟨by simpa using hcd, by omega, by omega, by omega, by omega, ?_⟩
  unfold FindPathStart
  cases hfl : FindPathFlood E map pfd (map.Width * map.Height + 1)
      { Grid := gridSet (fun _ => 0) (GRID E pfd.FromX pfd.FromY pfd.FromX pfd.FromY) 1,
        coords := [(pfd.FromX, pfd.FromY)], cr_coords := [], gag_coords := [] } 0 1 with
  | none =>
    left
    refine ⟨rfl, ?_⟩
    unfold FindPath
    rw [if_neg htr, hmap]
    simp only [if_neg hin, if_neg hcd, if_neg hbusy, if_neg hring, hfl]
  | some e =>
    cases e with
    | findOk f cx cy numindex =>
      right; right; right
      exact ⟨f, cx, cy, numindex, rfl,
        FindPath_of_flood E mm pfd map hmap htr hin hcd hbusy hring f cx cy numindex hfl⟩
    | tooFar =>
      right; left
      refine ⟨rfl, ?_⟩
      unfold FindPath
      rw [if_neg htr, hmap]
      simp only [if_neg hin, if_neg hcd, if_neg hbusy, if_neg hring, hfl]
    | deadlock =>
      right; right; left
      refine ⟨rfl, ?_⟩
      unfold FindPath
      rw [if_neg htr, hmap]
      simp only [if_neg hin, if_neg hcd, if_neg hbusy, if_neg hring, hfl]

/-- The flood that `FindPath` runs ends well: at `label_FindOk` the invariant holds. -/
theorem FindPathStart_good (E : Engine) (map : Map) (pfd : PathFindData)
    (ctx : FloodCtx E map pfd) (fuel : Nat) (e : FloodEnd)
    (h : FindPathFlood E map pfd fuel (FindPathStart E pfd) 0 1 = some e) :
    e.Good E map pfd :=
  FindPathFlood_inv E map pfd ctx fuel _ 0 1 (FloodInv_init E map pfd ctx) e h

/-- The part of `FindPath` after a backtrace that did not fail. -/
theorem FindPathFinish_of_backtrace (E : Engine) (mm : MapManager) (map : Map)
    (pfd : PathFindData) (grid : GridBuf) (cx cy : Nat) (numindex : Int) (b' : Backtrace)
    (hbt : FindPathTraceBack E mm pfd grid cx cy numindex = (b', true)) :
    FindPathFinish E mm map pfd grid cx cy numindex =
      match FindPathTrace E mm map pfd
        (if pfd.CheckCrit || pfd.CheckGagItems then FindPathCheckSoft E map pfd b'.path 0 b'.path
          else (b'.path, pfd)) with
      | none => none
      | some none =>
        some (FPATH_TRACE_FAIL,
          { mm with
            pathNumCur := nextPathNum E mm.pathNumCur, smooth_switcher := b'.smooth_switcher,
            pathesPool := setPool mm.pathesPool (nextPathNum E mm.pathNumCur)
              (if pfd.CheckCrit || pfd.CheckGagItems then
                FindPathCheckSoft E map pfd b'.path 0 b'.path else (b'.path, pfd)).1 },
          (if pfd.CheckCrit || pfd.CheckGagItems then
            FindPathCheckSoft E map pfd b'.path 0 b'.path else (b'.path, pfd)).2)
      | some (some r) =>
        some (FindPathResult E { mm with
          pathNumCur := nextPathNum E mm.pathNumCur, smooth_switcher := b'.smooth_switcher }
          pfd.IsRun r.1 r.2) := by
  unfold FindPathFinish
  rw [hbt]
  simp only [Bool.not_true, Bool.false_eq_true, if_false]

/-- The status of the end of `FindPath` is one of two. -/
theorem FindPathResult_code2 (E : Engine) (mm : MapManager) (is_run : Bool)
    (path : List PathStep) (pfd : PathFindData) :
    (FindPathResult E mm is_run path pfd).1 = FPATH_ALREADY_HERE ∨
    (FindPathResult E mm is_run path pfd).1 = FPATH_OK := by
  unfold FindPathResult
  simp only []
  split
  · exact Or.inl rfl
  · exact Or.inr rfl

/-- C24. On a map whose sides fit their type `ushort`, with a depth limit that is positive
and leaves the mark bits `0x4000` and `0x8000` free, `FindPath` never returns `FPATH_ERROR`:
the backtrace from the hex that the flood reached does not fail, and for every hex that the
flood put into `coords` with an index above 1, in either state of `smooth_switcher`,
`FindPathGrid` finds a neighbour whose cell holds the index less one and returns its
direction, not `-1`. -/
theorem FindPath_never_error (E : Engine) (mm mm' : MapManager) (pfd pfd' : PathFindData)
    (map : Map) (code : FPathCode) (hmap : GetMap mm pfd.MapId = some map)
    (hmax0 : 0 < E.FPATH_MAX_PATH) (hmax : E.FPATH_MAX_PATH < 16384)
    (hw : map.Width ≤ 65535) (hh : map.Height ≤ 65535)
    (h : FindPath E mm pfd = some (code, mm', pfd')) :
    code ≠ FPATH_ERROR ∧
    ∀ (f : Flood) (cx cy : Nat) (numindex : Int),
      pfd.FromX < map.Width → pfd.FromY < map.Height →
      FindPathFlood E map pfd (map.Width * map.Height + 1) (FindPathStart E pfd) 0 1 =
        some (FloodEnd.findOk f cx cy numindex) →
      (FindPathTraceBack E mm pfd f.Grid cx cy numindex).2 = true ∧
      ∀ c ∈ f.coords, ∀ sw : Bool, 1 < cellAt E pfd f.Grid c.1 c.2 →
        ∃ (dir : Int) (x y : Nat),
          FindPathGrid E f.Grid pfd.FromX pfd.FromY c.1 c.2 (cellAt E pfd f.Grid c.1 c.2 - 1) sw =
            (dir, x, y) ∧ 0 ≤ dir ∧
          cellAt E pfd f.Grid x y = cellAt E pfd f.Grid c.1 c.2 - 1 ∧ StepBack E (x, y) c := by
  have hback : ∀ (f : Flood) (cx cy : Nat) (numindex : Int),
      pfd.FromX < map.Width → pfd.FromY < map.Height →
      FindPathFlood E map pfd (map.Width * map.Height + 1) (FindPathStart E pfd) 0 1 =
        some (FloodEnd.findOk f cx cy numindex) →
      (FindPathTraceBack E mm pfd f.Grid cx cy numindex).2 = true ∧
      ∀ c ∈ f.coords, ∀ sw : Bool, 1 < cellAt E pfd f.Grid c.1 c.2 →
        ∃ (dir : Int) (x y : Nat),
          FindPathGrid E f.Grid pfd.FromX pfd.FromY c.1 c.2 (cellAt E pfd f.Grid c.1 c.2 - 1) sw =
            (dir, x, y) ∧ 0 ≤ dir ∧
          cellAt E pfd f.Grid x y = cellAt E pfd f.Grid c.1 c.2 - 1 ∧ StepBack E (x, y) c := by
    intro f cx cy numindex hfx hfy hfl
    have ctx : FloodCtx E map pfd := ⟨hmax0, hmax, hw, hh, hfx, hfy⟩
    have hgood := FindPathStart_good E map pfd ctx _ _ hfl
    obtain ⟨b', hb', _⟩ := FindPathTraceBack_spec E mm map pfd f cx cy numindex ctx hgood
    refine ⟨by rw [hb'], ?_⟩
    intro c hc sw hcell
    obtain ⟨hinv, _, _, _⟩ := hgood
    obtain ⟨c1, c2, c3, c4, c5⟩ := hinv.coords_ok c hc
    obtain ⟨n, hn⟩ : ∃ n : Nat, cellAt E pfd f.Grid c.1 c.2 = (n : Int) + 2 :=
      ⟨(cellAt E pfd f.Grid c.1 c.2 - 2).toNat, by omega⟩
    have hnear : Near pfd ((E.FPATH_MAX_PATH : Int) - 1) c.1 c.2 :=
      Near_mono pfd _ _ _ _ c5 (by omega)
    obtain ⟨_, dir, x, y, g1, g2, _, _, _, g6, g7⟩ :=
      FindPathGrid_spec E map pfd f ctx hinv c.1 c.2 n sw c1 c2 hnear hn (by omega)
    refine ⟨dir, x, y, ?_, g2, by rw [g6, hn]; omega, g7⟩
    rw [hn]
    exact g1
  refine ⟨?_, hback⟩
  rcases FindPath_split E mm pfd map hmap with
    e | e | ⟨_, e⟩ | e | e | ⟨_, hfx, hfy, _, _, hfl⟩
  · rw [e] at h; cases h; decide
  · rw [e] at h; cases h; decide
  · rw [e] at h; cases h; decide
  · rw [e] at h; cases h; decide
  · rw [e] at h; cases h; decide
  · rcases hfl with ⟨_, e⟩ | ⟨_, e⟩ | ⟨_, e⟩ | ⟨f, cx, cy, numindex, hf, e⟩
    · rw [e] at h; cases h
    · rw [e] at h; cases h; decide
    · rw [e] at h; cases h; decide
    · obtain ⟨hb, _⟩ := hback f cx cy numindex hfx hfy hf
      rw [e, FindPathFinish_of_backtrace E mm map pfd f.Grid cx cy numindex
        (FindPathTraceBack E mm pfd f.Grid cx cy numindex).1 (by rw [← hb])] at h
      split at h
      · cases h
      · cases h; decide
      · rename_i r _
        simp only [Option.some.injEq] at h
        have h1 := congrArg Prod.fst h
        simp only [] at h1
        rcases FindPathResult_code2 E { mm with
          pathNumCur := nextPathNum E mm.pathNumCur,
          smooth_switcher := (FindPathTraceBack E mm pfd f.Grid cx cy numindex).1.smooth_switcher }
          pfd.IsRun r.1 r.2 with e2 | e2
        · rw [e2] at h1; rw [← h1]; decide
        · rw [e2] at h1; rw [← h1]; decide

theorem FindPath_never_error_witness :
    ∃ mm' pfd',
      FindPath (sampleEngine false true 400)
        (sampleManager (sampleMap 10 10 [((2, 2), 1), ((3, 3), 1)] []))
        (sampleRequest 0 0 5 5 0) = some (FPATH_OK, mm', pfd') ∧
      FPATH_OK ≠ FPATH_ERROR ∧
      ∀ (f : Flood) (cx cy : Nat) (numindex : Int),
        (sampleRequest 0 0 5 5 0).FromX < (sampleMap 10 10 [((2, 2), 1), ((3, 3), 1)] []).Width →
        (sampleRequest 0 0 5 5 0).FromY < (sampleMap 10 10 [((2, 2), 1), ((3, 3), 1)] []).Height →
        FindPathFlood (sampleEngine false true 400)
          (sampleMap 10 10 [((2, 2), 1), ((3, 3), 1)] []) (sampleRequest 0 0 5 5 0)
          ((sampleMap 10 10 [((2, 2), 1), ((3, 3), 1)] []).Width *
            (sampleMap 10 10 [((2, 2), 1), ((3, 3), 1)] []).Height + 1)
          (FindPathStart (sampleEngine false true 400) (sampleRequest 0 0 5 5 0)) 0 1 =
          some (FloodEnd.findOk f cx cy numindex) →
        (FindPathTraceBack (sampleEngine false true 400)
          (sampleManager (sampleMap 10 10 [((2, 2), 1), ((3, 3), 1)] []))
          (sampleRequest 0 0 5 5 0) f.Grid cx cy numindex).2 = true ∧
        ∀ c ∈ f.coords, ∀ sw : Bool,
          1 < cellAt (sampleEngine false true 400) (sampleRequest 0 0 5 5 0) f.Grid c.1 c.2 →
          ∃ (dir : Int) (x y : Nat),
            FindPathGrid (sampleEngine false true 400) f.Grid (sampleRequest 0 0 5 5 0).FromX
              (sampleRequest 0 0 5 5 0).FromY c.1 c.2
              (cellAt (sampleEngine false true 400) (sampleRequest 0 0 5 5 0) f.Grid c.1 c.2 - 1)
              sw = (dir, x, y) ∧ 0 ≤ dir ∧
            cellAt (sampleEngine false true 400) (sampleRequest 0 0 5 5 0) f.Grid x y =
              cellAt (sampleEngine false true 400) (sampleRequest 0 0 5 5 0) f.Grid c.1 c.2 - 1 ∧
            StepBack (sampleEngine false true 400) (x, y) c := by
  have hd : (FindPath (sampleEngine false true 400)
      (sampleManager (sampleMap 10 10 [((2, 2), 1), ((3, 3), 1)] []))
      (sampleRequest 0 0 5 5 0)).map (fun r => r.1) = some FPATH_OK := by decide!
  cases hr : FindPath (sampleEngine false true 400)
      (sampleManager (sampleMap 10 10 [((2, 2), 1), ((3, 3), 1)] []))
      (sampleRequest 0 0 5 5 0) with
  | none => rw [hr] at hd; cases hd
  | some r =>
    obtain ⟨c, mm', pfd'⟩ := r
    rw [hr] at hd
    simp only [Option.map_some', Option.some.injEq] at hd
    subst hd
    exact ⟨mm', pfd', rfl, FindPath_never_error (sampleEngine false true 400)
      (sampleManager (sampleMap 10 10 [((2, 2), 1), ((3, 3), 1)] [])) mm'
      (sampleRequest 0 0 5 5 0) pfd'
      (sampleMap 10 10 [((2, 2), 1), ((3, 3), 1)] []) FPATH_OK rfl (by decide) (by decide)
      (by decide) (by decide) hr⟩

/-! ## The result of a successful search -/

/-- The slot handed out is always between 1 and the size of the pool less one. -/
theorem nextPathNum_range (E : Engine) (n : Nat) (hsize : 2 ≤ E.FPATH_DATA_SIZE) :
    1 ≤ nextPathNum E n ∧ nextPathNum E n ≤ E.FPATH_DATA_SIZE - 1 := by
  unfold nextPathNum
  split_ifs <;> omega

/-- The end of `FindPath` writes the counter of the manager into `PathNum` and leaves the
counter as it was. -/
theorem FindPathResult_num (E : Engine) (mm mm' : MapManager) (is_run : Bool)
    (path : List PathStep) (pfd pfd' : PathFindData)
    (h : FindPathResult E mm is_run path pfd = (FPATH_OK, mm', pfd')) :
    pfd'.PathNum = mm.pathNumCur ∧ mm'.pathNumCur = mm.pathNumCur := by
  unfold FindPathResult at h
  simp only [] at h
  split at h
  · cases h
  · simp only [Prod.mk.injEq, true_and] at h
    obtain ⟨h1, h2⟩ := h
    subst h1 h2
    exact ⟨rfl, rfl⟩

/-- A successful end of `FindPath` hands out the slot after the counter of the manager. -/
theorem FindPathFinish_num (E : Engine) (mm mm' : MapManager) (map : Map)
    (pfd pfd' : PathFindData) (grid : GridBuf) (cx cy : Nat) (numindex : Int)
    (h : FindPathFinish E mm map pfd grid cx cy numindex = some (FPATH_OK, mm', pfd')) :
    pfd'.PathNum = nextPathNum E mm.pathNumCur ∧ mm'.pathNumCur = nextPathNum E mm.pathNumCur ∧
    mm'.pathesPool pfd'.PathNum ≠ [] ∧
    (mm'.pathesPool pfd'.PathNum).getLast?.map (fun ps => (ps.HexX, ps.HexY)) =
      some (pfd'.NewToX, pfd'.NewToY) := by
  unfold FindPathFinish at h
  simp only [] at h
  split at h
  · cases h
  · split at h
    · cases h
    · cases h
    · rename_i r htr
      simp only [Option.some.injEq] at h
      obtain ⟨e1, e2⟩ := FindPathResult_ok E _ mm' pfd.IsRun r.1 r.2 pfd' h
      obtain ⟨e3, e4⟩ := FindPathResult_num E _ mm' pfd.IsRun r.1 r.2 pfd' h
      refine ⟨e3, e4, ?_, ?_⟩
      · rw [e1]
        intro hnil
        rw [hnil] at e2
        cases e2
      · rw [e1]
        exact e2

/-- C28. With a pool of at least two slots, a depth limit that is positive and leaves the
mark bits free and a map whose sides fit `ushort`: when `FindPath` returns `FPATH_OK`, the path
in the slot `PathNum` is not empty, `NewToX`/`NewToY` are the hex of its last step, `PathNum` is
the counter after `if( ++pathNumCur >= FPATH_DATA_SIZE ) pathNumCur = 1`, which lies in
`1 .. FPATH_DATA_SIZE - 1` and follows `FPATH_DATA_SIZE - 1` by 1, and when the path has all
the `numindex - 1` steps of the backtrace from the hex that the flood reached, its last hex
is within `Cut` of the target. -/
theorem FindPath_ok_result (E : Engine) (mm mm' : MapManager) (pfd pfd' : PathFindData)
    (map : Map) (hmap : GetMap mm pfd.MapId = some map)
    (hmax0 : 0 < E.FPATH_MAX_PATH) (hmax : E.FPATH_MAX_PATH < 16384)
    (hw : map.Width ≤ 65535) (hh : map.Height ≤ 65535) (hsize : 2 ≤ E.FPATH_DATA_SIZE)
    (h : FindPath E mm pfd = some (FPATH_OK, mm', pfd')) :
    mm'.pathesPool pfd'.PathNum ≠ [] ∧
    (mm'.pathesPool pfd'.PathNum).getLast?.map (fun ps => (ps.HexX, ps.HexY)) =
      some (pfd'.NewToX, pfd'.NewToY) ∧
    pfd'.PathNum = nextPathNum E mm.pathNumCur ∧ mm'.pathNumCur = pfd'.PathNum ∧
    1 ≤ pfd'.PathNum ∧ pfd'.PathNum ≤ E.FPATH_DATA_SIZE - 1 ∧
    nextPathNum E (E.FPATH_DATA_SIZE - 1) = 1 ∧
    ∃ (f : Flood) (cx cy : Nat) (numindex : Int),
      FindPathFlood E map pfd (map.Width * map.Height + 1) (FindPathStart E pfd) 0 1 =
        some (FloodEnd.findOk f cx cy numindex) ∧
      ((mm'.pathesPool pfd'.PathNum).length = (numindex - 1).toNat →
        (pfd'.NewToX, pfd'.NewToY) = (cx, cy) ∧
        CheckDist E pfd'.NewToX pfd'.NewToY pfd.ToX pfd.ToY pfd.Cut = true) := by
  obtain ⟨hfx, hfy, f, cx, cy, numindex, hfl, hfin⟩ :=
    FindPath_ok_cases E mm mm' pfd pfd' map hmap h
  have ctx : FloodCtx E map pfd := ⟨hmax0, hmax, hw, hh, hfx, hfy⟩
  obtain ⟨n1, n2, n3, n4⟩ := FindPathFinish_num E mm mm' map pfd pfd' f.Grid cx cy numindex hfin
  obtain ⟨r1, r2⟩ := nextPathNum_range E mm.pathNumCur hsize
  refine ⟨n3, n4, n1, by rw [n1, n2], by rw [n1]; exact r1, by rw [n1]; exact r2, ?_,
    f, cx, cy, numindex, hfl, ?_⟩
  · unfold nextPathNum
    rw [if_pos (by omega)]
  · intro hlen
    have hgood := FindPathStart_good E map pfd ctx _ _ hfl
    obtain ⟨b', hb', b1, b2, b3, b4, b5, _⟩ :=
      FindPathTraceBack_spec E mm map pfd f cx cy numindex ctx hgood
    obtain ⟨_, k, hk⟩ := FindPathFinish_ok E mm mm' map pfd pfd' f.Grid cx cy numindex hfin
    rw [hb'] at hk
    simp only [] at hk
    have hl : (pathHexes (mm'.pathesPool pfd'.PathNum)).length = (pathHexes b'.path).length := by
      unfold pathHexes
      rw [List.length_map, List.length_map, hlen, b1]
    have hk2 : pathHexes (mm'.pathesPool pfd'.PathNum) = pathHexes b'.path := by
      rw [hk] at hl ⊢
      rw [List.length_take] at hl
      exact List.take_of_length_le (by omega)
    have hlast : (pathHexes (mm'.pathesPool pfd'.PathNum)).getLast? =
        some (pfd'.NewToX, pfd'.NewToY) := by
      unfold pathHexes
      rw [List.getLast?_map]
      exact n4
    rw [hk2, b5] at hlast
    split_ifs at hlast with hz
    simp only [Option.some.injEq] at hlast
    refine ⟨hlast.symm, ?_⟩
    have e1 := congrArg Prod.fst hlast
    have e2 := congrArg Prod.snd hlast
    simp only [] at e1 e2
    rw [← e1, ← e2]
    exact hgood.2.2.2

theorem FindPath_ok_result_witness :
    ∃ mm' pfd',
      FindPath (sampleEngine true true 400)
        (sampleManager (sampleMap 10 10 [((2, 2), 1), ((3, 3), 1)] []))
        (sampleRequest 0 0 5 5 0) = some (FPATH_OK, mm', pfd') ∧
      mm'.pathesPool pfd'.PathNum ≠ [] ∧
      (mm'.pathesPool pfd'.PathNum).getLast?.map (fun ps => (ps.HexX, ps.HexY)) =
        some (pfd'.NewToX, pfd'.NewToY) ∧
      pfd'.PathNum = nextPathNum (sampleEngine true true 400)
        (sampleManager (sampleMap 10 10 [((2, 2), 1), ((3, 3), 1)] [])).pathNumCur ∧
      mm'.pathNumCur = pfd'.PathNum ∧
      1 ≤ pfd'.PathNum ∧ pfd'.PathNum ≤ (sampleEngine true true 400).FPATH_DATA_SIZE - 1 ∧
      nextPathNum (sampleEngine true true 400)
        ((sampleEngine true true 400).FPATH_DATA_SIZE - 1) = 1 ∧
      ∃ (f : Flood) (cx cy : Nat) (numindex : Int),
        FindPathFlood (sampleEngine true true 400)
          (sampleMap 10 10 [((2, 2), 1), ((3, 3), 1)] []) (sampleRequest 0 0 5 5 0)
          ((sampleMap 10 10 [((2, 2), 1), ((3, 3), 1)] []).Width *
            (sampleMap 10 10 [((2, 2), 1), ((3, 3), 1)] []).Height + 1)
          (FindPathStart (sampleEngine true true 400) (sampleRequest 0 0 5 5 0)) 0 1 =
          some (FloodEnd.findOk f cx cy numindex) ∧
        ((mm'.pathesPool pfd'.PathNum).length = (numindex - 1).toNat →
          (pfd'.NewToX, pfd'.NewToY) = (cx, cy) ∧
          CheckDist (sampleEngine true true 400) pfd'.NewToX pfd'.NewToY
            (sampleRequest 0 0 5 5 0).ToX (sampleRequest 0 0 5 5 0).ToY
            (sampleRequest 0 0 5 5 0).Cut = true) := by
  have hd : (FindPath (sampleEngine true true 400)
      (sampleManager (sampleMap 10 10 [((2, 2), 1), ((3, 3), 1)] []))
      (sampleRequest 0 0 5 5 0)).map (fun r => r.1) = some FPATH_OK := by decide!
  cases hr : FindPath (sampleEngine true true 400)
      (sampleManager (sampleMap 10 10 [((2, 2), 1), ((3, 3), 1)] []))
      (sampleRequest 0 0 5 5 0) with
  | none => rw [hr] at hd; cases hd
  | some r =>
    obtain ⟨c, mm', pfd'⟩ := r
    rw [hr] at hd
    simp only [Option.map_some', Option.some.injEq] at hd
    subst hd
    exact ⟨mm', pfd', rfl, FindPath_ok_result (sampleEngine true true 400)
      (sampleManager (sampleMap 10 10 [((2, 2), 1), ((3, 3), 1)] [])) mm'
      (sampleRequest 0 0 5 5 0) pfd'
      (sampleMap 10 10 [((2, 2), 1), ((3, 3), 1)] []) rfl (by decide) (by decide) (by decide)
      (by decide) (by decide) hr⟩

/-! ## The walk for soft obstacles -/

/-- One step of the walk over a step that is no soft obstacle: the walk goes on. -/
theorem FindPathCheckSoft_skip (E : Engine) (map : Map) (pfd : PathFindData)
    (path : List PathStep) (i : Nat) (ps : PathStep) (rest : List PathStep)
    (hag : FlagsAgree E map ps) (hno : ¬ SoftObstacle E map pfd ps) :
    FindPathCheckSoft E map pfd path i (ps :: rest) =
      FindPathCheckSoft E map pfd path (i + 1) rest := by
  obtain ⟨hg, hc⟩ := hag
  unfold SoftObstacle at hno
  rw [FindPathCheckSoft]
  split
  · rfl
  · rename_i hp
    have hp' : E.IsHexPassed map ps.HexX ps.HexY = false := by simpa using hp
    split
    · rename_i h1
      simp only [Bool.and_eq_true] at h1
      split
      · rfl
      · rename_i item hitem
        exact absurd ⟨hp', Or.inl ⟨h1.1, by rw [hitem]; rfl⟩⟩ hno
    · split
      · rename_i h1 h2
        simp only [Bool.and_eq_true] at h2
        split
        · rfl
        · rename_i cr hcr
          split
          · rfl
          · rename_i hne
            exact absurd ⟨hp', Or.inr ⟨h2.1, cr, hcr, hne⟩⟩ hno
      · rfl

/-- One step of the walk over a soft obstacle: the path is cut before the step and the
obstacle is reported. -/
theorem FindPathCheckSoft_stop (E : Engine) (map : Map) (pfd : PathFindData)
    (path : List PathStep) (i : Nat) (ps : PathStep) (rest : List PathStep)
    (hag : FlagsAgree E map ps) (hso : SoftObstacle E map pfd ps) :
    (FindPathCheckSoft E map pfd path i (ps :: rest)).1 = resizePath path i ∧
    SoftReport E map pfd ps (FindPathCheckSoft E map pfd path i (ps :: rest)).2 := by
  obtain ⟨hg, hc⟩ := hag
  obtain ⟨hp, hso⟩ := hso
  unfold SoftReport
  rw [FindPathCheckSoft]
  rw [if_neg (by rw [hp]; simp)]
  by_cases h1 : pfd.CheckGagItems = true ∧ (E.GetItemGag map ps.HexX ps.HexY).isSome = true
  · obtain ⟨h1a, h1b⟩ := h1
    obtain ⟨item, hitem⟩ := Option.isSome_iff_exists.1 h1b
    rw [if_pos (by rw [h1a, hg, h1b]; rfl)]
    simp only [hitem]
    exact ⟨trivial, Or.inl ⟨h1a, item, rfl, rfl⟩⟩
  · rw [if_neg (by rw [hg]; simpa using h1)]
    rcases hso with hso | ⟨hcc, cr, hcr, hne⟩
    · exact absurd hso h1
    · rw [if_pos (by rw [hcc, hc, hcr]; rfl)]
      simp only [hcr]
      rw [if_neg hne]
      exact ⟨rfl, Or.inr ⟨h1, hcc, cr, rfl, hne, rfl⟩⟩

/-- The walk from a step on, over steps of which none is a soft obstacle up to the first
that is one. -/
theorem FindPathCheckSoft_upto (E : Engine) (map : Map) (pfd : PathFindData)
    (path : List PathStep) (ps : PathStep) (post : List PathStep) :
    ∀ (pre : List PathStep) (i : Nat),
    (∀ q ∈ pre ++ ps :: post, FlagsAgree E map q) →
    (∀ q ∈ pre, ¬ SoftObstacle E map pfd q) → SoftObstacle E map pfd ps →
    (FindPathCheckSoft E map pfd path i (pre ++ ps :: post)).1 = resizePath path (i + pre.length) ∧
    SoftReport E map pfd ps (FindPathCheckSoft E map pfd path i (pre ++ ps :: post)).2 := by
  intro pre
  induction pre with
  | nil =>
    intro i hag _ hso
    exact FindPathCheckSoft_stop E map pfd path i ps post (hag ps (by simp)) hso
  | cons q pre ih =>
    intro i hag hno hso
    rw [List.cons_append, FindPathCheckSoft_skip E map pfd path i q _ (hag q (by simp))
      (hno q (by simp))]
    have := ih (i + 1) (fun r hr => hag r (List.mem_cons_of_mem _ hr))
      (fun r hr => hno r (List.mem_cons_of_mem _ hr)) hso
    rw [List.length_cons, show i + (pre.length + 1) = i + 1 + pre.length by omega]
    exact this

/-- The walk over steps of which none is a soft obstacle leaves the path and the request
as they were. -/
theorem FindPathCheckSoft_whole (E : Engine) (map : Map) (pfd : PathFindData)
    (path : List PathStep) : ∀ (rest : List PathStep) (i : Nat),
    (∀ q ∈ rest, FlagsAgree E map q) → (∀ q ∈ rest, ¬ SoftObstacle E map pfd q) →
    FindPathCheckSoft E map pfd path i rest = (path, pfd) := by
  intro rest
  induction rest with
  | nil => intro i _ _; rw [FindPathCheckSoft]
  | cons q rest ih =>
    intro i hag hno
    rw [FindPathCheckSoft_skip E map pfd path i q _ (hag q (by simp)) (hno q (by simp))]
    exact ih (i + 1) (fun r hr => hag r (List.mem_cons_of_mem _ hr))
      (fun r hr => hno r (List.mem_cons_of_mem _ hr))

/-- The walk for soft obstacles on a path of its own. On a path whose hexes carry the gag flag
exactly when they hold a gag item and the critter flag exactly when they hold a living critter, the walk `// Check for closed door and
critter` of `FindPath` cuts the path at the first step that is a soft obstacle (a hex that is
not passable and holds a gag item, with `CheckGagItems`, or a critter other than the
requester, with `CheckCrit`): the path left consists of the steps before that step, and
`GagItem` is the gag item of the hex, or, when the hex is an obstacle through its critter
only, `GagCritter` is that critter. When no step is a soft obstacle the path and the request
are left as they were. -/
theorem FindPathCheckSoft_first_obstacle (E : Engine) (map : Map) (pfd : PathFindData)
    (path : List PathStep) (hag : ∀ q ∈ path, FlagsAgree E map q) :
    (∀ (pre : List PathStep) (ps : PathStep) (post : List PathStep),
      path = pre ++ ps :: post → (∀ q ∈ pre, ¬ SoftObstacle E map pfd q) →
      SoftObstacle E map pfd ps →
      (FindPathCheckSoft E map pfd path 0 path).1 = pre ∧
      SoftReport E map pfd ps (FindPathCheckSoft E map pfd path 0 path).2) ∧
    ((∀ q ∈ path, ¬ SoftObstacle E map pfd q) →
      FindPathCheckSoft E map pfd path 0 path = (path, pfd)) := by
  refine ⟨?_, fun hno => FindPathCheckSoft_whole E map pfd path path 0 hag hno⟩
  intro pre ps post hpath hno hso
  have h := FindPathCheckSoft_upto E map pfd path ps post pre 0 (by rw [← hpath]; exact hag)
    hno hso
  rw [← hpath] at h
  refine ⟨?_, h.2⟩
  rw [h.1, Nat.zero_add, resizePath_of_le path _ (by rw [hpath]; simp), hpath]
  simp

/-- The sample engine sets the gag flag and the critter flag of a hex exactly when it lets
the hex hold a gag item and a critter. -/
theorem sampleEngine_FlagsAgree (hexagonal smooth : Bool) (max_path : Nat) (map : Map)
    (q : PathStep) : FlagsAgree (sampleEngine hexagonal smooth max_path) map q := by
  unfold FlagsAgree sampleEngine
  simp only []
  constructor
  · cases FLAG (map.Hexes q.HexX q.HexY) 0x8000 <;> rfl
  · simp only [Bool.false_eq_true, if_false]
    cases FLAG (map.Hexes q.HexX q.HexY) 0x0100 <;> rfl

theorem FindPathCheckSoft_first_obstacle_witness :
    (∀ q ∈ [({ HexX := 1, HexY := 0, MoveParams := 0, Dir := 1 } : PathStep),
        { HexX := 2, HexY := 0, MoveParams := 0, Dir := 2 },
        { HexX := 3, HexY := 0, MoveParams := 0, Dir := 1 }],
      FlagsAgree (sampleEngine true false 400) (sampleMap 10 10 [((2, 0), 0x8001)] []) q) ∧
    (∀ (pre : List PathStep) (ps : PathStep) (post : List PathStep),
      [({ HexX := 1, HexY := 0, MoveParams := 0, Dir := 1 } : PathStep),
        { HexX := 2, HexY := 0, MoveParams := 0, Dir := 2 },
        { HexX := 3, HexY := 0, MoveParams := 0, Dir := 1 }] = pre ++ ps :: post →
      (∀ q ∈ pre, ¬ SoftObstacle (sampleEngine true false 400)
        (sampleMap 10 10 [((2, 0), 0x8001)] [])
        { sampleRequest 0 0 5 0 0 with CheckGagItems := true } q) →
      SoftObstacle (sampleEngine true false 400) (sampleMap 10 10 [((2, 0), 0x8001)] [])
        { sampleRequest 0 0 5 0 0 with CheckGagItems := true } ps →
      (FindPathCheckSoft (sampleEngine true false 400) (sampleMap 10 10 [((2, 0), 0x8001)] [])
        { sampleRequest 0 0 5 0 0 with CheckGagItems := true }
        [{ HexX := 1, HexY := 0, MoveParams := 0, Dir := 1 },
          { HexX := 2, HexY := 0, MoveParams := 0, Dir := 2 },
          { HexX := 3, HexY := 0, MoveParams := 0, Dir := 1 }] 0
        [{ HexX := 1, HexY := 0, MoveParams := 0, Dir := 1 },
          { HexX := 2, HexY := 0, MoveParams := 0, Dir := 2 },
          { HexX := 3, HexY := 0, MoveParams := 0, Dir := 1 }]).1 = pre ∧
      SoftReport (sampleEngine true false 400) (sampleMap 10 10 [((2, 0), 0x8001)] [])
        { sampleRequest 0 0 5 0 0 with CheckGagItems := true } ps
        (FindPathCheckSoft (sampleEngine true false 400)
          (sampleMap 10 10 [((2, 0), 0x8001)] [])
          { sampleRequest 0 0 5 0 0 with CheckGagItems := true }
          [{ HexX := 1, HexY := 0, MoveParams := 0, Dir := 1 },
            { HexX := 2, HexY := 0, MoveParams := 0, Dir := 2 },
            { HexX := 3, HexY := 0, MoveParams := 0, Dir := 1 }] 0
          [{ HexX := 1, HexY := 0, MoveParams := 0, Dir := 1 },
            { HexX := 2, HexY := 0, MoveParams := 0, Dir := 2 },
            { HexX := 3, HexY := 0, MoveParams := 0, Dir := 1 }]).2) ∧
    ((∀ q ∈ [({ HexX := 1, HexY := 0, MoveParams := 0, Dir := 1 } : PathStep),
        { HexX := 2, HexY := 0, MoveParams := 0, Dir := 2 },
        { HexX := 3, HexY := 0, MoveParams := 0, Dir := 1 }],
      ¬ SoftObstacle (sampleEngine true false 400) (sampleMap 10 10 [((2, 0), 0x8001)] [])
        { sampleRequest 0 0 5 0 0 with CheckGagItems := true } q) →
      FindPathCheckSoft (sampleEngine true false 400) (sampleMap 10 10 [((2, 0), 0x8001)] [])
        { sampleRequest 0 0 5 0 0 with CheckGagItems := true }
        [{ HexX := 1, HexY := 0, MoveParams := 0, Dir := 1 },
          { HexX := 2, HexY := 0, MoveParams := 0, Dir := 2 },
          { HexX := 3, HexY := 0, MoveParams := 0, Dir := 1 }] 0
        [{ HexX := 1, HexY := 0, MoveParams := 0, Dir := 1 },
          { HexX := 2, HexY := 0, MoveParams := 0, Dir := 2 },
          { HexX := 3, HexY := 0, MoveParams := 0, Dir := 1 }] =
      ([{ HexX := 1, HexY := 0, MoveParams := 0, Dir := 1 },
          { HexX := 2, HexY := 0, MoveParams := 0, Dir := 2 },
          { HexX := 3, HexY := 0, MoveParams := 0, Dir := 1 }],
        { sampleRequest 0 0 5 0 0 with CheckGagItems := true })) :=
  ⟨fun q _ => sampleEngine_FlagsAgree true false 400 _ q,
    FindPathCheckSoft_first_obstacle (sampleEngine true false 400)
      (sampleMap 10 10 [((2, 0), 0x8001)] [])
      { sampleRequest 0 0 5 0 0 with CheckGagItems := true }
      [{ HexX := 1, HexY := 0, MoveParams := 0, Dir := 1 },
        { HexX := 2, HexY := 0, MoveParams := 0, Dir := 2 },
        { HexX := 3, HexY := 0, MoveParams := 0, Dir := 1 }]
      (fun q _ => sampleEngine_FlagsAgree true false 400 _ q)⟩

/-! ## The two ways to FPATH_ALREADY_HERE -/

/-- A walk that starts after the first step leaves at least one step. -/
theorem FindPathCheckSoft_ne_nil (E : Engine) (map : Map) (pfd : PathFindData)
    (path : List PathStep) (hpath : path ≠ []) : ∀ (rest : List PathStep) (i : Nat),
    1 ≤ i → (FindPathCheckSoft E map pfd path i rest).1 ≠ [] := by
  have hk : ∀ i, 1 ≤ i → resizePath path i ≠ [] := by
    intro i hi h
    have := length_resizePath path i
    rw [h] at this
    simp at this
    omega
  intro rest
  induction rest with
  | nil => intro i _; rw [FindPathCheckSoft]; exact hpath
  | cons ps rest ih =>
    intro i hi
    unfold FindPathCheckSoft
    split
    · exact ih _ (by omega)
    · split
      · split
        · exact ih _ (by omega)
        · exact hk i hi
      · split
        · split
          · exact ih _ (by omega)
          · split
            · exact ih _ (by omega)
            · exact hk i hi
        · exact ih _ (by omega)

/-- The walk leaves no step exactly when it stops on the first step. -/
theorem FindPathCheckSoft_nil_iff (E : Engine) (map : Map) (pfd : PathFindData)
    (ps : PathStep) (rest : List PathStep) (pfd' : PathFindData) :
    FindPathCheckSoft E map pfd (ps :: rest) 0 (ps :: rest) = ([], pfd') ↔
      SoftAtFirst E map pfd ps pfd' := by
  have hne : ∀ p, FindPathCheckSoft E map pfd (ps :: rest) (0 + 1) rest ≠ ([], p) := by
    intro p h
    have := FindPathCheckSoft_ne_nil E map pfd (ps :: rest) (by simp) rest (0 + 1) (by omega)
    rw [h] at this
    exact this rfl
  unfold SoftAtFirst
  rw [FindPathCheckSoft]
  have hr0 : resizePath (ps :: rest) 0 = [] := by simp [resizePath]
  constructor
  · intro h
    split at h
    · exact absurd h (hne _)
    · rename_i hp
      have hp' : E.IsHexPassed map ps.HexX ps.HexY = false := by simpa using hp
      refine ⟨hp', ?_⟩
      split at h
      · rename_i h1
        simp only [Bool.and_eq_true] at h1
        split at h
        · exact absurd h (hne _)
        · rename_i item hitem
          simp only [Prod.mk.injEq] at h
          exact Or.inl ⟨h1.1, h1.2, item, hitem, h.2.symm⟩
      · rename_i h1
        simp only [Bool.and_eq_true] at h1
        split at h
        · rename_i h2
          simp only [Bool.and_eq_true] at h2
          split at h
          · exact absurd h (hne _)
          · rename_i cr hcr
            split at h
            · exact absurd h (hne _)
            · rename_i hcne
              simp only [Prod.mk.injEq] at h
              exact Or.inr ⟨h1, h2.1, h2.2, cr, hcr, hcne, h.2.symm⟩
        · exact absurd h (hne _)
  · rintro ⟨hp, h | h⟩
    · obtain ⟨h1, h2, item, hitem, e⟩ := h
      rw [if_neg (by rw [hp]; simp), if_pos (by rw [h1, h2]; rfl)]
      simp only [hitem]
      rw [hr0, e]
    · obtain ⟨h1, h2, h3, cr, hcr, hcne, e⟩ := h
      rw [if_neg (by rw [hp]; simp), if_neg (by simpa using h1), if_pos (by rw [h2, h3]; rfl)]
      simp only [hcr]
      rw [if_neg hcne, hr0, e]

/-- The bands of the trace block see nothing on a path without steps. -/
theorem FindPathTraceBands_nil (E : Engine) (trace_seq : List Int) (tx ty trace : Nat) :
    ∀ (ks : List Nat) (t : TraceData),
    FindPathTraceBands E trace_seq tx ty trace [] t ks = none := by
  intro ks
  induction ks with
  | nil => intro t; rw [FindPathTraceBands]
  | cons k ks ih =>
    intro t
    rw [FindPathTraceBands, FindPathTraceBand]
    exact ih t

/-- The trace block leaves a path without steps only when it was given one, and then it
changes nothing. -/
theorem FindPathTrace_nil (E : Engine) (mm : MapManager) (map : Map) (pfd : PathFindData)
    (cs r : List PathStep × PathFindData)
    (h : FindPathTrace E mm map pfd cs = some (some r)) (hr : r.1 = []) : r = cs := by
  unfold FindPathTrace at h
  split at h
  · split at h
    · cases h
    · simp only [] at h
      split at h
      · simp only [Option.some.injEq] at h
        subst h
        have := length_resizePath cs.1 (‹Nat› + 1)
        simp only [] at hr
        rw [hr] at this
        simp at this
      · split at h
        · cases h
        · simp only [Option.some.injEq] at h
          exact h.symm
  · simp only [Option.some.injEq] at h
    exact h.symm

/-- The trace block given a path without steps and a request whose walk reported an
obstacle changes nothing, when the trace critter, if one is asked for, is registered. -/
theorem FindPathTrace_of_nil (E : Engine) (mm : MapManager) (map : Map) (pfd : PathFindData)
    (p : PathFindData) (hgag : p.GagItem.isSome = true ∨ p.GagCritter.isSome = true)
    (htr : pfd.Trace = 0 ∨ (pfd.TraceCr.bind mm.Critters).isSome = true) :
    FindPathTrace E mm map pfd ([], p) = some (some ([], p)) := by
  unfold FindPathTrace
  split
  · rename_i ht
    rcases htr with htr | htr
    · exact absurd htr ht
    · obtain ⟨targ, htarg⟩ := Option.isSome_iff_exists.1 htr
      rw [htarg]
      simp only [FindPathTraceBands_nil]
      rw [if_neg]
      rcases hgag with hg | hg
      · intro h
        have h1 := h.1
        cases hx : p.GagItem <;> rw [hx] at hg h1
        · cases hg
        · cases h1
      · intro h
        have h2 := h.2
        cases hx : p.GagCritter <;> rw [hx] at hg h2
        · cases hg
        · cases h2
  · rfl

/-- The end of `FindPath` on a path without steps. -/
theorem FindPathResult_nil (E : Engine) (mm : MapManager) (is_run : Bool)
    (pfd : PathFindData) :
    FindPathResult E mm is_run [] pfd =
      (FPATH_ALREADY_HERE,
        { mm with pathesPool := setPool mm.pathesPool mm.pathNumCur [] }, pfd) := rfl

/-- The hex at which the flood stops is not the start hex, so its index is above 1. -/
theorem FindPathFlood_index (E : Engine) (map : Map) (pfd : PathFindData)
    (ctx : FloodCtx E map pfd) (f : Flood) (cx cy : Nat) (numindex : Int)
    (hgood : (FloodEnd.findOk f cx cy numindex).Good E map pfd)
    (hcd : CheckDist E pfd.FromX pfd.FromY pfd.ToX pfd.ToY pfd.Cut = false) :
    2 ≤ numindex := by
  obtain ⟨hinv, hmem, hnum, hdist⟩ := hgood
  obtain ⟨c1, c2, c3, c4, c5⟩ := hinv.coords_ok _ hmem
  simp only [] at c1 c2 c3 c4 c5
  by_contra hlt
  have h1 : cellAt E pfd f.Grid cx cy = 1 := by omega
  have hnear : Near pfd ((E.FPATH_MAX_PATH : Int) - 1) cx cy :=
    Near_mono pfd _ _ _ _ c5 (by have := ctx.max_pos; omega)
  obtain ⟨e1, e2⟩ := hinv.one cx cy c1 c2 hnear h1
  rw [e1, e2, hcd] at hdist
  cases hdist

/-- C29. With a depth limit that is positive and leaves the mark bits free and a map whose
sides fit `ushort`, `FindPath` returns `FPATH_ALREADY_HERE` in two situations and in no
other. First, the start hex is within `Cut` of the target: the checks before it having
passed, the call returns before the flood and changes nothing. Second, the start hex is
not within `Cut` of the target, the request checks gag items or critters, and the walk for
soft obstacles stops on the first step of the backtraced path: then `GagItem` or
`GagCritter` is set, the counter of the pool has moved to the next slot, whose path is left
without steps, and `PathNum`, `NewToX` and `NewToY` are as before the call. -/
theorem FindPath_already_here_cases (E : Engine) (mm : MapManager) (pfd : PathFindData)
    (map : Map) (hmap : GetMap mm pfd.MapId = some map)
    (hmax0 : 0 < E.FPATH_MAX_PATH) (hmax : E.FPATH_MAX_PATH < 16384)
    (hw : map.Width ≤ 65535) (hh : map.Height ≤ 65535) :
    (∀ mm' pfd', FindPath E mm pfd = some (FPATH_ALREADY_HERE, mm', pfd') →
      (CheckDist E pfd.FromX pfd.FromY pfd.ToX pfd.ToY pfd.Cut = true ∧ mm' = mm ∧ pfd' = pfd) ∨
      (CheckDist E pfd.FromX pfd.FromY pfd.ToX pfd.ToY pfd.Cut = false ∧
        (pfd.CheckCrit = true ∨ pfd.CheckGagItems = true) ∧
        ∃ (f : Flood) (cx cy : Nat) (numindex : Int) (b' : Backtrace) (ps : PathStep)
          (rest : List PathStep),
          FindPathFlood E map pfd (map.Width * map.Height + 1) (FindPathStart E pfd) 0 1 =
            some (FloodEnd.findOk f cx cy numindex) ∧
          FindPathTraceBack E mm pfd f.Grid cx cy numindex = (b', true) ∧
          b'.path = ps :: rest ∧ SoftAtFirst E map pfd ps pfd' ∧
          (pfd'.GagItem.isSome = true ∨ pfd'.GagCritter.isSome = true) ∧
          mm'.pathNumCur = nextPathNum E mm.pathNumCur ∧
          mm'.pathesPool mm'.pathNumCur = [] ∧
          pfd'.PathNum = pfd.PathNum ∧ pfd'.NewToX = pfd.NewToX ∧ pfd'.NewToY = pfd.NewToY)) ∧
    (¬ (pfd.Trace ≠ 0 ∧ pfd.TraceCr.isNone = true) →
      ¬ (pfd.FromX ≥ map.Width ∨ pfd.FromY ≥ map.Height ∨ pfd.ToX ≥ map.Width ∨
        pfd.ToY ≥ map.Height) →
      CheckDist E pfd.FromX pfd.FromY pfd.ToX pfd.ToY pfd.Cut = true →
      FindPath E mm pfd = some (FPATH_ALREADY_HERE, mm, pfd)) ∧
    (∀ (f : Flood) (cx cy : Nat) (numindex : Int) (b' : Backtrace) (ps : PathStep)
        (rest : List PathStep) (pfd' : PathFindData),
      FindPathChecksPass E map pfd →
      CheckDist E pfd.FromX pfd.FromY pfd.ToX pfd.ToY pfd.Cut = false →
      (pfd.CheckCrit = true ∨ pfd.CheckGagItems = true) →
      FindPathFlood E map pfd (map.Width * map.Height + 1) (FindPathStart E pfd) 0 1 =
        some (FloodEnd.findOk f cx cy numindex) →
      FindPathTraceBack E mm pfd f.Grid cx cy numindex = (b', true) →
      b'.path = ps :: rest → SoftAtFirst E map pfd ps pfd' →
      (pfd.Trace = 0 ∨ (pfd.TraceCr.bind mm.Critters).isSome = true) →
      ∃ mm', FindPath E mm pfd = some (FPATH_ALREADY_HERE, mm', pfd')) := by
  have hsome : ∀ (ps : PathStep) (p : PathFindData), SoftAtFirst E map pfd ps p →
      p.GagItem.isSome = true ∨ p.GagCritter.isSome = true := by
    intro ps p hs
    rcases hs.2 with ⟨_, _, item, _, e⟩ | ⟨_, _, _, cr, _, _, e⟩
    · rw [e]; exact Or.inl rfl
    · rw [e]; exact Or.inr rfl
  have hkeep : ∀ (ps : PathStep) (p : PathFindData), SoftAtFirst E map pfd ps p →
      p.PathNum = pfd.PathNum ∧ p.NewToX = pfd.NewToX ∧ p.NewToY = pfd.NewToY := by
    intro ps p hs
    rcases hs.2 with ⟨_, _, item, _, e⟩ | ⟨_, _, _, cr, _, _, e⟩
    · rw [e]; exact ⟨rfl, rfl, rfl⟩
    · rw [e]; exact ⟨rfl, rfl, rfl⟩
  refine ⟨?_, ?_, ?_⟩
  · intro mm' pfd' h
    rcases FindPath_split E mm pfd map hmap with
      e | e | ⟨hd, e⟩ | e | e | ⟨hcd, hfx, hfy, _, _, hfl⟩
    · rw [e] at h; cases h
    · rw [e] at h; cases h
    · rw [e] at h
      simp only [Option.some.injEq, Prod.mk.injEq, true_and] at h
      exact Or.inl ⟨hd, h.1.symm, h.2.symm⟩
    · rw [e] at h; cases h
    · rw [e] at h; cases h
    · right
      rcases hfl with ⟨_, e⟩ | ⟨_, e⟩ | ⟨_, e⟩ | ⟨f, cx, cy, numindex, hf, e⟩
      · rw [e] at h; cases h
      · rw [e] at h; cases h
      · rw [e] at h; cases h
      · have ctx : FloodCtx E map pfd := ⟨hmax0, hmax, hw, hh, hfx, hfy⟩
        have hgood := FindPathStart_good E map pfd ctx _ _ hf
        have h2 := FindPathFlood_index E map pfd ctx f cx cy numindex hgood hcd
        obtain ⟨b', hb', blen, _⟩ :=
          FindPathTraceBack_spec E mm map pfd f cx cy numindex ctx hgood
        obtain ⟨ps, rest, hpath⟩ : ∃ ps rest, b'.path = ps :: rest := by
          cases hp : b'.path with
          | nil => rw [hp] at blen; simp only [List.length_nil] at blen; omega
          | cons ps rest => exact ⟨ps, rest, rfl⟩
        rw [e, FindPathFinish_of_backtrace E mm map pfd f.Grid cx cy numindex b' hb'] at h
        split at h
        · cases h
        · cases h
        · rename_i r htr
          simp only [Option.some.injEq] at h
          have hr1 : r.1 = [] := by
            rcases (FindPathResult_cases E _ pfd.IsRun r.1 r.2).2.2 with ⟨hn, _⟩ | ⟨hc, _⟩
            · exact hn
            · rw [h] at hc; cases hc
          have hrcs := FindPathTrace_nil E mm map pfd _ r htr hr1
          rw [hr1, FindPathResult_nil] at h
          simp only [Prod.mk.injEq, true_and] at h
          obtain ⟨hmm, hpfd⟩ := h
          by_cases hs : (pfd.CheckCrit || pfd.CheckGagItems) = true
          · rw [if_pos hs, hpath] at hrcs
            have hcs : FindPathCheckSoft E map pfd (ps :: rest) 0 (ps :: rest) = ([], pfd') := by
              rw [← hrcs, ← hpfd]
              exact Prod.ext hr1 rfl
            have hsoft := (FindPathCheckSoft_nil_iff E map pfd ps rest pfd').1 hcs
            refine ⟨hcd, ?_, f, cx, cy, numindex, b', ps, rest, hf, hb', hpath, hsoft,
              hsome ps pfd' hsoft, ?_, ?_, hkeep ps pfd' hsoft⟩
            · simpa [Bool.or_eq_true] using hs
            · rw [← hmm]
            · rw [← hmm]
              simp [setPool]
          · rw [if_neg hs] at hrcs
            rw [hrcs] at hr1
            simp only [] at hr1
            rw [hpath] at hr1
            cases hr1
  · intro h1 h2 h3
    unfold FindPath
    rw [if_neg h1, hmap]
    simp only []
    rw [if_neg h2, if_pos h3]
  · intro f cx cy numindex b' ps rest pfd' hpass hcd hsoftset hf hb' hpath hsoft htr
    obtain ⟨p1, p2, p3, p4⟩ := hpass
    have e := FindPath_of_flood E mm pfd map hmap p1 p2 (by rw [hcd]; simp) p3 p4
      f cx cy numindex hf
    have hs : (pfd.CheckCrit || pfd.CheckGagItems) = true := by
      rcases hsoftset with h | h <;> simp [h]
    have hcs := (FindPathCheckSoft_nil_iff E map pfd ps rest pfd').2 hsoft
    rw [e, FindPathFinish_of_backtrace E mm map pfd f.Grid cx cy numindex b' hb', if_pos hs,
      hpath, hcs, FindPathTrace_of_nil E mm map pfd pfd' (hsome ps pfd' hsoft) htr]
    simp only [FindPathResult_nil]
    exact ⟨_, rfl⟩

/-- On the row whose second hex holds a gag item, the search from the first hex returns
`FPATH_ALREADY_HERE` with the gag item reported, the counter of the pool at the slot 1 and
`PathNum` still 0. -/
theorem FindPath_gag_on_first_step :
    (FindPath (sampleEngine false false 400) (sampleManager sampleGagRow) sampleGagRequest).map
      (fun r => (r.1, r.2.1.pathNumCur, r.2.2.GagItem, r.2.2.PathNum, r.2.2.NewToX)) =
      some (FPATH_ALREADY_HERE, 1, some 2001, 0, 0) := by decide!

theorem FindPath_already_here_cases_witness :
    (∀ mm' pfd', FindPath (sampleEngine false false 400) (sampleManager sampleGagRow)
        sampleGagRequest = some (FPATH_ALREADY_HERE, mm', pfd') →
      (CheckDist (sampleEngine false false 400) sampleGagRequest.FromX sampleGagRequest.FromY
          sampleGagRequest.ToX sampleGagRequest.ToY sampleGagRequest.Cut = true ∧
        mm' = sampleManager sampleGagRow ∧ pfd' = sampleGagRequest) ∨
      (CheckDist (sampleEngine false false 400) sampleGagRequest.FromX sampleGagRequest.FromY
          sampleGagRequest.ToX sampleGagRequest.ToY sampleGagRequest.Cut = false ∧
        (sampleGagRequest.CheckCrit = true ∨ sampleGagRequest.CheckGagItems = true) ∧
        ∃ (f : Flood) (cx cy : Nat) (numindex : Int) (b' : Backtrace) (ps : PathStep)
          (rest : List PathStep),
          FindPathFlood (sampleEngine false false 400) sampleGagRow sampleGagRequest
            (sampleGagRow.Width * sampleGagRow.Height + 1)
            (FindPathStart (sampleEngine false false 400) sampleGagRequest) 0 1 =
            some (FloodEnd.findOk f cx cy numindex) ∧
          FindPathTraceBack (sampleEngine false false 400) (sampleManager sampleGagRow)
            sampleGagRequest f.Grid cx cy numindex = (b', true) ∧
          b'.path = ps :: rest ∧
          SoftAtFirst (sampleEngine false false 400) sampleGagRow sampleGagRequest ps pfd' ∧
          (pfd'.GagItem.isSome = true ∨ pfd'.GagCritter.isSome = true) ∧
          mm'.pathNumCur = nextPathNum (sampleEngine false false 400)
            (sampleManager sampleGagRow).pathNumCur ∧
          mm'.pathesPool mm'.pathNumCur = [] ∧
          pfd'.PathNum = sampleGagRequest.PathNum ∧ pfd'.NewToX = sampleGagRequest.NewToX ∧
          pfd'.NewToY = sampleGagRequest.NewToY)) ∧
    (¬ (sampleGagRequest.Trace ≠ 0 ∧ sampleGagRequest.TraceCr.isNone = true) →
      ¬ (sampleGagRequest.FromX ≥ sampleGagRow.Width ∨
        sampleGagRequest.FromY ≥ sampleGagRow.Height ∨
        sampleGagRequest.ToX ≥ sampleGagRow.Width ∨
        sampleGagRequest.ToY ≥ sampleGagRow.Height) →
      CheckDist (sampleEngine false false 400) sampleGagRequest.FromX sampleGagRequest.FromY
        sampleGagRequest.ToX sampleGagRequest.ToY sampleGagRequest.Cut = true →
      FindPath (sampleEngine false false 400) (sampleManager sampleGagRow) sampleGagRequest =
        some (FPATH_ALREADY_HERE, sampleManager sampleGagRow, sampleGagRequest)) ∧
    (∀ (f : Flood) (cx cy : Nat) (numindex : Int) (b' : Backtrace) (ps : PathStep)
        (rest : List PathStep) (pfd' : PathFindData),
      FindPathChecksPass (sampleEngine false false 400) sampleGagRow sampleGagRequest →
      CheckDist (sampleEngine false false 400) sampleGagRequest.FromX sampleGagRequest.FromY
        sampleGagRequest.ToX sampleGagRequest.ToY sampleGagRequest.Cut = false →
      (sampleGagRequest.CheckCrit = true ∨ sampleGagRequest.CheckGagItems = true) →
      FindPathFlood (sampleEngine false false 400) sampleGagRow sampleGagRequest
        (sampleGagRow.Width * sampleGagRow.Height + 1)
        (FindPathStart (sampleEngine false false 400) sampleGagRequest) 0 1 =
        some (FloodEnd.findOk f cx cy numindex) →
      FindPathTraceBack (sampleEngine false false 400) (sampleManager sampleGagRow)
        sampleGagRequest f.Grid cx cy numindex = (b', true) →
      b'.path = ps :: rest →
      SoftAtFirst (sampleEngine false false 400) sampleGagRow sampleGagRequest ps pfd' →
      (sampleGagRequest.Trace = 0 ∨
        (sampleGagRequest.TraceCr.bind (sampleManager sampleGagRow).Critters).isSome = true) →
      ∃ mm', FindPath (sampleEngine false false 400) (sampleManager sampleGagRow)
        sampleGagRequest = some (FPATH_ALREADY_HERE, mm', pfd')) :=
  FindPath_already_here_cases (sampleEngine false false 400) (sampleManager sampleGagRow)
    sampleGagRequest sampleGagRow rfl (by decide) (by decide) (by decide) (by decide)

/-! ## The move parameters of a path -/

/-- The loop of `PathSetMoveParams` keeps the number of steps. -/
theorem PathSetMoveParamsLoop_len (E : Engine) (is_run : Bool) :
    ∀ (l : List PathStep) (mp : Nat), (PathSetMoveParamsLoop E is_run mp l).length = l.length := by
  intro l
  induction l with
  | nil => intro mp; rfl
  | cons ps rest ih =>
    intro mp
    unfold PathSetMoveParamsLoop
    simp only [List.length_cons, ih]

/-- The statements `SETFLAG`/`UNSETFLAG` on the run bit change no other bit and leave the
run bit as `is_run` says. -/
theorem runFlag_bits (mp : Nat) (is_run : Bool) (t : Nat) :
    (if is_run then SETFLAG mp (2 ^ 31) else UNSETFLAG mp (2 ^ 31)).testBit t =
      if t = 31 then is_run else mp.testBit t := by
  cases is_run
  · simp only [Bool.false_eq_true, if_false, UNSETFLAG, Nat.testBit_xor, Nat.testBit_or,
      Nat.testBit_two_pow]
    by_cases h : t = 31
    · subst h; simp
    · have : ¬ (31 = t) := fun e => h e.symm
      simp [h, this]
  · simp only [if_true, SETFLAG, Nat.testBit_or, Nat.testBit_two_pow]
    by_cases h : t = 31
    · subst h; simp
    · have : ¬ (31 = t) := fun e => h e.symm
      simp [h, this]

/-- The macro `FLAG` on the run bit reads the bit 31. -/
theorem FLAG_run (v : Nat) : FLAG v (2 ^ 31) = v.testBit 31 := by
  unfold FLAG
  cases h : v.testBit 31
  · have : v &&& 2 ^ 31 = 0 := by
      apply Nat.eq_of_testBit_eq
      intro i
      rw [Nat.testBit_and, Nat.testBit_two_pow, Nat.zero_testBit]
      by_cases e : 31 = i
      · subst e; simp [h]
      · simp [e]
    rw [this]; rfl
  · have : v &&& 2 ^ 31 ≠ 0 := by
      intro e
      have := congrArg (fun x => x.testBit 31) e
      simp only [Nat.testBit_and, Nat.testBit_two_pow, Nat.zero_testBit, h] at this
      simp at this
    simpa using this

/-- The statement `move_params = ( move_params << MOVE_PARAM_STEP_BITS ) | ps.Dir |
MOVE_PARAM_STEP_ALLOW` puts the field of the step below the fields held so far. -/
theorem WindowBits_shift (E : Engine) (v : Nat) (nx : List PathStep) (ps : PathStep)
    (hv : ∀ t, t ≠ 31 → t < 31 → ∃ w, WindowBits E w nx ∧ v.testBit t = w.testBit t)
    (hps : ps.Dir ||| E.MOVE_PARAM_STEP_ALLOW < 2 ^ E.MOVE_PARAM_STEP_BITS) :
    WindowBits E ((((v <<< E.MOVE_PARAM_STEP_BITS) % 4294967296) ||| ps.Dir) |||
      E.MOVE_PARAM_STEP_ALLOW) (ps :: nx) := by
  intro k b hb ht
  have h32 : (4294967296 : Nat) = 2 ^ 32 := by norm_num
  rw [Nat.lor_assoc, Nat.testBit_or, h32, Nat.testBit_mod_two_pow, Nat.testBit_shiftLeft]
  cases k with
  | zero =>
    simp only [Nat.zero_mul, Nat.zero_add]
    have : ¬ (b ≥ E.MOVE_PARAM_STEP_BITS) := by omega
    simp [this, MoveParamsField]
  | succ k =>
    have e1 : (k + 1) * E.MOVE_PARAM_STEP_BITS + b - E.MOVE_PARAM_STEP_BITS =
        k * E.MOVE_PARAM_STEP_BITS + b := by
      rw [Nat.add_mul, Nat.one_mul]; omega
    have e2 : (k + 1) * E.MOVE_PARAM_STEP_BITS + b ≥ E.MOVE_PARAM_STEP_BITS := by
      rw [Nat.add_mul, Nat.one_mul]; omega
    have e3 : k * E.MOVE_PARAM_STEP_BITS + b < 31 := by omega
    have hhi : (ps.Dir ||| E.MOVE_PARAM_STEP_ALLOW).testBit
        ((k + 1) * E.MOVE_PARAM_STEP_BITS + b) = false :=
      Nat.testBit_lt_two_pow (lt_of_lt_of_le hps (Nat.pow_le_pow_right (by norm_num) e2))
    obtain ⟨w, hw, hvw⟩ := hv (k * E.MOVE_PARAM_STEP_BITS + b) (by omega) e3
    rw [hhi, e1, hvw, hw k b hb e3]
    have : (k + 1) * E.MOVE_PARAM_STEP_BITS + b < 32 := by omega
    simp [this, e2, MoveParamsField]

/-- The loop of `PathSetMoveParams` on the steps `l1 ++ ps :: l2`, given last step first:
the value stored into `ps` has the run bit as `is_run` says, and its fields are those of the
steps after `ps` in the path. -/
theorem PathSetMoveParamsLoop_at (E : Engine) (is_run : Bool) (ps : PathStep)
    (l2 : List PathStep) (hrun : E.MOVE_PARAM_RUN = 2 ^ 31) :
    ∀ (l1 : List PathStep) (mp : Nat) (nx : List PathStep), WindowBits E mp nx →
    (∀ q ∈ l1 ++ ps :: l2, q.Dir ||| E.MOVE_PARAM_STEP_ALLOW < 2 ^ E.MOVE_PARAM_STEP_BITS) →
    ∃ (L1 L2 : List PathStep) (v : Nat),
      PathSetMoveParamsLoop E is_run mp (l1 ++ ps :: l2) =
        L1 ++ { ps with MoveParams := v } :: L2 ∧
      L1.length = l1.length ∧ L2.length = l2.length ∧
      v.testBit 31 = is_run ∧ WindowBits E v (l1.reverse ++ nx) := by
  have hstore : ∀ (mp : Nat) (nx : List PathStep), WindowBits E mp nx →
      WindowBits E (if is_run then SETFLAG mp E.MOVE_PARAM_RUN
        else UNSETFLAG mp E.MOVE_PARAM_RUN) nx := by
    intro mp nx h k b hb ht
    rw [hrun, runFlag_bits, if_neg (by omega)]
    exact h k b hb ht
  intro l1
  induction l1 with
  | nil =>
    intro mp nx hinv hb
    refine ⟨[], PathSetMoveParamsLoop E is_run
        (((((if is_run then SETFLAG mp E.MOVE_PARAM_RUN
          else UNSETFLAG mp E.MOVE_PARAM_RUN) <<< E.MOVE_PARAM_STEP_BITS) % 4294967296) |||
          ps.Dir) ||| E.MOVE_PARAM_STEP_ALLOW) l2,
      (if is_run then SETFLAG mp E.MOVE_PARAM_RUN else UNSETFLAG mp E.MOVE_PARAM_RUN),
      ?_, rfl, ?_, ?_, ?_⟩
    · rw [List.nil_append, PathSetMoveParamsLoop]
      rfl
    · exact PathSetMoveParamsLoop_len E is_run l2 _
    · rw [hrun, runFlag_bits, if_pos rfl]
    · simpa using hstore mp nx hinv
  | cons q l1 ih =>
    intro mp nx hinv hb
    have hq := hb q (by simp)
    have hnext : WindowBits E
        ((((((if is_run then SETFLAG mp E.MOVE_PARAM_RUN
          else UNSETFLAG mp E.MOVE_PARAM_RUN) <<< E.MOVE_PARAM_STEP_BITS) % 4294967296) |||
          q.Dir) ||| E.MOVE_PARAM_STEP_ALLOW)) (q :: nx) :=
      WindowBits_shift E _ nx q (fun t _ _ => ⟨_, hstore mp nx hinv, rfl⟩) hq
    obtain ⟨L1, L2, v, e, h1, h2, h3, h4⟩ := ih _ (q :: nx) hnext
      (fun r hr => hb r (List.mem_cons_of_mem _ hr))
    refine ⟨{ q with MoveParams := (if is_run then SETFLAG mp E.MOVE_PARAM_RUN
        else UNSETFLAG mp E.MOVE_PARAM_RUN) } :: L1, L2, v, ?_, by simp [h1], h2, h3, ?_⟩
    · rw [List.cons_append, PathSetMoveParamsLoop, e]
      rfl
    · simpa using h4

/-- The fields of the steps that follow stay below the width of a field. -/
theorem MoveParamsField_lt (E : Engine) (nx : List PathStep) (k : Nat)
    (hb : ∀ q ∈ nx, q.Dir ||| E.MOVE_PARAM_STEP_ALLOW < 2 ^ E.MOVE_PARAM_STEP_BITS) :
    MoveParamsField E nx k < 2 ^ E.MOVE_PARAM_STEP_BITS := by
  unfold MoveParamsField
  cases h : nx[k]? with
  | none => simp
  | some q =>
    simp only [Option.map_some', Option.getD_some]
    obtain ⟨hk, e⟩ := List.getElem?_eq_some_iff.1 h
    exact hb q (e ▸ List.getElem_mem hk)

/-- C23. With the run bit `MOVE_PARAM_RUN` the bit 31 of the 32-bit value, the direction of
every step with the allow bit fitting a field of `MOVE_PARAM_STEP_BITS` bits, and a window
of `count` fields that stays below the run bit: after `PathSetMoveParams` the step at every
place of the path is the step that was there with new move parameters `v`, the run bit of
`v` is `is_run`, and for every `k` below `count` the field `k` of `v` is
`Dir | MOVE_PARAM_STEP_ALLOW` of the step `k + 1` places on, and 0 when the path ends
before it. -/
theorem PathSetMoveParams_window (E : Engine) (path : List PathStep) (is_run : Bool)
    (count : Nat) (hrun : E.MOVE_PARAM_RUN = 2 ^ 31)
    (hfield : ∀ q ∈ path, q.Dir ||| E.MOVE_PARAM_STEP_ALLOW < 2 ^ E.MOVE_PARAM_STEP_BITS)
    (hcount : count * E.MOVE_PARAM_STEP_BITS ≤ 31) :
    ∀ (pre : List PathStep) (ps : PathStep) (post : List PathStep), path = pre ++ ps :: post →
      ∃ (pre2 post2 : List PathStep) (v : Nat),
        PathSetMoveParams E path is_run = pre2 ++ { ps with MoveParams := v } :: post2 ∧
        pre2.length = pre.length ∧ post2.length = post.length ∧
        FLAG v E.MOVE_PARAM_RUN = is_run ∧
        ∀ k < count,
          (v >>> (k * E.MOVE_PARAM_STEP_BITS)) % 2 ^ E.MOVE_PARAM_STEP_BITS =
            ((post[k]?).map (fun q => q.Dir ||| E.MOVE_PARAM_STEP_ALLOW)).getD 0 := by
  intro pre ps post hpath
  have hrev : path.reverse = post.reverse ++ ps :: pre.reverse := by
    rw [hpath]; simp
  have h0 : WindowBits E 0 [] := by
    intro k b _ _
    simp [MoveParamsField]
  obtain ⟨L1, L2, v, e, h1, h2, h3, h4⟩ :=
    PathSetMoveParamsLoop_at E is_run ps pre.reverse hrun post.reverse 0 [] h0
      (by
        intro q hq
        apply hfield q
        rw [hpath]
        simp only [List.mem_append, List.mem_cons, List.mem_reverse] at hq ⊢
        tauto)
  refine ⟨L2.reverse, L1.reverse, v, ?_, by simp [h2], by simp [h1], ?_, ?_⟩
  · unfold PathSetMoveParams
    rw [hrev, e]
    simp
  · rw [hrun, FLAG_run, h3]
  · intro k hk
    simp only [List.reverse_reverse, List.append_nil] at h4
    have hpost : ∀ q ∈ post, q.Dir ||| E.MOVE_PARAM_STEP_ALLOW < 2 ^ E.MOVE_PARAM_STEP_BITS :=
      fun q hq => hfield q (by rw [hpath]; simp [hq])
    have hlt := MoveParamsField_lt E post k hpost
    have hkb : (k + 1) * E.MOVE_PARAM_STEP_BITS ≤ 31 :=
      le_trans (Nat.mul_le_mul_right _ hk) hcount
    rw [Nat.add_mul, Nat.one_mul] at hkb
    change _ = MoveParamsField E post k
    apply Nat.eq_of_testBit_eq
    intro i
    rw [Nat.testBit_mod_two_pow, Nat.testBit_shiftRight]
    by_cases hi : i < E.MOVE_PARAM_STEP_BITS
    · rw [h4 k i hi (by omega)]
      simp [hi]
    · have : (MoveParamsField E post k).testBit i = false :=
        Nat.testBit_lt_two_pow (lt_of_lt_of_le hlt (Nat.pow_le_pow_right (by norm_num)
          (by omega)))
      rw [this]
      simp [hi]

theorem PathSetMoveParams_window_witness :
    (sampleEngine true false 400).MOVE_PARAM_RUN = 2 ^ 31 ∧
    (∀ q ∈ sampleSteps, q.Dir ||| (sampleEngine true false 400).MOVE_PARAM_STEP_ALLOW <
      2 ^ (sampleEngine true false 400).MOVE_PARAM_STEP_BITS) ∧
    6 * (sampleEngine true false 400).MOVE_PARAM_STEP_BITS ≤ 31 ∧
    ∀ (pre : List PathStep) (ps : PathStep) (post : List PathStep),
      sampleSteps = pre ++ ps :: post →
      ∃ (pre2 post2 : List PathStep) (v : Nat),
        PathSetMoveParams (sampleEngine true false 400) sampleSteps true =
          pre2 ++ { ps with MoveParams := v } :: post2 ∧
        pre2.length = pre.length ∧ post2.length = post.length ∧
        FLAG v (sampleEngine true false 400).MOVE_PARAM_RUN = true ∧
        ∀ k < 6,
          (v >>> (k * (sampleEngine true false 400).MOVE_PARAM_STEP_BITS)) %
              2 ^ (sampleEngine true false 400).MOVE_PARAM_STEP_BITS =
            ((post[k]?).map
              (fun q => q.Dir ||| (sampleEngine true false 400).MOVE_PARAM_STEP_ALLOW)).getD 0 :=
  ⟨by decide, by decide, by decide,
    PathSetMoveParams_window (sampleEngine true false 400) sampleSteps true 6 (by decide)
      (by decide) (by decide)⟩

/-- The move parameters that `PathSetMoveParams` stores into the three steps of the sample
path for a run: the run bit, and below it the fields `Dir | 8` of the steps that follow. -/
theorem PathSetMoveParams_sample :
    (PathSetMoveParams (sampleEngine true false 400) sampleSteps true).map
      (fun ps => ps.MoveParams) = [0x800000DA, 0x8000000D, 0x80000000] := by decide

/-! ## The direction of a step -/

/-- In hexagonal mode every probe of `FindPathGrid` returns the direction that leads from
the hex it found to the hex it was called for. -/
theorem FindPathGridProbes_hex_forward (E : Engine) (hhex : E.MapHexagonal = true)
    (hx hy : Int) (sw : Bool) :
    ∀ p ∈ FindPathGridProbes E (hx % 2 != 0) sw,
      MoveHexByDirUnsafe E (hx + p.1) (hy + p.2.1) p.2.2.toNat = (hx, hy) := by
  have e1 : (hx + 1) % 2 = 1 - hx % 2 := by omega
  have e2 : (hx + -1) % 2 = 1 - hx % 2 := by omega
  rcases Int.emod_two_eq_zero_or_one hx with h | h <;> cases sw <;>
    simp [FindPathGridProbes, MoveHexByDirUnsafe, GetHexOffsets, hhex, h, e1, e2]

/-- In square mode every probe of `FindPathGrid` returns the direction that leads from the
hex it was called for to the hex it found. -/
theorem FindPathGridProbes_square_backward (E : Engine) (hsq : E.MapHexagonal = false)
    (hx hy : Int) (sw : Bool) :
    ∀ p ∈ FindPathGridProbes E (hx % 2 != 0) sw,
      MoveHexByDirUnsafe E hx hy p.2.2.toNat = (hx + p.1, hy + p.2.1) := by
  cases hs : E.MapSmoothPath <;> cases sw <;>
    simp [FindPathGridProbes, MoveHexByDirUnsafe, GetHexOffsets, hsq, hs]

/-- C25. On an open square map of ten by ten hexes the path from `(0, 0)` to `(2, 0)` is
returned with the direction 0 in both steps, and one hex in the direction 0 from `(0, 0)`
is `(-1, 0)`, not the hex `(1, 0)` of the first step, which lies in the direction 4. -/
theorem FindPath_square_dir_backward :
    (FindPath (sampleEngine false false 400) (sampleManager (sampleMap 10 10 [] []))
        (sampleRequest 0 0 2 0 0)).map
      (fun r => (r.1, (r.2.1.pathesPool r.2.2.PathNum).map
        (fun ps => (ps.HexX, ps.HexY, ps.Dir)))) =
      some (FPATH_OK, [(1, 0, 0), (2, 0, 0)]) ∧
    MoveHexByDirUnsafe (sampleEngine false false 400) 0 0 0 = (-1, 0) ∧
    MoveHexByDirUnsafe (sampleEngine false false 400) 0 0 4 = (1, 0) := by
  refine ⟨by decide!, by decide, by decide⟩

/-- On an open hexagonal map of ten by ten hexes the path from `(0, 0)` to `(2, 0)` is
returned with directions that lead from each hex to the next. -/
theorem FindPath_hex_dir_forward :
    (FindPath (sampleEngine true false 400) (sampleManager (sampleMap 10 10 [] []))
        (sampleRequest 0 0 2 0 0)).map
      (fun r => (r.1, (r.2.1.pathesPool r.2.2.PathNum).map
        (fun ps => (ps.HexX, ps.HexY, ps.Dir)))) =
      some (FPATH_OK, [(1, 1, 3), (2, 0, 4)]) ∧
    MoveHexByDirUnsafe (sampleEngine true false 400) 0 0 3 = (1, 1) ∧
    MoveHexByDirUnsafe (sampleEngine true false 400) 1 1 4 = (2, 0) := by
  refine ⟨by decide!, by decide, by decide⟩

/-! ## The order of the teardown of a location -/

/-- A loop over the maps appends one step per map, in the order of the maps. -/
theorem DeleteLocationMaps_eq (step : Nat → DeleteStep) :
    ∀ (maps : List Nat) (log : List DeleteStep),
    DeleteLocationMaps step log maps = log ++ maps.map step := by
  intro maps
  induction maps with
  | nil => intro log; simp [DeleteLocationMaps]
  | cons m rest ih => intro log; simp [DeleteLocationMaps, ih]

/-- The loop over registered players appends one notification per player who knows the
location, in the order of the players. -/
theorem DeleteLocationNotify_eq (mm : MapManager) (loc_id : Nat) :
    ∀ (players : List Nat) (log : List DeleteStep),
    (∀ cl ∈ players, (mm.Critters cl).isSome = true) →
    DeleteLocationNotify mm loc_id log players =
      some (log ++ (players.filter (KnowsLocation mm loc_id)).map
        (fun cl => DeleteStep.sendGlobalLocation cl loc_id)) := by
  intro players
  induction players with
  | nil => intro log _; simp [DeleteLocationNotify]
  | cons cl rest ih =>
    intro log hreg
    have hcl := hreg cl (by simp)
    obtain ⟨c, hc⟩ := Option.isSome_iff_exists.1 hcl
    have hrest : ∀ x ∈ rest, (mm.Critters x).isSome = true :=
      fun x hx => hreg x (List.mem_cons_of_mem _ hx)
    rw [DeleteLocationNotify, hc]
    simp only []
    by_cases hk : c.KnownLocations.contains loc_id = true
    · rw [if_pos hk, ih _ hrest]
      have : KnowsLocation mm loc_id cl = true := by unfold KnowsLocation; rw [hc]; exact hk
      simp [List.filter_cons, this]
    · rw [if_neg hk, ih _ hrest]
      have : KnowsLocation mm loc_id cl = false := by
        unfold KnowsLocation; rw [hc]; simpa using hk
      simp [List.filter_cons, this]

/-- C26 as stated fails: for the location 1 with the maps 1 and 2 the steps of
`DeleteLocation` are not in the stated order, because `LocationFinish` is raised before the
two `MapFinish` events. -/
theorem DeleteLocation_finish_location_first :
    (DeleteLocation sampleDoomedWorld 1 (some [5, 6]) []).map (fun r => r.2) =
      some [DeleteStep.locDestroying 1, DeleteStep.mapDestroying 1, DeleteStep.mapDestroying 2,
        DeleteStep.raiseLocationFinish 1, DeleteStep.raiseMapFinish 1,
        DeleteStep.raiseMapFinish 2,
        DeleteStep.sendGlobalLocation 5 1,
        DeleteStep.deleteContent 1, DeleteStep.deleteContent 2, DeleteStep.clearMaps 1,
        DeleteStep.unregisterLoc 1, DeleteStep.unregisterMap 1, DeleteStep.unregisterMap 2,
        DeleteStep.locDestroyed 1, DeleteStep.mapDestroyed 1, DeleteStep.mapDestroyed 2,
        DeleteStep.releaseLoc 1, DeleteStep.releaseMap 1, DeleteStep.releaseMap 2] ∧
    (DeleteLocation sampleDoomedWorld 1 (some [5, 6]) []).map (fun r => r.2) ≠
      some (DeleteLocationStated 1 [1, 2] [DeleteStep.sendGlobalLocation 5 1]) := by
  refine ⟨by decide, by decide⟩

/-- C26, amended. `DeleteLocation` on a registered location that is neither destroying nor
destroyed, with registered players, makes its steps in this order: the location and then its
maps are marked destroying; `LocationFinish` is raised for the location and then `MapFinish`
for every map; the players who know the location are notified; the content of every map is
deleted and the list of maps of the location is cleared; the location and then its maps are
unregistered; the location and then its maps are marked destroyed; the location and then
its maps are handed to deferred release. Afterwards neither the location nor any of its maps
is registered, and the other entities are registered as before. -/
theorem DeleteLocation_order (mm : MapManager) (loc_id : Nat) (gmap_players : Option (List Nat))
    (clients : List Nat) (loc : Location) (hloc : mm.Locations loc_id = some loc)
    (hing : loc.IsDestroying = false) (hed : loc.IsDestroyed = false)
    (hreg : ∀ cl ∈ gmap_players.getD clients, (mm.Critters cl).isSome = true) :
    ∃ mm', DeleteLocation mm loc_id gmap_players clients = some (mm',
      (DeleteStep.locDestroying loc_id :: loc.LocMaps.map DeleteStep.mapDestroying) ++
      (DeleteStep.raiseLocationFinish loc_id :: loc.LocMaps.map DeleteStep.raiseMapFinish) ++
      ((gmap_players.getD clients).filter (KnowsLocation mm loc_id)).map
        (fun cl => DeleteStep.sendGlobalLocation cl loc_id) ++
      (loc.LocMaps.map DeleteStep.deleteContent ++ [DeleteStep.clearMaps loc_id]) ++
      (DeleteStep.unregisterLoc loc_id :: loc.LocMaps.map DeleteStep.unregisterMap) ++
      (DeleteStep.locDestroyed loc_id :: loc.LocMaps.map DeleteStep.mapDestroyed) ++
      (DeleteStep.releaseLoc loc_id :: loc.LocMaps.map DeleteStep.releaseMap)) ∧
      mm'.Locations loc_id = none ∧ (∀ id ∈ loc.LocMaps, mm'.Maps id = none) ∧
      (∀ id, id ≠ loc_id → mm'.Locations id = mm.Locations id) ∧
      (∀ id, id ∉ loc.LocMaps → mm'.Maps id = mm.Maps id) ∧ mm'.Critters = mm.Critters := by
  refine ⟨UnregisterLocation mm loc_id loc.LocMaps, ?_, ?_, ?_, ?_, ?_, rfl⟩
  · unfold DeleteLocation
    rw [hloc]
    simp only [hing, hed, Bool.or_self, Bool.false_eq_true, if_false]
    cases gmap_players with
    | none =>
      simp only [Option.getD_none] at hreg ⊢
      rw [DeleteLocationNotify_eq mm loc_id _ _ hreg]
      simp only [DeleteLocationMaps_eq, List.append_assoc, List.cons_append, List.nil_append,
        List.singleton_append]
    | some ps =>
      simp only [Option.getD_some] at hreg ⊢
      rw [DeleteLocationNotify_eq mm loc_id _ _ hreg]
      simp only [DeleteLocationMaps_eq, List.append_assoc, List.cons_append, List.nil_append,
        List.singleton_append]
  · simp [UnregisterLocation]
  · intro id hid
    simp [UnregisterLocation, hid]
  · intro id hid
    simp [UnregisterLocation, hid]
  · intro id hid
    simp [UnregisterLocation, hid]

theorem DeleteLocation_order_witness :
    ∃ mm', DeleteLocation sampleDoomedWorld 1 none [5, 6] = some (mm',
      (DeleteStep.locDestroying 1 ::
        ({ ToGarbage := true, GeckCount := 0, LocMaps := [1, 2] } : Location).LocMaps.map
          DeleteStep.mapDestroying) ++
      (DeleteStep.raiseLocationFinish 1 ::
        ({ ToGarbage := true, GeckCount := 0, LocMaps := [1, 2] } : Location).LocMaps.map
          DeleteStep.raiseMapFinish) ++
      (((none : Option (List Nat)).getD [5, 6]).filter (KnowsLocation sampleDoomedWorld 1)).map
        (fun cl => DeleteStep.sendGlobalLocation cl 1) ++
      (({ ToGarbage := true, GeckCount := 0, LocMaps := [1, 2] } : Location).LocMaps.map
          DeleteStep.deleteContent ++ [DeleteStep.clearMaps 1]) ++
      (DeleteStep.unregisterLoc 1 ::
        ({ ToGarbage := true, GeckCount := 0, LocMaps := [1, 2] } : Location).LocMaps.map
          DeleteStep.unregisterMap) ++
      (DeleteStep.locDestroyed 1 ::
        ({ ToGarbage := true, GeckCount := 0, LocMaps := [1, 2] } : Location).LocMaps.map
          DeleteStep.mapDestroyed) ++
      (DeleteStep.releaseLoc 1 ::
        ({ ToGarbage := true, GeckCount := 0, LocMaps := [1, 2] } : Location).LocMaps.map
          DeleteStep.releaseMap)) ∧
      mm'.Locations 1 = none ∧
      (∀ id ∈ ({ ToGarbage := true, GeckCount := 0, LocMaps := [1, 2] } : Location).LocMaps,
        mm'.Maps id = none) ∧
      (∀ id, id ≠ 1 → mm'.Locations id = sampleDoomedWorld.Locations id) ∧
      (∀ id, id ∉ ({ ToGarbage := true, GeckCount := 0, LocMaps := [1, 2] } : Location).LocMaps →
        mm'.Maps id = sampleDoomedWorld.Maps id) ∧
      mm'.Critters = sampleDoomedWorld.Critters :=
  DeleteLocation_order sampleDoomedWorld 1 none [5, 6]
    { ToGarbage := true, GeckCount := 0, LocMaps := [1, 2] } rfl rfl rfl (by decide)

/-! ## The cells of the scratch grid that a search touches -/

/-- The cells of the neighbours of a hex of the flood are one column and one row further
from the start hex at most. -/
theorem FindPathNeighboursAccess_near (E : Engine) (map : Map) (pfd : PathFindData)
    (ctx : FloodCtx E map pfd) (cx cy : Nat) (k : Int) (hcx : cx < map.Width)
    (hcy : cy < map.Height) (hnear : Near pfd k cx cy) :
    ∀ (offs : List (Int × Int)), (∀ s ∈ offs, -1 ≤ s.1 ∧ s.1 ≤ 1 ∧ -1 ≤ s.2 ∧ s.2 ≤ 1) →
    ∀ a ∈ FindPathNeighboursAccess map cx cy offs, Near pfd (k + 1) a.1 a.2 := by
  intro offs
  induction offs with
  | nil => intro _ a ha; simp [FindPathNeighboursAccess] at ha
  | cons s rest ih =>
    intro hb a ha
    rw [FindPathNeighboursAccess, List.mem_append] at ha
    rcases ha with ha | ha
    · unfold FindPathNeighbourAccess at ha
      simp only [] at ha
      split at ha
      · simp at ha
      · rename_i hin
        simp only [List.mem_singleton] at ha
        subst ha
        obtain ⟨b1, b2, b3, b4⟩ := hb s (by simp)
        have hw := ctx.width_le
        have hh := ctx.height_le
        have e1 := toShort_step cx (by omega) s.1 b1 b2
        have e2 := toShort_step cy (by omega) s.2 b3 b4
        unfold Near at hnear ⊢
        simp only [] at hnear ⊢
        omega
    · exact ih (fun s hs => hb s (List.mem_cons_of_mem _ hs)) a ha

/-- The cells of a layer of the flood are within `FPATH_MAX_PATH - 1` columns and rows of
the start hex. -/
theorem FindPathLayerAccess_near (E : Engine) (map : Map) (pfd : PathFindData)
    (ctx : FloodCtx E map pfd) (n : Nat) :
    ∀ (f : Flood) (p : Nat), FloodInv E map pfd f →
    ∀ a ∈ FindPathLayerAccess E map pfd n f p,
      Near pfd ((E.FPATH_MAX_PATH : Int) - 1) a.1 a.2 := by
  induction n with
  | zero => intro f p _ a ha; simp [FindPathLayerAccess] at ha
  | succ n ih =>
    intro f p hinv a ha
    rw [FindPathLayerAccess] at ha
    cases hget : f.coords.get? p with
    | none => rw [hget] at ha; simp at ha
    | some c =>
      obtain ⟨cx, cy⟩ := c
      rw [hget] at ha
      simp only [] at ha
      have hc : (cx, cy) ∈ f.coords := List.get?_mem hget
      obtain ⟨c1, c2, c3, c4, c5⟩ := hinv.coords_ok _ hc
      simp only [] at c1 c2 c3 c4 c5
      have hcell : cellAt E pfd f.Grid cx cy = f.Grid (GRID E pfd.FromX pfd.FromY cx cy) := rfl
      rw [List.mem_cons] at ha
      rcases ha with ha | ha
      · subst ha
        exact Near_mono pfd _ _ _ _ c5 (by omega)
      · split at ha
        · simp at ha
        · split at ha
          · simp at ha
          · rename_i hd hfar
            have hle : f.Grid (GRID E pfd.FromX pfd.FromY cx cy) + 1 ≤ E.FPATH_MAX_PATH := by
              omega
            rw [List.mem_append] at ha
            rcases ha with ha | ha
            · have := FindPathNeighboursAccess_near E map pfd ctx cx cy _ c1 c2 c5 _
                (fun s hs => GetHexOffsets_bound E _ s (List.mem_of_mem_take hs)) a ha
              exact Near_mono pfd _ _ _ _ this (by omega)
            · have hoffs : ∀ s ∈ (GetHexOffsets E (cx % 2 != 0)).take (DIRS_COUNT E),
                  s ∈ GetHexOffsets E (cx % 2 != 0) := fun s hs => List.mem_of_mem_take hs
              obtain ⟨h1, _, _⟩ := FindPathNeighbours_inv E map pfd ctx cx cy
                (f.Grid (GRID E pfd.FromX pfd.FromY cx cy) + 1) hle
                ((GetHexOffsets E (cx % 2 != 0)).take (DIRS_COUNT E)) f 0 hinv hc rfl hoffs
              exact ih _ (p + 1) h1 a ha

/-- The cells of the hexes in the three vectors of the flood are within
`FPATH_MAX_PATH - 1` columns and rows of the start hex. -/
theorem FloodInv_near (E : Engine) (map : Map) (pfd : PathFindData) (f : Flood)
    (hinv : FloodInv E map pfd f) (c : UShortPair)
    (hc : c ∈ f.coords ∨ c ∈ f.gag_coords ∨ c ∈ f.cr_coords) :
    Near pfd ((E.FPATH_MAX_PATH : Int) - 1) c.1 c.2 := by
  rcases hc with hc | hc | hc
  · obtain ⟨_, _, c3, c4, c5⟩ := hinv.coords_ok _ hc
    exact Near_mono pfd _ _ _ _ c5 (by omega)
  · obtain ⟨_, _, k, _, k2, _, k4⟩ := hinv.gag_ok _ hc
    exact Near_mono pfd _ _ _ _ k4 (by omega)
  · obtain ⟨_, _, k, _, k2, _, k4⟩ := hinv.cr_ok _ hc
    exact Near_mono pfd _ _ _ _ k4 (by omega)

/-- The cells of the block `// Add gag hex after some distance` are cells of hexes of the
vectors. -/
theorem FindPathAddGagAccess_near (E : Engine) (map : Map) (pfd : PathFindData) (f : Flood)
    (hinv : FloodInv E map pfd f) :
    ∀ a ∈ FindPathAddGagAccess f, Near pfd ((E.FPATH_MAX_PATH : Int) - 1) a.1 a.2 := by
  intro a ha
  unfold FindPathAddGagAccess at ha
  split at ha
  · simp at ha
  · rename_i xy rest hg
    split at ha
    · simp at ha
    · rename_i back hb
      simp only [List.mem_cons, List.mem_singleton, List.not_mem_nil, or_false] at ha
      rcases ha with ha | ha
      · subst ha
        exact FloodInv_near E map pfd f hinv back (Or.inl (List.mem_of_getLast?_eq_some hb))
      · subst ha
        exact FloodInv_near E map pfd f hinv xy (Or.inr (Or.inl (by rw [hg]; simp)))

/-- The cell of the block `// Add gag and critters hexes` is the cell of a hex of the two
queues. -/
theorem FindPathAddSoftAccess_near (E : Engine) (map : Map) (pfd : PathFindData) (f : Flood)
    (hinv : FloodInv E map pfd f) :
    ∀ a ∈ FindPathAddSoftAccess f, Near pfd ((E.FPATH_MAX_PATH : Int) - 1) a.1 a.2 := by
  intro a ha
  unfold FindPathAddSoftAccess at ha
  split at ha
  · rename_i xy rest hg
    simp only [List.mem_singleton] at ha
    subst ha
    exact FloodInv_near E map pfd f hinv xy (Or.inr (Or.inl (by rw [hg]; simp)))
  · split at ha
    · rename_i xy rest hg
      simp only [List.mem_singleton] at ha
      subst ha
      exact FloodInv_near E map pfd f hinv xy (Or.inr (Or.inr (by rw [hg]; simp)))
    · simp at ha

/-- One round of the cells of the loop `while( true )`. -/
theorem FindPathFloodAccess_succ (E : Engine) (map : Map) (pfd : PathFindData) (fuel : Nat)
    (f : Flood) (p p_togo : Nat) :
    FindPathFloodAccess E map pfd (fuel + 1) f p p_togo =
      FindPathLayerAccess E map pfd p_togo f p ++
        match FindPathLayer E map pfd p_togo f p with
        | some (Sum.inr (f1, p1)) =>
          FindPathAddGagAccess f1 ++
            match FindPathAddGag E pfd f1 with
            | none => []
            | some f2 =>
              let p_togo1 := f2.coords.length - p1
              let r := if p_togo1 = 0 then FindPathAddSoft E pfd f2 else (f2, p_togo1)
              (if p_togo1 = 0 then FindPathAddSoftAccess f2 else []) ++
                (if r.2 = 0 then [] else FindPathFloodAccess E map pfd fuel r.1 p1 r.2)
        | _ => [] := by
  delta FindPathFloodAccess
  rfl

/-- The cells of the flood are within `FPATH_MAX_PATH - 1` columns and rows of the start
hex. -/
theorem FindPathFloodAccess_near (E : Engine) (map : Map) (pfd : PathFindData)
    (ctx : FloodCtx E map pfd) (fuel : Nat) :
    ∀ (f : Flood) (p p_togo : Nat), FloodInv E map pfd f →
    ∀ a ∈ FindPathFloodAccess E map pfd fuel f p p_togo,
      Near pfd ((E.FPATH_MAX_PATH : Int) - 1) a.1 a.2 := by
  induction fuel with
  | zero => intro f p p_togo _ a ha; simp [FindPathFloodAccess] at ha
  | succ fuel ih =>
    intro f p p_togo hinv a ha
    rw [FindPathFloodAccess_succ, List.mem_append] at ha
    rcases ha with ha | ha
    · exact FindPathLayerAccess_near E map pfd ctx p_togo f p hinv a ha
    · have hl := FindPathLayer_inv E map pfd ctx p_togo f p hinv
      cases hlayer : FindPathLayer E map pfd p_togo f p with
      | none => rw [hlayer] at ha; simp at ha
      | some r =>
        cases r with
        | inl e => rw [hlayer] at ha; simp at ha
        | inr r =>
          obtain ⟨f1, p1⟩ := r
          rw [hlayer] at ha hl
          simp only [] at ha hl
          rw [List.mem_append] at ha
          rcases ha with ha | ha
          · exact FindPathAddGagAccess_near E map pfd f1 hl a ha
          · cases hgag : FindPathAddGag E pfd f1 with
            | none => rw [hgag] at ha; simp at ha
            | some f2 =>
              rw [hgag] at ha
              simp only [] at ha
              have h2 := FindPathAddGag_inv E map pfd f1 f2 ctx hl hgag
              rw [List.mem_append] at ha
              rcases ha with ha | ha
              · by_cases hz : f2.coords.length - p1 = 0
                · rw [if_pos hz] at ha
                  exact FindPathAddSoftAccess_near E map pfd f2 h2 a ha
                · rw [if_neg hz] at ha
                  simp at ha
              · by_cases hz : f2.coords.length - p1 = 0
                · rw [if_pos hz] at ha
                  by_cases hr : (FindPathAddSoft E pfd f2).2 = 0
                  · rw [if_pos hr] at ha
                    simp at ha
                  · rw [if_neg hr] at ha
                    exact ih _ _ _ (FindPathAddSoft_inv E map pfd f2 ctx h2) a ha
                · rw [if_neg hz] at ha
                  by_cases hr : (f2, f2.coords.length - p1).2 = 0
                  · rw [if_pos hr] at ha
                    simp at ha
                  · rw [if_neg hr] at ha
                    exact ih _ _ _ h2 a ha

/-- The cells probed by `FindPathGrid` are one column and one row further from the start
hex than the hex it is called for, at most. -/
theorem FindPathGridScanAccess_near (E : Engine) (pfd : PathFindData) (grid : GridBuf)
    (hx hy : Nat) (index : Int) (k : Int) (hnear : Near pfd k hx hy) :
    ∀ (probes : List (Int × Int × Int)),
    (∀ q ∈ probes, -1 ≤ q.1 ∧ q.1 ≤ 1 ∧ -1 ≤ q.2.1 ∧ q.2.1 ≤ 1) →
    ∀ a ∈ FindPathGridScanAccess E grid pfd.FromX pfd.FromY hx hy index probes,
      Near pfd (k + 1) a.1 a.2 := by
  intro probes
  induction probes with
  | nil => intro _ a ha; simp [FindPathGridScanAccess] at ha
  | cons q rest ih =>
    intro hb a ha
    obtain ⟨dx, dy, dir⟩ := q
    rw [FindPathGridScanAccess, List.mem_cons] at ha
    rcases ha with ha | ha
    · subst ha
      obtain ⟨b1, b2, b3, b4⟩ := hb (dx, dy, dir) (by simp)
      simp only [] at b1 b2 b3 b4
      unfold Near at hnear ⊢
      simp only [] at hnear ⊢
      omega
    · split at ha
      · simp at ha
      · exact ih (fun q hq => hb q (List.mem_cons_of_mem _ hq)) a ha

/-- One round of the cells of the backtrace. -/
theorem FindPathBacktraceAccess_succ (E : Engine) (grid : GridBuf) (offsX offsY : Int)
    (smooth_count : Int) (n : Nat) (b : Backtrace) :
    FindPathBacktraceAccess E grid offsX offsY smooth_count (n + 1) b =
      FindPathGridScanAccess E grid offsX offsY b.cx b.cy ((n : Int) + 2 - 1)
          (FindPathGridProbes E (b.cx % 2 != 0)
            (if E.MapSmoothPath then
              if E.MapHexagonal then
                (if ((n : Int) + 2) % 2 ≠ 0 then !b.smooth_switcher else b.smooth_switcher)
              else decide (smooth_count < 2 ∨ b.smooth_iteration.tmod smooth_count ≠ 0)
            else b.smooth_switcher)) ++
        (if (FindPathGrid E grid offsX offsY b.cx b.cy ((n : Int) + 2 - 1)
            (if E.MapSmoothPath then
              if E.MapHexagonal then
                (if ((n : Int) + 2) % 2 ≠ 0 then !b.smooth_switcher else b.smooth_switcher)
              else decide (smooth_count < 2 ∨ b.smooth_iteration.tmod smooth_count ≠ 0)
            else b.smooth_switcher)).1 = -1 then []
        else
          FindPathBacktraceAccess E grid offsX offsY smooth_count n
            { path := b.path.set n
                { (b.path.getD n default) with
                  HexX := b.cx, HexY := b.cy,
                  Dir := (FindPathGrid E grid offsX offsY b.cx b.cy ((n : Int) + 2 - 1)
                    (if E.MapSmoothPath then
                      if E.MapHexagonal then
                        (if ((n : Int) + 2) % 2 ≠ 0 then !b.smooth_switcher
                          else b.smooth_switcher)
                      else decide (smooth_count < 2 ∨
                        b.smooth_iteration.tmod smooth_count ≠ 0)
                    else b.smooth_switcher)).1.toNat },
              cx := (FindPathGrid E grid offsX offsY b.cx b.cy ((n : Int) + 2 - 1)
                (if E.MapSmoothPath then
                  if E.MapHexagonal then
                    (if ((n : Int) + 2) % 2 ≠ 0 then !b.smooth_switcher else b.smooth_switcher)
                  else decide (smooth_count < 2 ∨ b.smooth_iteration.tmod smooth_count ≠ 0)
                else b.smooth_switcher)).2.1,
              cy := (FindPathGrid E grid offsX offsY b.cx b.cy ((n : Int) + 2 - 1)
                (if E.MapSmoothPath then
                  if E.MapHexagonal then
                    (if ((n : Int) + 2) % 2 ≠ 0 then !b.smooth_switcher else b.smooth_switcher)
                  else decide (smooth_count < 2 ∨ b.smooth_iteration.tmod smooth_count ≠ 0)
                else b.smooth_switcher)).2.2,
              smooth_switcher :=
                (if E.MapSmoothPath then
                  if E.MapHexagonal then
                    (if ((n : Int) + 2) % 2 ≠ 0 then !b.smooth_switcher else b.smooth_switcher)
                  else decide (smooth_count < 2 ∨ b.smooth_iteration.tmod smooth_count ≠ 0)
                else b.smooth_switcher),
              smooth_iteration := b.smooth_iteration + 1 }) := by
  delta FindPathBacktraceAccess
  rfl

/-- The cells probed by the backtrace are within `FPATH_MAX_PATH` columns and rows of the
start hex. -/
theorem FindPathBacktraceAccess_near (E : Engine) (map : Map) (pfd : PathFindData) (f : Flood)
    (ctx : FloodCtx E map pfd) (hinv : FloodInv E map pfd f) (smooth_count : Int) :
    ∀ (n : Nat) (b : Backtrace), b.cx < map.Width → b.cy < map.Height →
      Near pfd ((E.FPATH_MAX_PATH : Int) - 1) b.cx b.cy →
      cellAt E pfd f.Grid b.cx b.cy = (n : Int) + 1 → (n : Int) + 1 ≤ E.FPATH_MAX_PATH →
      ∀ a ∈ FindPathBacktraceAccess E f.Grid pfd.FromX pfd.FromY smooth_count n b,
        Near pfd (E.FPATH_MAX_PATH : Int) a.1 a.2 := by
  intro n
  induction n with
  | zero => intro b _ _ _ _ _ a ha; simp [FindPathBacktraceAccess] at ha
  | succ n ih =>
    intro b hx hy hnear hcell hmax a ha
    rw [FindPathBacktraceAccess_succ, List.mem_append] at ha
    rcases ha with ha | ha
    · have := FindPathGridScanAccess_near E pfd f.Grid b.cx b.cy _ _ hnear _
        (fun q hq => GetHexOffsets_bound E _ (q.1, q.2.1) (FindPathGridProbes_mem E _ _ q hq))
        a ha
      exact Near_mono pfd _ _ _ _ this (by omega)
    · have hcell2 : cellAt E pfd f.Grid b.cx b.cy = (n : Int) + 2 := by
        rw [hcell]; push_cast; ring
      obtain ⟨_, dir, x, y, g1, g2, g3, g4, g5, g6, g7⟩ :=
        FindPathGrid_spec E map pfd f ctx hinv b.cx b.cy n
          (if E.MapSmoothPath then
            if E.MapHexagonal then
              (if ((n : Int) + 2) % 2 ≠ 0 then !b.smooth_switcher else b.smooth_switcher)
            else decide (smooth_count < 2 ∨ b.smooth_iteration.tmod smooth_count ≠ 0)
          else b.smooth_switcher) hx hy hnear hcell2 (by push_cast at hmax; omega)
      simp only [g1] at ha
      rw [if_neg (by omega)] at ha
      exact ih _ g3 g4 g5 g6 (by push_cast at hmax; omega) a ha

/-- A cell within `FPATH_MAX_PATH` columns and rows of the start hex lies in the buffer of
`( FPATH_MAX_PATH * 2 + 2 ) * ( FPATH_MAX_PATH * 2 + 2 )` cells. -/
theorem GRID_in_buffer (E : Engine) (pfd : PathFindData) (x y : Int)
    (h : Near pfd (E.FPATH_MAX_PATH : Int) x y) :
    0 ≤ GRID E pfd.FromX pfd.FromY x y ∧
    GRID E pfd.FromX pfd.FromY x y <
      ((E.FPATH_MAX_PATH : Int) * 2 + 2) * ((E.FPATH_MAX_PATH : Int) * 2 + 2) := by
  obtain ⟨h1, h2, h3, h4⟩ := h
  unfold GRID
  have hr0 : (0 : Int) ≤ (E.FPATH_MAX_PATH : Int) + 1 + y - pfd.FromY := by omega
  have hr1 : (E.FPATH_MAX_PATH : Int) + 1 + y - pfd.FromY ≤ (E.FPATH_MAX_PATH : Int) * 2 + 1 := by
    omega
  have hc0 : (0 : Int) ≤ (E.FPATH_MAX_PATH : Int) + 1 + x - pfd.FromX := by omega
  have hc1 : (E.FPATH_MAX_PATH : Int) + 1 + x - pfd.FromX ≤ (E.FPATH_MAX_PATH : Int) * 2 + 1 := by
    omega
  have hm : (0 : Int) ≤ (E.FPATH_MAX_PATH : Int) * 2 + 2 := by omega
  constructor
  · have := mul_nonneg hr0 hm
    omega
  · have := mul_le_mul_of_nonneg_right hr1 hm
    nlinarith

/-- C27. With a depth limit that is positive and leaves the mark bits free and a map whose
sides fit `ushort`: every cell of the scratch grid that `FindPath` and `FindPathGrid` read or
write through the macro `GRID` (the cell of the start hex, the cells of the hexes taken from
`coords` and of their neighbours on the map, the cells looked up for the gag and critter
queues, and the cells probed by the backtrace, also those at the coordinate `-1` or past the
edge of the map) has both offsets from the start hex within
`-(FPATH_MAX_PATH + 1) .. FPATH_MAX_PATH`, and so its index lies in the buffer of
`( FPATH_MAX_PATH * 2 + 2 ) * ( FPATH_MAX_PATH * 2 + 2 )` cells. -/
theorem FindPath_grid_access (E : Engine) (mm : MapManager) (pfd : PathFindData) (map : Map)
    (hmap : GetMap mm pfd.MapId = some map)
    (hmax0 : 0 < E.FPATH_MAX_PATH) (hmax : E.FPATH_MAX_PATH < 16384)
    (hw : map.Width ≤ 65535) (hh : map.Height ≤ 65535) :
    ∀ a ∈ FindPathAccess E mm pfd,
      -((E.FPATH_MAX_PATH : Int) + 1) ≤ a.1 - pfd.FromX ∧ a.1 - pfd.FromX ≤ E.FPATH_MAX_PATH ∧
      -((E.FPATH_MAX_PATH : Int) + 1) ≤ a.2 - pfd.FromY ∧ a.2 - pfd.FromY ≤ E.FPATH_MAX_PATH ∧
      0 ≤ GRID E pfd.FromX pfd.FromY a.1 a.2 ∧
      GRID E pfd.FromX pfd.FromY a.1 a.2 <
        ((E.FPATH_MAX_PATH : Int) * 2 + 2) * ((E.FPATH_MAX_PATH : Int) * 2 + 2) := by
  suffices key : ∀ a ∈ FindPathAccess E mm pfd, Near pfd (E.FPATH_MAX_PATH : Int) a.1 a.2 by
    intro a ha
    have hn := key a ha
    obtain ⟨g1, g2⟩ := GRID_in_buffer E pfd a.1 a.2 hn
    obtain ⟨h1, h2, h3, h4⟩ := hn
    exact ⟨by omega, by omega, by omega, by omega, g1, g2⟩
  intro a ha
  unfold FindPathAccess at ha
  rw [hmap] at ha
  simp only [] at ha
  by_cases h1 : pfd.Trace ≠ 0 ∧ pfd.TraceCr.isNone = true
  · rw [if_pos h1] at ha; simp at ha
  rw [if_neg h1] at ha
  by_cases h2 : pfd.FromX ≥ map.Width ∨ pfd.FromY ≥ map.Height ∨ pfd.ToX ≥ map.Width ∨
      pfd.ToY ≥ map.Height
  · rw [if_pos h2] at ha; simp at ha
  rw [if_neg h2] at ha
  by_cases h3 : CheckDist E pfd.FromX pfd.FromY pfd.ToX pfd.ToY pfd.Cut = true
  · rw [if_pos h3] at ha; simp at ha
  rw [if_neg h3] at ha
  by_cases h4 : pfd.Cut = 0 ∧ FLAG (E.GetHexFlags map pfd.ToX pfd.ToY) E.FH_NOWAY = true
  · rw [if_pos h4] at ha; simp at ha
  rw [if_neg h4] at ha
  by_cases h5 : pfd.Cut ≤ 1 ∧ pfd.Multihex = 0 ∧
      FindPathRingBusy E map pfd.ToX pfd.ToY
        ((GetHexOffsets E (pfd.ToX % 2 != 0)).take (DIRS_COUNT E)) = true
  · rw [if_pos h5] at ha; simp at ha
  rw [if_neg h5] at ha
  · have ctx : FloodCtx E map pfd := ⟨hmax0, hmax, hw, hh, by omega, by omega⟩
    rw [List.mem_cons, List.mem_append] at ha
    rcases ha with ha | ha | ha
    · subst ha
      unfold Near
      simp only []
      omega
    · have hinit : FloodInv E map pfd (FindPathStart E pfd) := FloodInv_init E map pfd ctx
      exact Near_mono pfd _ _ _ _
        (FindPathFloodAccess_near E map pfd ctx _ _ 0 1 hinit a ha) (by omega)
    · cases hfl : FindPathFlood E map pfd (map.Width * map.Height + 1)
          (FindPathStart E pfd) 0 1 with
      | none => rw [hfl] at ha; simp at ha
      | some e =>
        cases e with
        | tooFar => rw [hfl] at ha; simp at ha
        | deadlock => rw [hfl] at ha; simp at ha
        | findOk f cx cy numindex =>
          rw [hfl] at ha
          simp only [] at ha
          obtain ⟨hinv, hmem, hnum, _⟩ := FindPathStart_good E map pfd ctx _ _ hfl
          obtain ⟨c1, c2, c3, c4, c5⟩ := hinv.coords_ok _ hmem
          simp only [] at c1 c2 c3 c4 c5
          exact FindPathBacktraceAccess_near E map pfd f ctx hinv _ _ _ c1 c2
            (Near_mono pfd _ _ _ _ c5 (by omega))
            (by simp only []; rw [Int.toNat_of_nonneg (by omega)]; omega)
            (by rw [Int.toNat_of_nonneg (by omega)]; omega) a ha

theorem FindPath_grid_access_witness :
    GetMap (sampleManager (sampleMap 10 10 [((2, 2), 1), ((3, 3), 1)] []))
      (sampleRequest 0 0 5 5 0).MapId = some (sampleMap 10 10 [((2, 2), 1), ((3, 3), 1)] []) ∧
    ∀ a ∈ FindPathAccess (sampleEngine true true 400)
        (sampleManager (sampleMap 10 10 [((2, 2), 1), ((3, 3), 1)] [])) (sampleRequest 0 0 5 5 0),
      -(((sampleEngine true true 400).FPATH_MAX_PATH : Int) + 1) ≤
        a.1 - (sampleRequest 0 0 5 5 0).FromX ∧
      a.1 - (sampleRequest 0 0 5 5 0).FromX ≤ (sampleEngine true true 400).FPATH_MAX_PATH ∧
      -(((sampleEngine true true 400).FPATH_MAX_PATH : Int) + 1) ≤
        a.2 - (sampleRequest 0 0 5 5 0).FromY ∧
      a.2 - (sampleRequest 0 0 5 5 0).FromY ≤ (sampleEngine true true 400).FPATH_MAX_PATH ∧
      0 ≤ GRID (sampleEngine true true 400) (sampleRequest 0 0 5 5 0).FromX
        (sampleRequest 0 0 5 5 0).FromY a.1 a.2 ∧
      GRID (sampleEngine true true 400) (sampleRequest 0 0 5 5 0).FromX
          (sampleRequest 0 0 5 5 0).FromY a.1 a.2 <
        (((sampleEngine true true 400).FPATH_MAX_PATH : Int) * 2 + 2) *
          (((sampleEngine true true 400).FPATH_MAX_PATH : Int) * 2 + 2) :=
  ⟨rfl, FindPath_grid_access (sampleEngine true true 400)
    (sampleManager (sampleMap 10 10 [((2, 2), 1), ((3, 3), 1)] [])) (sampleRequest 0 0 5 5 0)
    (sampleMap 10 10 [((2, 2), 1), ((3, 3), 1)] []) rfl (by decide) (by decide) (by decide)
    (by decide)⟩

/-- On an open square map of one row of three hexes the search from `(2, 0)` to `(0, 0)`
reads and writes these cells, in this order; its backtrace probes the cells at the
coordinates `(-1, 0)`, `(0, -1)` and `(0, 1)`, which are off the map. -/
theorem FindPathAccess_sample :
    FindPathAccess (sampleEngine false false 400) (sampleManager (sampleMap 3 1 [] []))
        (sampleRequest 2 0 0 0 0) =
      [(2, 0), (2, 0), (1, 0), (1, 0), (0, 0), (2, 0), (0, 0), (-1, 0), (0, -1), (0, 1), (1, 0),
        (0, 0), (1, -1), (1, 1), (2, 0)] := by decide!

/-! ## The deadlock of the flood -/

/-- What the body of the loop over the neighbours does for one neighbour, for a request
with `Multihex = 0` on a map whose sides fit a `short`: it leaves the vectors as they are,
or it sets the cell of the neighbour, which was 0, and puts the neighbour into `coords` or
into a queue if the request admits it; afterwards the cell of the neighbour is set if the
neighbour is on the map. -/
theorem FindPathNeighbour_store (E : Engine) (map : Map) (pfd : PathFindData) (f : Flood)
    (ctx : FloodCtx E map pfd) (hinv : FloodInv E map pfd f)
    (cx cy : Nat) (hc : (cx, cy) ∈ f.coords) (numindex : Int)
    (hnum : numindex = cellAt E pfd f.Grid cx cy + 1) (hle : numindex ≤ E.FPATH_MAX_PATH)
    (j : Nat) (s : Int × Int) (hs : s ∈ GetHexOffsets E (cx % 2 != 0))
    (hmulti : pfd.Multihex = 0) (hws : map.Width ≤ 32767) (hhs : map.Height ≤ 32767) :
    (∀ c, (c ∈ f.coords ∨ c ∈ f.gag_coords ∨ c ∈ f.cr_coords) →
      (c ∈ (FindPathNeighbour E map pfd cx cy numindex f j s).coords ∨
        c ∈ (FindPathNeighbour E map pfd cx cy numindex f j s).gag_coords ∨
        c ∈ (FindPathNeighbour E map pfd cx cy numindex f j s).cr_coords)) ∧
    (FindPathNeighbour E map pfd cx cy numindex f j s = f ∨
      ∃ (nx ny : Nat) (v : Int), nx < map.Width ∧ ny < map.Height ∧
        Near pfd ((E.FPATH_MAX_PATH : Int) - 1) nx ny ∧
        (FindPathNeighbour E map pfd cx cy numindex f j s).Grid =
          gridSet f.Grid (GRID E pfd.FromX pfd.FromY nx ny) v ∧
        (Admitted E map pfd nx ny →
          (nx, ny) ∈ (FindPathNeighbour E map pfd cx cy numindex f j s).coords ∨
          (nx, ny) ∈ (FindPathNeighbour E map pfd cx cy numindex f j s).gag_coords ∨
          (nx, ny) ∈ (FindPathNeighbour E map pfd cx cy numindex f j s).cr_coords)) ∧
    (∀ x y : Nat, (x : Int) = cx + s.1 → (y : Int) = cy + s.2 → x < map.Width →
      y < map.Height →
      cellAt E pfd (FindPathNeighbour E map pfd cx cy numindex f j s).Grid x y ≠ 0) := by
  have hM := ctx.max_lt
  obtain ⟨hcx, hcy, hi1, hi2, hinear⟩ := hinv.coords_ok _ hc
  simp only [] at hcx hcy hi1 hi2 hinear
  have hsb := GetHexOffsets_bound E _ s hs
  have c1 : toShort (cx : Int) = cx := toShort_of_range _ (by omega) (by omega)
  have c2 : toShort (cy : Int) = cy := toShort_of_range _ (by omega) (by omega)
  unfold FindPathNeighbour
  simp only [c1, c2]
  by_cases hout : (cx : Int) + s.1 < 0 ∨ (cy : Int) + s.2 < 0 ∨ (cx : Int) + s.1 ≥ map.Width ∨
      (cy : Int) + s.2 ≥ map.Height
  · have hout2 : toShort ((cx : Int) + s.1) < 0 ∨ toShort ((cy : Int) + s.2) < 0 ∨
        toShort ((cx : Int) + s.1) ≥ map.Width ∨ toShort ((cy : Int) + s.2) ≥ map.Height := by
      by_cases hx0 : (cx : Int) + s.1 < 0
      · left
        unfold toShort
        omega
      by_cases hy0 : (cy : Int) + s.2 < 0
      · right; left
        unfold toShort
        omega
      have e1 : toShort ((cx : Int) + s.1) = cx + s.1 := toShort_of_range _ (by omega) (by omega)
      have e2 : toShort ((cy : Int) + s.2) = cy + s.2 := toShort_of_range _ (by omega) (by omega)
      rw [e1, e2]
      omega
    rw [if_pos hout2]
    refine ⟨fun c h => h, Or.inl rfl, ?_⟩
    intro x y hx hy hxw hyh
    omega
  have e1 : toShort ((cx : Int) + s.1) = cx + s.1 := toShort_of_range _ (by omega) (by omega)
  have e2 : toShort ((cy : Int) + s.2) = cy + s.2 := toShort_of_range _ (by omega) (by omega)
  simp only [e1, e2]
  rw [if_neg hout]
  obtain ⟨nx, hnx⟩ := Int.eq_ofNat_of_zero_le (show 0 ≤ (cx : Int) + s.1 by omega)
  obtain ⟨ny, hny⟩ := Int.eq_ofNat_of_zero_le (show 0 ≤ (cy : Int) + s.2 by omega)
  rw [hnx, hny] at hout ⊢
  simp only [Int.toNat_ofNat]
  have hnxW : nx < map.Width := by omega
  have hnyH : ny < map.Height := by omega
  have hsame : ∀ x y : Nat, (x : Int) = nx → (y : Int) = ny → x = nx ∧ y = ny := by
    intro x y hx hy
    constructor <;> omega
  by_cases hnz : f.Grid (GRID E pfd.FromX pfd.FromY (nx : Int) (ny : Int)) ≠ 0
  · rw [if_pos hnz]
    refine ⟨fun c h => h, Or.inl rfl, ?_⟩
    intro x y hx hy _ _
    obtain ⟨rfl, rfl⟩ := hsame x y hx hy
    exact hnz
  rw [if_neg hnz]
  have hnear0 : Near pfd (numindex - 1) nx ny := by
    have := Near_step pfd _ _ _ s hinear hsb
    rw [hnx, hny] at this
    rw [hnum]
    exact Near_mono pfd _ _ _ _ this (by omega)
  have hnear : Near pfd ((E.FPATH_MAX_PATH : Int) - 1) nx ny :=
    Near_mono pfd _ _ _ _ hnear0 (by omega)
  have hn1 : 2 ≤ numindex := by omega
  have t0 : toShort numindex = numindex := toShort_of_range _ (by omega) (by omega)
  have t1 : toShort (intOr numindex 0x4000) = numindex + 16384 :=
    toShort_intOr_gag numindex (by omega) (by omega)
  have t2 : toShort (intOr numindex 0x8000) = numindex - 32768 :=
    toShort_intOr_cr numindex (by omega) (by omega)
  have hcellv : ∀ (v : Int), v ≠ 0 → ∀ x y : Nat, (x : Int) = nx → (y : Int) = ny →
      x < map.Width → y < map.Height →
      cellAt E pfd (gridSet f.Grid (GRID E pfd.FromX pfd.FromY nx ny) v) x y ≠ 0 := by
    intro v hv x y hx hy _ _
    obtain ⟨rfl, rfl⟩ := hsame x y hx hy
    rw [cellAt_gridSet_self]
    exact hv
  rw [if_pos hmulti]
  cases hway : FLAG (E.GetHexFlags map nx ny) E.FH_NOWAY
  · simp only [Bool.not_false, if_true, t0]
    refine ⟨?_, Or.inr ⟨nx, ny, numindex, hnxW, hnyH, hnear, rfl, fun _ => Or.inl (by simp)⟩,
      hcellv numindex (by omega)⟩
    rintro c (h | h | h)
    · exact Or.inl (List.mem_append_left _ h)
    · exact Or.inr (Or.inl h)
    · exact Or.inr (Or.inr h)
  · simp only [Bool.not_true, Bool.false_eq_true, if_false]
    by_cases hg : (pfd.CheckGagItems && FLAG (E.GetHexFlags map nx ny) (E.FH_GAG_ITEM <<< 8)) = true
    · rw [if_pos hg, t1]
      refine ⟨?_, Or.inr ⟨nx, ny, numindex + 16384, hnxW, hnyH, hnear, rfl,
        fun _ => Or.inr (Or.inl (by simp))⟩, hcellv (numindex + 16384) (by omega)⟩
      rintro c (h | h | h)
      · exact Or.inl h
      · exact Or.inr (Or.inl (List.mem_append_left _ h))
      · exact Or.inr (Or.inr h)
    · rw [if_neg hg]
      by_cases hcr : (pfd.CheckCrit && FLAG (E.GetHexFlags map nx ny) (E.FH_CRITTER <<< 8)) = true
      · rw [if_pos hcr, t2]
        refine ⟨?_, Or.inr ⟨nx, ny, numindex - 32768, hnxW, hnyH, hnear, rfl,
          fun _ => Or.inr (Or.inr (by simp))⟩, hcellv (numindex - 32768) (by omega)⟩
        rintro c (h | h | h)
        · exact Or.inl h
        · exact Or.inr (Or.inl h)
        · exact Or.inr (Or.inr (List.mem_append_left _ h))
      · rw [if_neg hcr]
        refine ⟨fun c h => h, Or.inr ⟨nx, ny, -1, hnxW, hnyH, hnear, rfl, ?_⟩,
          hcellv (-1) (by omega)⟩
        intro hadm
        exfalso
        rcases hadm with h | h | h | h
        · exact h hmulti
        · rw [hway] at h; cases h
        · exact hg (by rw [h.1, h.2]; rfl)
        · exact hcr (by rw [h.1, h.2]; rfl)

/-- A store into the cell of one hex near the start keeps the hexes with a set cell listed,
when the hex itself is listed afterwards if the request admits it. -/
theorem FloodClosed_listed_store (E : Engine) (map : Map) (pfd : PathFindData) (f f2 : Flood)
    (p : Nat) (hcl : FloodClosed E map pfd f p) (nx ny : Nat) (v : Int)
    (hnear : Near pfd ((E.FPATH_MAX_PATH : Int) - 1) nx ny)
    (hgrid : f2.Grid = gridSet f.Grid (GRID E pfd.FromX pfd.FromY nx ny) v)
    (hunion : ∀ c, (c ∈ f.coords ∨ c ∈ f.gag_coords ∨ c ∈ f.cr_coords) →
      (c ∈ f2.coords ∨ c ∈ f2.gag_coords ∨ c ∈ f2.cr_coords))
    (hnew : Admitted E map pfd nx ny →
      (nx, ny) ∈ f2.coords ∨ (nx, ny) ∈ f2.gag_coords ∨ (nx, ny) ∈ f2.cr_coords) :
    ∀ x y : Nat, x < map.Width → y < map.Height →
      Near pfd ((E.FPATH_MAX_PATH : Int) - 1) x y → cellAt E pfd f2.Grid x y ≠ 0 →
      Admitted E map pfd x y →
      (x, y) ∈ f2.coords ∨ (x, y) ∈ f2.gag_coords ∨ (x, y) ∈ f2.cr_coords := by
  intro x y hx hy hxy hcell hadm
  by_cases hsame : (x : Int) = nx ∧ (y : Int) = ny
  · have ex : x = nx := by omega
    have ey : y = ny := by omega
    subst ex ey
    exact hnew hadm
  · rw [hgrid, cellAt_gridSet_near E pfd f.Grid _ _ v x y
      (Near_mono pfd _ _ _ _ hnear (by omega)) (Near_mono pfd _ _ _ _ hxy (by omega)),
      if_neg hsame] at hcell
    exact hunion _ (hcl.listed x y hx hy hxy hcell hadm)

/-- A step of the flood that appends to `coords`, keeps every listed hex listed, keeps set
cells set and the cells of the hexes of `coords` as they are, keeps what is settled. -/
theorem FloodClosed_step (E : Engine) (map : Map) (pfd : PathFindData) (f f2 : Flood)
    (p : Nat) (hcl : FloodClosed E map pfd f p)
    (hco : ∃ l, f2.coords = f.coords ++ l)
    (hnz : ∀ q, f.Grid q ≠ 0 → f2.Grid q ≠ 0)
    (hsame : ∀ c ∈ f.coords, cellAt E pfd f2.Grid c.1 c.2 = cellAt E pfd f.Grid c.1 c.2)
    (hlisted : ∀ x y : Nat, x < map.Width → y < map.Height →
      Near pfd ((E.FPATH_MAX_PATH : Int) - 1) x y → cellAt E pfd f2.Grid x y ≠ 0 →
      Admitted E map pfd x y →
      (x, y) ∈ f2.coords ∨ (x, y) ∈ f2.gag_coords ∨ (x, y) ∈ f2.cr_coords) :
    FloodClosed E map pfd f2 p := by
  obtain ⟨l, hl⟩ := hco
  have htake : f2.coords.take p = f.coords.take p := by
    rw [hl, List.take_append_of_le_length hcl.p_le]
  refine ⟨?_, ?_, ?_, hlisted⟩
  · rw [hl, List.length_append]
    have := hcl.p_le
    omega
  · rw [hl]
    exact List.mem_append_left _ hcl.start
  · intro c hc
    rw [htake] at hc
    obtain ⟨d1, d2, d3⟩ := hcl.done c hc
    refine ⟨d1, ?_, ?_⟩
    · rw [hsame c (List.mem_of_mem_take hc)]
      exact d2
    · intro s hs x y hx hy hxw hyh
      exact hnz _ (d3 s hs x y hx hy hxw hyh)

/-- The body of the loop over the neighbours keeps what is settled and sets the cell of
the neighbour if it is on the map. -/
theorem FindPathNeighbour_closed (E : Engine) (map : Map) (pfd : PathFindData) (f : Flood)
    (ctx : FloodCtx E map pfd) (hinv : FloodInv E map pfd f) (p : Nat)
    (hcl : FloodClosed E map pfd f p)
    (cx cy : Nat) (hc : (cx, cy) ∈ f.coords) (numindex : Int)
    (hnum : numindex = cellAt E pfd f.Grid cx cy + 1) (hle : numindex ≤ E.FPATH_MAX_PATH)
    (j : Nat) (s : Int × Int) (hs : s ∈ GetHexOffsets E (cx % 2 != 0))
    (hmulti : pfd.Multihex = 0) (hws : map.Width ≤ 32767) (hhs : map.Height ≤ 32767) :
    FloodClosed E map pfd (FindPathNeighbour E map pfd cx cy numindex f j s) p ∧
    (∀ x y : Nat, (x : Int) = cx + s.1 → (y : Int) = cy + s.2 → x < map.Width →
      y < map.Height →
      cellAt E pfd (FindPathNeighbour E map pfd cx cy numindex f j s).Grid x y ≠ 0) := by
  obtain ⟨hunion, hstore, hcell⟩ := FindPathNeighbour_store E map pfd f ctx hinv cx cy hc
    numindex hnum hle j s hs hmulti hws hhs
  obtain ⟨hinv2, hkeep, hco⟩ := FindPathNeighbour_inv E map pfd f ctx hinv cx cy hc
    numindex hnum hle j s hs
  refine ⟨?_, hcell⟩
  rcases hstore with he | ⟨nx, ny, v, h1, h2, h3, h4, h5⟩
  · rw [he]; exact hcl
  · refine FloodClosed_step E map pfd f _ p hcl hco ?_ ?_
      (FloodClosed_listed_store E map pfd f _ p hcl nx ny v h3 h4 hunion h5)
    · intro q hq
      rw [hkeep q hq]
      exact hq
    · intro c hcm
      obtain ⟨_, _, k1, _, _⟩ := hinv.coords_ok c hcm
      unfold cellAt at k1 ⊢
      exact hkeep _ (by omega)

/-- The loop over the neighbours of a hex of `coords` keeps what is settled and sets the
cell of every neighbour on the map. -/
theorem FindPathNeighbours_closed (E : Engine) (map : Map) (pfd : PathFindData)
    (ctx : FloodCtx E map pfd) (p : Nat) (cx cy : Nat) (numindex : Int)
    (hle : numindex ≤ E.FPATH_MAX_PATH)
    (hmulti : pfd.Multihex = 0) (hws : map.Width ≤ 32767) (hhs : map.Height ≤ 32767) :
    ∀ (offs : List (Int × Int)) (f : Flood) (j : Nat), FloodInv E map pfd f →
      FloodClosed E map pfd f p → (cx, cy) ∈ f.coords →
      numindex = cellAt E pfd f.Grid cx cy + 1 →
      (∀ s ∈ offs, s ∈ GetHexOffsets E (cx % 2 != 0)) →
      FloodClosed E map pfd (FindPathNeighbours E map pfd cx cy numindex f j offs) p ∧
      (∀ s ∈ offs, ∀ x y : Nat, (x : Int) = cx + s.1 → (y : Int) = cy + s.2 →
        x < map.Width → y < map.Height →
        cellAt E pfd (FindPathNeighbours E map pfd cx cy numindex f j offs).Grid x y ≠ 0) := by
  intro offs
  induction offs with
  | nil =>
    intro f j _ hcl _ _ _
    rw [FindPathNeighbours_nil]
    exact ⟨hcl, fun s hs => absurd hs (List.not_mem_nil _)⟩
  | cons s rest ih =>
    intro f j hinv hcl hc hnum hoffs
    rw [FindPathNeighbours_cons]
    have hs := hoffs s (List.mem_cons_self _ _)
    obtain ⟨hinv1, hkeep1, l1, hl1⟩ := FindPathNeighbour_inv E map pfd f ctx hinv cx cy hc
      numindex hnum hle j s hs
    obtain ⟨hcl1, hcell1⟩ := FindPathNeighbour_closed E map pfd f ctx hinv p hcl cx cy hc
      numindex hnum hle j s hs hmulti hws hhs
    have hc1 : (cx, cy) ∈ (FindPathNeighbour E map pfd cx cy numindex f j s).coords := by
      rw [hl1]; exact List.mem_append_left _ hc
    have hnum1 : numindex =
        cellAt E pfd (FindPathNeighbour E map pfd cx cy numindex f j s).Grid cx cy + 1 := by
      obtain ⟨_, _, k1, _, _⟩ := hinv.coords_ok _ hc
      simp only [] at k1
      unfold cellAt at k1 hnum ⊢
      rw [hkeep1 _ (by omega)]
      exact hnum
    have hrest : ∀ s2 ∈ rest, s2 ∈ GetHexOffsets E (cx % 2 != 0) :=
      fun s2 h2 => hoffs s2 (List.mem_cons_of_mem _ h2)
    obtain ⟨hcl2, hcell2⟩ := ih _ (j + 1) hinv1 hcl1 hc1 hnum1 hrest
    obtain ⟨_, hkeep2, _⟩ := FindPathNeighbours_inv E map pfd ctx cx cy numindex hle rest
      _ (j + 1) hinv1 hc1 hnum1 hrest
    refine ⟨hcl2, ?_⟩
    intro s2 hs2 x y hx hy hxw hyh
    rw [List.mem_cons] at hs2
    rcases hs2 with rfl | hs2
    · have := hcell1 x y hx hy hxw hyh
      unfold cellAt at this ⊢
      rw [hkeep2 _ this]
      exact this
    · exact hcell2 s2 hs2 x y hx hy hxw hyh

/-- The loop over the hexes of a layer, when it runs to its end, keeps the invariant of the
flood and settles the hexes it handled. -/
theorem FindPathLayer_closed (E : Engine) (map : Map) (pfd : PathFindData)
    (ctx : FloodCtx E map pfd) (hmulti : pfd.Multihex = 0) (hws : map.Width ≤ 32767)
    (hhs : map.Height ≤ 32767) (n : Nat) :
    ∀ (f : Flood) (p : Nat), FloodInv E map pfd f → FloodClosed E map pfd f p →
      ∀ (f2 : Flood) (p2 : Nat), FindPathLayer E map pfd n f p = some (Sum.inr (f2, p2)) →
        FloodInv E map pfd f2 ∧ FloodClosed E map pfd f2 p2 := by
  induction n with
  | zero =>
    intro f p hinv hcl f2 p2 h
    rw [FindPathLayer] at h
    simp only [Option.some.injEq, Sum.inr.injEq, Prod.mk.injEq] at h
    obtain ⟨rfl, rfl⟩ := h
    exact ⟨hinv, hcl⟩
  | succ n ih =>
    intro f p hinv hcl f2 p2 h
    rw [FindPathLayer] at h
    cases hget : f.coords.get? p with
    | none => rw [hget] at h; cases h
    | some c =>
      obtain ⟨cx, cy⟩ := c
      rw [hget] at h
      simp only [] at h
      have hc : (cx, cy) ∈ f.coords := List.get?_mem hget
      by_cases hd : CheckDist E cx cy pfd.ToX pfd.ToY pfd.Cut = true
      · rw [if_pos hd] at h; cases h
      rw [if_neg hd] at h
      by_cases hfar : f.Grid (GRID E pfd.FromX pfd.FromY cx cy) + 1 > E.FPATH_MAX_PATH
      · rw [if_pos hfar] at h; cases h
      rw [if_neg hfar] at h
      have hoffs : ∀ s ∈ (GetHexOffsets E (cx % 2 != 0)).take (DIRS_COUNT E),
          s ∈ GetHexOffsets E (cx % 2 != 0) := fun s hs => List.mem_of_mem_take hs
      have hle : f.Grid (GRID E pfd.FromX pfd.FromY cx cy) + 1 ≤ E.FPATH_MAX_PATH := by omega
      obtain ⟨hinv1, hkeep1, l1, hl1⟩ := FindPathNeighbours_inv E map pfd ctx cx cy
        (f.Grid (GRID E pfd.FromX pfd.FromY cx cy) + 1) hle
        ((GetHexOffsets E (cx % 2 != 0)).take (DIRS_COUNT E)) f 0 hinv hc rfl hoffs
      obtain ⟨hcl1, hcell1⟩ := FindPathNeighbours_closed E map pfd ctx p cx cy
        (f.Grid (GRID E pfd.FromX pfd.FromY cx cy) + 1) hle hmulti hws hhs
        ((GetHexOffsets E (cx % 2 != 0)).take (DIRS_COUNT E)) f 0 hinv hcl hc rfl hoffs
      refine ih _ (p + 1) hinv1 ?_ f2 p2 h
      have hplt : p < f.coords.length := by
        rw [List.get?_eq_getElem?] at hget
        exact (List.getElem?_eq_some_iff.1 hget).1
      have hget1 : (FindPathNeighbours E map pfd cx cy
          (f.Grid (GRID E pfd.FromX pfd.FromY cx cy) + 1) f 0
          ((GetHexOffsets E (cx % 2 != 0)).take (DIRS_COUNT E))).coords[p]? = some (cx, cy) := by
        rw [hl1, List.getElem?_append_left hplt, ← List.get?_eq_getElem?]
        exact hget
      refine ⟨?_, hcl1.start, ?_, hcl1.listed⟩
      · rw [hl1, List.length_append]; omega
      · intro c hcm
        rw [List.take_succ, hget1, List.mem_append] at hcm
        rcases hcm with hcm | hcm
        · exact hcl1.done c hcm
        · simp only [Option.toList, List.mem_singleton] at hcm
          subst hcm
          simp only []
          obtain ⟨_, _, k1, _, _⟩ := hinv.coords_ok _ hc
          simp only [] at k1
          refine ⟨by simpa using hd, ?_, ?_⟩
          · unfold cellAt at k1 ⊢
            rw [hkeep1 _ (by omega)]
            exact hle
          · intro s hs x y hx hy hxw hyh
            exact hcell1 s (by rw [GetHexOffsets_take]; exact hs) x y hx hy hxw hyh

/-- A hex that leaves a queue for `coords`, its cell taking a plain index, keeps what is
settled. -/
theorem FloodClosed_unmark (E : Engine) (map : Map) (pfd : PathFindData) (f f2 : Flood)
    (hinv : FloodInv E map pfd f) (p : Nat) (hcl : FloodClosed E map pfd f p)
    (xy : UShortPair) (k : Int) (hk : k ≠ 0)
    (hnear : Near pfd ((E.FPATH_MAX_PATH : Int) - 1) xy.1 xy.2)
    (hcell : E.FPATH_MAX_PATH < cellAt E pfd f.Grid xy.1 xy.2 ∨ cellAt E pfd f.Grid xy.1 xy.2 < 0)
    (hgrid : f2.Grid = gridSet f.Grid (GRID E pfd.FromX pfd.FromY xy.1 xy.2) k)
    (hcoords : f2.coords = f.coords ++ [xy])
    (hunion : ∀ c, (c ∈ f.coords ∨ c ∈ f.gag_coords ∨ c ∈ f.cr_coords) →
      (c ∈ f2.coords ∨ c ∈ f2.gag_coords ∨ c ∈ f2.cr_coords)) :
    FloodClosed E map pfd f2 p := by
  refine FloodClosed_step E map pfd f f2 p hcl ⟨[xy], hcoords⟩ ?_ ?_
    (FloodClosed_listed_store E map pfd f f2 p hcl xy.1 xy.2 k hnear hgrid hunion
      (fun _ => Or.inl (by rw [hcoords]; simp)))
  · intro q hq
    rw [hgrid]
    unfold gridSet
    split
    · exact hk
    · exact hq
  · intro c hc
    obtain ⟨_, _, k1, k2, _⟩ := hinv.coords_ok c hc
    rw [hgrid]
    exact cellAt_gridSet_of_ne E pfd f.Grid _ k c.1 c.2 (by
      unfold cellAt at hcell k1 k2 ⊢
      omega)

/-- The block `// Add gag hex after some distance` keeps what is settled. -/
theorem FindPathAddGag_closed (E : Engine) (map : Map) (pfd : PathFindData) (f f2 : Flood)
    (ctx : FloodCtx E map pfd) (hinv : FloodInv E map pfd f) (p : Nat)
    (hcl : FloodClosed E map pfd f p) (h : FindPathAddGag E pfd f = some f2) :
    FloodClosed E map pfd f2 p := by
  have hM := ctx.max_lt
  unfold FindPathAddGag at h
  split at h
  · injection h with h; subst h; exact hcl
  · rename_i xy rest hg
    split at h
    · cases h
    · simp only [] at h
      have hmem : xy ∈ f.gag_coords := by rw [hg]; exact List.mem_cons_self _ _
      obtain ⟨h1, h2, k, h3, h4, h5, h6⟩ := hinv.gag_ok xy hmem
      have hk : toShort (intXor (f.Grid (GRID E pfd.FromX pfd.FromY xy.1 xy.2)) 0x4000) = k := by
        unfold cellAt at h5
        rw [h5]; exact toShort_intXor_gag k (by omega) (by omega)
      rw [hk] at h
      split at h
      · injection h with h
        subst h
        refine FloodClosed_unmark E map pfd f _ hinv p hcl xy k (by omega)
          (Near_mono pfd _ _ _ _ h6 (by omega)) (Or.inl (by omega)) rfl rfl ?_
        rintro c (hc | hc | hc)
        · exact Or.inl (List.mem_append_left _ hc)
        · rw [hg, List.mem_cons] at hc
          rcases hc with rfl | hc
          · exact Or.inl (by simp)
          · exact Or.inr (Or.inl hc)
        · exact Or.inr (Or.inr hc)
      · injection h with h; subst h; exact hcl

/-- The block `// Add gag and critters hexes` keeps what is settled; it takes the front of
the gag queue when there is one and leaves the critter queue as it is then, takes the front
of the critter queue otherwise, and yields `p_togo = 0` only when both queues are empty. -/
theorem FindPathAddSoft_closed (E : Engine) (map : Map) (pfd : PathFindData) (f : Flood)
    (ctx : FloodCtx E map pfd) (hinv : FloodInv E map pfd f) (p : Nat)
    (hcl : FloodClosed E map pfd f p) :
    FloodClosed E map pfd (FindPathAddSoft E pfd f).1 p ∧
    ((FindPathAddSoft E pfd f).2 = 0 →
      (FindPathAddSoft E pfd f).1 = f ∧ f.gag_coords = [] ∧ f.cr_coords = []) := by
  have hM := ctx.max_lt
  unfold FindPathAddSoft
  split
  · rename_i xy rest hg
    simp only []
    have hmem : xy ∈ f.gag_coords := by rw [hg]; exact List.mem_cons_self _ _
    obtain ⟨h1, h2, k, h3, h4, h5, h6⟩ := hinv.gag_ok xy hmem
    have hk : toShort (intXor (f.Grid (GRID E pfd.FromX pfd.FromY xy.1 xy.2)) 0x4000) = k := by
      unfold cellAt at h5
      rw [h5]; exact toShort_intXor_gag k (by omega) (by omega)
    rw [hk]
    refine ⟨?_, fun h => absurd h (by decide)⟩
    refine FloodClosed_unmark E map pfd f _ hinv p hcl xy k (by omega)
      (Near_mono pfd _ _ _ _ h6 (by omega)) (Or.inl (by omega)) rfl rfl ?_
    rintro c (hc | hc | hc)
    · exact Or.inl (List.mem_append_left _ hc)
    · rw [hg, List.mem_cons] at hc
      rcases hc with rfl | hc
      · exact Or.inl (by simp)
      · exact Or.inr (Or.inl hc)
    · exact Or.inr (Or.inr hc)
  · split
    · rename_i hgn xy rest hg
      simp only []
      have hmem : xy ∈ f.cr_coords := by rw [hg]; exact List.mem_cons_self _ _
      obtain ⟨h1, h2, k, h3, h4, h5, h6⟩ := hinv.cr_ok xy hmem
      have hk : toShort (intXor (f.Grid (GRID E pfd.FromX pfd.FromY xy.1 xy.2)) 0x8000) = k := by
        unfold cellAt at h5
        rw [h5]; exact toShort_intXor_cr k (by omega) (by omega)
      rw [hk]
      refine ⟨?_, fun h => absurd h (by decide)⟩
      refine FloodClosed_unmark E map pfd f _ hinv p hcl xy k (by omega)
        (Near_mono pfd _ _ _ _ h6 (by omega)) (Or.inr (by omega)) rfl rfl ?_
      rintro c (hc | hc | hc)
      · exact Or.inl (List.mem_append_left _ hc)
      · exact Or.inr (Or.inl hc)
      · rw [hg, List.mem_cons] at hc
        rcases hc with rfl | hc
        · exact Or.inl (by simp)
        · exact Or.inr (Or.inr hc)
    · rename_i hgn _ hcn
      exact ⟨hcl, fun _ => ⟨rfl, hgn, hcn⟩⟩

/-- The loop over the hexes of a layer never ends with the deadlock. -/
theorem FindPathLayer_not_deadlock (E : Engine) (map : Map) (pfd : PathFindData) (n : Nat) :
    ∀ (f : Flood) (p : Nat), FindPathLayer E map pfd n f p ≠ some (Sum.inl FloodEnd.deadlock) := by
  induction n with
  | zero => intro f p h; rw [FindPathLayer] at h; cases h
  | succ n ih =>
    intro f p h
    rw [FindPathLayer] at h
    split at h
    · cases h
    · simp only [] at h
      split at h
      · cases h
      · split at h
        · cases h
        · exact ih _ _ h

/-- One round of the state at the deadlock. -/
theorem FindPathFloodLast_succ (E : Engine) (map : Map) (pfd : PathFindData) (fuel : Nat)
    (f : Flood) (p p_togo : Nat) :
    FindPathFloodLast E map pfd (fuel + 1) f p p_togo =
      match FindPathLayer E map pfd p_togo f p with
      | some (Sum.inr (f1, p1)) =>
        match FindPathAddGag E pfd f1 with
        | none => none
        | some f2 =>
          let p_togo1 := f2.coords.length - p1
          let r := if p_togo1 = 0 then FindPathAddSoft E pfd f2 else (f2, p_togo1)
          if r.2 = 0 then some (r.1, p1)
          else FindPathFloodLast E map pfd fuel r.1 p1 r.2
      | _ => none := by
  delta FindPathFloodLast
  rfl

/-- When the flood ends with the deadlock, every hex of `coords` is handled and settled and
both queues are empty. -/
theorem FindPathFlood_deadlock (E : Engine) (map : Map) (pfd : PathFindData)
    (ctx : FloodCtx E map pfd) (hmulti : pfd.Multihex = 0) (hws : map.Width ≤ 32767)
    (hhs : map.Height ≤ 32767) (fuel : Nat) :
    ∀ (f : Flood) (p p_togo : Nat), FloodInv E map pfd f → FloodClosed E map pfd f p →
      FindPathFlood E map pfd fuel f p p_togo = some FloodEnd.deadlock →
      ∃ (f2 : Flood) (p2 : Nat), FindPathFloodLast E map pfd fuel f p p_togo = some (f2, p2) ∧
        FloodInv E map pfd f2 ∧ FloodClosed E map pfd f2 p2 ∧ p2 = f2.coords.length ∧
        f2.gag_coords = [] ∧ f2.cr_coords = [] := by
  induction fuel with
  | zero => intro f p p_togo _ _ h; rw [FindPathFlood] at h; cases h
  | succ fuel ih =>
    intro f p p_togo hinv hcl h
    rw [FindPathFlood_succ] at h
    rw [FindPathFloodLast_succ]
    cases hlayer : FindPathLayer E map pfd p_togo f p with
    | none => rw [hlayer] at h; cases h
    | some r =>
      cases r with
      | inl e =>
        rw [hlayer] at h
        simp only [Option.some.injEq] at h
        subst h
        exact absurd hlayer (FindPathLayer_not_deadlock E map pfd p_togo f p)
      | inr r =>
        obtain ⟨f1, p1⟩ := r
        rw [hlayer] at h
        simp only [] at h ⊢
        obtain ⟨hinv1, hcl1⟩ := FindPathLayer_closed E map pfd ctx hmulti hws hhs p_togo f p
          hinv hcl f1 p1 hlayer
        cases hgag : FindPathAddGag E pfd f1 with
        | none => rw [hgag] at h; cases h
        | some f2 =>
          rw [hgag] at h
          simp only [] at h ⊢
          have hinv2 := FindPathAddGag_inv E map pfd f1 f2 ctx hinv1 hgag
          have hcl2 := FindPathAddGag_closed E map pfd f1 f2 ctx hinv1 p1 hcl1 hgag
          by_cases hz : f2.coords.length - p1 = 0
          · rw [if_pos hz] at h ⊢
            obtain ⟨hcl3, hempty⟩ := FindPathAddSoft_closed E map pfd f2 ctx hinv2 p1 hcl2
            by_cases hr : (FindPathAddSoft E pfd f2).2 = 0
            · rw [if_pos hr]
              obtain ⟨e1, e2, e3⟩ := hempty hr
              refine ⟨_, _, rfl, FindPathAddSoft_inv E map pfd f2 ctx hinv2, hcl3, ?_, ?_, ?_⟩
              · rw [e1]
                have := hcl2.p_le
                omega
              · rw [e1]; exact e2
              · rw [e1]; exact e3
            · rw [if_neg hr] at h ⊢
              exact ih _ _ _ (FindPathAddSoft_inv E map pfd f2 ctx hinv2) hcl3 h
          · rw [if_neg hz] at h ⊢
            have hr : ¬ ((f2, f2.coords.length - p1).2 = 0) := hz
            rw [if_neg hr] at h ⊢
            exact ih _ _ _ hinv2 hcl2 h

/-- Before the flood nothing is handled and only the start hex has a set cell. -/
theorem FloodClosed_init (E : Engine) (map : Map) (pfd : PathFindData)
    (ctx : FloodCtx E map pfd) : FloodClosed E map pfd (FindPathStart E pfd) 0 := by
  refine ⟨Nat.zero_le _, by simp [FindPathStart], ?_, ?_⟩
  · intro c hc
    simp at hc
  · intro x y hx hy hxy hcell _
    left
    have hfrom : Near pfd (E.FPATH_MAX_PATH : Int) pfd.FromX pfd.FromY := by
      unfold Near
      have := ctx.max_pos
      omega
    have hcell2 : cellAt E pfd (gridSet (fun _ => 0)
        (GRID E pfd.FromX pfd.FromY pfd.FromX pfd.FromY) 1) x y ≠ 0 := hcell
    rw [cellAt_gridSet_near E pfd _ _ _ 1 x y hfrom
      (Near_mono pfd _ _ _ _ hxy (by omega))] at hcell2
    by_cases he : (x : Int) = pfd.FromX ∧ (y : Int) = pfd.FromY
    · have e1 : x = pfd.FromX := by omega
      have e2 : y = pfd.FromY := by omega
      rw [e1, e2]
      simp [FindPathStart]
    · rw [if_neg he] at hcell2
      exact absurd rfl hcell2

/-- The part of `FindPath` after the flood never returns `FPATH_DEADLOCK`. -/
theorem FindPathFinish_not_deadlock (E : Engine) (mm mm' : MapManager) (map : Map)
    (pfd pfd' : PathFindData) (grid : GridBuf) (cx cy : Nat) (numindex : Int) :
    FindPathFinish E mm map pfd grid cx cy numindex ≠ some (FPATH_DEADLOCK, mm', pfd') := by
  intro h
  unfold FindPathFinish at h
  simp only [] at h
  split at h
  · cases h
  · split at h
    · cases h
    · cases h
    · rename_i r _
      simp only [Option.some.injEq] at h
      have h1 := congrArg Prod.fst h
      simp only [] at h1
      rcases FindPathResult_code2 E { mm with
          pathNumCur := nextPathNum E mm.pathNumCur,
          smooth_switcher := (FindPathTraceBack E mm pfd grid cx cy numindex).1.smooth_switcher }
          pfd.IsRun r.1 r.2 with e | e
      · rw [e] at h1; cases h1
      · rw [e] at h1; cases h1

/-- The deadlock on a map whose sides fit a `short`. For a request with `Multihex = 0` and a
depth limit that is positive and leaves the mark bits free: when `FindPath` returns `FPATH_DEADLOCK`, no
chain of hexes that starts at the start hex, goes from each hex to one of its neighbours and
stays on hexes of the map that are free or are soft obstacles that the request admits (a
gag-item hex with `CheckGagItems`, a critter hex with `CheckCrit`) has a hex within `Cut` of the
target. The flood returns the deadlock at the statement `if( !p_togo ) return FPATH_DEADLOCK`
with every hex of `coords` handled and both queues empty; and while the gag queue holds a
hex, the block that feeds the flood takes the front of the gag queue and leaves the critter
queue as it is. -/
theorem FindPath_deadlock_no_path (E : Engine) (mm mm' : MapManager) (pfd pfd' : PathFindData)
    (map : Map) (hmap : GetMap mm pfd.MapId = some map)
    (hmax0 : 0 < E.FPATH_MAX_PATH) (hmax : E.FPATH_MAX_PATH < 16384)
    (hws : map.Width ≤ 32767) (hhs : map.Height ≤ 32767) (hmulti : pfd.Multihex = 0)
    (h : FindPath E mm pfd = some (FPATH_DEADLOCK, mm', pfd')) :
    (∀ chain : List UShortPair, List.Chain (Neighbour E) (pfd.FromX, pfd.FromY) chain →
      (∀ c ∈ chain, c.1 < map.Width ∧ c.2 < map.Height ∧ Admitted E map pfd c.1 c.2) →
      ∀ c ∈ (pfd.FromX, pfd.FromY) :: chain,
        CheckDist E c.1 c.2 pfd.ToX pfd.ToY pfd.Cut = false) ∧
    (∃ (f : Flood) (p : Nat),
      FindPathFloodLast E map pfd (map.Width * map.Height + 1) (FindPathStart E pfd) 0 1 =
        some (f, p) ∧
      p = f.coords.length ∧ f.gag_coords = [] ∧ f.cr_coords = []) ∧
    (∀ (f : Flood) (xy : UShortPair) (rest : List UShortPair), f.gag_coords = xy :: rest →
      (FindPathAddSoft E pfd f).2 = 1 ∧
      (FindPathAddSoft E pfd f).1.coords = f.coords ++ [xy] ∧
      (FindPathAddSoft E pfd f).1.gag_coords = rest ∧
      (FindPathAddSoft E pfd f).1.cr_coords = f.cr_coords) := by
  have hflood : FindPathFlood E map pfd (map.Width * map.Height + 1) (FindPathStart E pfd) 0 1 =
      some FloodEnd.deadlock ∧ pfd.FromX < map.Width ∧ pfd.FromY < map.Height := by
    rcases FindPath_split E mm pfd map hmap with
      e | e | ⟨_, e⟩ | e | e | ⟨_, hfx, hfy, _, _, hfl⟩
    · rw [e] at h; cases h
    · rw [e] at h; cases h
    · rw [e] at h; cases h
    · rw [e] at h; cases h
    · rw [e] at h; cases h
    · rcases hfl with ⟨_, e⟩ | ⟨_, e⟩ | ⟨hd, _⟩ | ⟨f, cx, cy, numindex, _, e⟩
      · rw [e] at h; cases h
      · rw [e] at h; cases h
      · exact ⟨hd, hfx, hfy⟩
      · rw [e] at h
        exact absurd h (FindPathFinish_not_deadlock E mm mm' map pfd pfd' f.Grid cx cy numindex)
  obtain ⟨hfl, hfx, hfy⟩ := hflood
  have ctx : FloodCtx E map pfd := ⟨hmax0, hmax, by omega, by omega, hfx, hfy⟩
  obtain ⟨f, p, hlast, hinv, hcl, hp, hg, hc⟩ := FindPathFlood_deadlock E map pfd ctx hmulti
    hws hhs _ _ 0 1 (FloodInv_init E map pfd ctx) (FloodClosed_init E map pfd ctx) hfl
  refine ⟨?_, ⟨f, p, hlast, hp, hg, hc⟩, ?_⟩
  · have hdone : ∀ c ∈ f.coords,
        CheckDist E c.1 c.2 pfd.ToX pfd.ToY pfd.Cut = false ∧
        cellAt E pfd f.Grid c.1 c.2 + 1 ≤ E.FPATH_MAX_PATH ∧
        ∀ s ∈ GetHexOffsets E (c.1 % 2 != 0), ∀ x y : Nat,
          (x : Int) = c.1 + s.1 → (y : Int) = c.2 + s.2 → x < map.Width → y < map.Height →
          cellAt E pfd f.Grid x y ≠ 0 := by
      intro c hcm
      apply hcl.done c
      rw [hp, List.take_length]
      exact hcm
    have hchain : ∀ (chain : List UShortPair) (a : UShortPair), a ∈ f.coords →
        List.Chain (Neighbour E) a chain →
        (∀ c ∈ chain, c.1 < map.Width ∧ c.2 < map.Height ∧ Admitted E map pfd c.1 c.2) →
        ∀ c ∈ chain, c ∈ f.coords := by
      intro chain
      induction chain with
      | nil => intro a _ _ _ c hcm; cases hcm
      | cons b rest ih =>
        intro a ha hch hadm c hcm
        rw [List.chain_cons] at hch
        obtain ⟨⟨s, hs, hx, hy⟩, hch2⟩ := hch
        obtain ⟨hbx, hby, hbadm⟩ := hadm b (List.mem_cons_self _ _)
        obtain ⟨_, d2, d3⟩ := hdone a ha
        obtain ⟨_, _, k1, _, k5⟩ := hinv.coords_ok a ha
        have hnz := d3 s hs b.1 b.2 hx hy hbx hby
        have hnear : Near pfd ((E.FPATH_MAX_PATH : Int) - 1) b.1 b.2 := by
          have := Near_step pfd _ _ _ s k5 (GetHexOffsets_bound E _ s hs)
          rw [← hx, ← hy] at this
          exact Near_mono pfd _ _ _ _ this (by omega)
        have hb : b ∈ f.coords := by
          rcases hcl.listed b.1 b.2 hbx hby hnear hnz hbadm with hl | hl | hl
          · exact hl
          · rw [hg] at hl; cases hl
          · rw [hc] at hl; cases hl
        rw [List.mem_cons] at hcm
        rcases hcm with rfl | hcm
        · exact hb
        · exact ih b hb hch2 (fun c2 h2 => hadm c2 (List.mem_cons_of_mem _ h2)) c hcm
    intro chain hch hadm c hcm
    rw [List.mem_cons] at hcm
    rcases hcm with rfl | hcm
    · exact (hdone _ hcl.start).1
    · exact (hdone c (hchain chain _ hcl.start hch hadm c hcm)).1
  · intro f2 xy rest hgg
    unfold FindPathAddSoft
    rw [hgg]
    exact ⟨rfl, rfl, rfl, rfl⟩

theorem FindPath_deadlock_no_path_witness :
    ∃ mm' pfd',
      FindPath (sampleEngine false false 400) (sampleManager sampleRingMap)
        (sampleRequest 5 5 0 0 0) = some (FPATH_DEADLOCK, mm', pfd') ∧
      (∀ chain : List UShortPair,
        List.Chain (Neighbour (sampleEngine false false 400))
          ((sampleRequest 5 5 0 0 0).FromX, (sampleRequest 5 5 0 0 0).FromY) chain →
        (∀ c ∈ chain, c.1 < sampleRingMap.Width ∧ c.2 < sampleRingMap.Height ∧
          Admitted (sampleEngine false false 400) sampleRingMap (sampleRequest 5 5 0 0 0)
            c.1 c.2) →
        ∀ c ∈ ((sampleRequest 5 5 0 0 0).FromX, (sampleRequest 5 5 0 0 0).FromY) :: chain,
          CheckDist (sampleEngine false false 400) c.1 c.2 (sampleRequest 5 5 0 0 0).ToX
            (sampleRequest 5 5 0 0 0).ToY (sampleRequest 5 5 0 0 0).Cut = false) ∧
      (∃ (f : Flood) (p : Nat),
        FindPathFloodLast (sampleEngine false false 400) sampleRingMap (sampleRequest 5 5 0 0 0)
          (sampleRingMap.Width * sampleRingMap.Height + 1)
          (FindPathStart (sampleEngine false false 400) (sampleRequest 5 5 0 0 0)) 0 1 =
          some (f, p) ∧
        p = f.coords.length ∧ f.gag_coords = [] ∧ f.cr_coords = []) ∧
      (∀ (f : Flood) (xy : UShortPair) (rest : List UShortPair), f.gag_coords = xy :: rest →
        (FindPathAddSoft (sampleEngine false false 400) (sampleRequest 5 5 0 0 0) f).2 = 1 ∧
        (FindPathAddSoft (sampleEngine false false 400) (sampleRequest 5 5 0 0 0) f).1.coords =
          f.coords ++ [xy] ∧
        (FindPathAddSoft (sampleEngine false false 400) (sampleRequest 5 5 0 0 0)
          f).1.gag_coords = rest ∧
        (FindPathAddSoft (sampleEngine false false 400) (sampleRequest 5 5 0 0 0)
          f).1.cr_coords = f.cr_coords) := by
  have hd : (FindPath (sampleEngine false false 400) (sampleManager sampleRingMap)
      (sampleRequest 5 5 0 0 0)).map (fun r => r.1) = some FPATH_DEADLOCK := by decide!
  cases hr : FindPath (sampleEngine false false 400) (sampleManager sampleRingMap)
      (sampleRequest 5 5 0 0 0) with
  | none => rw [hr] at hd; cases hd
  | some r =>
    obtain ⟨c, mm', pfd'⟩ := r
    rw [hr] at hd
    simp only [Option.map_some', Option.some.injEq] at hd
    subst hd
    exact ⟨mm', pfd', rfl, FindPath_deadlock_no_path (sampleEngine false false 400)
      (sampleManager sampleRingMap) mm' (sampleRequest 5 5 0 0 0) pfd' sampleRingMap rfl
      (by decide) (by decide) (by decide) (by decide) rfl hr⟩

/-! ## The directions of a path in hexagonal mode -/

/-- Whether the directions lead along the path depends on the hexes and directions only. -/
theorem DirsLead_congr (E : Engine) : ∀ (l1 l2 : List PathStep) (h : UShortPair),
    pathMoves l1 = pathMoves l2 → DirsLead E h l1 → DirsLead E h l2 := by
  intro l1
  induction l1 with
  | nil =>
    intro l2 h e _
    cases l2 with
    | nil => trivial
    | cons a l => simp [pathMoves] at e
  | cons a l1 ih =>
    intro l2 h e hd
    cases l2 with
    | nil => simp [pathMoves] at e
    | cons b l2 =>
      simp only [pathMoves, List.map_cons, List.cons.injEq, Prod.mk.injEq] at e
      obtain ⟨⟨e1, e2, e3⟩, e4⟩ := e
      obtain ⟨d1, d2⟩ := hd
      refine ⟨?_, ?_⟩
      · rw [← e1, ← e2, ← e3]; exact d1
      · rw [← e1, ← e2]; exact ih l2 _ e4 d2

/-- The directions lead along every beginning of a path along which they lead. -/
theorem DirsLead_take (E : Engine) : ∀ (l : List PathStep) (h : UShortPair) (k : Nat),
    DirsLead E h l → DirsLead E h (l.take k) := by
  intro l
  induction l with
  | nil => intro h k _; simp [DirsLead]
  | cons a l ih =>
    intro h k hd
    cases k with
    | zero => simp [DirsLead]
    | succ k =>
      rw [List.take_succ_cons]
      exact ⟨hd.1, ih _ k hd.2⟩

/-- A step added at the end of a path along which the directions lead. -/
theorem DirsLead_concat (E : Engine) (ps : PathStep) : ∀ (l : List PathStep) (h : UShortPair),
    DirsLead E h l →
    MoveHexByDirUnsafe E ((pathHexes l).getLast?.getD h).1 ((pathHexes l).getLast?.getD h).2
      ps.Dir = ((ps.HexX : Int), (ps.HexY : Int)) →
    DirsLead E h (l ++ [ps]) := by
  intro l
  induction l with
  | nil =>
    intro h _ hm
    exact ⟨by simpa [pathHexes] using hm, trivial⟩
  | cons a l ih =>
    intro h hd hm
    refine ⟨hd.1, ih _ hd.2 ?_⟩
    have e : (pathHexes (a :: l)).getLast?.getD h =
        (pathHexes l).getLast?.getD (a.HexX, a.HexY) := by
      unfold pathHexes
      cases l with
      | nil => rfl
      | cons b l2 =>
        simp only [List.map_cons, List.getLast?_cons_cons]
        exact getLast?_getD_cons _ _ _ _
    rw [e] at hm
    exact hm

/-- `PathSetMoveParams` changes neither a hex nor a direction. -/
theorem PathSetMoveParamsLoop_moves (E : Engine) (is_run : Bool) :
    ∀ (l : List PathStep) (mp : Nat),
    pathMoves (PathSetMoveParamsLoop E is_run mp l) = pathMoves l := by
  intro l
  induction l with
  | nil => intro mp; rfl
  | cons ps rest ih =>
    intro mp
    unfold PathSetMoveParamsLoop
    simp only [pathMoves, List.map_cons] at ih ⊢
    rw [ih]

/-- `PathSetMoveParams` changes neither a hex nor a direction of the path. -/
theorem PathSetMoveParams_moves (E : Engine) (path : List PathStep) (is_run : Bool) :
    pathMoves (PathSetMoveParams E path is_run) = pathMoves path := by
  unfold PathSetMoveParams
  have h := PathSetMoveParamsLoop_moves E is_run path.reverse 0
  unfold pathMoves at h ⊢
  rw [List.map_reverse, h, List.map_reverse, List.reverse_reverse]

/-- In hexagonal mode the direction that `FindPathGrid` returns leads from the hex it found
to the hex it was called for. -/
theorem FindPathGrid_forward (E : Engine) (map : Map) (pfd : PathFindData) (f : Flood)
    (ctx : FloodCtx E map pfd) (hinv : FloodInv E map pfd f) (hhex : E.MapHexagonal = true)
    (hx hy n : Nat) (sw : Bool)
    (hxw : hx < map.Width) (hyh : hy < map.Height)
    (hnear : Near pfd ((E.FPATH_MAX_PATH : Int) - 1) hx hy)
    (hcell : cellAt E pfd f.Grid hx hy = (n : Int) + 2)
    (hmax : (n : Int) + 2 ≤ E.FPATH_MAX_PATH) (dir : Int) (x y : Nat)
    (hres : FindPathGrid E f.Grid pfd.FromX pfd.FromY hx hy ((n : Int) + 2 - 1) sw = (dir, x, y)) :
    MoveHexByDirUnsafe E x y dir.toNat = ((hx : Int), (hy : Int)) := by
  have hW := ctx.width_le
  have hH := ctx.height_le
  obtain ⟨_, dir2, x2, y2, g1, g2, g3, g4, _, _, _⟩ :=
    FindPathGrid_spec E map pfd f ctx hinv hx hy n sw hxw hyh hnear hcell hmax
  rw [hres] at g1
  simp only [Prod.mk.injEq] at g1
  obtain ⟨rfl, rfl, rfl⟩ := g1
  unfold FindPathGrid at hres
  rcases FindPathGridScan_spec E f.Grid pfd.FromX pfd.FromY hx hy ((n : Int) + 2 - 1)
    (FindPathGridProbes E (hx % 2 != 0) sw) with ⟨hneg, _⟩ | ⟨p, hp, _, hscan⟩
  · rw [hneg] at hres
    simp only [Prod.mk.injEq] at hres
    omega
  · rw [hscan] at hres
    simp only [Prod.mk.injEq] at hres
    obtain ⟨e1, e2, e3⟩ := hres
    have hsb := GetHexOffsets_bound E _ _ (FindPathGridProbes_mem E (hx % 2 != 0) sw p hp)
    simp only [] at hsb
    have ex : (x : Int) = hx + p.1 := by
      rw [← e2]
      unfold toUShort at e2 ⊢
      omega
    have ey : (y : Int) = hy + p.2.1 := by
      rw [← e3]
      unfold toUShort at e3 ⊢
      omega
    have := FindPathGridProbes_hex_forward E hhex hx hy sw p
      (by rw [← nat_parity_cast]; exact hp)
    rw [← ex, ← ey, e1] at this
    exact this

/-- In hexagonal mode the backtrace writes into every step the direction that leads to its
hex from the hex of the step before it, and into the first step it writes the direction
from the hex at which it ends. -/
theorem FindPathBacktrace_dirs (E : Engine) (map : Map) (pfd : PathFindData) (f : Flood)
    (ctx : FloodCtx E map pfd) (hinv : FloodInv E map pfd f) (hhex : E.MapHexagonal = true)
    (smooth_count : Int) :
    ∀ (n : Nat) (b : Backtrace) (pre suf : List PathStep),
      b.path = pre ++ suf → pre.length = n →
      b.cx < map.Width → b.cy < map.Height →
      Near pfd ((E.FPATH_MAX_PATH : Int) - 1) b.cx b.cy →
      cellAt E pfd f.Grid b.cx b.cy = (n : Int) + 1 → (n : Int) + 1 ≤ E.FPATH_MAX_PATH →
      ∃ (b' : Backtrace) (news : List PathStep),
        FindPathBacktrace E f.Grid pfd.FromX pfd.FromY smooth_count n b = (b', true) ∧
        b'.path = news ++ suf ∧ news.length = n ∧
        DirsLead E (b'.cx, b'.cy) news ∧
        (pathHexes news).getLast?.getD (b'.cx, b'.cy) = (b.cx, b.cy) := by
  intro n
  induction n with
  | zero =>
    intro b pre suf hp hl _ _ _ _ _
    have : pre = [] := List.length_eq_zero.1 hl
    subst this
    refine ⟨b, [], ?_, hp, rfl, trivial, rfl⟩
    delta FindPathBacktrace
    rfl
  | succ n ih =>
    intro b pre suf hp hl hxw hyh hnear hcell hmax
    rcases List.eq_nil_or_concat pre with hnil | ⟨pre2, old, hpre⟩
    · subst hnil; cases hl
    subst hpre
    have hl2 : pre2.length = n := by simpa using hl
    have hp2 : b.path = pre2 ++ old :: suf := by simpa using hp
    subst hl2
    have hcell2 : cellAt E pfd f.Grid b.cx b.cy = (pre2.length : Int) + 2 := by
      push_cast at hcell; omega
    have hmax2 : (pre2.length : Int) + 2 ≤ E.FPATH_MAX_PATH := by push_cast at hmax; omega
    obtain ⟨_, dir, x, y, hres, hdir, hxw2, hyh2, hnear2, hcell3, _⟩ :=
      FindPathGrid_spec E map pfd f ctx hinv b.cx b.cy pre2.length
        (if E.MapSmoothPath then
          if E.MapHexagonal then
            (if ((pre2.length : Int) + 2) % 2 ≠ 0 then !b.smooth_switcher else b.smooth_switcher)
          else decide (smooth_count < 2 ∨ b.smooth_iteration.tmod smooth_count ≠ 0)
        else b.smooth_switcher)
        hxw hyh hnear hcell2 hmax2
    have hfwd := FindPathGrid_forward E map pfd f ctx hinv hhex b.cx b.cy pre2.length _
      hxw hyh hnear hcell2 hmax2 dir x y hres
    rw [FindPathBacktrace_succ]
    simp only [hres]
    rw [if_neg (by omega)]
    rw [hp2, set_after_prefix]
    obtain ⟨b', news, h1, h2, h3, h4, h5⟩ := ih
      { path := pre2 ++ { (List.getD (pre2 ++ old :: suf) pre2.length default) with
            HexX := b.cx, HexY := b.cy, Dir := dir.toNat } :: suf,
        cx := x, cy := y,
        smooth_switcher := (if E.MapSmoothPath then
          if E.MapHexagonal then
            (if ((pre2.length : Int) + 2) % 2 ≠ 0 then !b.smooth_switcher else b.smooth_switcher)
          else decide (smooth_count < 2 ∨ b.smooth_iteration.tmod smooth_count ≠ 0)
        else b.smooth_switcher),
        smooth_iteration := b.smooth_iteration + 1 }
      pre2 _ rfl rfl hxw2 hyh2 hnear2 hcell3 (by push_cast at hmax; omega)
    simp only [] at h5
    refine ⟨b', news ++ [{ (List.getD (pre2 ++ old :: suf) pre2.length default) with
            HexX := b.cx, HexY := b.cy, Dir := dir.toNat }], h1, ?_, ?_, ?_, ?_⟩
    · rw [h2]; simp
    · simp [h3]
    · apply DirsLead_concat E _ news _ h4
      rw [h5]
      exact hfwd
    · unfold pathHexes
      simp

/-- The steps that the walk for soft obstacles leaves are a beginning of the path. -/
theorem FindPathCheckSoft_take (E : Engine) (map : Map) (pfd : PathFindData)
    (path : List PathStep) :
    ∃ k, (if pfd.CheckCrit || pfd.CheckGagItems then FindPathCheckSoft E map pfd path 0 path
      else (path, pfd)).1 = path.take k := by
  by_cases hs : (pfd.CheckCrit || pfd.CheckGagItems) = true
  · rw [if_pos hs]
    exact FindPathCheckSoft_prefix E map pfd path path 0 (by omega)
  · rw [if_neg hs]
    exact ⟨path.length, by simp⟩

/-- In hexagonal mode, with a depth limit that is positive and leaves the mark bits free and
a map whose sides fit `ushort`: in the path of a call of `FindPath` that returns `FPATH_OK`
every step is reached by one move in its direction `Dir` from the hex of the step before it,
the first step from the start hex. -/
theorem FindPath_hex_dirs (E : Engine) (mm mm' : MapManager) (pfd pfd' : PathFindData)
    (map : Map) (hmap : GetMap mm pfd.MapId = some map) (hhex : E.MapHexagonal = true)
    (hmax0 : 0 < E.FPATH_MAX_PATH) (hmax : E.FPATH_MAX_PATH < 16384)
    (hw : map.Width ≤ 65535) (hh : map.Height ≤ 65535)
    (h : FindPath E mm pfd = some (FPATH_OK, mm', pfd')) :
    DirsLead E (pfd.FromX, pfd.FromY) (mm'.pathesPool pfd'.PathNum) := by
  obtain ⟨hfx, hfy, f, cx, cy, numindex, hfl, hfin⟩ :=
    FindPath_ok_cases E mm mm' pfd pfd' map hmap h
  have ctx : FloodCtx E map pfd := ⟨hmax0, hmax, hw, hh, hfx, hfy⟩
  obtain ⟨hinv, hc, hnum, _⟩ := FindPathStart_good E map pfd ctx _ _ hfl
  obtain ⟨hxw, hyh, k1, k2, hnear⟩ := hinv.coords_ok _ hc
  simp only [] at hxw hyh k1 k2 hnear
  rw [← hnum] at k1 k2 hnear
  have hlen : (resizePath (mm.pathesPool (nextPathNum E mm.pathNumCur))
      (numindex - 1).toNat).length = (numindex - 1).toNat := length_resizePath _ _
  obtain ⟨b', news, e1, e2, e3, e4, _⟩ := FindPathBacktrace_dirs E map pfd f ctx hinv hhex
    (FindPathSmooth E cx cy pfd.FromX pfd.FromY).1 (numindex - 1).toNat
    { path := resizePath (mm.pathesPool (nextPathNum E mm.pathNumCur)) (numindex - 1).toNat,
      cx := cx, cy := cy,
      smooth_switcher := if (!E.MapSmoothPath) = true then false else mm.smooth_switcher,
      smooth_iteration := (FindPathSmooth E cx cy pfd.FromX pfd.FromY).2 }
    _ [] (List.append_nil _).symm hlen hxw hyh (Near_mono pfd _ _ _ _ hnear (by omega))
    (by rw [← hnum]; omega) (by omega)
  obtain ⟨b2, news2, s1, _, _, _, _, _, s7, s8, s9, s10, _, _⟩ :=
    FindPathBacktrace_spec E map pfd f ctx hinv
      (FindPathSmooth E cx cy pfd.FromX pfd.FromY).1 (numindex - 1).toNat
      { path := resizePath (mm.pathesPool (nextPathNum E mm.pathNumCur)) (numindex - 1).toNat,
        cx := cx, cy := cy,
        smooth_switcher := if (!E.MapSmoothPath) = true then false else mm.smooth_switcher,
        smooth_iteration := (FindPathSmooth E cx cy pfd.FromX pfd.FromY).2 }
      _ [] (List.append_nil _).symm hlen hxw hyh (Near_mono pfd _ _ _ _ hnear (by omega))
      (by rw [← hnum]; omega) (by omega)
  rw [e1] at s1
  simp only [Prod.mk.injEq, and_true] at s1
  subst s1
  obtain ⟨o1, o2⟩ := hinv.one b'.cx b'.cy s8 s9 s10 s7
  rw [o1, o2] at e4
  rw [List.append_nil] at e2
  have hbt : FindPathTraceBack E mm pfd f.Grid cx cy numindex = (b', true) := by
    unfold FindPathTraceBack
    exact e1
  rw [FindPathFinish_of_backtrace E mm map pfd f.Grid cx cy numindex b' hbt] at hfin
  split at hfin
  · cases hfin
  · cases hfin
  · rename_i r htr
    simp only [Option.some.injEq] at hfin
    obtain ⟨r1, _⟩ := FindPathResult_ok E _ mm' pfd.IsRun r.1 r.2 pfd' hfin
    obtain ⟨k1, hk1⟩ := FindPathTrace_prefix E mm map pfd _ r htr
    obtain ⟨k2, hk2⟩ := FindPathCheckSoft_take E map pfd b'.path
    rw [r1]
    apply DirsLead_congr E r.1 _ _ (PathSetMoveParams_moves E r.1 pfd.IsRun).symm
    rw [hk1, hk2, e2]
    exact DirsLead_take E _ _ _ (DirsLead_take E _ _ _ e4)

/-! ## The search always returns -/

/-- The body of the loop over the neighbours leaves `coords` as it is or appends one hex,
whose cell was 0. -/
theorem FindPathNeighbour_coords (E : Engine) (map : Map) (pfd : PathFindData) (f : Flood)
    (cx cy : Nat) (numindex : Int) (j : Nat) (s : Int × Int) :
    (FindPathNeighbour E map pfd cx cy numindex f j s).coords = f.coords ∨
    ∃ nx ny : Nat, cellAt E pfd f.Grid nx ny = 0 ∧
      (FindPathNeighbour E map pfd cx cy numindex f j s).coords = f.coords ++ [(nx, ny)] := by
  unfold FindPathNeighbour
  simp only []
  split
  · exact Or.inl rfl
  · rename_i hin
    split
    · exact Or.inl rfl
    · rename_i hz
      have hcell : cellAt E pfd f.Grid (toShort (toShort (cx : Int) + s.1)).toNat
          (toShort (toShort (cy : Int) + s.2)).toNat = 0 := by
        unfold cellAt
        rw [Int.toNat_of_nonneg (by omega), Int.toNat_of_nonneg (by omega)]
        by_contra h
        exact hz h
      split
      · split
        · exact Or.inr ⟨_, _, hcell, rfl⟩
        · split
          · exact Or.inl rfl
          · split
            · exact Or.inl rfl
            · exact Or.inl rfl
      · split
        · exact Or.inr ⟨_, _, hcell, rfl⟩
        · exact Or.inl rfl

/-- No hex is twice in `coords` after the body of the loop over the neighbours. -/
theorem FindPathNeighbour_nodup (E : Engine) (map : Map) (pfd : PathFindData) (f : Flood)
    (hinv : FloodInv E map pfd f) (hnd : f.coords.Nodup)
    (cx cy : Nat) (numindex : Int) (j : Nat) (s : Int × Int) :
    (FindPathNeighbour E map pfd cx cy numindex f j s).coords.Nodup := by
  rcases FindPathNeighbour_coords E map pfd f cx cy numindex j s with e | ⟨nx, ny, hz, e⟩
  · rw [e]; exact hnd
  · rw [e]
    refine List.Nodup.append hnd (List.nodup_singleton _) ?_
    intro c hc1 hc2
    rw [List.mem_singleton] at hc2
    subst hc2
    obtain ⟨_, _, k1, _, _⟩ := hinv.coords_ok _ hc1
    simp only [] at k1
    omega

/-- No hex is twice in `coords` after the loop over the neighbours. -/
theorem FindPathNeighbours_nodup (E : Engine) (map : Map) (pfd : PathFindData)
    (ctx : FloodCtx E map pfd) (cx cy : Nat) (numindex : Int)
    (hle : numindex ≤ E.FPATH_MAX_PATH) :
    ∀ (offs : List (Int × Int)) (f : Flood) (j : Nat), FloodInv E map pfd f →
      f.coords.Nodup → (cx, cy) ∈ f.coords →
      numindex = cellAt E pfd f.Grid cx cy + 1 →
      (∀ s ∈ offs, s ∈ GetHexOffsets E (cx % 2 != 0)) →
      (FindPathNeighbours E map pfd cx cy numindex f j offs).coords.Nodup := by
  intro offs
  induction offs with
  | nil => intro f j _ hnd _ _ _; rw [FindPathNeighbours_nil]; exact hnd
  | cons s rest ih =>
    intro f j hinv hnd hc hnum hoffs
    rw [FindPathNeighbours_cons]
    have hs := hoffs s (List.mem_cons_self _ _)
    obtain ⟨hinv1, hkeep1, l1, hl1⟩ := FindPathNeighbour_inv E map pfd f ctx hinv cx cy hc
      numindex hnum hle j s hs
    have hc1 : (cx, cy) ∈ (FindPathNeighbour E map pfd cx cy numindex f j s).coords := by
      rw [hl1]; exact List.mem_append_left _ hc
    have hnum1 : numindex =
        cellAt E pfd (FindPathNeighbour E map pfd cx cy numindex f j s).Grid cx cy + 1 := by
      obtain ⟨_, _, k1, _, _⟩ := hinv.coords_ok _ hc
      simp only [] at k1
      unfold cellAt at k1 hnum ⊢
      rw [hkeep1 _ (by omega)]
      exact hnum
    exact ih _ (j + 1) hinv1 (FindPathNeighbour_nodup E map pfd f hinv hnd cx cy numindex j s)
      hc1 hnum1 (fun s2 h2 => hoffs s2 (List.mem_cons_of_mem _ h2))

/-- The loop over the hexes of a layer has a result when `coords` holds the hexes it is to
handle; when it runs to its end it has handled all of them, and no hex is twice in
`coords`. -/
theorem FindPathLayer_total (E : Engine) (map : Map) (pfd : PathFindData)
    (ctx : FloodCtx E map pfd) (n : Nat) :
    ∀ (f : Flood) (p : Nat), FloodInv E map pfd f → f.coords.Nodup →
      p + n ≤ f.coords.length →
      ∃ r, FindPathLayer E map pfd n f p = some r ∧
        ∀ f1 p1, r = Sum.inr (f1, p1) →
          FloodInv E map pfd f1 ∧ f1.coords.Nodup ∧ p1 = p + n ∧ p1 ≤ f1.coords.length := by
  induction n with
  | zero =>
    intro f p hinv hnd hp
    refine ⟨Sum.inr (f, p), by rw [FindPathLayer], ?_⟩
    intro f1 p1 e
    simp only [Sum.inr.injEq, Prod.mk.injEq] at e
    obtain ⟨rfl, rfl⟩ := e
    exact ⟨hinv, hnd, rfl, hp⟩
  | succ n ih =>
    intro f p hinv hnd hp
    rw [FindPathLayer]
    have hplt : p < f.coords.length := by omega
    obtain ⟨c, hget⟩ : ∃ c, f.coords.get? p = some c :=
      ⟨f.coords.get ⟨p, hplt⟩, List.get?_eq_get hplt⟩
    obtain ⟨cx, cy⟩ := c
    rw [hget]
    simp only []
    have hc : (cx, cy) ∈ f.coords := List.get?_mem hget
    by_cases hd : CheckDist E cx cy pfd.ToX pfd.ToY pfd.Cut = true
    · rw [if_pos hd]
      exact ⟨_, rfl, fun f1 p1 e => by cases e⟩
    rw [if_neg hd]
    by_cases hfar : f.Grid (GRID E pfd.FromX pfd.FromY cx cy) + 1 > E.FPATH_MAX_PATH
    · rw [if_pos hfar]
      exact ⟨_, rfl, fun f1 p1 e => by cases e⟩
    rw [if_neg hfar]
    have hoffs : ∀ s ∈ (GetHexOffsets E (cx % 2 != 0)).take (DIRS_COUNT E),
        s ∈ GetHexOffsets E (cx % 2 != 0) := fun s hs => List.mem_of_mem_take hs
    have hle : f.Grid (GRID E pfd.FromX pfd.FromY cx cy) + 1 ≤ E.FPATH_MAX_PATH := by omega
    obtain ⟨hinv1, _, l1, hl1⟩ := FindPathNeighbours_inv E map pfd ctx cx cy
      (f.Grid (GRID E pfd.FromX pfd.FromY cx cy) + 1) hle
      ((GetHexOffsets E (cx % 2 != 0)).take (DIRS_COUNT E)) f 0 hinv hc rfl hoffs
    have hnd1 := FindPathNeighbours_nodup E map pfd ctx cx cy
      (f.Grid (GRID E pfd.FromX pfd.FromY cx cy) + 1) hle
      ((GetHexOffsets E (cx % 2 != 0)).take (DIRS_COUNT E)) f 0 hinv hnd hc rfl hoffs
    obtain ⟨r, hr, hrest⟩ := ih _ (p + 1) hinv1 hnd1
      (by rw [hl1, List.length_append]; omega)
    refine ⟨r, hr, ?_⟩
    intro f1 p1 e
    obtain ⟨a1, a2, a3, a4⟩ := hrest f1 p1 e
    exact ⟨a1, a2, by omega, a4⟩

/-- A list of hexes of the map without repetition has at most as many entries as the map
has hexes. -/
theorem nodup_hexes_length (w h : Nat) (l : List UShortPair) (hnd : l.Nodup)
    (hin : ∀ c ∈ l, c.1 < w ∧ c.2 < h) : l.length ≤ w * h := by
  have hsub : l ⊆ (List.range w) ×ˢ (List.range h) := by
    intro c hc
    obtain ⟨h1, h2⟩ := hin c hc
    obtain ⟨c1, c2⟩ := c
    rw [List.mem_product]
    exact ⟨List.mem_range.2 h1, List.mem_range.2 h2⟩
  have := (List.Nodup.subperm hnd hsub).length_le
  rw [List.length_product, List.length_range, List.length_range] at this
  exact this

/-- A hex of a queue is not in `coords`. -/
theorem FloodInv_queue_not_coords (E : Engine) (map : Map) (pfd : PathFindData) (f : Flood)
    (ctx : FloodCtx E map pfd) (hinv : FloodInv E map pfd f) (xy : UShortPair)
    (hq : xy ∈ f.gag_coords ∨ xy ∈ f.cr_coords) : xy ∉ f.coords := by
  have hM := ctx.max_lt
  intro hc
  obtain ⟨_, _, k1, k2, _⟩ := hinv.coords_ok _ hc
  rcases hq with hq | hq
  · obtain ⟨_, _, k, k3, _, k5, _⟩ := hinv.gag_ok xy hq
    omega
  · obtain ⟨_, _, k, k3, k4, k5, _⟩ := hinv.cr_ok xy hq
    omega

/-- A hex that is not in `coords` may be appended to it without repetition. -/
theorem nodup_append_one (l : List UShortPair) (xy : UShortPair) (hnd : l.Nodup)
    (hx : xy ∉ l) : (l ++ [xy]).Nodup := by
  refine List.Nodup.append hnd (List.nodup_singleton _) ?_
  intro c hc1 hc2
  rw [List.mem_singleton] at hc2
  subst hc2
  exact hx hc1

/-- The block `// Add gag hex after some distance` has a result when `coords` is not empty;
it keeps `coords` without repetition and does not shorten it. -/
theorem FindPathAddGag_total (E : Engine) (map : Map) (pfd : PathFindData) (f : Flood)
    (ctx : FloodCtx E map pfd) (hinv : FloodInv E map pfd f) (hnd : f.coords.Nodup)
    (hne : f.coords ≠ []) :
    ∃ f2, FindPathAddGag E pfd f = some f2 ∧ f2.coords.Nodup ∧
      f.coords.length ≤ f2.coords.length := by
  unfold FindPathAddGag
  split
  · exact ⟨f, rfl, hnd, le_refl _⟩
  · rename_i xy rest hg
    have hxy := FloodInv_queue_not_coords E map pfd f ctx hinv xy
      (Or.inl (by rw [hg]; exact List.mem_cons_self _ _))
    split
    · rename_i hlast
      exact absurd (List.getLast?_eq_none_iff.1 hlast) hne
    · simp only []
      split
      · exact ⟨_, rfl, nodup_append_one _ _ hnd hxy, by simp⟩
      · exact ⟨f, rfl, hnd, le_refl _⟩

/-- The block `// Add gag and critters hexes` keeps `coords` without repetition; it yields
`p_togo = 0` and leaves `coords` as it is, or yields `p_togo = 1` and appends one hex. -/
theorem FindPathAddSoft_total (E : Engine) (map : Map) (pfd : PathFindData) (f : Flood)
    (ctx : FloodCtx E map pfd) (hinv : FloodInv E map pfd f) (hnd : f.coords.Nodup) :
    (FindPathAddSoft E pfd f).1.coords.Nodup ∧
    (((FindPathAddSoft E pfd f).2 = 0 ∧ (FindPathAddSoft E pfd f).1.coords = f.coords) ∨
     ((FindPathAddSoft E pfd f).2 = 1 ∧
      (FindPathAddSoft E pfd f).1.coords.length = f.coords.length + 1)) := by
  unfold FindPathAddSoft
  split
  · rename_i xy rest hg
    have hxy := FloodInv_queue_not_coords E map pfd f ctx hinv xy
      (Or.inl (by rw [hg]; exact List.mem_cons_self _ _))
    exact ⟨nodup_append_one _ _ hnd hxy, Or.inr ⟨rfl, by simp⟩⟩
  · split
    · rename_i xy rest hg
      have hxy := FloodInv_queue_not_coords E map pfd f ctx hinv xy
        (Or.inr (by rw [hg]; exact List.mem_cons_self _ _))
      exact ⟨nodup_append_one _ _ hnd hxy, Or.inr ⟨rfl, by simp⟩⟩
    · exact ⟨hnd, Or.inl ⟨rfl, rfl⟩⟩

/-- The flood ends within the rounds it is given: with `coords` holding the hexes of the
layer to handle and as many rounds left as there are hexes of the map not yet handled, plus
one, the loop `while( true )` has a result. -/
theorem FindPathFlood_total (E : Engine) (map : Map) (pfd : PathFindData)
    (ctx : FloodCtx E map pfd) (fuel : Nat) :
    ∀ (f : Flood) (p p_togo : Nat), FloodInv E map pfd f → f.coords.Nodup →
      1 ≤ p_togo → p + p_togo ≤ f.coords.length → map.Width * map.Height + 1 ≤ fuel + p →
      ∃ e, FindPathFlood E map pfd fuel f p p_togo = some e := by
  have hbound : ∀ f : Flood, FloodInv E map pfd f → f.coords.Nodup →
      f.coords.length ≤ map.Width * map.Height := by
    intro f hinv hnd
    exact nodup_hexes_length _ _ _ hnd (fun c hc =>
      ⟨(hinv.coords_ok c hc).1, (hinv.coords_ok c hc).2.1⟩)
  induction fuel with
  | zero =>
    intro f p p_togo hinv hnd h1 h2 h3
    have := hbound f hinv hnd
    omega
  | succ fuel ih =>
    intro f p p_togo hinv hnd h1 h2 h3
    rw [FindPathFlood_succ]
    obtain ⟨r, hr, hrest⟩ := FindPathLayer_total E map pfd ctx p_togo f p hinv hnd h2
    rw [hr]
    cases r with
    | inl e => exact ⟨e, rfl⟩
    | inr r =>
      obtain ⟨f1, p1⟩ := r
      simp only []
      obtain ⟨hinv1, hnd1, hp1, hp1le⟩ := hrest f1 p1 rfl
      have hne1 : f1.coords ≠ [] := by
        intro he
        rw [he] at hp1le
        simp only [List.length_nil] at hp1le
        omega
      obtain ⟨f2, hgag, hnd2, hlen2⟩ := FindPathAddGag_total E map pfd f1 ctx hinv1 hnd1 hne1
      rw [hgag]
      simp only []
      have hinv2 := FindPathAddGag_inv E map pfd f1 f2 ctx hinv1 hgag
      by_cases hz : f2.coords.length - p1 = 0
      · rw [if_pos hz]
        obtain ⟨hnd3, hcase⟩ := FindPathAddSoft_total E map pfd f2 ctx hinv2 hnd2
        rcases hcase with ⟨e0, _⟩ | ⟨e1, elen⟩
        · rw [if_pos e0]
          exact ⟨_, rfl⟩
        · rw [if_neg (by omega)]
          exact ih _ _ _ (FindPathAddSoft_inv E map pfd f2 ctx hinv2) hnd3 (by omega)
            (by omega) (by omega)
      · rw [if_neg hz]
        have hr2 : ¬ ((f2, f2.coords.length - p1).2 = 0) := hz
        rw [if_neg hr2]
        exact ih _ _ _ hinv2 hnd2 (by simp only []; omega) (by simp only []; omega) (by omega)

/-- The trace block has a result when no trace is asked for or the trace critter is
registered. -/
theorem FindPathTrace_isSome (E : Engine) (mm : MapManager) (map : Map) (pfd : PathFindData)
    (cs : List PathStep × PathFindData)
    (h : pfd.Trace = 0 ∨ ∃ targ, pfd.TraceCr.bind mm.Critters = some targ) :
    ∃ o, FindPathTrace E mm map pfd cs = some o := by
  unfold FindPathTrace
  by_cases ht : pfd.Trace ≠ 0
  · rw [if_pos ht]
    rcases h with h | ⟨targ, htarg⟩
    · exact absurd h ht
    · rw [htarg]
      simp only []
      cases FindPathTraceBands E
          (FindPathTraceSeq E map (List.replicate (cs.1.length + 4) 0) 0 cs.1)
          targ.HexX targ.HexY pfd.Trace cs.1
          { NewTraceData map with EndHx := targ.HexX, EndHy := targ.HexY, FindCr := pfd.TraceCr }
          [0, 1, 2, 3, 4] with
      | some i => exact ⟨_, rfl⟩
      | none =>
        simp only []
        by_cases hg : cs.2.GagItem.isNone = true ∧ cs.2.GagCritter.isNone = true
        · rw [if_pos hg]; exact ⟨_, rfl⟩
        · rw [if_neg hg]; exact ⟨_, rfl⟩
  · rw [if_neg ht]
    exact ⟨_, rfl⟩

/-- `FindPath` always returns: with a depth limit that is positive and leaves the mark bits
free, a map whose sides fit `ushort` and a trace critter that is registered if one is given,
a call of `FindPath` has a result. The flood ends within the rounds that the model gives
it, and the backtrace does not fail. -/
theorem FindPath_total (E : Engine) (mm : MapManager) (pfd : PathFindData) (map : Map)
    (hmap : GetMap mm pfd.MapId = some map)
    (hmax0 : 0 < E.FPATH_MAX_PATH) (hmax : E.FPATH_MAX_PATH < 16384)
    (hw : map.Width ≤ 65535) (hh : map.Height ≤ 65535)
    (htr : ∀ id, pfd.TraceCr = some id → (mm.Critters id).isSome = true) :
    ∃ r, FindPath E mm pfd = some r := by
  by_cases hearly : pfd.Trace ≠ 0 ∧ pfd.TraceCr.isNone = true
  · exact ⟨(FPATH_TRACE_TARG_NULL_PTR, mm, pfd), by unfold FindPath; rw [if_pos hearly]⟩
  rcases FindPath_split E mm pfd map hmap with
    e | e | ⟨_, e⟩ | e | e | ⟨_, hfx, hfy, _, _, hfl⟩
  · exact ⟨_, e⟩
  · exact ⟨_, e⟩
  · exact ⟨_, e⟩
  · exact ⟨_, e⟩
  · exact ⟨_, e⟩
  · have ctx : FloodCtx E map pfd := ⟨hmax0, hmax, hw, hh, hfx, hfy⟩
    rcases hfl with ⟨hnone, _⟩ | ⟨_, e⟩ | ⟨_, e⟩ | ⟨f, cx, cy, numindex, hf, e⟩
    · exfalso
      obtain ⟨e2, he2⟩ := FindPathFlood_total E map pfd ctx (map.Width * map.Height + 1)
        (FindPathStart E pfd) 0 1 (FloodInv_init E map pfd ctx)
        (by simp [FindPathStart]) (le_refl _) (by simp [FindPathStart]) (by omega)
      rw [hnone] at he2
      cases he2
    · exact ⟨_, e⟩
    · exact ⟨_, e⟩
    · have hgood := FindPathStart_good E map pfd ctx _ _ hf
      obtain ⟨b', hb', _⟩ := FindPathTraceBack_spec E mm map pfd f cx cy numindex ctx hgood
      rw [e, FindPathFinish_of_backtrace E mm map pfd f.Grid cx cy numindex b' hb']
      have hsome : ∃ o, FindPathTrace E mm map pfd
          (if pfd.CheckCrit || pfd.CheckGagItems then
            FindPathCheckSoft E map pfd b'.path 0 b'.path else (b'.path, pfd)) = some o := by
        apply FindPathTrace_isSome
        by_cases ht : pfd.Trace = 0
        · exact Or.inl ht
        · right
          cases hcr : pfd.TraceCr with
          | none => exact absurd ⟨ht, by rw [hcr]; rfl⟩ hearly
          | some id =>
            obtain ⟨c, hc⟩ := Option.isSome_iff_exists.1 (htr id hcr)
            exact ⟨c, by simp [hc]⟩
      obtain ⟨o, ho⟩ := hsome
      rw [ho]
      cases o with
      | none => exact ⟨_, rfl⟩
      | some r => exact ⟨_, rfl⟩

/-! ## The leader of a group leaves the global map -/

theorem sampleTravelWorld_placed : CritterPlaced sampleTravelWorld 1 := by
  refine ⟨rfl, ?_, sampleTraveller (some [1, 2]), rfl, ?_, ?_, ?_⟩
  · intro id m hm
    simp only [sampleTravelWorld] at hm
    split at hm
    · injection hm with hm; subst hm; simp [sampleMap]
    · cases hm
  · intro id m hm
    simp only [sampleTravelWorld] at hm
    split at hm
    · rename_i h; injection hm with hm; subst hm; simp [sampleMap, sampleTraveller, sampleCritter, h]
    · cases hm
  · intro h; exact absurd rfl h
  · simp [sampleTraveller, sampleCritter]

/-- The leader of a group of two enters a map: the loop of `EraseCrFromMap` erases the
critter 1 from its own vector in the first round, reads the critter 2 in the cell past the
new end in the second round and erases the critter 1 from the vector of the critter 2. The
call returns true, the critter 1 holds no group and the critter 2 is alone in its group. -/
theorem Transit_leader_enters_map :
    (Transit (sampleEngine false false 400) sampleTravelWorld 1 (some 2) 4 4 0 2 0 false).map
      (fun r => (r.1, groupOf r.2 1, groupOf r.2 2, (r.2.Critters 1).map (fun c => c.MapId))) =
      some (true, none, some [2], some 2) := by
  decide!

theorem Transit_keeps_placed_witness :
    ∃ mm', Transit (sampleEngine false false 400) sampleTravelWorld 1 (some 2) 4 4 0 2 0 false =
        some (true, mm') ∧ CritterPlaced mm' 1 :=
  ⟨_, rfl, Transit_keeps_placed (sampleEngine false false 400) sampleTravelWorld 1 (some 2) 4 4 0 2 0
    false true _ sampleTravelWorld_placed rfl⟩

/-! ## Maps wider than a short -/

/-- C6 (defect). On an open square map of 40000 by 1 hexes a request goes from `(0, 0)` to
`(35000, 0)` with the cut 0. The two neighbours of the target hex that lie on the map,
`(34999, 0)` and `(35001, 0)`, are free, so the ring around the target is not closed and the
claim wants the ring check to let the request pass. The ring check computes the neighbour
in `short xx = to_hx + *rsx`, which is negative for each of them (`34999` becomes `-30537`),
skips them all as out of bounds and returns `FPATH_HEX_BUSY_RING`. -/
theorem FindPath_ring_check_wide_map :
    (FindPath (sampleEngine false false 400) (sampleManager (sampleMap 40000 1 [] []))
        (sampleRequest 0 0 35000 0 0)).map (fun r => r.1) = some FPATH_HEX_BUSY_RING ∧
    ¬ RingAllBusy (sampleEngine false false 400) (sampleMap 40000 1 [] []) 35000 0
        (GetHexOffsets (sampleEngine false false 400) ((35000 : Nat) % 2 != 0)) ∧
    FLAG ((sampleEngine false false 400).GetHexFlags (sampleMap 40000 1 [] []) 34999 0)
        (sampleEngine false false 400).FH_NOWAY = false ∧
    FLAG ((sampleEngine false false 400).GetHexFlags (sampleMap 40000 1 [] []) 35001 0)
        (sampleEngine false false 400).FH_NOWAY = false ∧
    toShort ((35000 : Int) + (-1)) = -30537 ∧ toShort ((35000 : Int) + 1) = -30535 := by
  refine ⟨by decide!, ?_, by decide, by decide, by decide, by decide⟩
  intro h
  have h1 := h (-1, 0) (by decide) (by decide) (by decide) (by decide) (by decide)
  exact absurd h1.1 (by decide)

/-- C21 (defect). On a square map of 40000 by 1 hexes whose hex `(32765, 0)` is blocked a
request goes from `(32766, 0)` to within two hexes of `(32770, 0)`. The hexes `(32767, 0)`
and `(32768, 0)` are free and on the map, each the neighbour of the one before, and
`(32768, 0)` is within the cut of the target, so a path exists. The flood computes the
neighbour of `(32767, 0)` in `short nx = (short) cx + sx[ j ]`, which is `-32768` for
`(32768, 0)`, skips it as out of bounds, runs out of hexes and returns `FPATH_DEADLOCK`. -/
theorem FindPath_deadlock_wide_map :
    (FindPath (sampleEngine false false 400)
        (sampleManager (sampleMap 40000 1 [((32765, 0), 0x0001)] []))
        (sampleRequest 32766 0 32770 0 2)).map (fun r => r.1) = some FPATH_DEADLOCK ∧
    List.Chain (Neighbour (sampleEngine false false 400)) (32766, 0) [(32767, 0), (32768, 0)] ∧
    (∀ c ∈ [((32767 : Nat), (0 : Nat)), (32768, 0)], c.1 < 40000 ∧ c.2 < 1 ∧
      Admitted (sampleEngine false false 400) (sampleMap 40000 1 [((32765, 0), 0x0001)] [])
        (sampleRequest 32766 0 32770 0 2) c.1 c.2) ∧
    CheckDist (sampleEngine false false 400) 32768 0 32770 0 2 = true ∧
    toShort (toShort (32767 : Nat) + 1) = -32768 := by
  refine ⟨by decide!, ?_, ?_, by decide, by decide⟩
  · refine List.Chain.cons ⟨(1, 0), by decide, by decide, by decide⟩
      (List.Chain.cons ⟨(1, 0), by decide, by decide, by decide⟩ List.Chain.nil)
  · intro c hc
    simp only [List.mem_cons, List.mem_singleton, List.not_mem_nil, or_false] at hc
    rcases hc with h | h <;> subst h <;>
      exact ⟨by decide, by decide, Or.inr (Or.inl (by decide))⟩

/-! ## Soft obstacles on the path that the call returns -/

theorem FindPathTraceBand_lt (E : Engine) (trace_seq : List Int) (tx ty trace k : Nat) :
    ∀ (rest : List PathStep) (t : TraceData) (i0 i : Nat) (t' : TraceData),
    FindPathTraceBand E trace_seq tx ty trace k t i0 rest = (some i, t') →
    i0 ≤ i ∧ i < i0 + rest.length := by
  intro rest
  induction rest with
  | nil =>
    intro t i0 i t' h
    simp [FindPathTraceBand] at h
  | cons ps rest ih =>
    intro t i0 i t' h
    unfold FindPathTraceBand at h
    simp only [List.length_cons]
    split at h
    · have := ih _ _ _ _ h; omega
    · split at h
      · have := ih _ _ _ _ h; omega
      · split at h
        · have := ih _ _ _ _ h; omega
        · simp only [] at h
          split at h
          · injection h with h1 h2
            injection h1 with h1
            omega
          · have := ih _ _ _ _ h; omega

theorem FindPathTraceBands_lt (E : Engine) (trace_seq : List Int) (tx ty trace : Nat)
    (path : List PathStep) :
    ∀ (ks : List Nat) (t : TraceData) (i : Nat),
    FindPathTraceBands E trace_seq tx ty trace path t ks = some i → i < path.length := by
  intro ks
  induction ks with
  | nil => intro t i h; simp [FindPathTraceBands] at h
  | cons k ks ih =>
    intro t i h
    unfold FindPathTraceBands at h
    split at h
    · rename_i j t1 hb
      injection h with h; subst h
      have := FindPathTraceBand_lt E trace_seq tx ty trace k path t 0 _ _ hb
      omega
    · exact ih _ _ h

theorem FindPathTraceHit_lt (E : Engine) (mm : MapManager) (map : Map) (pfd : PathFindData)
    (path : List PathStep) (i : Nat) (h : FindPathTraceHit E mm map pfd path = some i) :
    i < path.length := by
  unfold FindPathTraceHit at h
  split at h
  · split at h
    · cases h
    · exact FindPathTraceBands_lt E _ _ _ _ path _ _ _ h
  · cases h

/-- The request of the counterexample without a trace returns the two steps before the gag
item, and `GagItem` reports the item. -/
theorem FindPath_soft_obstacle_sample :
    (FindPath (sampleEngine false false 400) sampleDoorWorld (sampleDoorRequest 0)).map
        (fun r => (r.1, pathHexes (r.2.1.pathesPool r.2.2.PathNum), r.2.2.GagItem,
          r.2.2.GagCritter)) =
      some (FPATH_OK, [(1, 0), (2, 0)], some 2003, none) := by
  decide!

/-! ## The way round a blocked hex -/

theorem Reach_bounds (E : Engine) (map : Map) (pfd : PathFindData) (ctx : FloodCtx E map pfd)
    (n : Nat) (c : UShortPair) (h : Reach E map pfd n c) : c.1 < map.Width ∧ c.2 < map.Height := by
  cases h with
  | start => exact ⟨ctx.from_x, ctx.from_y⟩
  | step n a b _ _ h1 h2 _ => exact ⟨h1, h2⟩

theorem Reach_near (E : Engine) (map : Map) (pfd : PathFindData)
    (n : Nat) (c : UShortPair) (h : Reach E map pfd n c) : Near pfd n c.1 c.2 := by
  induction h with
  | start => unfold Near; simp
  | step n a b _ hnb _ _ _ ih =>
    obtain ⟨s, hs, e1, e2⟩ := hnb
    have := Near_step pfd _ _ _ s ih (GetHexOffsets_bound E _ s hs)
    rw [e1, e2]
    push_cast
    exact this

/-- A hex that is reached and whose cell is set is in `coords`. -/
theorem Reach_listed (E : Engine) (map : Map) (pfd : PathFindData) (f : Flood) (p : Nat)
    (hcl : FloodClosed E map pfd f p) (hb : FloodBfs E map pfd f p)
    (hmulti : pfd.Multihex = 0)
    (n : Nat) (c : UShortPair) (h : Reach E map pfd n c)
    (hn : (n : Int) + 1 ≤ E.FPATH_MAX_PATH) (hcell : cellAt E pfd f.Grid c.1 c.2 ≠ 0) :
    c ∈ f.coords := by
  have hnear := Near_mono pfd _ ((E.FPATH_MAX_PATH : Int) - 1) _ _ (Reach_near E map pfd n c h)
    (by omega)
  cases h with
  | start => exact hcl.start
  | step n a b _ _ h1 h2 h3 =>
    rcases hcl.listed c.1 c.2 h1 h2 hnear hcell (Or.inr (Or.inl h3)) with h | h | h
    · exact h
    · rw [hb.no_gag] at h; cases h
    · rw [hb.no_cr] at h; cases h

theorem mem_drop_of_not_mem_take {α : Type} (l : List α) (p : Nat) (a : α)
    (h1 : a ∈ l) (h2 : a ∉ l.take p) : a ∈ l.drop p := by
  rw [← List.take_append_drop p l, List.mem_append] at h1
  rcases h1 with h | h
  · exact absurd h h2
  · exact h

/-- The hex that is handled next has the least index of the hexes that are not handled. -/
theorem FloodBfs_front_le (E : Engine) (map : Map) (pfd : PathFindData) (f : Flood) (p : Nat)
    (hb : FloodBfs E map pfd f p) (a : UShortPair) (ha : a ∈ f.coords.drop p) :
    ∃ u, f.coords.get? p = some u ∧
      cellAt E pfd f.Grid u.1 u.2 ≤ cellAt E pfd f.Grid a.1 a.2 := by
  have hs := hb.sorted
  cases hd : f.coords.drop p with
  | nil => rw [hd] at ha; cases ha
  | cons u rest =>
    have hget : f.coords.get? p = some u := by
      have := List.head?_drop f.coords p
      rw [hd] at this
      simp only [List.head?_cons] at this
      rw [List.get?_eq_getElem?]
      exact this.symm
    rw [hd] at ha hs
    refine ⟨u, hget, ?_⟩
    rw [List.mem_cons] at ha
    rcases ha with rfl | ha
    · exact le_refl _
    · exact (List.pairwise_cons.1 hs).1 a ha

/-- While a hex that is reached by `n` moves has no index yet, a hex of index at most `n`
waits to be handled. -/
theorem FloodBfs_unmarked (E : Engine) (map : Map) (pfd : PathFindData) (f : Flood) (p : Nat)
    (hinv : FloodInv E map pfd f) (hcl : FloodClosed E map pfd f p)
    (hb : FloodBfs E map pfd f p) (hmulti : pfd.Multihex = 0)
    (n : Nat) (c : UShortPair) (h : Reach E map pfd n c) :
    (n : Int) + 1 ≤ E.FPATH_MAX_PATH → cellAt E pfd f.Grid c.1 c.2 = 0 →
    ∃ u, f.coords.get? p = some u ∧ cellAt E pfd f.Grid u.1 u.2 ≤ n := by
  induction h with
  | start =>
    intro _ hz
    obtain ⟨_, _, k1, _, _⟩ := hinv.coords_ok _ hcl.start
    simp only [] at k1 hz
    omega
  | step n a b hra hnb h1 h2 h3 ih =>
    intro hn hz
    by_cases hza : cellAt E pfd f.Grid a.1 a.2 = 0
    · obtain ⟨u, hu, hle⟩ := ih (by omega) hza
      exact ⟨u, hu, by push_cast; omega⟩
    · have hup := hb.upper n a hra (by omega) hza
      have hmem := Reach_listed E map pfd f p hcl hb hmulti n a hra (by omega) hza
      have hnt : a ∉ f.coords.take p := by
        intro ht
        obtain ⟨_, _, d3⟩ := hcl.done a ht
        obtain ⟨s, hs, e1, e2⟩ := hnb
        exact d3 s hs b.1 b.2 e1 e2 h1 h2 hz
      obtain ⟨u, hu, hle⟩ := FloodBfs_front_le E map pfd f p hb a
        (mem_drop_of_not_mem_take _ _ _ hmem hnt)
      exact ⟨u, hu, by push_cast; omega⟩

/-- What the body of the loop over the neighbours does for a request without soft-obstacle
options whose critter fills one hex: nothing, or it sets the cell of a hex, which was 0, to
the index and appends the hex to `coords`, or it sets the cell to `-1`. -/
theorem FindPathNeighbour_plain (E : Engine) (map : Map) (pfd : PathFindData) (cx cy : Nat)
    (numindex : Int) (f : Flood) (j : Nat) (s : Int × Int)
    (hmulti : pfd.Multihex = 0) (hgag : pfd.CheckGagItems = false)
    (hcrit : pfd.CheckCrit = false) (h1 : -32768 ≤ numindex) (h2 : numindex ≤ 32767) :
    FindPathNeighbour E map pfd cx cy numindex f j s = f ∨
    ∃ (n : UShortPair) (v : Int),
      f.Grid (GRID E pfd.FromX pfd.FromY n.1 n.2) = 0 ∧
      (FindPathNeighbour E map pfd cx cy numindex f j s).Grid =
        gridSet f.Grid (GRID E pfd.FromX pfd.FromY n.1 n.2) v ∧
      (FindPathNeighbour E map pfd cx cy numindex f j s).gag_coords = f.gag_coords ∧
      (FindPathNeighbour E map pfd cx cy numindex f j s).cr_coords = f.cr_coords ∧
      ((v = numindex ∧
          (FindPathNeighbour E map pfd cx cy numindex f j s).coords = f.coords ++ [n]) ∨
       (v = -1 ∧ (FindPathNeighbour E map pfd cx cy numindex f j s).coords = f.coords)) := by
  unfold FindPathNeighbour
  simp only []
  split
  · exact Or.inl rfl
  · rename_i hin
    have hx0 : 0 ≤ toShort (toShort (cx : Int) + s.1) := by omega
    have hy0 : 0 ≤ toShort (toShort (cy : Int) + s.2) := by omega
    split
    · exact Or.inl rfl
    · rename_i hz
      have hz0 : f.Grid (GRID E pfd.FromX pfd.FromY
          ((toShort (toShort (cx : Int) + s.1)).toNat, (toShort (toShort (cy : Int) + s.2)).toNat).1
          ((toShort (toShort (cx : Int) + s.1)).toNat, (toShort (toShort (cy : Int) + s.2)).toNat).2)
          = 0 := by
        simp only [Int.toNat_of_nonneg hx0, Int.toNat_of_nonneg hy0]
        by_contra hc
        exact hz hc
      have hpos : GRID E pfd.FromX pfd.FromY (toShort (toShort (cx : Int) + s.1))
          (toShort (toShort (cy : Int) + s.2)) = GRID E pfd.FromX pfd.FromY
          (((toShort (toShort (cx : Int) + s.1)).toNat, (toShort (toShort (cy : Int) + s.2)).toNat).1 : Nat)
          (((toShort (toShort (cx : Int) + s.1)).toNat, (toShort (toShort (cy : Int) + s.2)).toNat).2 : Nat) := by
        simp only [Int.toNat_of_nonneg hx0, Int.toNat_of_nonneg hy0]
      right
      refine ⟨((toShort (toShort (cx : Int) + s.1)).toNat,
        (toShort (toShort (cy : Int) + s.2)).toNat), ?_⟩
      split
      · exact ⟨numindex, hz0, by rw [toShort_of_range numindex h1 h2, hpos], rfl, rfl,
          Or.inl ⟨rfl, rfl⟩⟩
      · rw [if_neg (by rw [hgag]; simp), if_neg (by rw [hcrit]; simp)]
        exact ⟨-1, hz0, by rw [hpos], rfl, rfl, Or.inr ⟨rfl, rfl⟩⟩

/-- The body of the loop over the neighbours keeps the order of the work. -/
theorem FindPathNeighbour_bfs (E : Engine) (map : Map) (pfd : PathFindData) (f : Flood)
    (ctx : FloodCtx E map pfd) (hinv : FloodInv E map pfd f) (p : Nat)
    (hcl : FloodClosed E map pfd f p) (hb : FloodBfs E map pfd f p)
    (cx cy : Nat) (hget : f.coords.get? p = some (cx, cy)) (numindex : Int)
    (hnum : numindex = cellAt E pfd f.Grid cx cy + 1) (hle : numindex ≤ E.FPATH_MAX_PATH)
    (j : Nat) (s : Int × Int)
    (hmulti : pfd.Multihex = 0) (hgag : pfd.CheckGagItems = false)
    (hcrit : pfd.CheckCrit = false) :
    FloodBfs E map pfd (FindPathNeighbour E map pfd cx cy numindex f j s) p := by
  have hM := ctx.max_lt
  have hc : (cx, cy) ∈ f.coords := List.get?_mem hget
  obtain ⟨_, _, hu1, _, _⟩ := hinv.coords_ok _ hc
  simp only [] at hu1
  have hplt : p < f.coords.length := by
    rw [List.get?_eq_getElem?] at hget
    exact (List.getElem?_eq_some_iff.1 hget).1
  rcases FindPathNeighbour_plain E map pfd cx cy numindex f j s hmulti hgag hcrit (by omega)
    (by omega) with he | ⟨n, v, hz, hgrid, hg, hcr, hcase⟩
  · rw [he]; exact hb
  generalize FindPathNeighbour E map pfd cx cy numindex f j s = f2 at hgrid hg hcr hcase ⊢
  have hkeep : ∀ x y : Int, cellAt E pfd f.Grid x y ≠ 0 →
      cellAt E pfd f2.Grid x y = cellAt E pfd f.Grid x y := by
    intro x y hxy
    rw [hgrid]
    exact cellAt_gridSet_of_ne E pfd f.Grid _ v x y (by rw [hz]; exact hxy)
  have hnew : ∀ x y : Int, cellAt E pfd f.Grid x y = 0 → cellAt E pfd f2.Grid x y ≠ 0 →
      cellAt E pfd f2.Grid x y = v := by
    intro x y h0 h1
    rw [hgrid] at h1 ⊢
    unfold cellAt gridSet at h1 ⊢
    unfold cellAt at h0
    split
    · rfl
    · rename_i hne
      rw [if_neg hne] at h1
      exact absurd h0 h1
  have hself : cellAt E pfd f2.Grid n.1 n.2 = v := by
    rw [hgrid]; exact cellAt_gridSet_self E pfd f.Grid _ _ v
  have hcc : ∀ c ∈ f.coords, cellAt E pfd f2.Grid c.1 c.2 = cellAt E pfd f.Grid c.1 c.2 := by
    intro c hcm
    obtain ⟨_, _, k1, _, _⟩ := hinv.coords_ok c hcm
    exact hkeep _ _ (by omega)
  have hsorted_old : List.Pairwise
      (fun a b : UShortPair => cellAt E pfd f2.Grid a.1 a.2 ≤ cellAt E pfd f2.Grid b.1 b.2)
      (f.coords.drop p) := by
    refine List.Pairwise.imp_of_mem ?_ hb.sorted
    intro a b ha hb2 hab
    rw [hcc a (List.mem_of_mem_drop ha), hcc b (List.mem_of_mem_drop hb2)]
    exact hab
  have hfront_old : ∀ c ∈ f.coords,
      cellAt E pfd f2.Grid c.1 c.2 ≤ cellAt E pfd f2.Grid cx cy + 1 := by
    intro c hcm
    have := hb.front (cx, cy) hget c hcm
    rw [hcc c hcm, hcc (cx, cy) hc]
    exact this
  have hupper : ∀ (m : Nat) (c : UShortPair), Reach E map pfd m c →
      (m : Int) + 1 ≤ E.FPATH_MAX_PATH → cellAt E pfd f2.Grid c.1 c.2 ≠ 0 →
      cellAt E pfd f2.Grid c.1 c.2 ≤ m + 1 := by
    intro m c hr hm hnz
    by_cases h0 : cellAt E pfd f.Grid c.1 c.2 = 0
    · rw [hnew _ _ h0 hnz]
      rcases hcase with ⟨hv, _⟩ | ⟨hv, _⟩
      · obtain ⟨u, hu, hule⟩ := FloodBfs_unmarked E map pfd f p hinv hcl hb hmulti m c hr hm h0
        rw [hget] at hu
        injection hu with hu
        subst hu
        simp only [] at hule
        omega
      · omega
    · rw [hkeep _ _ h0]
      exact hb.upper m c hr hm h0
  rcases hcase with ⟨hv, hco⟩ | ⟨hv, hco⟩
  · have hget2 : f2.coords.get? p = some (cx, cy) := by
      rw [hco, List.get?_eq_getElem?, List.getElem?_append_left hplt, ← List.get?_eq_getElem?]
      exact hget
    refine ⟨by rw [hg]; exact hb.no_gag, by rw [hcr]; exact hb.no_cr, ?_, ?_, hupper⟩
    · rw [hco, List.drop_append_of_le_length (by omega), List.pairwise_append]
      refine ⟨hsorted_old, List.pairwise_singleton _ _, ?_⟩
      intro a ha b hb2
      rw [List.mem_singleton] at hb2
      subst hb2
      have := hfront_old a (List.mem_of_mem_drop ha)
      rw [hself, hv, hnum, ← hcc (cx, cy) hc]
      exact this
    · intro u hu c hcm
      rw [hget2] at hu
      injection hu with hu
      subst hu
      rw [hco, List.mem_append, List.mem_singleton] at hcm
      rcases hcm with hcm | hcm
      · exact hfront_old c hcm
      · subst hcm
        rw [hself, hv, hnum, ← hcc (cx, cy) hc]
  · refine ⟨by rw [hg]; exact hb.no_gag, by rw [hcr]; exact hb.no_cr, ?_, ?_, hupper⟩
    · rw [hco]; exact hsorted_old
    · intro u hu c hcm
      rw [hco] at hu hcm
      rw [hget] at hu
      injection hu with hu
      subst hu
      exact hfront_old c hcm

/-- The loop over the neighbours of the hex that is handled keeps the order of the work. -/
theorem FindPathNeighbours_bfs (E : Engine) (map : Map) (pfd : PathFindData)
    (ctx : FloodCtx E map pfd) (p : Nat) (cx cy : Nat) (numindex : Int)
    (hle : numindex ≤ E.FPATH_MAX_PATH)
    (hmulti : pfd.Multihex = 0) (hgag : pfd.CheckGagItems = false)
    (hcrit : pfd.CheckCrit = false) (hws : map.Width ≤ 32767) (hhs : map.Height ≤ 32767) :
    ∀ (offs : List (Int × Int)) (f : Flood) (j : Nat), FloodInv E map pfd f →
      FloodClosed E map pfd f p → FloodBfs E map pfd f p → f.coords.get? p = some (cx, cy) →
      numindex = cellAt E pfd f.Grid cx cy + 1 →
      (∀ s ∈ offs, s ∈ GetHexOffsets E (cx % 2 != 0)) →
      FloodBfs E map pfd (FindPathNeighbours E map pfd cx cy numindex f j offs) p := by
  intro offs
  induction offs with
  | nil =>
    intro f j _ _ hb _ _ _
    rw [FindPathNeighbours_nil]
    exact hb
  | cons s rest ih =>
    intro f j hinv hcl hb hget hnum hoffs
    rw [FindPathNeighbours_cons]
    have hc : (cx, cy) ∈ f.coords := List.get?_mem hget
    have hs := hoffs s (List.mem_cons_self _ _)
    obtain ⟨hinv1, hkeep1, l1, hl1⟩ := FindPathNeighbour_inv E map pfd f ctx hinv cx cy hc
      numindex hnum hle j s hs
    obtain ⟨hcl1, _⟩ := FindPathNeighbour_closed E map pfd f ctx hinv p hcl cx cy hc numindex
      hnum hle j s hs hmulti hws hhs
    have hb1 := FindPathNeighbour_bfs E map pfd f ctx hinv p hcl hb cx cy hget numindex hnum hle
      j s hmulti hgag hcrit
    have hplt : p < f.coords.length := by
      rw [List.get?_eq_getElem?] at hget
      exact (List.getElem?_eq_some_iff.1 hget).1
    refine ih _ (j + 1) hinv1 hcl1 hb1 ?_ ?_ (fun t ht => hoffs t (List.mem_cons_of_mem _ ht))
    · rw [hl1, List.get?_eq_getElem?, List.getElem?_append_left hplt, ← List.get?_eq_getElem?]
      exact hget
    · obtain ⟨_, _, k1, _, _⟩ := hinv.coords_ok _ hc
      simp only [] at k1
      unfold cellAt at k1 hnum ⊢
      rw [hkeep1 _ (by omega)]
      exact hnum

/-- While a hex within the cut of the target is reached by `n` moves and `n + 2` is within
the depth limit, the hex that the flood handles next is within the limit, or the flood is at
its end: the hex that is handled next has an index of at most `n + 1`. -/
theorem FloodBfs_target (E : Engine) (map : Map) (pfd : PathFindData) (f : Flood) (p : Nat)
    (hinv : FloodInv E map pfd f) (hcl : FloodClosed E map pfd f p)
    (hb : FloodBfs E map pfd f p) (hmulti : pfd.Multihex = 0)
    (n : Nat) (t : UShortPair) (ht : Reach E map pfd n t)
    (htd : CheckDist E t.1 t.2 pfd.ToX pfd.ToY pfd.Cut = true)
    (hn : (n : Int) + 2 ≤ E.FPATH_MAX_PATH) :
    ∃ u, f.coords.get? p = some u ∧ cellAt E pfd f.Grid u.1 u.2 ≤ n + 1 := by
  by_cases hz : cellAt E pfd f.Grid t.1 t.2 = 0
  · obtain ⟨u, hu, hle⟩ := FloodBfs_unmarked E map pfd f p hinv hcl hb hmulti n t ht (by omega) hz
    exact ⟨u, hu, by omega⟩
  · have hup := hb.upper n t ht (by omega) hz
    have hmem := Reach_listed E map pfd f p hcl hb hmulti n t ht (by omega) hz
    have hnt : t ∉ f.coords.take p := by
      intro h
      obtain ⟨d1, _, _⟩ := hcl.done t h
      rw [htd] at d1
      cases d1
    obtain ⟨u, hu, hle⟩ := FloodBfs_front_le E map pfd f p hb t
      (mem_drop_of_not_mem_take _ _ _ hmem hnt)
    exact ⟨u, hu, by omega⟩

/-- The loop over the hexes of a layer keeps the order of the work, and it does not give
up for the depth limit while a hex within the cut of the target is reached by `n` moves
with `n + 2` within the limit. -/
theorem FindPathLayer_bfs (E : Engine) (map : Map) (pfd : PathFindData)
    (ctx : FloodCtx E map pfd) (hmulti : pfd.Multihex = 0) (hgag : pfd.CheckGagItems = false)
    (hcrit : pfd.CheckCrit = false) (hws : map.Width ≤ 32767) (hhs : map.Height ≤ 32767)
    (n : Nat) (t : UShortPair) (ht : Reach E map pfd n t)
    (htd : CheckDist E t.1 t.2 pfd.ToX pfd.ToY pfd.Cut = true)
    (hn : (n : Int) + 2 ≤ E.FPATH_MAX_PATH) (k : Nat) :
    ∀ (f : Flood) (p : Nat), FloodInv E map pfd f → FloodClosed E map pfd f p →
      FloodBfs E map pfd f p →
      FindPathLayer E map pfd k f p ≠ some (Sum.inl FloodEnd.tooFar) ∧
      ∀ (f2 : Flood) (p2 : Nat), FindPathLayer E map pfd k f p = some (Sum.inr (f2, p2)) →
        FloodInv E map pfd f2 ∧ FloodClosed E map pfd f2 p2 ∧ FloodBfs E map pfd f2 p2 := by
  induction k with
  | zero =>
    intro f p hinv hcl hb
    rw [FindPathLayer]
    refine ⟨by simp, ?_⟩
    intro f2 p2 h
    simp only [Option.some.injEq, Sum.inr.injEq, Prod.mk.injEq] at h
    obtain ⟨rfl, rfl⟩ := h
    exact ⟨hinv, hcl, hb⟩
  | succ k ih =>
    intro f p hinv hcl hb
    have hone : ∀ r, FindPathLayer E map pfd 1 f p = some r →
        FindPathLayer E map pfd (k + 1) f p =
          match r with
          | Sum.inl e => some (Sum.inl e)
          | Sum.inr (f1, p1) => FindPathLayer E map pfd k f1 p1 := by
      intro r hr
      rw [FindPathLayer] at hr ⊢
      cases hget : f.coords.get? p with
      | none => rw [hget] at hr; cases hr
      | some c =>
        obtain ⟨cx, cy⟩ := c
        rw [hget] at hr
        simp only [] at hr ⊢
        split at hr
        · rename_i hd
          rw [if_pos hd]
          injection hr with hr
          subst hr
          rfl
        · rename_i hd
          rw [if_neg hd]
          split at hr
          · rename_i hf
            rw [if_pos hf]
            injection hr with hr
            subst hr
            rfl
          · rename_i hf
            rw [if_neg hf]
            rw [FindPathLayer] at hr
            injection hr with hr
            subst hr
            rfl
    cases hget : f.coords.get? p with
    | none =>
      have hnone : FindPathLayer E map pfd (k + 1) f p = none := by
        rw [FindPathLayer, hget]
      rw [hnone]
      exact ⟨by simp, fun _ _ h => by cases h⟩
    | some c =>
      obtain ⟨cx, cy⟩ := c
      have hc : (cx, cy) ∈ f.coords := List.get?_mem hget
      by_cases hd : CheckDist E cx cy pfd.ToX pfd.ToY pfd.Cut = true
      · have h1 : FindPathLayer E map pfd (k + 1) f p = some (Sum.inl (FloodEnd.findOk f cx cy
            (f.Grid (GRID E pfd.FromX pfd.FromY cx cy)))) := by
          rw [FindPathLayer, hget]
          simp only [if_pos hd]
        rw [h1]
        exact ⟨by simp, fun _ _ h => by cases h⟩
      obtain ⟨u, hu, hule⟩ := FloodBfs_target E map pfd f p hinv hcl hb hmulti n t ht htd hn
      rw [hget] at hu
      injection hu with hu
      subst hu
      simp only [] at hule
      have hfar : ¬ (f.Grid (GRID E pfd.FromX pfd.FromY cx cy) + 1 > E.FPATH_MAX_PATH) := by
        unfold cellAt at hule
        omega
      have hle : f.Grid (GRID E pfd.FromX pfd.FromY cx cy) + 1 ≤ E.FPATH_MAX_PATH := by omega
      have hoffs : ∀ s ∈ (GetHexOffsets E (cx % 2 != 0)).take (DIRS_COUNT E),
          s ∈ GetHexOffsets E (cx % 2 != 0) := fun s hs => List.mem_of_mem_take hs
      have h1 : FindPathLayer E map pfd 1 f p = some (Sum.inr
          (FindPathNeighbours E map pfd cx cy (f.Grid (GRID E pfd.FromX pfd.FromY cx cy) + 1) f 0
            ((GetHexOffsets E (cx % 2 != 0)).take (DIRS_COUNT E)), p + 1)) := by
        rw [FindPathLayer, hget]
        simp only [if_neg hd, if_neg hfar]
        rw [FindPathLayer]
      obtain ⟨hinv1, hcl1⟩ := FindPathLayer_closed E map pfd ctx hmulti hws hhs 1 f p hinv hcl
        _ _ h1
      have hb1 := FindPathNeighbours_bfs E map pfd ctx p cx cy
        (f.Grid (GRID E pfd.FromX pfd.FromY cx cy) + 1) hle hmulti hgag hcrit hws hhs
        ((GetHexOffsets E (cx % 2 != 0)).take (DIRS_COUNT E)) f 0 hinv hcl hb hget rfl hoffs
      obtain ⟨_, _, l1, hl1⟩ := FindPathNeighbours_inv E map pfd ctx cx cy
        (f.Grid (GRID E pfd.FromX pfd.FromY cx cy) + 1) hle
        ((GetHexOffsets E (cx % 2 != 0)).take (DIRS_COUNT E)) f 0 hinv hc rfl hoffs
      rw [hone _ h1]
      simp only []
      generalize FindPathNeighbours E map pfd cx cy (f.Grid (GRID E pfd.FromX pfd.FromY cx cy) + 1)
        f 0 ((GetHexOffsets E (cx % 2 != 0)).take (DIRS_COUNT E)) = f1 at hinv1 hcl1 hb1 hl1 ⊢
      have hplt : p < f.coords.length := by
        rw [List.get?_eq_getElem?] at hget
        exact (List.getElem?_eq_some_iff.1 hget).1
      have hget1 : f1.coords.get? p = some (cx, cy) := by
        rw [hl1, List.get?_eq_getElem?, List.getElem?_append_left hplt, ← List.get?_eq_getElem?]
        exact hget
      refine ih f1 (p + 1) hinv1 hcl1 ⟨hb1.no_gag, hb1.no_cr, ?_, ?_, hb1.upper⟩
      · exact List.Pairwise.sublist (List.drop_sublist_drop_left f1.coords (Nat.le_succ p))
          hb1.sorted
      · intro u hu c hcm
        have h2 := hb1.front (cx, cy) hget1 c hcm
        have hmem : u ∈ f1.coords.drop p := by
          have : (f1.coords.drop p)[1]? = some u := by
            rw [List.getElem?_drop, ← List.get?_eq_getElem?]
            exact hu
          exact List.getElem?_mem this
        obtain ⟨u0, hu0, hle0⟩ := FloodBfs_front_le E map pfd f1 p hb1 u hmem
        rw [hget1] at hu0
        injection hu0 with hu0
        subst hu0
        simp only [] at hle0 h2
        omega

/-- The flood of a request without soft-obstacle options ends neither with the depth limit
nor with the deadlock while a hex within the cut of the target is reached by `n` moves with
`n + 2` within the limit. -/
theorem FindPathFlood_bfs (E : Engine) (map : Map) (pfd : PathFindData)
    (ctx : FloodCtx E map pfd) (hmulti : pfd.Multihex = 0) (hgag : pfd.CheckGagItems = false)
    (hcrit : pfd.CheckCrit = false) (hws : map.Width ≤ 32767) (hhs : map.Height ≤ 32767)
    (n : Nat) (t : UShortPair) (ht : Reach E map pfd n t)
    (htd : CheckDist E t.1 t.2 pfd.ToX pfd.ToY pfd.Cut = true)
    (hn : (n : Int) + 2 ≤ E.FPATH_MAX_PATH) (fuel : Nat) :
    ∀ (f : Flood) (p p_togo : Nat), FloodInv E map pfd f → FloodClosed E map pfd f p →
      FloodBfs E map pfd f p →
      FindPathFlood E map pfd fuel f p p_togo ≠ some FloodEnd.tooFar ∧
      FindPathFlood E map pfd fuel f p p_togo ≠ some FloodEnd.deadlock := by
  induction fuel with
  | zero =>
    intro f p p_togo _ _ _
    rw [FindPathFlood]
    exact ⟨by simp, by simp⟩
  | succ fuel ih =>
    intro f p p_togo hinv hcl hb
    rw [FindPathFlood_succ]
    obtain ⟨hnf, hstep⟩ := FindPathLayer_bfs E map pfd ctx hmulti hgag hcrit hws hhs n t ht htd
      hn p_togo f p hinv hcl hb
    cases hlayer : FindPathLayer E map pfd p_togo f p with
    | none => exact ⟨by simp, by simp⟩
    | some r =>
      cases r with
      | inl e =>
        simp only []
        constructor
        · intro h
          injection h with h
          subst h
          exact hnf hlayer
        · intro h
          injection h with h
          subst h
          exact FindPathLayer_not_deadlock E map pfd p_togo f p hlayer
      | inr r =>
        obtain ⟨f1, p1⟩ := r
        simp only []
        obtain ⟨hinv1, hcl1, hb1⟩ := hstep f1 p1 hlayer
        have hgag1 : FindPathAddGag E pfd f1 = some f1 := by
          unfold FindPathAddGag
          rw [hb1.no_gag]
        rw [hgag1]
        simp only []
        by_cases hz : f1.coords.length - p1 = 0
        · exfalso
          obtain ⟨u, hu, _⟩ := FloodBfs_target E map pfd f1 p1 hinv1 hcl1 hb1 hmulti n t ht htd hn
          rw [List.get?_eq_getElem?] at hu
          have := (List.getElem?_eq_some_iff.1 hu).1
          omega
        · rw [if_neg hz]
          have hr : ¬ ((f1, f1.coords.length - p1).2 = 0) := hz
          rw [if_neg hr]
          exact ih _ _ _ hinv1 hcl1 hb1

/-- Before the flood the order of the work is settled: only the start hex has an index. -/
theorem FloodBfs_init (E : Engine) (map : Map) (pfd : PathFindData) :
    FloodBfs E map pfd (FindPathStart E pfd) 0 := by
  have hcell : ∀ x y : Int, cellAt E pfd (FindPathStart E pfd).Grid x y ≠ 0 →
      cellAt E pfd (FindPathStart E pfd).Grid x y = 1 := by
    intro x y h
    unfold cellAt FindPathStart gridSet at h ⊢
    simp only [] at h ⊢
    split
    · rfl
    · rename_i hne
      rw [if_neg hne] at h
      exact absurd rfl h
  refine ⟨rfl, rfl, ?_, ?_, ?_⟩
  · show List.Pairwise _ [(pfd.FromX, pfd.FromY)]
    exact List.pairwise_singleton _ _
  · intro u hu c hc
    have h1 : (FindPathStart E pfd).coords = [(pfd.FromX, pfd.FromY)] := rfl
    rw [h1] at hu hc
    simp only [List.get?_cons_zero, Option.some.injEq] at hu
    rw [List.mem_singleton] at hc
    subst hu hc
    omega
  · intro n c _ _ hnz
    rw [hcell _ _ hnz]
    omega

/-- The search of a request without soft-obstacle options and without trace finds the target
when a way of free hexes on the map leads to it whose number of moves is at least two below
the depth limit, on a map whose sides fit a `short`. -/
theorem FindPath_reach_ok (E : Engine) (mm : MapManager) (pfd : PathFindData) (map : Map)
    (hmap : GetMap mm pfd.MapId = some map)
    (hmax : E.FPATH_MAX_PATH < 16384)
    (hw : map.Width ≤ 32767) (hh : map.Height ≤ 32767)
    (hfx : pfd.FromX < map.Width) (hfy : pfd.FromY < map.Height)
    (htx : pfd.ToX < map.Width) (hty : pfd.ToY < map.Height)
    (hne : (pfd.FromX, pfd.FromY) ≠ (pfd.ToX, pfd.ToY))
    (hcut : pfd.Cut = 0) (hmulti : pfd.Multihex = 0) (hcrit : pfd.CheckCrit = false)
    (hgag : pfd.CheckGagItems = false) (htrace : pfd.Trace = 0)
    (hto : FLAG (E.GetHexFlags map pfd.ToX pfd.ToY) E.FH_NOWAY = false)
    (hring : ¬ RingAllBusy E map pfd.ToX pfd.ToY (GetHexOffsets E (pfd.ToX % 2 != 0)))
    (n : Nat) (hreach : Reach E map pfd n (pfd.ToX, pfd.ToY))
    (hn : (n : Int) + 2 ≤ E.FPATH_MAX_PATH) :
    ∃ mm' pfd', FindPath E mm pfd = some (FPATH_OK, mm', pfd') := by
  have ctx : FloodCtx E map pfd := ⟨by omega, hmax, by omega, by omega, hfx, hfy⟩
  have hcd : ¬ CheckDist E pfd.FromX pfd.FromY pfd.ToX pfd.ToY pfd.Cut = true := by
    rw [hcut]
    intro h
    exact hne ((CheckDist_zero_iff E _ _ _ _).1 h)
  have htd : CheckDist E pfd.ToX pfd.ToY pfd.ToX pfd.ToY pfd.Cut = true := by
    rw [hcut]
    exact (CheckDist_zero_iff E _ _ _ _).2 rfl
  have hinv0 := FloodInv_init E map pfd ctx
  have harea := sides_le_area map.Width map.Height (by omega) (by omega)
  obtain ⟨e, he⟩ := FindPathFlood_total E map pfd ctx (map.Width * map.Height + 1)
    (FindPathStart E pfd) 0 1 hinv0 (List.nodup_singleton _) (le_refl _)
    (by show 0 + 1 ≤ [(pfd.FromX, pfd.FromY)].length; simp) (by omega)
  obtain ⟨b1, b2⟩ := FindPathFlood_bfs E map pfd ctx hmulti hgag hcrit hw hh n (pfd.ToX, pfd.ToY)
    hreach htd hn (map.Width * map.Height + 1) (FindPathStart E pfd) 0 1 hinv0
    (FloodClosed_init E map pfd ctx) (FloodBfs_init E map pfd)
  cases e with
  | tooFar => exact absurd he b1
  | deadlock => exact absurd he b2
  | findOk f cx cy numindex =>
    have hgood := FindPathFlood_inv E map pfd ctx _ _ _ _ hinv0 _ he
    have hring2 : ¬ (pfd.Cut ≤ 1 ∧ pfd.Multihex = 0 ∧
        FindPathRingBusy E map pfd.ToX pfd.ToY
          ((GetHexOffsets E (pfd.ToX % 2 != 0)).take (DIRS_COUNT E)) = true) := by
      rintro ⟨_, _, hr⟩
      rw [GetHexOffsets_take, FindPathRingBusy_iff E map pfd.ToX pfd.ToY hw hh htx hty _
        (fun s hs => GetHexOffsets_bound E _ s hs)] at hr
      exact hring hr
    have hfp := FindPath_of_flood E mm pfd map hmap (by rw [htrace]; simp) (by omega) hcd
      (by rw [hto]; simp) hring2 f cx cy numindex he
    obtain ⟨b', e1, e2, _, _, _, e6, _, _⟩ :=
      FindPathTraceBack_spec E mm map pfd f cx cy numindex ctx hgood
    have hidx := FindPathFlood_index E map pfd ctx f cx cy numindex hgood (by simpa using hcd)
    rw [if_neg (by omega)] at e6
    obtain ⟨mm', pfd', r1, _⟩ := FindPathResult_last E
      { mm with pathNumCur := nextPathNum E mm.pathNumCur, smooth_switcher := b'.smooth_switcher }
      pfd.IsRun b'.path pfd cx cy e6
    refine ⟨mm', pfd', ?_⟩
    rw [hfp, FindPathFinish_plain E mm map pfd f.Grid cx cy numindex b' hcrit hgag htrace e1, r1]

theorem MoveHexByDirUnsafe_lin (E : Engine) (x y : Int) (dir : Nat) (hdir : dir < DIRS_COUNT E) :
    (MoveHexByDirUnsafe E x y dir).1 = x + (dirDelta E dir).1 ∧
    hexLin E (MoveHexByDirUnsafe E x y dir).1 (MoveHexByDirUnsafe E x y dir).2 =
      hexLin E x y + (dirDelta E dir).2 := by
  unfold MoveHexByDirUnsafe hexLin dirDelta GetHexOffsets
  unfold DIRS_COUNT at hdir
  cases hh : E.MapHexagonal
  · rw [hh] at hdir
    simp only [Bool.false_eq_true, if_false] at hdir ⊢
    interval_cases dir <;> simp
  · rw [hh] at hdir
    simp only [if_true] at hdir ⊢
    rcases Int.emod_two_eq_zero_or_one x with hp | hp
    · have hb : (x % 2 != 0) = false := by simp [hp]
      rw [hb]
      simp only [Bool.false_eq_true, if_false]
      interval_cases dir <;> simp <;> omega
    · have hb : (x % 2 != 0) = true := by simp [hp]
      rw [hb]
      simp only [if_true]
      interval_cases dir <;> simp <;> omega

theorem hexLin_inj (E : Engine) (x y y' : Int) (h : hexLin E x y = hexLin E x y') : y = y' := by
  unfold hexLin at h
  split at h <;> omega

theorem MoveHexByDirTimes_lin (E : Engine) (x y : Int) (dir : Nat) (hdir : dir < DIRS_COUNT E) :
    ∀ k : Nat, (MoveHexByDirTimes E x y dir k).1 = x + k * (dirDelta E dir).1 ∧
      hexLin E (MoveHexByDirTimes E x y dir k).1 (MoveHexByDirTimes E x y dir k).2 =
        hexLin E x y + k * (dirDelta E dir).2 := by
  intro k
  induction k with
  | zero => simp [MoveHexByDirTimes]
  | succ k ih =>
    have h := MoveHexByDirUnsafe_lin E (MoveHexByDirTimes E x y dir k).1
      (MoveHexByDirTimes E x y dir k).2 dir hdir
    show (MoveHexByDirUnsafe E _ _ dir).1 = _ ∧ hexLin E (MoveHexByDirUnsafe E _ _ dir).1
      (MoveHexByDirUnsafe E _ _ dir).2 = _
    constructor
    · rw [h.1, ih.1]
      push_cast
      ring
    · rw [h.2, ih.2]
      push_cast
      ring

/-- A move in a direction leads to the neighbour at the offset of that direction. -/
theorem MoveHexByDirUnsafe_offset (E : Engine) (x y : Int) (dir : Nat)
    (hdir : dir < DIRS_COUNT E) :
    ∃ s ∈ GetHexOffsets E (x % 2 != 0), MoveHexByDirUnsafe E x y dir = (x + s.1, y + s.2) := by
  have hlen : dir < (GetHexOffsets E (x % 2 != 0)).length := by
    unfold DIRS_COUNT at hdir
    unfold GetHexOffsets
    split
    · rename_i hh
      rw [if_pos hh] at hdir
      split <;> simpa using hdir
    · rename_i hh
      rw [if_neg hh] at hdir
      simpa using hdir
  have hget : (GetHexOffsets E (x % 2 != 0)).get? dir =
      some ((GetHexOffsets E (x % 2 != 0)).get ⟨dir, hlen⟩) := List.get?_eq_get hlen
  refine ⟨_, List.get_mem _ dir hlen, ?_⟩
  unfold MoveHexByDirUnsafe
  rw [hget]

set_option maxHeartbeats 4000000 in
/-- One step of a path, in the weighted position for a direction: it gains at most what the
move in the direction gains, and for a direction that is strict it gains as much only when
it is the move in the direction. -/
theorem StepBack_pot (E : Engine) (dir : Nat) (hdir : dir < DIRS_COUNT E) (a b : UShortPair)
    (h : StepBack E a b) :
    dirPot E dir b.1 b.2 - dirPot E dir a.1 a.2 ≤ dirGain E dir ∧
    (dirStrict E dir → dirPot E dir b.1 b.2 - dirPot E dir a.1 a.2 = dirGain E dir →
      (b.1 : Int) = a.1 + (dirDelta E dir).1 ∧
      hexLin E b.1 b.2 = hexLin E a.1 a.2 + (dirDelta E dir).2) := by
  obtain ⟨s, hs, e1, e2⟩ := h
  obtain ⟨ax, ay⟩ := a
  obtain ⟨bx, bY⟩ := b
  simp only [] at hs e1 e2 ⊢
  unfold dirPot dirGain dirWeight dirDelta hexLin dirStrict
  unfold GetHexOffsets at hs
  unfold DIRS_COUNT at hdir
  cases hh : E.MapHexagonal
  · rw [hh] at hs hdir
    simp only [Bool.false_eq_true, if_false, false_or] at hs hdir ⊢
    simp only [List.mem_cons, List.mem_singleton, List.not_mem_nil, or_false] at hs
    rcases hs with h | h | h | h | h | h | h | h <;> subst h <;> simp only [] at e1 e2 <;>
      interval_cases dir <;> simp <;> omega
  · rw [hh] at hs hdir
    simp only [if_true, true_or, true_implies] at hs hdir ⊢
    rcases Int.emod_two_eq_zero_or_one (bx : Int) with hp | hp
    · have hb : (((bx : Nat) : Int) % 2 != 0) = false := by simp [hp]
      rw [hb] at hs
      simp only [Bool.false_eq_true, if_false, List.mem_cons, List.mem_singleton,
        List.not_mem_nil, or_false] at hs
      rcases hs with h | h | h | h | h | h <;> subst h <;> simp only [] at e1 e2 <;>
        interval_cases dir <;> simp <;> omega
    · have hb : (((bx : Nat) : Int) % 2 != 0) = true := by simp [hp]
      rw [hb] at hs
      simp only [if_true, List.mem_cons, List.mem_singleton,
        List.not_mem_nil, or_false] at hs
      rcases hs with h | h | h | h | h | h <;> subst h <;> simp only [] at e1 e2 <;>
        interval_cases dir <;> simp <;> omega

theorem chain_pot (E : Engine) (dir : Nat) (hdir : dir < DIRS_COUNT E) :
    ∀ (hs : List UShortPair) (F T : UShortPair),
    List.Chain' (StepBack E) (F :: hs) → (F :: hs).getLast? = some T →
    dirPot E dir T.1 T.2 - dirPot E dir F.1 F.2 ≤ dirGain E dir * hs.length ∧
    (dirStrict E dir →
      dirPot E dir T.1 T.2 - dirPot E dir F.1 F.2 = dirGain E dir * hs.length →
      ∀ j : Nat, 1 ≤ j → j ≤ hs.length →
        ∃ c ∈ hs, (c.1 : Int) = F.1 + j * (dirDelta E dir).1 ∧
          hexLin E c.1 c.2 = hexLin E F.1 F.2 + j * (dirDelta E dir).2) := by
  intro hs
  induction hs with
  | nil =>
    intro F T _ hl
    simp only [List.getLast?_singleton, Option.some.injEq] at hl
    subst hl
    refine ⟨by simp, ?_⟩
    intro _ _ j h1 h2
    simp only [List.length_nil] at h2
    omega
  | cons h1 rest ih =>
    intro F T hch hl
    rw [List.chain'_cons] at hch
    rw [List.getLast?_cons_cons] at hl
    obtain ⟨i1, i2⟩ := ih h1 T hch.2 hl
    obtain ⟨s1, s2⟩ := StepBack_pot E dir hdir F h1 hch.1
    have hlen : (dirGain E dir) * ((h1 :: rest).length : Int) =
        dirGain E dir * (rest.length : Int) + dirGain E dir := by
      rw [List.length_cons]
      push_cast
      ring
    rw [hlen]
    refine ⟨by linarith, ?_⟩
    intro hst heq j hj1 hj2
    have e1 : dirPot E dir h1.1 h1.2 - dirPot E dir F.1 F.2 = dirGain E dir := by linarith
    have e2 : dirPot E dir T.1 T.2 - dirPot E dir h1.1 h1.2 = dirGain E dir * rest.length := by
      linarith
    obtain ⟨m1, m2⟩ := s2 hst e1
    by_cases hj : j = 1
    · subst hj
      exact ⟨h1, List.mem_cons_self _ _, by rw [m1]; simp, by rw [m2]; simp⟩
    · rw [List.length_cons] at hj2
      obtain ⟨c, hc, c1, c2⟩ := i2 hst e2 (j - 1) (by omega) (by omega)
      refine ⟨c, List.mem_cons_of_mem _ hc, ?_, ?_⟩
      · rw [c1, m1]
        have : ((j - 1 : Nat) : Int) = (j : Int) - 1 := by omega
        rw [this]
        ring
      · rw [c2, m2]
        have : ((j - 1 : Nat) : Int) = (j : Int) - 1 := by omega
        rw [this]
        ring

theorem dirGain_pos (E : Engine) (dir : Nat) (hdir : dir < DIRS_COUNT E) : 0 < dirGain E dir := by
  unfold dirGain dirWeight dirDelta
  unfold DIRS_COUNT at hdir
  cases hh : E.MapHexagonal
  · rw [hh] at hdir
    simp only [Bool.false_eq_true, if_false] at hdir ⊢
    interval_cases dir <;> simp
  · rw [hh] at hdir
    simp only [if_true] at hdir ⊢
    interval_cases dir <;> simp

theorem ReachAt_move (E : Engine) (map : Map) (pfd : PathFindData) (ox oy : Nat)
    (hfree : ∀ x y : Nat, x < map.Width → y < map.Height → (x, y) ≠ (ox, oy) →
      FLAG (E.GetHexFlags map x y) E.FH_NOWAY = false)
    (n : Nat) (q : Int × Int) (hq : ReachAt E map pfd n q) (dir : Nat)
    (hdir : dir < DIRS_COUNT E)
    (hx0 : 0 ≤ (MoveHexByDirUnsafe E q.1 q.2 dir).1)
    (hx1 : (MoveHexByDirUnsafe E q.1 q.2 dir).1 < map.Width)
    (hy0 : 0 ≤ (MoveHexByDirUnsafe E q.1 q.2 dir).2)
    (hy1 : (MoveHexByDirUnsafe E q.1 q.2 dir).2 < map.Height)
    (hne : MoveHexByDirUnsafe E q.1 q.2 dir ≠ ((ox : Int), (oy : Int))) :
    ReachAt E map pfd (n + 1) (MoveHexByDirUnsafe E q.1 q.2 dir) := by
  obtain ⟨b, b1, b2, hb⟩ := hq
  obtain ⟨s, hs, hm⟩ := MoveHexByDirUnsafe_offset E q.1 q.2 dir hdir
  generalize MoveHexByDirUnsafe E q.1 q.2 dir = r at hx0 hx1 hy0 hy1 hne hm ⊢
  obtain ⟨rx, ry⟩ := r
  simp only [Prod.mk.injEq] at hm
  simp only [] at hx0 hx1 hy0 hy1
  refine ⟨(rx.toNat, ry.toNat), Int.toNat_of_nonneg hx0, Int.toNat_of_nonneg hy0, ?_⟩
  refine Reach.step n b _ hb ⟨s, ?_, ?_, ?_⟩ (by simp only []; omega) (by simp only []; omega) ?_
  · rw [nat_parity_cast, b1]; exact hs
  · simp only []
    rw [Int.toNat_of_nonneg hx0, hm.1, b1]
  · simp only []
    rw [Int.toNat_of_nonneg hy0, hm.2, b2]
  · apply hfree
    · omega
    · omega
    · intro he
      simp only [Prod.mk.injEq] at he
      apply hne
      rw [Prod.mk.injEq]
      omega

set_option maxHeartbeats 4000000 in
/-- A hex of the straight line between two hexes of the map is a hex of the map. -/
theorem line_bounds (E : Engine) (dir : Nat) (hdir : dir < DIRS_COUNT E) (w h : Nat)
    (x0 y0 xi yi xd yd : Int) (i d : Nat) (hi : i ≤ d)
    (hxi : xi = x0 + i * (dirDelta E dir).1)
    (hvi : hexLin E xi yi = hexLin E x0 y0 + i * (dirDelta E dir).2)
    (hxd : xd = x0 + d * (dirDelta E dir).1)
    (hvd : hexLin E xd yd = hexLin E x0 y0 + d * (dirDelta E dir).2)
    (b1 : 0 ≤ x0) (b2 : x0 < w) (b3 : 0 ≤ y0) (b4 : y0 < h)
    (b5 : 0 ≤ xd) (b6 : xd < w) (b7 : 0 ≤ yd) (b8 : yd < h) :
    0 ≤ xi ∧ xi < w ∧ 0 ≤ yi ∧ yi < h := by
  unfold hexLin dirDelta at *
  unfold DIRS_COUNT at hdir
  cases hh : E.MapHexagonal
  · rw [hh] at hdir hxi hvi hxd hvd
    simp only [Bool.false_eq_true, if_false] at hdir hxi hvi hxd hvd
    interval_cases dir <;> simp at hxi hvi hxd hvd <;> omega
  · rw [hh] at hdir hxi hvi hxd hvd
    simp only [if_true] at hdir hxi hvi hxd hvd
    interval_cases dir <;> simp at hxi hvi hxd hvd <;> omega

set_option maxHeartbeats 4000000 in
/-- Two hexes of a straight line at different numbers of moves from its start differ. -/
theorem line_ne (E : Engine) (dir : Nat) (hdir : dir < DIRS_COUNT E)
    (x0 y0 xi yi xk yk : Int) (i k : Nat) (hik : i ≠ k)
    (hxi : xi = x0 + i * (dirDelta E dir).1)
    (hvi : hexLin E xi yi = hexLin E x0 y0 + i * (dirDelta E dir).2)
    (hxk : xk = x0 + k * (dirDelta E dir).1)
    (hvk : hexLin E xk yk = hexLin E x0 y0 + k * (dirDelta E dir).2) :
    (xi, yi) ≠ (xk, yk) := by
  intro he
  rw [Prod.mk.injEq] at he
  obtain ⟨h1, h2⟩ := he
  subst h1 h2
  unfold hexLin dirDelta at *
  unfold DIRS_COUNT at hdir
  cases hh : E.MapHexagonal
  · rw [hh] at hdir hxi hvi hxk hvk
    simp only [Bool.false_eq_true, if_false] at hdir hxi hvi hxk hvk
    interval_cases dir <;> simp at hxi hvi hxk hvk <;> omega
  · rw [hh] at hdir hxi hvi hxk hvk
    simp only [if_true] at hdir hxi hvi hxk hvk
    interval_cases dir <;> simp at hxi hvi hxk hvk <;> omega

set_option maxHeartbeats 4000000 in
/-- The way round a hex in a strict direction `dir`, from the hex `p` before it: one move in
the next direction, one in `dir` and one in the direction before lead over two neighbours
of the hex to the hex behind it. -/
theorem detour_strict_arith (E : Engine) (dir : Nat) (hdir : dir < DIRS_COUNT E)
    (hst : dirStrict E dir) (px py ox oy q1x q1y q2x q2y rx ry sx sy : Int)
    (l0x : ox = px + (dirDelta E dir).1)
    (l0v : hexLin E ox oy = hexLin E px py + (dirDelta E dir).2)
    (l1x : q1x = px + (dirDelta E ((dir + 1) % DIRS_COUNT E)).1)
    (l1v : hexLin E q1x q1y = hexLin E px py + (dirDelta E ((dir + 1) % DIRS_COUNT E)).2)
    (l2x : q2x = q1x + (dirDelta E dir).1)
    (l2v : hexLin E q2x q2y = hexLin E q1x q1y + (dirDelta E dir).2)
    (l3x : rx = q2x + (dirDelta E ((dir + DIRS_COUNT E - 1) % DIRS_COUNT E)).1)
    (l3v : hexLin E rx ry = hexLin E q2x q2y +
      (dirDelta E ((dir + DIRS_COUNT E - 1) % DIRS_COUNT E)).2)
    (l4x : sx = ox + (dirDelta E dir).1)
    (l4v : hexLin E sx sy = hexLin E ox oy + (dirDelta E dir).2) :
    (ox - 1 ≤ q1x ∧ q1x ≤ ox + 1 ∧ oy - 1 ≤ q1y ∧ q1y ≤ oy + 1 ∧ ¬ (q1x = ox ∧ q1y = oy)) ∧
    (ox - 1 ≤ q2x ∧ q2x ≤ ox + 1 ∧ oy - 1 ≤ q2y ∧ q2y ≤ oy + 1 ∧ ¬ (q2x = ox ∧ q2y = oy)) ∧
    rx = sx ∧ ry = sy := by
  unfold hexLin dirDelta at *
  unfold dirStrict at hst
  unfold DIRS_COUNT at *
  cases hh : E.MapHexagonal
  · rw [hh] at hdir hst l0x l0v l1x l1v l2x l2v l3x l3v l4x l4v
    simp only [Bool.false_eq_true, if_false, false_or] at hdir hst l0x l0v l1x l1v l2x l2v l3x l3v l4x l4v
    interval_cases dir <;> simp at hst <;> simp at l0x l0v l1x l1v l2x l2v l3x l3v l4x l4v <;> omega
  · rw [hh] at hdir l0x l0v l1x l1v l2x l2v l3x l3v l4x l4v
    simp only [if_true] at hdir l0x l0v l1x l1v l2x l2v l3x l3v l4x l4v
    interval_cases dir <;> simp at l0x l0v l1x l1v l2x l2v l3x l3v l4x l4v <;> omega

set_option maxHeartbeats 4000000 in
/-- The way round a hex along a row or a column of a square map, from the hex `p` before
it: one move in the next direction and one in the direction before lead over a neighbour of
the hex to the hex behind it. -/
theorem detour_flat_arith (E : Engine) (dir : Nat) (hdir : dir < DIRS_COUNT E)
    (hst : ¬ dirStrict E dir) (px py ox oy q1x q1y rx ry sx sy : Int)
    (l0x : ox = px + (dirDelta E dir).1)
    (l0v : hexLin E ox oy = hexLin E px py + (dirDelta E dir).2)
    (l1x : q1x = px + (dirDelta E ((dir + 1) % DIRS_COUNT E)).1)
    (l1v : hexLin E q1x q1y = hexLin E px py + (dirDelta E ((dir + 1) % DIRS_COUNT E)).2)
    (l3x : rx = q1x + (dirDelta E ((dir + DIRS_COUNT E - 1) % DIRS_COUNT E)).1)
    (l3v : hexLin E rx ry = hexLin E q1x q1y +
      (dirDelta E ((dir + DIRS_COUNT E - 1) % DIRS_COUNT E)).2)
    (l4x : sx = ox + (dirDelta E dir).1)
    (l4v : hexLin E sx sy = hexLin E ox oy + (dirDelta E dir).2) :
    (ox - 1 ≤ q1x ∧ q1x ≤ ox + 1 ∧ oy - 1 ≤ q1y ∧ q1y ≤ oy + 1 ∧ ¬ (q1x = ox ∧ q1y = oy)) ∧
    rx = sx ∧ ry = sy := by
  unfold hexLin dirDelta at *
  unfold dirStrict at hst
  unfold DIRS_COUNT at *
  cases hh : E.MapHexagonal
  · rw [hh] at hdir hst l0x l0v l1x l1v l3x l3v l4x l4v
    simp only [Bool.false_eq_true, if_false, false_or] at hdir hst l0x l0v l1x l1v l3x l3v l4x l4v
    interval_cases dir <;> simp at hst <;> simp at l0x l0v l1x l1v l3x l3v l4x l4v <;> omega
  · rw [hh] at hst
    exact absurd (Or.inl rfl) hst

/-- When every neighbour of a hex lies on the map, the hex is off the border. -/
theorem ring_margin (E : Engine) (ox oy w h : Nat)
    (hring : ∀ s ∈ GetHexOffsets E (ox % 2 != 0),
      0 ≤ (ox : Int) + s.1 ∧ (ox : Int) + s.1 < w ∧ 0 ≤ (oy : Int) + s.2 ∧ (oy : Int) + s.2 < h) :
    1 ≤ ox ∧ ox + 1 < w ∧ 1 ≤ oy ∧ oy + 1 < h := by
  unfold GetHexOffsets at hring
  cases hh : E.MapHexagonal
  · rw [hh] at hring
    simp only [Bool.false_eq_true, if_false, List.forall_mem_cons, List.not_mem_nil,
      false_implies, implies_true, and_true] at hring
    omega
  · rw [hh] at hring
    simp only [if_true] at hring
    split at hring
    · simp only [List.forall_mem_cons, List.not_mem_nil, false_implies, implies_true,
        and_true] at hring
      omega
    · simp only [List.forall_mem_cons, List.not_mem_nil, false_implies, implies_true,
        and_true] at hring
      omega

/-- Along a straight line between two hexes of the map, on a stretch that does not hold the
hex `(ox, oy)`, every move is a move to a free hex of the map. -/
theorem ReachAt_line (E : Engine) (map : Map) (pfd : PathFindData) (ox oy : Nat)
    (hfree : ∀ x y : Nat, x < map.Width → y < map.Height → (x, y) ≠ (ox, oy) →
      FLAG (E.GetHexFlags map x y) E.FH_NOWAY = false)
    (dir : Nat) (hdir : dir < DIRS_COUNT E) (d k : Nat)
    (hfx : pfd.FromX < map.Width) (hfy : pfd.FromY < map.Height)
    (htx : pfd.ToX < map.Width) (hty : pfd.ToY < map.Height)
    (hto : MoveHexByDirTimes E pfd.FromX pfd.FromY dir d = ((pfd.ToX : Int), (pfd.ToY : Int)))
    (hob : MoveHexByDirTimes E pfd.FromX pfd.FromY dir k = ((ox : Int), (oy : Int)))
    (i0 m : Nat) (h0 : ReachAt E map pfd m (MoveHexByDirTimes E pfd.FromX pfd.FromY dir i0)) :
    ∀ j : Nat, i0 + j ≤ d → (k < i0 ∨ i0 + j < k) →
      ReachAt E map pfd (m + j) (MoveHexByDirTimes E pfd.FromX pfd.FromY dir (i0 + j)) := by
  intro j
  induction j with
  | zero => intro _ _; exact h0
  | succ j ih =>
    intro hj hk
    have hprev := ih (by omega) (by omega)
    have ld := MoveHexByDirTimes_lin E pfd.FromX pfd.FromY dir hdir d
    have lk := MoveHexByDirTimes_lin E pfd.FromX pfd.FromY dir hdir k
    have li := MoveHexByDirTimes_lin E pfd.FromX pfd.FromY dir hdir (i0 + (j + 1))
    rw [hto] at ld
    rw [hob] at lk
    simp only [] at ld lk
    have hb := line_bounds E dir hdir map.Width map.Height pfd.FromX pfd.FromY _ _ pfd.ToX
      pfd.ToY (i0 + (j + 1)) d hj li.1 li.2 ld.1 ld.2 (by omega) (by omega) (by omega)
      (by omega) (by omega) (by omega) (by omega) (by omega)
    have hne := line_ne E dir hdir pfd.FromX pfd.FromY _ _ ox oy (i0 + (j + 1)) k (by omega)
      li.1 li.2 lk.1 lk.2
    have := ReachAt_move E map pfd ox oy hfree (m + j) _ hprev dir hdir hb.1 hb.2.1 hb.2.2.1
      hb.2.2.2 hne
    exact this

/-- A way of free hexes round the blocked hex: on a map on which only the hex `(ox, oy)` is
blocked, which lies on the straight line from the start hex to the target, strictly between
them, and whose neighbours all lie on the map, the target is reached by one move more than
the line has, and by as many moves as the line has when the line is a row or a column of a
square map. -/
theorem Reach_detour (E : Engine) (map : Map) (pfd : PathFindData) (ox oy : Nat)
    (hfree : ∀ x y : Nat, x < map.Width → y < map.Height → (x, y) ≠ (ox, oy) →
      FLAG (E.GetHexFlags map x y) E.FH_NOWAY = false)
    (dir : Nat) (hdir : dir < DIRS_COUNT E) (d k : Nat)
    (hfx : pfd.FromX < map.Width) (hfy : pfd.FromY < map.Height)
    (htx : pfd.ToX < map.Width) (hty : pfd.ToY < map.Height)
    (hto : MoveHexByDirTimes E pfd.FromX pfd.FromY dir d = ((pfd.ToX : Int), (pfd.ToY : Int)))
    (hob : MoveHexByDirTimes E pfd.FromX pfd.FromY dir k = ((ox : Int), (oy : Int)))
    (hk0 : 0 < k) (hkd : k < d)
    (hring : ∀ s ∈ GetHexOffsets E (ox % 2 != 0),
      0 ≤ (ox : Int) + s.1 ∧ (ox : Int) + s.1 < map.Width ∧
      0 ≤ (oy : Int) + s.2 ∧ (oy : Int) + s.2 < map.Height) :
    ∃ n, n ≤ d + 1 ∧ Reach E map pfd n (pfd.ToX, pfd.ToY) := by
  have hD : 0 < DIRS_COUNT E := by omega
  have he1 : (dir + 1) % DIRS_COUNT E < DIRS_COUNT E := Nat.mod_lt _ hD
  have he2 : (dir + DIRS_COUNT E - 1) % DIRS_COUNT E < DIRS_COUNT E := Nat.mod_lt _ hD
  obtain ⟨g1, g2, g3, g4⟩ := ring_margin E ox oy map.Width map.Height hring
  -- the line up to the hex before the blocked hex
  have hstart : ReachAt E map pfd 0 (MoveHexByDirTimes E pfd.FromX pfd.FromY dir 0) :=
    ⟨(pfd.FromX, pfd.FromY), rfl, rfl, Reach.start⟩
  have h1 := ReachAt_line E map pfd ox oy hfree dir hdir d k hfx hfy htx hty hto hob 0 0 hstart
    (k - 1) (by omega) (Or.inr (by omega))
  simp only [Nat.zero_add] at h1
  obtain ⟨k1, hk1⟩ : ∃ k1, k = k1 + 1 := ⟨k - 1, by omega⟩
  subst hk1
  simp only [Nat.add_sub_cancel] at h1
  generalize hp : MoveHexByDirTimes E pfd.FromX pfd.FromY dir k1 = p at h1
  have ho : MoveHexByDirUnsafe E p.1 p.2 dir = ((ox : Int), (oy : Int)) := by
    rw [← hob, ← hp]; rfl
  have hs : MoveHexByDirTimes E pfd.FromX pfd.FromY dir (k1 + 1 + 1) =
      MoveHexByDirUnsafe E ox oy dir := by
    show MoveHexByDirUnsafe E (MoveHexByDirTimes E pfd.FromX pfd.FromY dir (k1 + 1)).1
      (MoveHexByDirTimes E pfd.FromX pfd.FromY dir (k1 + 1)).2 dir = _
    rw [hob]
  have l0 := MoveHexByDirUnsafe_lin E p.1 p.2 dir hdir
  rw [ho] at l0
  simp only [] at l0
  have l4 := MoveHexByDirUnsafe_lin E ox oy dir hdir
  have l1 := MoveHexByDirUnsafe_lin E p.1 p.2 ((dir + 1) % DIRS_COUNT E) he1
  by_cases hst : dirStrict E dir
  · have l2 := MoveHexByDirUnsafe_lin E
      (MoveHexByDirUnsafe E p.1 p.2 ((dir + 1) % DIRS_COUNT E)).1
      (MoveHexByDirUnsafe E p.1 p.2 ((dir + 1) % DIRS_COUNT E)).2 dir hdir
    have l3 := MoveHexByDirUnsafe_lin E
      (MoveHexByDirUnsafe E (MoveHexByDirUnsafe E p.1 p.2 ((dir + 1) % DIRS_COUNT E)).1
        (MoveHexByDirUnsafe E p.1 p.2 ((dir + 1) % DIRS_COUNT E)).2 dir).1
      (MoveHexByDirUnsafe E (MoveHexByDirUnsafe E p.1 p.2 ((dir + 1) % DIRS_COUNT E)).1
        (MoveHexByDirUnsafe E p.1 p.2 ((dir + 1) % DIRS_COUNT E)).2 dir).2
      ((dir + DIRS_COUNT E - 1) % DIRS_COUNT E) he2
    obtain ⟨a1, a2, a3, a4⟩ := detour_strict_arith E dir hdir hst p.1 p.2 ox oy _ _ _ _ _ _ _ _
      l0.1 l0.2 l1.1 l1.2 l2.1 l2.2 l3.1 l3.2 l4.1 l4.2
    have r1 := ReachAt_move E map pfd ox oy hfree k1 p h1 ((dir + 1) % DIRS_COUNT E) he1
      (by omega) (by omega) (by omega) (by omega)
      (by intro he; rw [Prod.ext_iff] at he; exact a1.2.2.2.2 he)
    have r2 := ReachAt_move E map pfd ox oy hfree (k1 + 1) _ r1 dir hdir
      (by omega) (by omega) (by omega) (by omega)
      (by intro he; rw [Prod.ext_iff] at he; exact a2.2.2.2.2 he)
    have hr : MoveHexByDirUnsafe E
        (MoveHexByDirUnsafe E (MoveHexByDirUnsafe E p.1 p.2 ((dir + 1) % DIRS_COUNT E)).1
          (MoveHexByDirUnsafe E p.1 p.2 ((dir + 1) % DIRS_COUNT E)).2 dir).1
        (MoveHexByDirUnsafe E (MoveHexByDirUnsafe E p.1 p.2 ((dir + 1) % DIRS_COUNT E)).1
          (MoveHexByDirUnsafe E p.1 p.2 ((dir + 1) % DIRS_COUNT E)).2 dir).2
        ((dir + DIRS_COUNT E - 1) % DIRS_COUNT E) =
        MoveHexByDirTimes E pfd.FromX pfd.FromY dir (k1 + 1 + 1) := by
      rw [hs]
      exact Prod.ext a3 a4
    have ld := MoveHexByDirTimes_lin E pfd.FromX pfd.FromY dir hdir d
    have lk := MoveHexByDirTimes_lin E pfd.FromX pfd.FromY dir hdir (k1 + 1)
    have li := MoveHexByDirTimes_lin E pfd.FromX pfd.FromY dir hdir (k1 + 1 + 1)
    rw [hto] at ld
    rw [hob] at lk
    simp only [] at ld lk
    have hb := line_bounds E dir hdir map.Width map.Height pfd.FromX pfd.FromY _ _ pfd.ToX
      pfd.ToY (k1 + 1 + 1) d (by omega) li.1 li.2 ld.1 ld.2 (by omega) (by omega) (by omega)
      (by omega) (by omega) (by omega) (by omega) (by omega)
    have hne := line_ne E dir hdir pfd.FromX pfd.FromY _ _ ox oy (k1 + 1 + 1) (k1 + 1)
      (by omega) li.1 li.2 lk.1 lk.2
    have r3 := ReachAt_move E map pfd ox oy hfree (k1 + 1 + 1) _ r2
      ((dir + DIRS_COUNT E - 1) % DIRS_COUNT E) he2
      (by rw [hr]; exact hb.1) (by rw [hr]; exact hb.2.1) (by rw [hr]; exact hb.2.2.1)
      (by rw [hr]; exact hb.2.2.2) (by rw [hr]; exact hne)
    rw [hr] at r3
    have r4 := ReachAt_line E map pfd ox oy hfree dir hdir d (k1 + 1) hfx hfy htx hty hto hob
      (k1 + 1 + 1) (k1 + 1 + 1 + 1) r3 (d - (k1 + 1 + 1)) (by omega) (Or.inl (by omega))
    have e5 : k1 + 1 + 1 + (d - (k1 + 1 + 1)) = d := by omega
    rw [e5, hto] at r4
    obtain ⟨b, b1, b2, hb⟩ := r4
    simp only [] at b1 b2
    have eb : b = (pfd.ToX, pfd.ToY) := Prod.ext (by simp only []; omega) (by simp only []; omega)
    rw [eb] at hb
    exact ⟨_, by omega, hb⟩
  · have l3 := MoveHexByDirUnsafe_lin E
      (MoveHexByDirUnsafe E p.1 p.2 ((dir + 1) % DIRS_COUNT E)).1
      (MoveHexByDirUnsafe E p.1 p.2 ((dir + 1) % DIRS_COUNT E)).2
      ((dir + DIRS_COUNT E - 1) % DIRS_COUNT E) he2
    obtain ⟨a1, a3, a4⟩ := detour_flat_arith E dir hdir hst p.1 p.2 ox oy _ _ _ _ _ _
      l0.1 l0.2 l1.1 l1.2 l3.1 l3.2 l4.1 l4.2
    have r1 := ReachAt_move E map pfd ox oy hfree k1 p h1 ((dir + 1) % DIRS_COUNT E) he1
      (by omega) (by omega) (by omega) (by omega)
      (by intro he; rw [Prod.ext_iff] at he; exact a1.2.2.2.2 he)
    have hr : MoveHexByDirUnsafe E
        (MoveHexByDirUnsafe E p.1 p.2 ((dir + 1) % DIRS_COUNT E)).1
        (MoveHexByDirUnsafe E p.1 p.2 ((dir + 1) % DIRS_COUNT E)).2
        ((dir + DIRS_COUNT E - 1) % DIRS_COUNT E) =
        MoveHexByDirTimes E pfd.FromX pfd.FromY dir (k1 + 1 + 1) := by
      rw [hs]
      exact Prod.ext a3 a4
    have ld := MoveHexByDirTimes_lin E pfd.FromX pfd.FromY dir hdir d
    have lk := MoveHexByDirTimes_lin E pfd.FromX pfd.FromY dir hdir (k1 + 1)
    have li := MoveHexByDirTimes_lin E pfd.FromX pfd.FromY dir hdir (k1 + 1 + 1)
    rw [hto] at ld
    rw [hob] at lk
    simp only [] at ld lk
    have hb := line_bounds E dir hdir map.Width map.Height pfd.FromX pfd.FromY _ _ pfd.ToX
      pfd.ToY (k1 + 1 + 1) d (by omega) li.1 li.2 ld.1 ld.2 (by omega) (by omega) (by omega)
      (by omega) (by omega) (by omega) (by omega) (by omega)
    have hne := line_ne E dir hdir pfd.FromX pfd.FromY _ _ ox oy (k1 + 1 + 1) (k1 + 1)
      (by omega) li.1 li.2 lk.1 lk.2
    have r3 := ReachAt_move E map pfd ox oy hfree (k1 + 1) _ r1
      ((dir + DIRS_COUNT E - 1) % DIRS_COUNT E) he2
      (by rw [hr]; exact hb.1) (by rw [hr]; exact hb.2.1) (by rw [hr]; exact hb.2.2.1)
      (by rw [hr]; exact hb.2.2.2) (by rw [hr]; exact hne)
    rw [hr] at r3
    have r4 := ReachAt_line E map pfd ox oy hfree dir hdir d (k1 + 1) hfx hfy htx hty hto hob
      (k1 + 1 + 1) (k1 + 1 + 1) r3 (d - (k1 + 1 + 1)) (by omega) (Or.inl (by omega))
    have e5 : k1 + 1 + 1 + (d - (k1 + 1 + 1)) = d := by omega
    rw [e5, hto] at r4
    obtain ⟨b, b1, b2, hb⟩ := r4
    simp only [] at b1 b2
    have eb : b = (pfd.ToX, pfd.ToY) := Prod.ext (by simp only []; omega) (by simp only []; omega)
    rw [eb] at hb
    exact ⟨_, by omega, hb⟩

theorem Reach_cases (E : Engine) (map : Map) (pfd : PathFindData) (n : Nat) (c : UShortPair)
    (h : Reach E map pfd n c) :
    (n = 0 ∧ c = (pfd.FromX, pfd.FromY)) ∨
    ∃ m a, n = m + 1 ∧ Reach E map pfd m a ∧ Neighbour E a c ∧ c.1 < map.Width ∧
      c.2 < map.Height ∧ FLAG (E.GetHexFlags map c.1 c.2) E.FH_NOWAY = false := by
  cases h with
  | start => exact Or.inl ⟨rfl, rfl⟩
  | step m a b h1 h2 h3 h4 h5 => exact Or.inr ⟨m, a, rfl, h1, h2, h3, h4, h5⟩

/-- The search of a request without soft-obstacle options and without trace whose start hex
is free finds the target when a way of free hexes on the map leads to it whose number of
moves is at least two below the depth limit, on a map whose sides fit a `short`. -/
theorem FindPath_reach_free (E : Engine) (mm : MapManager) (pfd : PathFindData) (map : Map)
    (hmap : GetMap mm pfd.MapId = some map)
    (hmax : E.FPATH_MAX_PATH < 16384)
    (hw : map.Width ≤ 32767) (hh : map.Height ≤ 32767)
    (hfx : pfd.FromX < map.Width) (hfy : pfd.FromY < map.Height)
    (htx : pfd.ToX < map.Width) (hty : pfd.ToY < map.Height)
    (hne : (pfd.FromX, pfd.FromY) ≠ (pfd.ToX, pfd.ToY))
    (hcut : pfd.Cut = 0) (hmulti : pfd.Multihex = 0) (hcrit : pfd.CheckCrit = false)
    (hgag : pfd.CheckGagItems = false) (htrace : pfd.Trace = 0)
    (hfrom : FLAG (E.GetHexFlags map pfd.FromX pfd.FromY) E.FH_NOWAY = false)
    (n : Nat) (hreach : Reach E map pfd n (pfd.ToX, pfd.ToY))
    (hn : (n : Int) + 2 ≤ E.FPATH_MAX_PATH) :
    ∃ mm' pfd', FindPath E mm pfd = some (FPATH_OK, mm', pfd') := by
  have ctx : FloodCtx E map pfd := ⟨by omega, hmax, by omega, by omega, hfx, hfy⟩
  rcases Reach_cases E map pfd n _ hreach with ⟨_, h0⟩ | ⟨m, a, _, ha, hnb, _, _, hto⟩
  · exact absurd h0.symm hne
  have hab := Reach_bounds E map pfd ctx m a ha
  have hafree : FLAG (E.GetHexFlags map a.1 a.2) E.FH_NOWAY = false := by
    rcases Reach_cases E map pfd m a ha with ⟨_, h0⟩ | ⟨_, _, _, _, _, _, _, h5⟩
    · rw [h0]; exact hfrom
    · exact h5
  refine FindPath_reach_ok E mm pfd map hmap hmax hw hh hfx hfy htx hty hne hcut hmulti hcrit
    hgag htrace hto ?_ n hreach hn
  intro hall
  have hsb : StepBack E (pfd.ToX, pfd.ToY) a := by
    obtain ⟨s, hs, e1, e2⟩ := hnb
    exact ⟨s, by rw [← nat_parity_cast]; exact hs, e1, e2⟩
  obtain ⟨_, hmem⟩ := StepBack_forward E (pfd.ToX, pfd.ToY) a hsb
  simp only [] at hmem
  have := hall _ hmem (by simp only []; omega) (by simp only []; omega) (by simp only []; omega)
    (by simp only []; omega)
  simp only [] at this
  have e1 : ((pfd.ToX : Int) + ((a.1 : Int) - pfd.ToX)).toNat = a.1 := by omega
  have e2 : ((pfd.ToY : Int) + ((a.2 : Int) - pfd.ToY)).toNat = a.2 := by omega
  rw [e1, e2, hafree] at this
  exact absurd this.1 (by decide)

theorem DistGame_line_le (E : Engine) (x0 y0 : Int) (dir : Nat) (hdir : dir < DIRS_COUNT E) :
    ∀ i : Nat, DistGame E x0 y0 (MoveHexByDirTimes E x0 y0 dir i).1
      (MoveHexByDirTimes E x0 y0 dir i).2 ≤ i := by
  intro i
  induction i with
  | zero =>
    show DistGame E x0 y0 x0 y0 ≤ 0
    rw [DistGame_self]
  | succ i ih =>
    obtain ⟨s, hs, hm⟩ := MoveHexByDirUnsafe_offset E (MoveHexByDirTimes E x0 y0 dir i).1
      (MoveHexByDirTimes E x0 y0 dir i).2 dir hdir
    have h1 := DistGame_step_le E x0 y0 (MoveHexByDirTimes E x0 y0 dir i).1
      (MoveHexByDirTimes E x0 y0 dir i).2 s hs
    show DistGame E x0 y0 (MoveHexByDirUnsafe E _ _ dir).1 (MoveHexByDirUnsafe E _ _ dir).2 ≤ _
    rw [hm]
    simp only []
    omega

theorem dirPot_line (E : Engine) (dir : Nat) (fx fy tx ty : Int) (d : Nat)
    (h1 : tx = fx + d * (dirDelta E dir).1)
    (h2 : hexLin E tx ty = hexLin E fx fy + d * (dirDelta E dir).2) :
    dirPot E dir tx ty - dirPot E dir fx fy = dirGain E dir * d := by
  unfold dirPot dirGain
  rw [h2, h1]
  ring

/-- A path of the search between the ends of a straight line of `d` moves has at least `d`
steps, and in a strict direction a path of `d` steps passes the hex of the line at `k` moves
from the start. -/
theorem path_line (E : Engine) (dir : Nat) (hdir : dir < DIRS_COUNT E) (F T : UShortPair)
    (hs : List UShortPair) (d : Nat)
    (hch : List.Chain' (StepBack E) (F :: hs)) (hlast : hs.getLast? = some T)
    (hto : MoveHexByDirTimes E F.1 F.2 dir d = ((T.1 : Int), (T.2 : Int))) :
    d ≤ hs.length ∧
    (dirStrict E dir → hs.length = d → ∀ (k : Nat) (o : UShortPair), 1 ≤ k → k ≤ d →
      MoveHexByDirTimes E F.1 F.2 dir k = ((o.1 : Int), (o.2 : Int)) → o ∈ hs) := by
  have hl2 : (F :: hs).getLast? = some T := by
    cases hp : hs with
    | nil => rw [hp] at hlast; cases hlast
    | cons a l => rw [hp] at hlast; rw [List.getLast?_cons_cons]; exact hlast
  obtain ⟨c1, c2⟩ := chain_pot E dir hdir hs F T hch hl2
  have ld := MoveHexByDirTimes_lin E F.1 F.2 dir hdir d
  rw [hto] at ld
  simp only [] at ld
  have hpot := dirPot_line E dir F.1 F.2 T.1 T.2 d ld.1 ld.2
  have hG := dirGain_pos E dir hdir
  rw [hpot] at c1 c2
  have hle : (d : Int) ≤ hs.length := le_of_mul_le_mul_left c1 hG
  refine ⟨by omega, ?_⟩
  intro hst hlen k o hk1 hk2 hko
  obtain ⟨c, hc, e1, e2⟩ := c2 hst (by rw [hlen]) k hk1 (by omega)
  have lk := MoveHexByDirTimes_lin E F.1 F.2 dir hdir k
  rw [hko] at lk
  simp only [] at lk
  have ex : (c.1 : Int) = o.1 := by rw [e1, lk.1]
  have ey : (c.2 : Int) = o.2 := by
    apply hexLin_inj E c.1
    rw [e2, ex, lk.2]
  have : c = o := Prod.ext (by omega) (by omega)
  rw [← this]
  exact hc

/-- C5 (amended). For a depth limit below 16384 and an open map whose sides fit a `short`,
and the same map with one hex blocked that lies on the straight line of hexes from `from` to
`to` in a direction `dir`, `k` moves from `from` with `0 < k < d`, `d` being the number of
moves of the line, with `d + 2 < FPATH_MAX_PATH`, and whose neighbours all lie on the map:
`FindPath` with `cut = 0`, `Multihex = 0`, no soft-obstacle option and no trace returns
`FPATH_OK` on both maps; the path on the open map has `d` steps; the path on the map with
the blocked hex has no step on that hex and at least as many steps as the path on the open
map; and it has at least one step more on a hexagonal map and, on a square map, when the
line is a diagonal. -/
theorem FindPath_blocked_detour (E : Engine) (mm_open mm_blocked : MapManager)
    (pfd : PathFindData) (map_open map_blocked : Map) (dir k d ox oy : Nat)
    (hmo : GetMap mm_open pfd.MapId = some map_open)
    (hmb : GetMap mm_blocked pfd.MapId = some map_blocked)
    (hsw : map_blocked.Width = map_open.Width) (hsh : map_blocked.Height = map_open.Height)
    (hmax : E.FPATH_MAX_PATH < 16384)
    (hw : map_open.Width ≤ 32767) (hh : map_open.Height ≤ 32767)
    (hopen : ∀ x y : Nat, x < map_open.Width → y < map_open.Height →
      FLAG (E.GetHexFlags map_open x y) E.FH_NOWAY = false)
    (hblocked : FLAG (E.GetHexFlags map_blocked ox oy) E.FH_NOWAY = true)
    (hfree : ∀ x y : Nat, x < map_open.Width → y < map_open.Height → (x, y) ≠ (ox, oy) →
      FLAG (E.GetHexFlags map_blocked x y) E.FH_NOWAY = false)
    (hfx : pfd.FromX < map_open.Width) (hfy : pfd.FromY < map_open.Height)
    (htx : pfd.ToX < map_open.Width) (hty : pfd.ToY < map_open.Height)
    (hdir : dir < DIRS_COUNT E)
    (hto : MoveHexByDirTimes E pfd.FromX pfd.FromY dir d = ((pfd.ToX : Int), (pfd.ToY : Int)))
    (hob : MoveHexByDirTimes E pfd.FromX pfd.FromY dir k = ((ox : Int), (oy : Int)))
    (hk0 : 0 < k) (hkd : k < d)
    (hring : ∀ s ∈ GetHexOffsets E (ox % 2 != 0),
      0 ≤ (ox : Int) + s.1 ∧ (ox : Int) + s.1 < map_open.Width ∧
      0 ≤ (oy : Int) + s.2 ∧ (oy : Int) + s.2 < map_open.Height)
    (hdist : d + 2 < E.FPATH_MAX_PATH)
    (hcut : pfd.Cut = 0) (hmulti : pfd.Multihex = 0) (hcrit : pfd.CheckCrit = false)
    (hgag : pfd.CheckGagItems = false) (htrace : pfd.Trace = 0) :
    ∃ mm_o pfd_o mm_b pfd_b,
      FindPath E mm_open pfd = some (FPATH_OK, mm_o, pfd_o) ∧
      FindPath E mm_blocked pfd = some (FPATH_OK, mm_b, pfd_b) ∧
      (mm_o.pathesPool pfd_o.PathNum).length = d ∧
      (∀ ps ∈ mm_b.pathesPool pfd_b.PathNum, (ps.HexX, ps.HexY) ≠ (ox, oy)) ∧
      (mm_o.pathesPool pfd_o.PathNum).length ≤ (mm_b.pathesPool pfd_b.PathNum).length ∧
      (E.MapHexagonal = true ∨ dir % 2 = 1 →
        (mm_o.pathesPool pfd_o.PathNum).length + 1 ≤ (mm_b.pathesPool pfd_b.PathNum).length) := by
  -- the ends of the line and the blocked hex differ
  have l0 := MoveHexByDirTimes_lin E pfd.FromX pfd.FromY dir hdir 0
  have lk := MoveHexByDirTimes_lin E pfd.FromX pfd.FromY dir hdir k
  have ld := MoveHexByDirTimes_lin E pfd.FromX pfd.FromY dir hdir d
  rw [hto] at ld
  rw [hob] at lk
  simp only [] at ld lk
  have hne : (pfd.FromX, pfd.FromY) ≠ (pfd.ToX, pfd.ToY) := by
    intro he
    have := line_ne E dir hdir pfd.FromX pfd.FromY pfd.FromX pfd.FromY pfd.ToX pfd.ToY 0 d
      (by omega) l0.1 l0.2 ld.1 ld.2
    rw [Prod.mk.injEq] at he
    exact this (by rw [he.1, he.2])
  have hfo : (pfd.FromX, pfd.FromY) ≠ (ox, oy) := by
    intro he
    have := line_ne E dir hdir pfd.FromX pfd.FromY pfd.FromX pfd.FromY ox oy 0 k
      (by omega) l0.1 l0.2 lk.1 lk.2
    rw [Prod.mk.injEq] at he
    exact this (by rw [he.1, he.2])
  -- the search on the map with the blocked hex
  have hfree2 : ∀ x y : Nat, x < map_blocked.Width → y < map_blocked.Height →
      (x, y) ≠ (ox, oy) → FLAG (E.GetHexFlags map_blocked x y) E.FH_NOWAY = false := by
    rw [hsw, hsh]; exact hfree
  obtain ⟨n, hn, hreach⟩ := Reach_detour E map_blocked pfd ox oy hfree2 dir hdir d k
    (by omega) (by omega) (by omega) (by omega) hto hob hk0 hkd (by rw [hsw, hsh]; exact hring)
  obtain ⟨mm_b, pfd_b, hb⟩ := FindPath_reach_free E mm_blocked pfd map_blocked hmb hmax
    (by omega) (by omega) (by omega) (by omega) (by omega) (by omega) hne hcut hmulti hcrit
    hgag htrace (hfree2 _ _ (by omega) (by omega) hfo) n hreach (by omega)
  -- the search on the open map
  have hdl := DistGame_line_le E pfd.FromX pfd.FromY dir hdir d
  rw [hto] at hdl
  simp only [] at hdl
  obtain ⟨mm_o, pfd_o, ho, ho2, _, _, _⟩ := FindPath_open_ok E mm_open pfd map_open hmo hmax hw
    hh hopen hfx hfy htx hty hne (by omega) hcut hmulti hcrit hgag htrace
  obtain ⟨q1, q2, _⟩ := FindPath_ok_plain E mm_open mm_o pfd pfd_o map_open hmo (by omega)
    hmax (by omega) (by omega) hcut hcrit hgag htrace ho
  obtain ⟨qlen, _⟩ := path_line E dir hdir (pfd.FromX, pfd.FromY) (pfd.ToX, pfd.ToY) _ d q1 q2
    hto
  have holen : (mm_o.pathesPool pfd_o.PathNum).length = d := by
    unfold pathHexes at qlen
    rw [List.length_map] at qlen
    omega
  -- the path round the blocked hex
  obtain ⟨p1, p2, p3⟩ := FindPath_ok_plain E mm_blocked mm_b pfd pfd_b map_blocked hmb
    (by omega) hmax (by omega) (by omega) hcut hcrit hgag htrace hb
  obtain ⟨plen, pst⟩ := path_line E dir hdir (pfd.FromX, pfd.FromY) (pfd.ToX, pfd.ToY) _ d p1
    p2 hto
  have hnot : (ox, oy) ∉ pathHexes (mm_b.pathesPool pfd_b.PathNum) := by
    intro hmem
    obtain ⟨_, _, hadm⟩ := p3 _ hmem
    rcases hadm with hadm | hadm | hadm | hadm
    · exact hadm hmulti
    · rw [hblocked] at hadm; cases hadm
    · rw [hgag] at hadm; cases hadm.1
    · rw [hcrit] at hadm; cases hadm.1
  have hblen : (pathHexes (mm_b.pathesPool pfd_b.PathNum)).length =
      (mm_b.pathesPool pfd_b.PathNum).length := by
    unfold pathHexes
    rw [List.length_map]
  refine ⟨mm_o, pfd_o, mm_b, pfd_b, ho, hb, holen, ?_, by omega, ?_⟩
  · intro ps hps he
    apply hnot
    unfold pathHexes
    rw [List.mem_map]
    exact ⟨ps, hps, he⟩
  · intro hst
    by_contra hlt
    have hlen : (pathHexes (mm_b.pathesPool pfd_b.PathNum)).length = d := by omega
    exact hnot (pst hst hlen k (ox, oy) hk0 (by omega) hob)

theorem FindPath_blocked_detour_witness :
    ∃ mm_o pfd_o mm_b pfd_b,
      FindPath (sampleEngine true false 400) (sampleManager (sampleMap 10 10 [] []))
        (sampleRequest 3 1 3 6 0) = some (FPATH_OK, mm_o, pfd_o) ∧
      FindPath (sampleEngine true false 400) (sampleManager (sampleMap 10 10 [((3, 3), 1)] []))
        (sampleRequest 3 1 3 6 0) = some (FPATH_OK, mm_b, pfd_b) ∧
      (mm_o.pathesPool pfd_o.PathNum).length = 5 ∧
      (∀ ps ∈ mm_b.pathesPool pfd_b.PathNum, (ps.HexX, ps.HexY) ≠ (3, 3)) ∧
      (mm_o.pathesPool pfd_o.PathNum).length + 1 ≤ (mm_b.pathesPool pfd_b.PathNum).length := by
  obtain ⟨mm_o, pfd_o, mm_b, pfd_b, h1, h2, h3, h4, _, h6⟩ := FindPath_blocked_detour
    (sampleEngine true false 400) (sampleManager (sampleMap 10 10 [] []))
    (sampleManager (sampleMap 10 10 [((3, 3), 1)] [])) (sampleRequest 3 1 3 6 0)
    (sampleMap 10 10 [] []) (sampleMap 10 10 [((3, 3), 1)] []) 2 2 5 3 3 rfl rfl rfl rfl
    (by decide) (by decide) (by decide)
    (by intro x y _ _; simp [sampleEngine, sampleMap, FLAG]) (by decide)
    (by
      intro x y _ _ hne
      have : ((x, y) == ((3 : Nat), (3 : Nat))) = false := by simpa using hne
      simp [sampleEngine, sampleMap, FLAG, List.lookup, this])
    (by decide) (by decide) (by decide) (by decide) (by decide) (by decide) (by decide)
    (by decide) (by decide) (by decide) (by decide) rfl rfl rfl rfl rfl
  exact ⟨mm_o, pfd_o, mm_b, pfd_b, h1, h2, h3, h4, h6 (Or.inl rfl)⟩

/-- The paths of the witness: five steps down the column on the open map, six steps round
the blocked hex `(3, 3)`. -/
theorem FindPath_blocked_detour_sample :
    (FindPath (sampleEngine true false 400) (sampleManager (sampleMap 10 10 [] []))
      (sampleRequest 3 1 3 6 0)).map
        (fun r => (r.1, pathHexes (r.2.1.pathesPool r.2.2.PathNum))) =
      some (FPATH_OK, [(3, 2), (3, 3), (3, 4), (3, 5), (3, 6)]) ∧
    ((FindPath (sampleEngine true false 400)
        (sampleManager (sampleMap 10 10 [((3, 3), 1)] []))
        (sampleRequest 3 1 3 6 0)).map
          (fun r => (r.1, (r.2.1.pathesPool r.2.2.PathNum).length))) = some (FPATH_OK, 6) := by
  refine ⟨by decide!, by decide!⟩

/-! ## The loop of EraseCrFromMap over a group of three -/

/-- The loop of `EraseCrFromMap` over a group of three. When the last member or the second
member leaves, the three rounds erase it from the three vectors. When the leader leaves, the
first round shifts its own vector to 2, 3 with the old last cell behind, the second round
reads the critter 3 and the third round reads the critter 3 again, whose vector no longer
holds the leader: the `RUNTIME_ASSERT` fails and the loop does not complete. -/
theorem EraseCrFromGroups_group_of_three :
    (EraseCrFromGroups 3 3 0 [1, 2, 3] sampleTrioWorld).map
      (fun m => (groupOf m 1, groupOf m 2, groupOf m 3)) =
      some (some [1, 2], some [1, 2], some [1, 2]) ∧
    (EraseCrFromGroups 2 3 0 [1, 2, 3] sampleTrioWorld).map
      (fun m => (groupOf m 1, groupOf m 2, groupOf m 3)) =
      some (some [1, 3], some [1, 3], some [1, 3]) ∧
    (EraseCrFromGroups 1 3 0 [1, 2, 3] sampleTrioWorld).isNone = true := by
  refine ⟨by decide!, by decide!, by decide!⟩

end FOnline
